import Mathlib

/-!
# The SPIR-V disassembler of renderdoc

A shallow embedding of `renderdoc/driver/shaders/spirv/spirv_disassemble.cpp`:
the data model (`SPVInstruction`, `SPVModule` and their payloads) and the
function `DisassembleSPIRV` with its four scans of the word stream (the
structural pass, the annotation pass, the name-collection pass and the render
pass), followed by theorems about them.

Conventions of the embedding.

* Machine integers are natural numbers; truncation is written out (`% 2 ^ 16`,
  `% 2 ^ 64`) where the source truncates.
* Every pointer of the source points to an object owned by exactly one
  `SPVInstruction` of `module.operations`; a pointer is modelled by the index of
  that instruction in `operations`, a null pointer by `none`.
* Reads that the source does not guard are undefined behaviour in C++ when
  they miss: a read of `spirv[i]` past the end of the buffer, an access to
  `module.ids[i]` or `resultnames[i]` past the end of the table, a write through
  a null `curBlock`. The embedding makes each of them an explicit `Fault`, so
  that their absence can be stated and proved.
* A value of type `float` is its IEEE-754 bit pattern; the operations on it round
  to the nearest value, ties to even.
* The `while` loops run on fuel; an instruction header with word count zero
  makes the source loop forever and the embedding run out of fuel.
* The body of `DisassembleSPIRV` is the one compiled when `RELEASE` is not
  defined (with `RELEASE` the function returns at once).
-/

namespace spv

/-- Enumerators of `spv::Op` that the disassembler names (the cases of `ToStrHelper<false, spv::Op>::Get`),
plus `Unrecognised` for every value that is not one of them. -/
inductive Op where
  | OpNop | OpSource | OpSourceExtension | OpExtension | OpExtInstImport | OpMemoryModel
  | OpEntryPoint | OpExecutionMode | OpTypeVoid | OpTypeBool | OpTypeInt | OpTypeFloat
  | OpTypeVector | OpTypeMatrix | OpTypeSampler | OpTypeFilter | OpTypeArray | OpTypeRuntimeArray
  | OpTypeStruct | OpTypeOpaque | OpTypePointer | OpTypeFunction | OpTypeEvent | OpTypeDeviceEvent
  | OpTypeReserveId | OpTypeQueue | OpTypePipe | OpConstantTrue | OpConstantFalse | OpConstant
  | OpConstantComposite | OpConstantSampler | OpConstantNullPointer | OpConstantNullObject
  | OpSpecConstantTrue | OpSpecConstantFalse | OpSpecConstant | OpSpecConstantComposite
  | OpVariable | OpVariableArray | OpFunction | OpFunctionParameter | OpFunctionEnd
  | OpFunctionCall | OpExtInst | OpUndef | OpLoad | OpStore | OpPhi | OpDecorationGroup
  | OpDecorate | OpMemberDecorate | OpGroupDecorate | OpGroupMemberDecorate | OpName | OpMemberName
  | OpString | OpLine | OpVectorExtractDynamic | OpVectorInsertDynamic | OpVectorShuffle
  | OpCompositeConstruct | OpCompositeExtract | OpCompositeInsert | OpCopyObject | OpCopyMemory
  | OpCopyMemorySized | OpSampler | OpTextureSample | OpTextureSampleDref | OpTextureSampleLod
  | OpTextureSampleProj | OpTextureSampleGrad | OpTextureSampleOffset | OpTextureSampleProjLod
  | OpTextureSampleProjGrad | OpTextureSampleLodOffset | OpTextureSampleProjOffset
  | OpTextureSampleGradOffset | OpTextureSampleProjLodOffset | OpTextureSampleProjGradOffset
  | OpTextureFetchTexelLod | OpTextureFetchTexelOffset | OpTextureFetchSample | OpTextureFetchTexel
  | OpTextureGather | OpTextureGatherOffset | OpTextureGatherOffsets | OpTextureQuerySizeLod
  | OpTextureQuerySize | OpTextureQueryLod | OpTextureQueryLevels | OpTextureQuerySamples
  | OpAccessChain | OpInBoundsAccessChain | OpSNegate | OpFNegate | OpNot | OpAny | OpAll
  | OpConvertFToU | OpConvertFToS | OpConvertSToF | OpConvertUToF | OpUConvert | OpSConvert
  | OpFConvert | OpConvertPtrToU | OpConvertUToPtr | OpPtrCastToGeneric | OpGenericCastToPtr
  | OpBitcast | OpTranspose | OpIsNan | OpIsInf | OpIsFinite | OpIsNormal | OpSignBitSet
  | OpLessOrGreater | OpOrdered | OpUnordered | OpArrayLength | OpIAdd | OpFAdd | OpISub | OpFSub
  | OpIMul | OpFMul | OpUDiv | OpSDiv | OpFDiv | OpUMod | OpSRem | OpSMod | OpFRem | OpFMod
  | OpVectorTimesScalar | OpMatrixTimesScalar | OpVectorTimesMatrix | OpMatrixTimesVector
  | OpMatrixTimesMatrix | OpOuterProduct | OpDot | OpShiftRightLogical | OpShiftRightArithmetic
  | OpShiftLeftLogical | OpLogicalOr | OpLogicalXor | OpLogicalAnd | OpBitwiseOr | OpBitwiseXor
  | OpBitwiseAnd | OpSelect | OpIEqual | OpFOrdEqual | OpFUnordEqual | OpINotEqual | OpFOrdNotEqual
  | OpFUnordNotEqual | OpULessThan | OpSLessThan | OpFOrdLessThan | OpFUnordLessThan
  | OpUGreaterThan | OpSGreaterThan | OpFOrdGreaterThan | OpFUnordGreaterThan | OpULessThanEqual
  | OpSLessThanEqual | OpFOrdLessThanEqual | OpFUnordLessThanEqual | OpUGreaterThanEqual
  | OpSGreaterThanEqual | OpFOrdGreaterThanEqual | OpFUnordGreaterThanEqual | OpDPdx | OpDPdy
  | OpFwidth | OpDPdxFine | OpDPdyFine | OpFwidthFine | OpDPdxCoarse | OpDPdyCoarse
  | OpFwidthCoarse | OpEmitVertex | OpEndPrimitive | OpEmitStreamVertex | OpEndStreamPrimitive
  | OpControlBarrier | OpMemoryBarrier | OpImagePointer | OpAtomicInit | OpAtomicLoad
  | OpAtomicStore | OpAtomicExchange | OpAtomicCompareExchange | OpAtomicCompareExchangeWeak
  | OpAtomicIIncrement | OpAtomicIDecrement | OpAtomicIAdd | OpAtomicISub | OpAtomicUMin
  | OpAtomicUMax | OpAtomicAnd | OpAtomicOr | OpAtomicXor | OpLoopMerge | OpSelectionMerge
  | OpLabel | OpBranch | OpBranchConditional | OpSwitch | OpKill | OpReturn | OpReturnValue
  | OpUnreachable | OpLifetimeStart | OpLifetimeStop | OpCompileFlag | OpAsyncGroupCopy
  | OpWaitGroupEvents | OpGroupAll | OpGroupAny | OpGroupBroadcast | OpGroupIAdd | OpGroupFAdd
  | OpGroupFMin | OpGroupUMin | OpGroupSMin | OpGroupFMax | OpGroupUMax | OpGroupSMax
  | OpGenericCastToPtrExplicit | OpGenericPtrMemSemantics | OpReadPipe | OpWritePipe
  | OpReservedReadPipe | OpReservedWritePipe | OpReserveReadPipePackets | OpReserveWritePipePackets
  | OpCommitReadPipe | OpCommitWritePipe | OpIsValidReserveId | OpGetNumPipePackets
  | OpGetMaxPipePackets | OpGroupReserveReadPipePackets | OpGroupReserveWritePipePackets
  | OpGroupCommitReadPipe | OpGroupCommitWritePipe | OpEnqueueMarker | OpEnqueueKernel
  | OpGetKernelNDrangeSubGroupCount | OpGetKernelNDrangeMaxSubGroupSize | OpGetKernelWorkGroupSize
  | OpGetKernelPreferredWorkGroupSizeMultiple | OpRetainEvent | OpReleaseEvent | OpCreateUserEvent
  | OpIsValidEvent | OpSetUserEventStatus | OpCaptureEventProfilingInfo | OpGetDefaultQueue
  | OpBuildNDRange | OpSatConvertSToU | OpSatConvertUToS | OpAtomicIMin | OpAtomicIMax
  | Unrecognised
  deriving DecidableEq, Repr

/-- Enumerators of `spv::SourceLanguage` that the disassembler names, plus `Unrecognised` for every
other value. -/
inductive SourceLanguage where
  | SourceLanguageUnknown | SourceLanguageESSL | SourceLanguageGLSL | SourceLanguageOpenCL
  | Unrecognised
  deriving DecidableEq, Repr

/-- Enumerators of `spv::AddressingModel` that the disassembler names, plus `Unrecognised` for every
other value. -/
inductive AddressingModel where
  | AddressingModelLogical | AddressingModelPhysical32 | AddressingModelPhysical64
  | Unrecognised
  deriving DecidableEq, Repr

/-- Enumerators of `spv::MemoryModel` that the disassembler names, plus `Unrecognised` for every
other value. -/
inductive MemoryModel where
  | MemoryModelSimple | MemoryModelGLSL450 | MemoryModelOpenCL12 | MemoryModelOpenCL20
  | MemoryModelOpenCL21
  | Unrecognised
  deriving DecidableEq, Repr

/-- Enumerators of `spv::ExecutionModel` that the disassembler names, plus `Unrecognised` for every
other value. -/
inductive ExecutionModel where
  | ExecutionModelVertex | ExecutionModelTessellationControl | ExecutionModelTessellationEvaluation
  | ExecutionModelGeometry | ExecutionModelFragment | ExecutionModelGLCompute
  | ExecutionModelKernel
  | Unrecognised
  deriving DecidableEq, Repr

/-- Enumerators of `spv::Decoration` that the disassembler names, plus `Unrecognised` for every
other value. -/
inductive Decoration where
  | DecorationPrecisionLow | DecorationPrecisionMedium | DecorationPrecisionHigh | DecorationBlock
  | DecorationBufferBlock | DecorationRowMajor | DecorationColMajor | DecorationGLSLShared
  | DecorationGLSLStd140 | DecorationGLSLStd430 | DecorationGLSLPacked | DecorationSmooth
  | DecorationNoperspective | DecorationFlat | DecorationPatch | DecorationCentroid
  | DecorationSample | DecorationInvariant | DecorationRestrict | DecorationAliased
  | DecorationVolatile | DecorationConstant | DecorationCoherent | DecorationNonwritable
  | DecorationNonreadable | DecorationUniform | DecorationNoStaticUse | DecorationCPacked
  | DecorationSaturatedConversion | DecorationStream | DecorationLocation | DecorationComponent
  | DecorationIndex | DecorationBinding | DecorationDescriptorSet | DecorationOffset
  | DecorationAlignment | DecorationXfbBuffer | DecorationStride | DecorationBuiltIn
  | DecorationFuncParamAttr | DecorationFPRoundingMode | DecorationFPFastMathMode
  | DecorationLinkageAttributes | DecorationSpecId
  | Unrecognised
  deriving DecidableEq, Repr

/-- Enumerators of `spv::StorageClass` that the disassembler names, plus `Unrecognised` for every
other value. -/
inductive StorageClass where
  | StorageClassUniformConstant | StorageClassInput | StorageClassUniform | StorageClassOutput
  | StorageClassWorkgroupLocal | StorageClassWorkgroupGlobal | StorageClassPrivateGlobal
  | StorageClassFunction | StorageClassGeneric | StorageClassPrivate | StorageClassAtomicCounter
  | Unrecognised
  deriving DecidableEq, Repr

end spv

namespace Renderdoc

open spv

/-! ## What the included headers provide -/

/-- The values that `spirv_disassemble.cpp` takes from headers that are not among
the sources (`spirv.h`, `spirv_common.h`, `GLSL450Lib.h`, the string formatter):
the magic number, the numbering of the enumerations, the bits of the masks,
the default enumerators that the constructors of the payload structures use,
the table of extended instruction names and the text of a `float`. Every
definition below takes them as a parameter, so every theorem holds whatever
the headers define. -/
structure Externals where
  /-- The constant `spv::MagicNumber`. -/
  MagicNumber : Nat
  /-- The cast `spv::Op(n)`: which enumerator of `spv::Op` has the value `n`. -/
  opOf : Nat → Op
  /-- The cast `spv::SourceLanguage(n)`. -/
  sourceLanguageOf : Nat → SourceLanguage
  /-- The cast `spv::AddressingModel(n)`. -/
  addressingModelOf : Nat → AddressingModel
  /-- The cast `spv::MemoryModel(n)`. -/
  memoryModelOf : Nat → MemoryModel
  /-- The cast `spv::ExecutionModel(n)`. -/
  executionModelOf : Nat → ExecutionModel
  /-- The cast `spv::Decoration(n)`. -/
  decorationOf : Nat → Decoration
  /-- The cast `spv::StorageClass(n)`. -/
  storageClassOf : Nat → StorageClass
  /-- The enumerator `eSPIRVInvalid` of `SPIRVShaderStage`. -/
  eSPIRVInvalid : Nat
  /-- The enumerator `spv::StorageClassUniformConstant`. -/
  StorageClassUniformConstant : Nat
  /-- The enumerator `spv::DecorationPrecisionLow`. -/
  DecorationPrecisionLow : Nat
  /-- The enumerator `spv::ExecutionModelVertex`. -/
  ExecutionModelVertex : Nat
  /-- The enumerator `spv::SourceLanguageUnknown`. -/
  SourceLanguageUnknown : Nat
  /-- The enumerator `spv::AddressingModelLogical`. -/
  AddressingModelLogical : Nat
  /-- The enumerator `spv::MemoryModelSimple`. -/
  MemoryModelSimple : Nat
  /-- The enumerator `spv::SelectionControlMaskNone`. -/
  SelectionControlMaskNone : Nat
  /-- The enumerator `spv::FunctionControlMaskNone`. -/
  FunctionControlMaskNone : Nat
  /-- The enumerator `spv::MemoryAccessMaskNone`. -/
  MemoryAccessMaskNone : Nat
  /-- The bit `spv::FunctionControlInlineMask`. -/
  FunctionControlInlineMask : Nat
  /-- The bit `spv::FunctionControlDontInlineMask`. -/
  FunctionControlDontInlineMask : Nat
  /-- The bit `spv::FunctionControlPureMask`. -/
  FunctionControlPureMask : Nat
  /-- The bit `spv::FunctionControlConstMask`. -/
  FunctionControlConstMask : Nat
  /-- The bit `spv::SelectionControlFlattenMask`. -/
  SelectionControlFlattenMask : Nat
  /-- The bit `spv::SelectionControlDontFlattenMask`. -/
  SelectionControlDontFlattenMask : Nat
  /-- The bit `spv::LoopControlUnrollMask`. -/
  LoopControlUnrollMask : Nat
  /-- The bit `spv::LoopControlDontUnrollMask`. -/
  LoopControlDontUnrollMask : Nat
  /-- The bit `spv::MemoryAccessVolatileMask`. -/
  MemoryAccessVolatileMask : Nat
  /-- The bit `spv::MemoryAccessAlignedMask`. -/
  MemoryAccessAlignedMask : Nat
  /-- The table `GLSL_STD_450_names` once `GLSL_STD_450::GetDebugNames` has filled it. -/
  GLSL_STD_450_names : List String
  /-- The text that `StringFormat::Fmt("%f", x)` gives for the `float` whose bit pattern is the
  argument. -/
  FmtFloat : Nat → String

/-! ## Faults -/

/-- The ways in which a scan of `DisassembleSPIRV` stops before its end. The first
three are raised by the assertion macros, the others are the unguarded
accesses of the source. -/
inductive Fault where
  /-- An `RDCASSERT` on the result of an ID lookup failed: `module.ids[id]` is null, or
  the instruction it points to lacks the payload the caller needs. -/
  | UnresolvedReference (id : Nat)
  /-- An `RDCBREAK` was reached while handling the instruction with this opcode. -/
  | UnsupportedOpcode (opcode : Nat)
  /-- Some other `RDCASSERT` failed. -/
  | AssertionFailed
  /-- The word `spirv[offset]` was read with `offset >= spirv.size()`. -/
  | WordOutOfRange (offset : Nat)
  /-- The slot `module.ids[id]` (or `resultnames[id]`, `typeinfo[id]`, `values[id]`) was
  accessed with `id` not below the size of the table. -/
  | IdOutOfRange (id : Nat)
  /-- The table of extended instruction names was read past its end. -/
  | NameOutOfRange (index : Nat)
  /-- A member was accessed through a null pointer. -/
  | NullPointer
  /-- The call `indent.resize(indent.size() - tabSize)` was made with an indentation
  shorter than `tabSize`: the unsigned subtraction wraps around. -/
  | IndentUnderflow
  deriving DecidableEq, Repr

/-- Modelled from the spec: the macro `RDCASSERT` of `common/common.h`, which is not
among the sources. The spec makes a failed assertion a fatal condition of the
decoder ("any required ID lookup that misses is a decode-time fatal condition",
"reported as a fatal condition rather than degraded output"): the scan stops
with the fault `e` that the call site names. -/
def RDCASSERT (cond : Bool) (e : Fault) : Except Fault Unit :=
  if cond then .ok () else .error e

/-- Modelled from the spec: the macro `RDCBREAK` of `common/common.h`, which is not
among the sources. The spec makes the opcodes that reach it "fail fast
(`UnsupportedOpcode`)", naming the opcode. -/
def RDCBREAK {α : Type} (opcode : Nat) : Except Fault α :=
  .error (.UnsupportedOpcode opcode)

/-! ## The word buffer -/

/-- The read `spirv[i]` of the `vector<uint32_t>`. -/
def word (spirv : List Nat) (i : Nat) : Except Fault Nat :=
  match spirv[i]? with
  | some w => .ok w
  | none => .error (.WordOutOfRange i)

/-- The header field `uint16_t WordCount = spirv[it]>>16`. -/
def WordCount (spirv : List Nat) (it : Nat) : Nat :=
  ((spirv[it]?.getD 0) >>> 16) % 2 ^ 16

/-- The header field `spirv[it]&0xffff`. -/
def OpCode (spirv : List Nat) (it : Nat) : Nat :=
  (spirv[it]?.getD 0) &&& 0xffff

/-- The four bytes of a word in memory order (the host is little-endian). -/
def wordBytes (w : Nat) : List Nat :=
  [w % 256, w / 256 % 256, w / 65536 % 256, w / 16777216 % 256]

/-- The bytes before the first zero byte; `none` when there is no zero byte. -/
def takeUntilZero : List Nat → Option (List Nat)
  | [] => none
  | b :: bs => if b = 0 then some [] else (takeUntilZero bs).map (fun r => b :: r)

/-- The conversion `(const char *)&spirv[off]` to a `string`: the bytes from word `off`
on, up to the first zero byte, one character per byte. Without a zero byte
before the end of the buffer the read runs past the end. -/
def cString (spirv : List Nat) (off : Nat) : Except Fault String :=
  match takeUntilZero ((spirv.drop off).flatMap wordBytes) with
  | some bs => .ok (String.mk (bs.map Char.ofNat))
  | none => .error (.WordOutOfRange (max off spirv.length))

/-! ## Text formatting

The conversions of `StringFormat::Fmt` that the disassembler uses, on 32-bit
arguments. -/

/-- The lowercase hexadecimal digit of a number below sixteen. -/
def hexDigit (n : Nat) : Char :=
  if n < 10 then Char.ofNat (48 + n) else Char.ofNat (87 + n)

/-- The conversion `%08x`. -/
def Fmt08x (w : Nat) : String :=
  String.mk [hexDigit (w / 2 ^ 28 % 16), hexDigit (w / 2 ^ 24 % 16), hexDigit (w / 2 ^ 20 % 16),
    hexDigit (w / 2 ^ 16 % 16), hexDigit (w / 2 ^ 12 % 16), hexDigit (w / 2 ^ 8 % 16),
    hexDigit (w / 2 ^ 4 % 16), hexDigit (w % 16)]

/-- The conversion `%u`. -/
def fmtU32 (w : Nat) : String :=
  Nat.repr (w % 2 ^ 32)

/-- The conversion `%d`: the argument read as a two's-complement `int32_t`. -/
def fmtD32 (w : Nat) : String :=
  if w % 2 ^ 32 < 2 ^ 31 then Nat.repr (w % 2 ^ 32) else "-" ++ Nat.repr (2 ^ 32 - w % 2 ^ 32)

/-- The conversion `%#x`. -/
def fmtHashX (w : Nat) : String :=
  if w % 2 ^ 32 = 0 then "0" else "0x" ++ String.mk (Nat.toDigits 16 (w % 2 ^ 32))

/-- A string of `n` spaces. -/
def spaces (n : Nat) : String :=
  String.mk (List.replicate n ' ')

/-- Modelled from the spec: the text that `StringFormat::Fmt` writes for a null `char *`
passed to the conversion `%s`; `StringFormat::Fmt` is not part of the source file. -/
def fmtNullString : String := "(null)"

/-! ## Arithmetic of `float`

The type `float` is the IEEE-754 single format: a value is its 32-bit pattern (sign, eight
bits of exponent, 23 bits of fraction). The render pass computes with it on the weights of a
conditional branch: conversions of unsigned integers, their quotient, and the product with
`100.0f`. Every result is rounded to the nearest `float`, ties to the even significand. -/

/-- The number `e` with `2 ^ e ≤ num / den < 2 ^ (e + 1)`, for positive `num` and `den`. -/
def ratioLog2 (num den : Nat) : Int :=
  let a := (Nat.toDigits 2 num).length - 1
  let b := (Nat.toDigits 2 den).length - 1
  if den * 2 ^ a ≤ num * 2 ^ b then (a : Int) - (b : Int) else (a : Int) - (b : Int) - 1

/-- The bit pattern of the `float` nearest to the fraction `num / den` (with `den`
positive), ties to the even significand. A value below the normal range is rounded to a
subnormal one, a value above the range of `float` to infinity. -/
def f32OfRatio (num den : Nat) : Nat :=
  if num = 0 then 0
  else
    let e : Int := max (ratioLog2 num den) (-126)
    let n := num * 2 ^ (23 - e).toNat
    let d := den * 2 ^ (e - 23).toNat
    let q := n / d
    let r := n % d
    let s := if d < 2 * r ∨ (2 * r = d ∧ q % 2 = 1) then q + 1 else q
    let bits := (e + 126).toNat * 2 ^ 23 + s
    if 0x7F800000 ≤ bits then 0x7F800000 else bits

/-- The numerator of the value of a finite `float`, its sign apart. -/
def f32Num (w : Nat) : Nat :=
  let e := w / 2 ^ 23 % 256
  let f := w % 2 ^ 23
  if e = 0 then f else if 150 ≤ e then (f + 2 ^ 23) * 2 ^ (e - 150) else f + 2 ^ 23

/-- The denominator of the value of a finite `float`. -/
def f32Den (w : Nat) : Nat :=
  let e := w / 2 ^ 23 % 256
  if e = 0 then 2 ^ 149 else if 150 ≤ e then 1 else 2 ^ (150 - e)

/-- The conversion `float(x)` of a `uint32_t`. -/
def f32OfU32 (x : Nat) : Nat :=
  f32OfRatio x 1

/-- The quotient `x / y` of two finite `float`s that are not negative. A quotient by zero is
infinity, and the quotient of zero by zero is a NaN (the one with the sign bit set, which
the division instruction of the host gives). -/
def f32Div (x y : Nat) : Nat :=
  if f32Num y = 0 then (if f32Num x = 0 then 0xFFC00000 else 0x7F800000)
  else f32OfRatio (f32Num x * f32Den y) (f32Den x * f32Num y)

/-- The product `x * y` of a `float` `x` that is not negative, or is a NaN, with a finite
positive `float` `y`: the product of infinity or of a NaN is `x` itself. -/
def f32Mul (x y : Nat) : Nat :=
  if x / 2 ^ 23 % 256 = 255 then x
  else f32OfRatio (f32Num x * f32Num y) (f32Den x * f32Den y)

/-- The constant `100.0f`. -/
def f32Hundred : Nat := 0x42C80000

/-- Modelled from the spec: the text that `StringFormat::Fmt("%.2f", x)` gives for the
`float` with the bit pattern `w` ("two-decimal precision"); `StringFormat::Fmt` is not part
of the source file. The value is written as a decimal with two fractional digits, rounded
to nearest, ties to even; infinity is `inf` and a NaN is `nan`, after `-` when the sign bit
is set. -/
def fmtF32p2 (w : Nat) : String :=
  let sign := if w / 2 ^ 31 % 2 = 1 then "-" else ""
  if w / 2 ^ 23 % 256 = 255 then
    if w % 2 ^ 23 = 0 then sign ++ "inf" else sign ++ "nan"
  else
    let num := f32Num w * 100
    let den := f32Den w
    let q := num / den
    let r := num % den
    let q := if den < 2 * r ∨ (2 * r = den ∧ q % 2 = 1) then q + 1 else q
    sign ++ Nat.repr (q / 100) ++ "." ++
      String.mk (List.replicate (2 - (Nat.toDigits 10 (q % 100)).length) '0' ++
        Nat.toDigits 10 (q % 100))

/-! ## Names of enumerators -/

/-- The function `ToStrHelper<false, spv::Op>::Get`. -/
def ToStrOp (X : Externals) (el : Nat) : String :=
  match X.opOf el with
  | .OpNop => "Nop"
  | .OpSource => "Source"
  | .OpSourceExtension => "SourceExtension"
  | .OpExtension => "Extension"
  | .OpExtInstImport => "ExtInstImport"
  | .OpMemoryModel => "MemoryModel"
  | .OpEntryPoint => "EntryPoint"
  | .OpExecutionMode => "ExecutionMode"
  | .OpTypeVoid => "TypeVoid"
  | .OpTypeBool => "TypeBool"
  | .OpTypeInt => "TypeInt"
  | .OpTypeFloat => "TypeFloat"
  | .OpTypeVector => "TypeVector"
  | .OpTypeMatrix => "TypeMatrix"
  | .OpTypeSampler => "TypeSampler"
  | .OpTypeFilter => "TypeFilter"
  | .OpTypeArray => "TypeArray"
  | .OpTypeRuntimeArray => "TypeRuntimeArray"
  | .OpTypeStruct => "TypeStruct"
  | .OpTypeOpaque => "TypeOpaque"
  | .OpTypePointer => "TypePointer"
  | .OpTypeFunction => "TypeFunction"
  | .OpTypeEvent => "TypeEvent"
  | .OpTypeDeviceEvent => "TypeDeviceEvent"
  | .OpTypeReserveId => "TypeReserveId"
  | .OpTypeQueue => "TypeQueue"
  | .OpTypePipe => "TypePipe"
  | .OpConstantTrue => "ConstantTrue"
  | .OpConstantFalse => "ConstantFalse"
  | .OpConstant => "Constant"
  | .OpConstantComposite => "ConstantComposite"
  | .OpConstantSampler => "ConstantSampler"
  | .OpConstantNullPointer => "ConstantNullPointer"
  | .OpConstantNullObject => "ConstantNullObject"
  | .OpSpecConstantTrue => "SpecConstantTrue"
  | .OpSpecConstantFalse => "SpecConstantFalse"
  | .OpSpecConstant => "SpecConstant"
  | .OpSpecConstantComposite => "SpecConstantComposite"
  | .OpVariable => "Variable"
  | .OpVariableArray => "VariableArray"
  | .OpFunction => "Function"
  | .OpFunctionParameter => "FunctionParameter"
  | .OpFunctionEnd => "FunctionEnd"
  | .OpFunctionCall => "FunctionCall"
  | .OpExtInst => "ExtInst"
  | .OpUndef => "Undef"
  | .OpLoad => "Load"
  | .OpStore => "Store"
  | .OpPhi => "Phi"
  | .OpDecorationGroup => "DecorationGroup"
  | .OpDecorate => "Decorate"
  | .OpMemberDecorate => "MemberDecorate"
  | .OpGroupDecorate => "GroupDecorate"
  | .OpGroupMemberDecorate => "GroupMemberDecorate"
  | .OpName => "Name"
  | .OpMemberName => "MemberName"
  | .OpString => "String"
  | .OpLine => "Line"
  | .OpVectorExtractDynamic => "VectorExtractDynamic"
  | .OpVectorInsertDynamic => "VectorInsertDynamic"
  | .OpVectorShuffle => "VectorShuffle"
  | .OpCompositeConstruct => "CompositeConstruct"
  | .OpCompositeExtract => "CompositeExtract"
  | .OpCompositeInsert => "CompositeInsert"
  | .OpCopyObject => "CopyObject"
  | .OpCopyMemory => "CopyMemory"
  | .OpCopyMemorySized => "CopyMemorySized"
  | .OpSampler => "Sampler"
  | .OpTextureSample => "TextureSample"
  | .OpTextureSampleDref => "TextureSampleDref"
  | .OpTextureSampleLod => "TextureSampleLod"
  | .OpTextureSampleProj => "TextureSampleProj"
  | .OpTextureSampleGrad => "TextureSampleGrad"
  | .OpTextureSampleOffset => "TextureSampleOffset"
  | .OpTextureSampleProjLod => "TextureSampleProjLod"
  | .OpTextureSampleProjGrad => "TextureSampleProjGrad"
  | .OpTextureSampleLodOffset => "TextureSampleLodOffset"
  | .OpTextureSampleProjOffset => "TextureSampleProjOffset"
  | .OpTextureSampleGradOffset => "TextureSampleGradOffset"
  | .OpTextureSampleProjLodOffset => "TextureSampleProjLodOffset"
  | .OpTextureSampleProjGradOffset => "TextureSampleProjGradOffset"
  | .OpTextureFetchTexelLod => "TextureFetchTexelLod"
  | .OpTextureFetchTexelOffset => "TextureFetchTexelOffset"
  | .OpTextureFetchSample => "TextureFetchSample"
  | .OpTextureFetchTexel => "TextureFetchTexel"
  | .OpTextureGather => "TextureGather"
  | .OpTextureGatherOffset => "TextureGatherOffset"
  | .OpTextureGatherOffsets => "TextureGatherOffsets"
  | .OpTextureQuerySizeLod => "TextureQuerySizeLod"
  | .OpTextureQuerySize => "TextureQuerySize"
  | .OpTextureQueryLod => "TextureQueryLod"
  | .OpTextureQueryLevels => "TextureQueryLevels"
  | .OpTextureQuerySamples => "TextureQuerySamples"
  | .OpAccessChain => "AccessChain"
  | .OpInBoundsAccessChain => "InBoundsAccessChain"
  | .OpSNegate => "SNegate"
  | .OpFNegate => "FNegate"
  | .OpNot => "Not"
  | .OpAny => "Any"
  | .OpAll => "All"
  | .OpConvertFToU => "ConvertFToU"
  | .OpConvertFToS => "ConvertFToS"
  | .OpConvertSToF => "ConvertSToF"
  | .OpConvertUToF => "ConvertUToF"
  | .OpUConvert => "UConvert"
  | .OpSConvert => "SConvert"
  | .OpFConvert => "FConvert"
  | .OpConvertPtrToU => "ConvertPtrToU"
  | .OpConvertUToPtr => "ConvertUToPtr"
  | .OpPtrCastToGeneric => "PtrCastToGeneric"
  | .OpGenericCastToPtr => "GenericCastToPtr"
  | .OpBitcast => "Bitcast"
  | .OpTranspose => "Transpose"
  | .OpIsNan => "IsNan"
  | .OpIsInf => "IsInf"
  | .OpIsFinite => "IsFinite"
  | .OpIsNormal => "IsNormal"
  | .OpSignBitSet => "SignBitSet"
  | .OpLessOrGreater => "LessOrGreater"
  | .OpOrdered => "Ordered"
  | .OpUnordered => "Unordered"
  | .OpArrayLength => "ArrayLength"
  | .OpIAdd => "IAdd"
  | .OpFAdd => "FAdd"
  | .OpISub => "ISub"
  | .OpFSub => "FSub"
  | .OpIMul => "IMul"
  | .OpFMul => "FMul"
  | .OpUDiv => "UDiv"
  | .OpSDiv => "SDiv"
  | .OpFDiv => "FDiv"
  | .OpUMod => "UMod"
  | .OpSRem => "SRem"
  | .OpSMod => "SMod"
  | .OpFRem => "FRem"
  | .OpFMod => "FMod"
  | .OpVectorTimesScalar => "VectorTimesScalar"
  | .OpMatrixTimesScalar => "MatrixTimesScalar"
  | .OpVectorTimesMatrix => "VectorTimesMatrix"
  | .OpMatrixTimesVector => "MatrixTimesVector"
  | .OpMatrixTimesMatrix => "MatrixTimesMatrix"
  | .OpOuterProduct => "OuterProduct"
  | .OpDot => "Dot"
  | .OpShiftRightLogical => "ShiftRightLogical"
  | .OpShiftRightArithmetic => "ShiftRightArithmetic"
  | .OpShiftLeftLogical => "ShiftLeftLogical"
  | .OpLogicalOr => "LogicalOr"
  | .OpLogicalXor => "LogicalXor"
  | .OpLogicalAnd => "LogicalAnd"
  | .OpBitwiseOr => "BitwiseOr"
  | .OpBitwiseXor => "BitwiseXor"
  | .OpBitwiseAnd => "BitwiseAnd"
  | .OpSelect => "Select"
  | .OpIEqual => "IEqual"
  | .OpFOrdEqual => "FOrdEqual"
  | .OpFUnordEqual => "FUnordEqual"
  | .OpINotEqual => "INotEqual"
  | .OpFOrdNotEqual => "FOrdNotEqual"
  | .OpFUnordNotEqual => "FUnordNotEqual"
  | .OpULessThan => "ULessThan"
  | .OpSLessThan => "SLessThan"
  | .OpFOrdLessThan => "FOrdLessThan"
  | .OpFUnordLessThan => "FUnordLessThan"
  | .OpUGreaterThan => "UGreaterThan"
  | .OpSGreaterThan => "SGreaterThan"
  | .OpFOrdGreaterThan => "FOrdGreaterThan"
  | .OpFUnordGreaterThan => "FUnordGreaterThan"
  | .OpULessThanEqual => "ULessThanEqual"
  | .OpSLessThanEqual => "SLessThanEqual"
  | .OpFOrdLessThanEqual => "FOrdLessThanEqual"
  | .OpFUnordLessThanEqual => "FUnordLessThanEqual"
  | .OpUGreaterThanEqual => "UGreaterThanEqual"
  | .OpSGreaterThanEqual => "SGreaterThanEqual"
  | .OpFOrdGreaterThanEqual => "FOrdGreaterThanEqual"
  | .OpFUnordGreaterThanEqual => "FUnordGreaterThanEqual"
  | .OpDPdx => "DPdx"
  | .OpDPdy => "DPdy"
  | .OpFwidth => "Fwidth"
  | .OpDPdxFine => "DPdxFine"
  | .OpDPdyFine => "DPdyFine"
  | .OpFwidthFine => "FwidthFine"
  | .OpDPdxCoarse => "DPdxCoarse"
  | .OpDPdyCoarse => "DPdyCoarse"
  | .OpFwidthCoarse => "FwidthCoarse"
  | .OpEmitVertex => "EmitVertex"
  | .OpEndPrimitive => "EndPrimitive"
  | .OpEmitStreamVertex => "EmitStreamVertex"
  | .OpEndStreamPrimitive => "EndStreamPrimitive"
  | .OpControlBarrier => "ControlBarrier"
  | .OpMemoryBarrier => "MemoryBarrier"
  | .OpImagePointer => "ImagePointer"
  | .OpAtomicInit => "AtomicInit"
  | .OpAtomicLoad => "AtomicLoad"
  | .OpAtomicStore => "AtomicStore"
  | .OpAtomicExchange => "AtomicExchange"
  | .OpAtomicCompareExchange => "AtomicCompareExchange"
  | .OpAtomicCompareExchangeWeak => "AtomicCompareExchangeWeak"
  | .OpAtomicIIncrement => "AtomicIIncrement"
  | .OpAtomicIDecrement => "AtomicIDecrement"
  | .OpAtomicIAdd => "AtomicIAdd"
  | .OpAtomicISub => "AtomicISub"
  | .OpAtomicUMin => "AtomicUMin"
  | .OpAtomicUMax => "AtomicUMax"
  | .OpAtomicAnd => "AtomicAnd"
  | .OpAtomicOr => "AtomicOr"
  | .OpAtomicXor => "AtomicXor"
  | .OpLoopMerge => "LoopMerge"
  | .OpSelectionMerge => "SelectionMerge"
  | .OpLabel => "Label"
  | .OpBranch => "Branch"
  | .OpBranchConditional => "BranchConditional"
  | .OpSwitch => "Switch"
  | .OpKill => "Kill"
  | .OpReturn => "Return"
  | .OpReturnValue => "ReturnValue"
  | .OpUnreachable => "Unreachable"
  | .OpLifetimeStart => "LifetimeStart"
  | .OpLifetimeStop => "LifetimeStop"
  | .OpCompileFlag => "CompileFlag"
  | .OpAsyncGroupCopy => "AsyncGroupCopy"
  | .OpWaitGroupEvents => "WaitGroupEvents"
  | .OpGroupAll => "GroupAll"
  | .OpGroupAny => "GroupAny"
  | .OpGroupBroadcast => "GroupBroadcast"
  | .OpGroupIAdd => "GroupIAdd"
  | .OpGroupFAdd => "GroupFAdd"
  | .OpGroupFMin => "GroupFMin"
  | .OpGroupUMin => "GroupUMin"
  | .OpGroupSMin => "GroupSMin"
  | .OpGroupFMax => "GroupFMax"
  | .OpGroupUMax => "GroupUMax"
  | .OpGroupSMax => "GroupSMax"
  | .OpGenericCastToPtrExplicit => "GenericCastToPtrExplicit"
  | .OpGenericPtrMemSemantics => "GenericPtrMemSemantics"
  | .OpReadPipe => "ReadPipe"
  | .OpWritePipe => "WritePipe"
  | .OpReservedReadPipe => "ReservedReadPipe"
  | .OpReservedWritePipe => "ReservedWritePipe"
  | .OpReserveReadPipePackets => "ReserveReadPipePackets"
  | .OpReserveWritePipePackets => "ReserveWritePipePackets"
  | .OpCommitReadPipe => "CommitReadPipe"
  | .OpCommitWritePipe => "CommitWritePipe"
  | .OpIsValidReserveId => "IsValidReserveId"
  | .OpGetNumPipePackets => "GetNumPipePackets"
  | .OpGetMaxPipePackets => "GetMaxPipePackets"
  | .OpGroupReserveReadPipePackets => "GroupReserveReadPipePackets"
  | .OpGroupReserveWritePipePackets => "GroupReserveWritePipePackets"
  | .OpGroupCommitReadPipe => "GroupCommitReadPipe"
  | .OpGroupCommitWritePipe => "GroupCommitWritePipe"
  | .OpEnqueueMarker => "EnqueueMarker"
  | .OpEnqueueKernel => "EnqueueKernel"
  | .OpGetKernelNDrangeSubGroupCount => "GetKernelNDrangeSubGroupCount"
  | .OpGetKernelNDrangeMaxSubGroupSize => "GetKernelNDrangeMaxSubGroupSize"
  | .OpGetKernelWorkGroupSize => "GetKernelWorkGroupSize"
  | .OpGetKernelPreferredWorkGroupSizeMultiple => "GetKernelPreferredWorkGroupSizeMultiple"
  | .OpRetainEvent => "RetainEvent"
  | .OpReleaseEvent => "ReleaseEvent"
  | .OpCreateUserEvent => "CreateUserEvent"
  | .OpIsValidEvent => "IsValidEvent"
  | .OpSetUserEventStatus => "SetUserEventStatus"
  | .OpCaptureEventProfilingInfo => "CaptureEventProfilingInfo"
  | .OpGetDefaultQueue => "GetDefaultQueue"
  | .OpBuildNDRange => "BuildNDRange"
  | .OpSatConvertSToU => "SatConvertSToU"
  | .OpSatConvertUToS => "SatConvertUToS"
  | .OpAtomicIMin => "AtomicIMin"
  | .OpAtomicIMax => "AtomicIMax"
  | .Unrecognised => "Unrecognised\x7b" ++ fmtU32 el ++ "\x7d"

/-- The function `ToStrHelper<false, spv::SourceLanguage>::Get`. -/
def ToStrSourceLanguage (X : Externals) (el : Nat) : String :=
  match X.sourceLanguageOf el with
  | .SourceLanguageUnknown => "Unknown"
  | .SourceLanguageESSL => "ESSL"
  | .SourceLanguageGLSL => "GLSL"
  | .SourceLanguageOpenCL => "OpenCL"
  | .Unrecognised => "Unrecognised"

/-- The function `ToStrHelper<false, spv::AddressingModel>::Get`. -/
def ToStrAddressingModel (X : Externals) (el : Nat) : String :=
  match X.addressingModelOf el with
  | .AddressingModelLogical => "Logical"
  | .AddressingModelPhysical32 => "Physical (32-bit)"
  | .AddressingModelPhysical64 => "Physical (64-bit)"
  | .Unrecognised => "Unrecognised"

/-- The function `ToStrHelper<false, spv::MemoryModel>::Get`. -/
def ToStrMemoryModel (X : Externals) (el : Nat) : String :=
  match X.memoryModelOf el with
  | .MemoryModelSimple => "Simple"
  | .MemoryModelGLSL450 => "GLSL450"
  | .MemoryModelOpenCL12 => "OpenCL12"
  | .MemoryModelOpenCL20 => "OpenCL20"
  | .MemoryModelOpenCL21 => "OpenCL21"
  | .Unrecognised => "Unrecognised"

/-- The function `ToStrHelper<false, spv::ExecutionModel>::Get`. -/
def ToStrExecutionModel (X : Externals) (el : Nat) : String :=
  match X.executionModelOf el with
  | .ExecutionModelVertex => "Vertex Shader"
  | .ExecutionModelTessellationControl => "Tess. Control Shader"
  | .ExecutionModelTessellationEvaluation => "Tess. Eval Shader"
  | .ExecutionModelGeometry => "Geometry Shader"
  | .ExecutionModelFragment => "Fragment Shader"
  | .ExecutionModelGLCompute => "Compute Shader"
  | .ExecutionModelKernel => "Kernel"
  | .Unrecognised => "Unrecognised"

/-- The function `ToStrHelper<false, spv::Decoration>::Get`. -/
def ToStrDecoration (X : Externals) (el : Nat) : String :=
  match X.decorationOf el with
  | .DecorationPrecisionLow => "PrecisionLow"
  | .DecorationPrecisionMedium => "PrecisionMedium"
  | .DecorationPrecisionHigh => "PrecisionHigh"
  | .DecorationBlock => "Block"
  | .DecorationBufferBlock => "BufferBlock"
  | .DecorationRowMajor => "RowMajor"
  | .DecorationColMajor => "ColMajor"
  | .DecorationGLSLShared => "GLSLShared"
  | .DecorationGLSLStd140 => "GLSLStd140"
  | .DecorationGLSLStd430 => "GLSLStd430"
  | .DecorationGLSLPacked => "GLSLPacked"
  | .DecorationSmooth => "Smooth"
  | .DecorationNoperspective => "Noperspective"
  | .DecorationFlat => "Flat"
  | .DecorationPatch => "Patch"
  | .DecorationCentroid => "Centroid"
  | .DecorationSample => "Sample"
  | .DecorationInvariant => "Invariant"
  | .DecorationRestrict => "Restrict"
  | .DecorationAliased => "Aliased"
  | .DecorationVolatile => "Volatile"
  | .DecorationConstant => "Constant"
  | .DecorationCoherent => "Coherent"
  | .DecorationNonwritable => "Nonwritable"
  | .DecorationNonreadable => "Nonreadable"
  | .DecorationUniform => "Uniform"
  | .DecorationNoStaticUse => "NoStaticUse"
  | .DecorationCPacked => "CPacked"
  | .DecorationSaturatedConversion => "SaturatedConversion"
  | .DecorationStream => "Stream"
  | .DecorationLocation => "Location"
  | .DecorationComponent => "Component"
  | .DecorationIndex => "Index"
  | .DecorationBinding => "Binding"
  | .DecorationDescriptorSet => "DescriptorSet"
  | .DecorationOffset => "Offset"
  | .DecorationAlignment => "Alignment"
  | .DecorationXfbBuffer => "XfbBuffer"
  | .DecorationStride => "Stride"
  | .DecorationBuiltIn => "BuiltIn"
  | .DecorationFuncParamAttr => "FuncParamAttr"
  | .DecorationFPRoundingMode => "FPRoundingMode"
  | .DecorationFPFastMathMode => "FPFastMathMode"
  | .DecorationLinkageAttributes => "LinkageAttributes"
  | .DecorationSpecId => "SpecId"
  | .Unrecognised => "Unrecognised"

/-- The function `ToStrHelper<false, spv::StorageClass>::Get`. -/
def ToStrStorageClass (X : Externals) (el : Nat) : String :=
  match X.storageClassOf el with
  | .StorageClassUniformConstant => "UniformConstant"
  | .StorageClassInput => "Input"
  | .StorageClassUniform => "Uniform"
  | .StorageClassOutput => "Output"
  | .StorageClassWorkgroupLocal => "WorkgroupLocal"
  | .StorageClassWorkgroupGlobal => "WorkgroupGlobal"
  | .StorageClassPrivateGlobal => "PrivateGlobal"
  | .StorageClassFunction => "Function"
  | .StorageClassGeneric => "Generic"
  | .StorageClassPrivate => "Private"
  | .StorageClassAtomicCounter => "AtomicCounter"
  | .Unrecognised => "Unrecognised"

/-- The function `ToStrHelper<false, spv::FunctionControlMask>::Get`. -/
def ToStrFunctionControlMask (X : Externals) (el : Nat) : String :=
  let ret := ""
  let ret := if el &&& X.FunctionControlInlineMask ≠ 0 then ret ++ ", Inline" else ret
  let ret := if el &&& X.FunctionControlDontInlineMask ≠ 0 then ret ++ ", DontInline" else ret
  let ret := if el &&& X.FunctionControlPureMask ≠ 0 then ret ++ ", Pure" else ret
  let ret := if el &&& X.FunctionControlConstMask ≠ 0 then ret ++ ", Const" else ret
  if ret ≠ "" then ret.drop 2 else ret

/-- The function `ToStrHelper<false, spv::SelectionControlMask>::Get`. -/
def ToStrSelectionControlMask (X : Externals) (el : Nat) : String :=
  let ret := ""
  let ret := if el &&& X.SelectionControlFlattenMask ≠ 0 then ret ++ ", Flatten" else ret
  let ret := if el &&& X.SelectionControlDontFlattenMask ≠ 0 then ret ++ ", DontFlatten" else ret
  if ret ≠ "" then ret.drop 2 else ret

/-- The function `ToStrHelper<false, spv::LoopControlMask>::Get`. -/
def ToStrLoopControlMask (X : Externals) (el : Nat) : String :=
  let ret := ""
  let ret := if el &&& X.LoopControlUnrollMask ≠ 0 then ret ++ ", Unroll" else ret
  let ret := if el &&& X.LoopControlDontUnrollMask ≠ 0 then ret ++ ", DontUnroll" else ret
  if ret ≠ "" then ret.drop 2 else ret

/-- The function `ToStrHelper<false, spv::MemoryAccessMask>::Get`. -/
def ToStrMemoryAccessMask (X : Externals) (el : Nat) : String :=
  let ret := ""
  let ret := if el &&& X.MemoryAccessVolatileMask ≠ 0 then ret ++ ", Volatile" else ret
  let ret := if el &&& X.MemoryAccessAlignedMask ≠ 0 then ret ++ ", Aligned" else ret
  if ret ≠ "" then ret.drop 2 else ret

/-- The template `OptionalFlagString`, for the mask type whose `ToStr::Get` is `toStr`. -/
def OptionalFlagString (toStr : Nat → String) (e : Nat) : String :=
  if e ≠ 0 then "[" ++ toStr e ++ "]" else ""

/-! ## Data model -/

/-- The struct `SPVDecoration`. -/
structure SPVDecoration where
  decoration : Nat
  val : Nat
  deriving DecidableEq, Repr

/-- The struct `SPVExtInstSet`; `instructions` tells whether the pointer is set (it is
then the table `GLSL_STD_450_names`). -/
structure SPVExtInstSet where
  setname : String
  instructions : Bool
  deriving DecidableEq, Repr

/-- The struct `SPVEntryPoint`. -/
structure SPVEntryPoint where
  func : Nat
  model : Nat
  deriving DecidableEq, Repr

/-- The anonymous enumeration of `SPVTypeData`. -/
inductive TypeKind where
  | eVoid | eBool | eFloat | eSInt | eUInt | eBasicCount
  | eVector | eMatrix | eArray | ePointer | eCompositeCount
  | eFunction | eStruct | eSampler | eFilter
  deriving DecidableEq, Repr

/-- The struct `SPVTypeData`. A `SPVTypeData *` is the index of the instruction whose
`type` payload it points to. -/
structure SPVTypeData where
  type : TypeKind
  baseType : Option Nat
  name : String
  decorations : List SPVDecoration
  children : List (Nat × String)
  storage : Nat
  bitCount : Nat
  vectorSize : Nat
  matrixSize : Nat
  arraySize : Nat
  deriving DecidableEq, Repr

/-- The constructor `SPVTypeData()` followed by the assignment of `type`. -/
def SPVTypeData.new (X : Externals) (k : TypeKind) : SPVTypeData :=
  { type := k, baseType := none, name := "", decorations := [], children := [],
    storage := X.StorageClassUniformConstant, bitCount := 32, vectorSize := 1,
    matrixSize := 1, arraySize := 1 }

/-- The struct `SPVOperation`. The constructor leaves `access` uninitialised
(`none`). -/
structure SPVOperation where
  type : Option Nat
  access : Option Nat
  literals : List Nat
  complexity : Int
  arguments : List Nat
  deriving DecidableEq, Repr

/-- The constructor `SPVOperation()`. -/
def SPVOperation.new : SPVOperation :=
  { type := none, access := none, literals := [], complexity := 0, arguments := [] }

/-- The struct `SPVConstant`; `u64` is the union read as `uint64_t`. -/
structure SPVConstant where
  type : Option Nat
  u64 : Nat
  children : List Nat
  deriving DecidableEq, Repr

/-- The struct `SPVVariable`. -/
structure SPVVariable where
  type : Option Nat
  storage : Nat
  initialiser : Option Nat
  deriving DecidableEq, Repr

/-- The struct `SPVFlowControl`; `control` is the union of `selControl` and
`loopControl`. -/
structure SPVFlowControl where
  control : Nat
  condition : Option Nat
  literals : List Nat
  targets : List Nat
  deriving DecidableEq, Repr

/-- The constructor `SPVFlowControl()`. -/
def SPVFlowControl.new (X : Externals) : SPVFlowControl :=
  { control := X.SelectionControlMaskNone, condition := none, literals := [], targets := [] }

/-- The struct `SPVBlock`. -/
structure SPVBlock where
  instructions : List Nat
  mergeFlow : Option Nat
  exitFlow : Option Nat
  deriving DecidableEq, Repr

/-- The struct `SPVFunction`; `localVariables` is the member `variables` (a reserved word
here). -/
structure SPVFunction where
  retType : Option Nat
  funcType : Option Nat
  control : Nat
  blocks : List Nat
  localVariables : List Nat
  deriving DecidableEq, Repr

/-- The struct `SPVInstruction`, with its nine payload pointers. -/
structure SPVInstruction where
  opcode : Nat
  id : Nat
  line : Int
  sourceFilename : String
  sourceLine : Nat
  sourceCol : Nat
  str : String
  decorations : List SPVDecoration
  ext : Option SPVExtInstSet
  entry : Option SPVEntryPoint
  op : Option SPVOperation
  flow : Option SPVFlowControl
  type : Option SPVTypeData
  func : Option SPVFunction
  block : Option SPVBlock
  constant : Option SPVConstant
  var : Option SPVVariable
  deriving DecidableEq, Repr

/-- The constructor `SPVInstruction()` followed by the assignment of `opcode`. -/
def SPVInstruction.new (opcode : Nat) : SPVInstruction :=
  { opcode := opcode, id := 0, line := -1, sourceFilename := "", sourceLine := 0,
    sourceCol := 0, str := "", decorations := [], ext := none, entry := none, op := none,
    flow := none, type := none, func := none, block := none, constant := none, var := none }

/-- The struct `SPVModule`. -/
structure SPVModule where
  shadType : Nat
  moduleVersion : Nat
  generator : Nat
  sourceLang : Nat
  sourceVer : Nat
  modelAddr : Nat
  modelMem : Nat
  operations : List SPVInstruction
  ids : List (Option Nat)
  entries : List Nat
  globals : List Nat
  funcs : List Nat
  deriving DecidableEq, Repr

/-- The constructor `SPVModule()`. -/
def SPVModule.new (X : Externals) : SPVModule :=
  { shadType := X.eSPIRVInvalid, moduleVersion := 0, generator := 0,
    sourceLang := X.SourceLanguageUnknown, sourceVer := 0,
    modelAddr := X.AddressingModelLogical, modelMem := X.MemoryModelSimple,
    operations := [], ids := [], entries := [], globals := [], funcs := [] }

/-! ## Pass 1: the structural pass -/

/-- The cursor of the structural pass: the module under construction and the
pointers `curFunc` and `curBlock`. -/
structure DecodeState where
  module : SPVModule
  curFunc : Option Nat
  curBlock : Option Nat
  deriving DecidableEq, Repr

/-- The read `module.ids[id]`. -/
def SPVModule.idAt (m : SPVModule) (id : Nat) : Except Fault (Option Nat) :=
  match m.ids[id]? with
  | some p => .ok p
  | none => .error (.IdOutOfRange id)

/-- The test `inst->type` on the pointee of a non-null instruction pointer. -/
def SPVModule.hasType (m : SPVModule) (j : Nat) : Bool :=
  match m.operations[j]? with
  | some inst => inst.type.isSome
  | none => false

/-- The test `inst->constant` on the pointee of a non-null instruction pointer. -/
def SPVModule.hasConstant (m : SPVModule) (j : Nat) : Bool :=
  match m.operations[j]? with
  | some inst => inst.constant.isSome
  | none => false

/-- The use of an instruction pointer after the assertion on it. -/
def deref (p : Option Nat) : Except Fault Nat :=
  match p with
  | some j => .ok j
  | none => .error .NullPointer

/-- The lookup `inst = module.ids[id]; RDCASSERT(inst);`. -/
def SPVModule.findInst (m : SPVModule) (id : Nat) : Except Fault Nat := do
  let inst ← m.idAt id
  RDCASSERT inst.isSome (.UnresolvedReference id)
  deref inst

/-- The lookup `inst = module.ids[id]; RDCASSERT(inst && inst->type);` followed by the use
of `inst->type`. -/
def SPVModule.findType (m : SPVModule) (id : Nat) : Except Fault Nat := do
  let inst ← m.idAt id
  RDCASSERT (match inst with | some j => m.hasType j | none => false) (.UnresolvedReference id)
  deref inst

/-- The lookup `inst = module.ids[id]; RDCASSERT(inst && inst->constant);` followed by the
use of `inst->constant`. -/
def SPVModule.findConstant (m : SPVModule) (id : Nat) : Except Fault Nat := do
  let inst ← m.idAt id
  RDCASSERT (match inst with | some j => m.hasConstant j | none => false)
    (.UnresolvedReference id)
  deref inst

/-- The assignment `module.ids[id] = &op`, where `idx` is the index of `op`. -/
def SPVModule.assignId (m : SPVModule) (id idx : Nat) : Except Fault SPVModule :=
  if id < m.ids.length then .ok { m with ids := m.ids.set id (some idx) }
  else .error (.IdOutOfRange id)

/-- A write through an instruction pointer. -/
def SPVModule.modifyInst (m : SPVModule) (j : Nat) (f : SPVInstruction → SPVInstruction) :
    SPVModule :=
  { m with operations := m.operations.modify f j }

/-- A write through a `SPVBlock *`. -/
def SPVModule.modifyBlock (m : SPVModule) (j : Nat) (f : SPVBlock → SPVBlock) : SPVModule :=
  m.modifyInst j (fun inst => { inst with block := inst.block.map f })

/-- A write through a `SPVFunction *`. -/
def SPVModule.modifyFunc (m : SPVModule) (j : Nat) (f : SPVFunction → SPVFunction) :
    SPVModule :=
  m.modifyInst j (fun inst => { inst with func := inst.func.map f })

/-- The instruction `op` takes its final place at the end of `module.operations`. -/
def DecodeState.emit (s : DecodeState) (op : SPVInstruction) : DecodeState :=
  { s with module := { s.module with operations := s.module.operations ++ [op] } }

/-- The statements `curBlock->instructions.push_back(&op)`. -/
def DecodeState.appendToBlock (s : DecodeState) (idx : Nat) : Except Fault DecodeState :=
  match s.curBlock with
  | none => .error .NullPointer
  | some b =>
    .ok { s with
      module := s.module.modifyBlock b
        (fun blk => { blk with instructions := blk.instructions ++ [idx] }) }

/-- The statements `curBlock->exitFlow = &op; curBlock->instructions.push_back(&op);
curBlock = NULL;` of the terminators. -/
def DecodeState.closeBlock (s : DecodeState) (idx : Nat) : Except Fault DecodeState :=
  match s.curBlock with
  | none => .error .NullPointer
  | some b =>
    .ok { s with
      module := s.module.modifyBlock b
        (fun blk => { blk with exitFlow := some idx, instructions := blk.instructions ++ [idx] }),
      curBlock := none }

/-- The statements `curBlock->mergeFlow = &op; curBlock->instructions.push_back(&op);` of
the merge instructions. -/
def DecodeState.mergeBlock (s : DecodeState) (idx : Nat) : Except Fault DecodeState :=
  match s.curBlock with
  | none => .error .NullPointer
  | some b =>
    .ok { s with
      module := s.module.modifyBlock b
        (fun blk => { blk with mergeFlow := some idx, instructions := blk.instructions ++ [idx] }) }

/-- The words `spirv[off]`, ..., `spirv[off+n-1]`, read in this order. -/
def wordsFrom (spirv : List Nat) : Nat → Nat → Except Fault (List Nat)
  | 0, _ => .ok []
  | n + 1, off => do
    let w ← word spirv off
    let rest ← wordsFrom spirv n (off + 1)
    pure (w :: rest)

/-- The loop that resolves `n` consecutive operands from offset `off` as types. -/
def findTypes (m : SPVModule) (spirv : List Nat) : Nat → Nat → Except Fault (List Nat)
  | 0, _ => .ok []
  | n + 1, off => do
    let id ← word spirv off
    let j ← m.findType id
    let rest ← findTypes m spirv n (off + 1)
    pure (j :: rest)

/-- The loop that resolves `n` consecutive operands from offset `off` as constants. -/
def findConstants (m : SPVModule) (spirv : List Nat) : Nat → Nat → Except Fault (List Nat)
  | 0, _ => .ok []
  | n + 1, off => do
    let id ← word spirv off
    let j ← m.findConstant id
    let rest ← findConstants m spirv n (off + 1)
    pure (j :: rest)

/-- The loop that resolves `n` consecutive operands from offset `off` as instructions. -/
def findInsts (m : SPVModule) (spirv : List Nat) : Nat → Nat → Except Fault (List Nat)
  | 0, _ => .ok []
  | n + 1, off => do
    let id ← word spirv off
    let j ← m.findInst id
    let rest ← findInsts m spirv n (off + 1)
    pure (j :: rest)

/-- The loop `for(int i=start; i < WordCount; i++)` over the optional operands of `OpLoad`,
`OpStore` and `OpCopyMemory`, run for `n` more iterations from `i`: the last word of
the instruction is the access mask, a word before it reaches `RDCBREAK`. -/
def memoryAccess (spirv : List Nat) (it wc opcode : Nat) : Nat → Nat → Nat → Except Fault Nat
  | 0, _, access => .ok access
  | n + 1, i, _ =>
    if i = wc - 1 then do
      let w ← word spirv (it + i)
      memoryAccess spirv it wc opcode n (i + 1) w
    else do
      let _lit ← word spirv (it + i)
      RDCBREAK opcode

/-- The bodies of the `switch` of the structural pass: one label for each group
of `case` labels that share a body (named after the first of them), and `default` for every
other opcode. -/
inductive Pass1Case where
  | OpSource | OpMemoryModel | OpEntryPoint | OpExtInstImport | OpString | OpTypeVoid | OpTypeBool
  | OpTypeInt | OpTypeFloat | OpTypeVector | OpTypeArray | OpTypeStruct | OpTypePointer
  | OpTypeFunction | OpConstant | OpConstantComposite | OpFunction | OpFunctionEnd | OpVariable
  | OpLabel | OpKill | OpReturnValue | OpBranch | OpBranchConditional | OpSelectionMerge
  | OpAccessChain | OpLoad | OpStore | OpIAdd | default
  deriving DecidableEq, Repr

/-- The body of the `switch` of the structural pass that an opcode reaches. -/
def pass1Case : Op → Pass1Case
  | .OpSource => .OpSource
  | .OpMemoryModel => .OpMemoryModel
  | .OpEntryPoint => .OpEntryPoint
  | .OpExtInstImport => .OpExtInstImport
  | .OpString => .OpString
  | .OpTypeVoid => .OpTypeVoid
  | .OpTypeBool => .OpTypeBool
  | .OpTypeInt => .OpTypeInt
  | .OpTypeFloat => .OpTypeFloat
  | .OpTypeVector => .OpTypeVector
  | .OpTypeArray => .OpTypeArray
  | .OpTypeStruct => .OpTypeStruct
  | .OpTypePointer => .OpTypePointer
  | .OpTypeFunction => .OpTypeFunction
  | .OpConstant => .OpConstant
  | .OpConstantComposite => .OpConstantComposite
  | .OpFunction => .OpFunction
  | .OpFunctionEnd => .OpFunctionEnd
  | .OpVariable => .OpVariable
  | .OpLabel => .OpLabel
  | .OpKill | .OpUnreachable | .OpReturn => .OpKill
  | .OpReturnValue => .OpReturnValue
  | .OpBranch => .OpBranch
  | .OpBranchConditional => .OpBranchConditional
  | .OpSelectionMerge | .OpLoopMerge => .OpSelectionMerge
  | .OpAccessChain => .OpAccessChain
  | .OpLoad => .OpLoad
  | .OpStore | .OpCopyMemory => .OpStore
  | .OpIAdd | .OpIMul | .OpFAdd | .OpFMul | .OpSLessThan | .OpExtInst => .OpIAdd
  | _ => .default

/-- One iteration of the first `while` loop of `DisassembleSPIRV`, without the final
`it += WordCount`: the instruction whose header is at `it` is decoded into a new
`SPVInstruction` at the end of `module.operations`. -/
def decodeInstruction (X : Externals) (spirv : List Nat) (it : Nat) (s : DecodeState) :
    Except Fault DecodeState :=
  let wc := WordCount spirv it
  let m := s.module
  let idx := m.operations.length
  let op := SPVInstruction.new (OpCode spirv it)
  match pass1Case (X.opOf (OpCode spirv it)) with
  | .OpSource => do
    let lang ← word spirv (it + 1)
    let ver ← word spirv (it + 2)
    pure ({ s with module := { m with sourceLang := lang, sourceVer := ver } }.emit op)
  | .OpMemoryModel => do
    let addr ← word spirv (it + 1)
    let mem ← word spirv (it + 2)
    pure ({ s with module := { m with modelAddr := addr, modelMem := mem } }.emit op)
  | .OpEntryPoint => do
    let func ← word spirv (it + 2)
    let model ← word spirv (it + 1)
    pure ({ s with module := { m with entries := m.entries ++ [idx] } }.emit
      { op with entry := some { func := func, model := model } })
  | .OpExtInstImport => do
    let setname ← cString spirv (it + 2)
    let id ← word spirv (it + 1)
    let m1 ← m.assignId id idx
    pure ({ s with module := m1 }.emit
      { op with ext := some { setname := setname, instructions := setname == "GLSL.std.450" },
                id := id })
  | .OpString => do
    let str ← cString spirv (it + 2)
    let id ← word spirv (it + 1)
    let m1 ← m.assignId id idx
    pure ({ s with module := m1 }.emit { op with str := str, id := id })
  | .OpTypeVoid => do
    let id ← word spirv (it + 1)
    let m1 ← m.assignId id idx
    pure ({ s with module := m1 }.emit
      { op with type := some (SPVTypeData.new X .eVoid), id := id })
  | .OpTypeBool => do
    let id ← word spirv (it + 1)
    let m1 ← m.assignId id idx
    pure ({ s with module := m1 }.emit
      { op with type := some (SPVTypeData.new X .eBool), id := id })
  | .OpTypeInt => do
    let signedness ← word spirv (it + 3)
    let bits ← word spirv (it + 2)
    let id ← word spirv (it + 1)
    let m1 ← m.assignId id idx
    pure ({ s with module := m1 }.emit
      { op with
        type := some { SPVTypeData.new X (if signedness ≠ 0 then .eSInt else .eUInt) with
                       bitCount := bits },
        id := id })
  | .OpTypeFloat => do
    let bits ← word spirv (it + 2)
    let id ← word spirv (it + 1)
    let m1 ← m.assignId id idx
    pure ({ s with module := m1 }.emit
      { op with type := some { SPVTypeData.new X .eFloat with bitCount := bits }, id := id })
  | .OpTypeVector => do
    let baseId ← word spirv (it + 2)
    let base ← m.findType baseId
    let size ← word spirv (it + 3)
    let id ← word spirv (it + 1)
    let m1 ← m.assignId id idx
    pure ({ s with module := m1 }.emit
      { op with
        type := some { SPVTypeData.new X .eVector with baseType := some base, vectorSize := size },
        id := id })
  | .OpTypeArray => do
    let baseId ← word spirv (it + 2)
    let base ← m.findType baseId
    let size ← word spirv (it + 3)
    let id ← word spirv (it + 1)
    let m1 ← m.assignId id idx
    pure ({ s with module := m1 }.emit
      { op with
        type := some { SPVTypeData.new X .eArray with baseType := some base, arraySize := size },
        id := id })
  | .OpTypeStruct => do
    let members ← findTypes m spirv (wc - 2) (it + 2)
    let id ← word spirv (it + 1)
    let m1 ← m.assignId id idx
    pure ({ s with module := m1 }.emit
      { op with
        type := some { SPVTypeData.new X .eStruct with
                       children := members.map (fun j => (j, "")) },
        id := id })
  | .OpTypePointer => do
    let baseId ← word spirv (it + 3)
    let base ← m.findType baseId
    let storage ← word spirv (it + 2)
    let id ← word spirv (it + 1)
    let m1 ← m.assignId id idx
    pure ({ s with module := m1 }.emit
      { op with
        type := some { SPVTypeData.new X .ePointer with baseType := some base, storage := storage },
        id := id })
  | .OpTypeFunction => do
    let params ← findTypes m spirv (wc - 3) (it + 3)
    let retId ← word spirv (it + 2)
    let ret ← m.findType retId
    let id ← word spirv (it + 1)
    let m1 ← m.assignId id idx
    pure ({ s with module := m1 }.emit
      { op with
        type := some { SPVTypeData.new X .eFunction with
                       children := params.map (fun j => (j, "")), baseType := some ret },
        id := id })
  | .OpConstant => do
    let typeId ← word spirv (it + 1)
    let type ← m.findType typeId
    let u32 ← word spirv (it + 3)
    let u64 ←
      if wc > 3 then do
        RDCASSERT (wc ≤ 4) .AssertionFailed
        let lo ← word spirv (it + 3)
        let hi ← word spirv (it + 4)
        pure ((lo ||| (hi <<< 32)) % 2 ^ 64)
      else
        pure u32
    let id ← word spirv (it + 2)
    let m1 ← m.assignId id idx
    pure ({ s with module := m1 }.emit
      { op with constant := some { type := some type, u64 := u64, children := [] }, id := id })
  | .OpConstantComposite => do
    let typeId ← word spirv (it + 1)
    let type ← m.findType typeId
    let children ← findConstants m spirv (wc - 3) (it + 3)
    let id ← word spirv (it + 2)
    let m1 ← m.assignId id idx
    pure ({ s with module := m1 }.emit
      { op with constant := some { type := some type, u64 := 0, children := children },
                id := id })
  | .OpFunction => do
    let retId ← word spirv (it + 1)
    let ret ← m.findType retId
    let typeId ← word spirv (it + 4)
    let type ← m.findType typeId
    let control ← word spirv (it + 3)
    let id ← word spirv (it + 2)
    let m1 ← m.assignId id idx
    pure ({ s with module := m1, curFunc := some idx }.emit
      { op with
        func := some { retType := some ret, funcType := some type, control := control,
                       blocks := [], localVariables := [] },
        id := id })
  | .OpFunctionEnd =>
    pure ({ s with curFunc := none }.emit op)
  | .OpVariable => do
    let typeId ← word spirv (it + 1)
    let type ← m.findType typeId
    let storage ← word spirv (it + 3)
    let initialiser ←
      if wc > 4 then do
        let initId ← word spirv (it + 4)
        let init ← m.findConstant initId
        pure (some init)
      else
        pure none
    let m1 :=
      match s.curFunc with
      | some f => m.modifyFunc f (fun fn => { fn with localVariables := fn.localVariables ++ [idx] })
      | none => { m with globals := m.globals ++ [idx] }
    let id ← word spirv (it + 2)
    let m2 ← m1.assignId id idx
    pure ({ s with module := m2 }.emit
      { op with var := some { type := some type, storage := storage, initialiser := initialiser },
                id := id })
  | .OpLabel => do
    RDCASSERT s.curFunc.isSome .AssertionFailed
    let f ← deref s.curFunc
    let m1 := m.modifyFunc f (fun fn => { fn with blocks := fn.blocks ++ [idx] })
    let id ← word spirv (it + 1)
    let m2 ← m1.assignId id idx
    pure ({ s with module := m2, curBlock := some idx }.emit
      { op with block := some { instructions := [idx], mergeFlow := none, exitFlow := none },
                id := id })
  | .OpKill => do
    let s1 ← s.closeBlock idx
    pure (s1.emit { op with flow := some (SPVFlowControl.new X) })
  | .OpReturnValue => do
    let target ← word spirv (it + 1)
    let s1 ← s.closeBlock idx
    pure (s1.emit { op with flow := some { SPVFlowControl.new X with targets := [target] } })
  | .OpBranch => do
    let target ← word spirv (it + 1)
    let s1 ← s.closeBlock idx
    pure (s1.emit { op with flow := some { SPVFlowControl.new X with targets := [target] } })
  | .OpBranchConditional => do
    let condId ← word spirv (it + 1)
    let cond ← m.findInst condId
    let t ← word spirv (it + 2)
    let f ← word spirv (it + 3)
    let literals ←
      if wc = 6 then do
        let a ← word spirv (it + 4)
        let b ← word spirv (it + 5)
        pure [a, b]
      else
        pure []
    let s1 ← s.closeBlock idx
    pure (s1.emit
      { op with flow := some { SPVFlowControl.new X with
                               condition := some cond, targets := [t, f], literals := literals } })
  | .OpSelectionMerge => do
    let target ← word spirv (it + 1)
    let control ← word spirv (it + 2)
    let s1 ← s.mergeBlock idx
    pure (s1.emit
      { op with flow := some { SPVFlowControl.new X with targets := [target], control := control } })
  | .OpAccessChain => do
    let typeId ← word spirv (it + 1)
    let type ← m.findType typeId
    let baseId ← word spirv (it + 3)
    let base ← m.findInst baseId
    let literals ← wordsFrom spirv (wc - 4) (it + 4)
    let id ← word spirv (it + 2)
    let m1 ← m.assignId id idx
    let s1 ← { s with module := m1 }.appendToBlock idx
    pure (s1.emit
      { op with op := some { SPVOperation.new with
                             type := some type, arguments := [base], literals := literals },
                id := id })
  | .OpLoad => do
    let typeId ← word spirv (it + 1)
    let type ← m.findType typeId
    let ptrId ← word spirv (it + 3)
    let ptr ← m.findInst ptrId
    let access ← memoryAccess spirv it wc (OpCode spirv it) (wc - 4) 4 X.MemoryAccessMaskNone
    let id ← word spirv (it + 2)
    let m1 ← m.assignId id idx
    let s1 ← { s with module := m1 }.appendToBlock idx
    pure (s1.emit
      { op with op := some { SPVOperation.new with
                             type := some type, arguments := [ptr], access := some access },
                id := id })
  | .OpStore => do
    let ptrId ← word spirv (it + 1)
    let ptr ← m.findInst ptrId
    let valId ← word spirv (it + 2)
    let val ← m.findInst valId
    let access ← memoryAccess spirv it wc (OpCode spirv it) (wc - 3) 3 X.MemoryAccessMaskNone
    let s1 ← s.appendToBlock idx
    pure (s1.emit
      { op with op := some { SPVOperation.new with
                             type := none, arguments := [ptr, val], access := some access } })
  | .OpIAdd => do
    let typeId ← word spirv (it + 1)
    let type ← m.findType typeId
    let arguments ← findInsts m spirv (wc - 3) (it + 3)
    let id ← word spirv (it + 2)
    let m1 ← m.assignId id idx
    let s1 ← { s with module := m1 }.appendToBlock idx
    pure (s1.emit
      { op with op := some { SPVOperation.new with type := some type, arguments := arguments },
                id := id })
  | .default =>
    pure (s.emit op)

/-- The outcome of a scan that runs on fuel. -/
inductive Run (α : Type) where
  /-- The loop condition `it < spirv.size()` became false. -/
  | done (a : α)
  /-- An iteration stopped with a fault. -/
  | fault (e : Fault)
  /-- The fuel ran out before the end of the buffer was reached. -/
  | outOfFuel
  deriving DecidableEq, Repr

/-- The first `while(it < spirv.size())` loop of `DisassembleSPIRV`, from offset `it`. -/
def pass1 (X : Externals) (spirv : List Nat) : Nat → Nat → DecodeState → Run DecodeState
  | 0, it, s => if it < spirv.length then .outOfFuel else .done s
  | fuel + 1, it, s =>
    if it < spirv.length then
      match decodeInstruction X spirv it s with
      | .error e => .fault e
      | .ok s1 => pass1 X spirv fuel (it + WordCount spirv it) s1
    else .done s

/-! ## Pass 2: the annotation pass -/

/-- The test `inst->type && inst->type->type == SPVTypeData::eStruct` on the pointee of a
non-null instruction pointer. -/
def SPVModule.isStruct (m : SPVModule) (j : Nat) : Bool :=
  match m.operations[j]? with
  | some inst =>
    (match inst.type with
     | some t => t.type == TypeKind.eStruct
     | none => false)
  | none => false

/-- The value `inst->type->children.size()`. -/
def SPVModule.childCount (m : SPVModule) (j : Nat) : Nat :=
  match m.operations[j]? with
  | some inst =>
    (match inst.type with
     | some t => t.children.length
     | none => 0)
  | none => 0

/-- The value `inst->str`. -/
def SPVModule.strOf (m : SPVModule) (j : Nat) : String :=
  match m.operations[j]? with
  | some inst => inst.str
  | none => ""

/-- The bodies of the `switch` of the annotation pass: one label for each group
of `case` labels that share a body (named after the first of them), and `default` for every
other opcode. -/
inductive Pass2Case where
  | OpName | OpMemberName | OpLine | OpDecorate | OpMemberDecorate | default
  deriving DecidableEq, Repr

/-- The body of the `switch` of the annotation pass that an opcode reaches. -/
def pass2Case : Op → Pass2Case
  | .OpName => .OpName
  | .OpMemberName => .OpMemberName
  | .OpLine => .OpLine
  | .OpDecorate => .OpDecorate
  | .OpMemberDecorate | .OpGroupDecorate | .OpGroupMemberDecorate | .OpDecorationGroup => .OpMemberDecorate
  | _ => .default

/-- One iteration of the second `while` loop of `DisassembleSPIRV`, without the final
`it += WordCount`: names, member names, source lines and decorations are attached
to the instructions they target. -/
def annotateInstruction (X : Externals) (spirv : List Nat) (it : Nat) (m : SPVModule) :
    Except Fault SPVModule :=
  let wc := WordCount spirv it
  match pass2Case (X.opOf (OpCode spirv it)) with
  | .OpName => do
    let id ← word spirv (it + 1)
    let j ← m.findInst id
    let name ← cString spirv (it + 2)
    if m.hasType j then
      pure (m.modifyInst j
        (fun inst => { inst with type := inst.type.map (fun t => { t with name := name }) }))
    else
      pure (m.modifyInst j (fun inst => { inst with str := name }))
  | .OpMemberName => do
    let id ← word spirv (it + 1)
    let inst ← m.idAt id
    RDCASSERT (match inst with | some j => m.isStruct j | none => false)
      (.UnresolvedReference id)
    let j ← deref inst
    let memIdx ← word spirv (it + 2)
    RDCASSERT (memIdx < m.childCount j) .AssertionFailed
    let name ← cString spirv (it + 3)
    pure (m.modifyInst j
      (fun inst => { inst with
        type := inst.type.map
          (fun t => { t with children := t.children.modify (fun c => (c.1, name)) memIdx }) }))
  | .OpLine => do
    let id ← word spirv (it + 1)
    let j ← m.findInst id
    let fileId ← word spirv (it + 2)
    let k ← m.findInst fileId
    let line ← word spirv (it + 3)
    let col ← word spirv (it + 4)
    pure (m.modifyInst j
      (fun inst => { inst with
        sourceFilename := m.strOf k, sourceLine := line, sourceCol := col }))
  | .OpDecorate => do
    let id ← word spirv (it + 1)
    let j ← m.findInst id
    let decoration ← word spirv (it + 2)
    RDCASSERT (wc ≤ 3) .AssertionFailed
    let val ← if wc > 2 then word spirv (it + 3) else pure 0
    pure (m.modifyInst j
      (fun inst => { inst with
        decorations := inst.decorations ++ [{ decoration := decoration, val := val }] }))
  | .OpMemberDecorate =>
    RDCBREAK (OpCode spirv it)
  | .default =>
    pure m

/-- The second `while(it < spirv.size())` loop of `DisassembleSPIRV`, from offset `it`. -/
def pass2 (X : Externals) (spirv : List Nat) : Nat → Nat → SPVModule → Run SPVModule
  | 0, it, m => if it < spirv.length then .outOfFuel else .done m
  | fuel + 1, it, m =>
    if it < spirv.length then
      match annotateInstruction X spirv it m with
      | .error e => .fault e
      | .ok m1 => pass2 X spirv fuel (it + WordCount spirv it) m1
    else .done m

/-- The state in which the structural pass starts: an empty module with the stage,
the version, the generator and `bound` null entries in `ids`; no current function
and no current block. -/
def initialState (X : Externals) (shadType moduleVersion generator bound : Nat) : DecodeState :=
  { module := { SPVModule.new X with
                shadType := shadType, moduleVersion := moduleVersion, generator := generator,
                ids := List.replicate bound none },
    curFunc := none, curBlock := none }

/-- The part of `DisassembleSPIRV` that builds `module` once the magic number has been
accepted: the header words, the structural pass and the annotation pass. -/
def decode (X : Externals) (fuel shadType : Nat) (spirv : List Nat) : Run SPVModule :=
  match (do
      let moduleVersion ← word spirv 1
      let generator ← word spirv 2
      let bound ← word spirv 3
      let reserved ← word spirv 4
      RDCASSERT (reserved == 0) .AssertionFailed
      pure (initialState X shadType moduleVersion generator bound) : Except Fault DecodeState) with
  | .error e => .fault e
  | .ok s0 =>
    match pass1 X spirv fuel 5 s0 with
    | .fault e => .fault e
    | .outOfFuel => .outOfFuel
    | .done s1 => pass2 X spirv fuel 5 s1.module

/-! ## Pass 3: the name-collection pass -/

/-- The enumeration `BaseType` local to `DisassembleSPIRV`. -/
inductive BaseType where
  | eSPIRVTypeVoid | eSPIRVTypeBool | eSPIRVTypeFloat | eSPIRVTypeSInt32 | eSPIRVTypeUInt32
  deriving DecidableEq, Repr

/-- The tables that the name-collection pass fills: `resultnames`, `typeinfo` and `values`
(each of size `idbound`), `membernames` (each entry a pointer into the buffer, kept as
the offset of the word it points to, or null) and `decorations`. -/
structure NameState where
  resultnames : List String
  typeinfo : List BaseType
  values : List Nat
  membernames : List (Option Nat)
  decorations : List (Nat × String)
  deriving DecidableEq, Repr

/-- The read `table[i]` of a table indexed by ID. -/
def getAt {α : Type} (table : List α) (i : Nat) : Except Fault α :=
  match table[i]? with
  | some a => .ok a
  | none => .error (.IdOutOfRange i)

/-- The write `table[i] = a` of a table indexed by ID. -/
def setAt {α : Type} (table : List α) (i : Nat) (a : α) : Except Fault (List α) :=
  if i < table.length then .ok (table.set i a) else .error (.IdOutOfRange i)

/-- The literal of a constant of base type `type` with the 32-bit value `v`, as the
name-collection pass writes it for `OpConstant` and for each child of
`OpConstantComposite`. -/
def literalString (X : Externals) (type : BaseType) (v : Nat) : String :=
  match type with
  | .eSPIRVTypeBool => if v ≠ 0 then "true" else "false"
  | .eSPIRVTypeFloat => X.FmtFloat v
  | .eSPIRVTypeSInt32 => fmtD32 v
  | .eSPIRVTypeUInt32 => fmtU32 v
  | .eSPIRVTypeVoid => ""

/-- The loop of `OpTypeFunction` and `OpExtInst` that joins the names of the operands
`spirv[it+i]`, ..., `spirv[it+WordCount-1]` with `", "`, run for `n` more iterations from `i`. -/
def joinNames (resultnames : List String) (spirv : List Nat) (it wc : Nat) :
    Nat → Nat → Except Fault String
  | 0, _ => .ok ""
  | n + 1, i => do
    let id ← word spirv (it + i)
    let name ← getAt resultnames id
    let rest ← joinNames resultnames spirv it wc n (i + 1)
    pure (name ++ (if i + 1 < wc then ", " else "") ++ rest)

/-- The loop of `OpConstantComposite` that joins the literals of the children
`spirv[it+i]`, ..., `spirv[it+WordCount-1]` with `", "`, run for `n` more iterations from `i`. -/
def joinLiterals (X : Externals) (values : List Nat) (type : BaseType) (spirv : List Nat)
    (it wc : Nat) : Nat → Nat → Except Fault String
  | 0, _ => .ok ""
  | n + 1, i => do
    let val ← word spirv (it + i)
    let v ← if type = .eSPIRVTypeVoid then pure 0 else getAt values val
    let rest ← joinLiterals X values type spirv it wc n (i + 1)
    pure (literalString X type v ++ (if i + 1 < wc then ", " else "") ++ rest)

/-- The bodies of the `if`/`else if` chain of the name-collection pass: one label for each group
of `case` labels that share a body (named after the first of them), and `default` for every
other opcode. -/
inductive Pass3Case where
  | OpName | OpLabel | OpMemberName | OpDecorate | OpTypeVoid | OpTypeBool | OpTypeInt
  | OpTypeFloat | OpTypeVector | OpTypeArray | OpTypeStruct | OpTypePointer | OpTypeFunction
  | OpConstant | OpConstantComposite | default
  deriving DecidableEq, Repr

/-- The body of the `if`/`else if` chain of the name-collection pass that an opcode reaches. -/
def pass3Case : Op → Pass3Case
  | .OpName => .OpName
  | .OpLabel => .OpLabel
  | .OpMemberName => .OpMemberName
  | .OpDecorate => .OpDecorate
  | .OpTypeVoid => .OpTypeVoid
  | .OpTypeBool => .OpTypeBool
  | .OpTypeInt => .OpTypeInt
  | .OpTypeFloat => .OpTypeFloat
  | .OpTypeVector => .OpTypeVector
  | .OpTypeArray => .OpTypeArray
  | .OpTypeStruct => .OpTypeStruct
  | .OpTypePointer => .OpTypePointer
  | .OpTypeFunction => .OpTypeFunction
  | .OpConstant => .OpConstant
  | .OpConstantComposite => .OpConstantComposite
  | _ => .default

/-- One iteration of the third `while` loop of `DisassembleSPIRV`, without the final
`it += WordCount`. -/
def collectNames (X : Externals) (spirv : List Nat) (it : Nat) (ns : NameState) :
    Except Fault NameState :=
  let wc := WordCount spirv it
  match pass3Case (X.opOf (OpCode spirv it)) with
  | .OpName => do
    let name ← cString spirv (it + 2)
    let id ← word spirv (it + 1)
    let names ← setAt ns.resultnames id name
    pure { ns with resultnames := names }
  | .OpLabel => do
    let id ← word spirv (it + 1)
    let names ← setAt ns.resultnames id ("Label" ++ fmtU32 id)
    pure { ns with resultnames := names }
  | .OpMemberName => do
    let _id ← word spirv (it + 1)
    let memberIdx ← word spirv (it + 2)
    let resized := ns.membernames ++
      List.replicate (max ns.membernames.length (memberIdx + 1) - ns.membernames.length) none
    pure { ns with membernames := resized.set memberIdx (some (it + 3)) }
  | .OpDecorate => do
    let target ← word spirv (it + 1)
    let decoration ← word spirv (it + 2)
    pure { ns with decorations := ns.decorations ++ [(target, ToStrDecoration X decoration)] }
  | .OpTypeVoid => do
    let id ← word spirv (it + 1)
    let names ← setAt ns.resultnames id "void"
    let info ← setAt ns.typeinfo id .eSPIRVTypeVoid
    pure { ns with resultnames := names, typeinfo := info }
  | .OpTypeBool => do
    let id ← word spirv (it + 1)
    let names ← setAt ns.resultnames id "bool"
    let info ← setAt ns.typeinfo id .eSPIRVTypeBool
    pure { ns with resultnames := names, typeinfo := info }
  | .OpTypeInt => do
    let id ← word spirv (it + 1)
    let names ← setAt ns.resultnames id "int"
    let bits ← word spirv (it + 2)
    RDCASSERT (bits == 32) .AssertionFailed
    let signedness ← word spirv (it + 3)
    let info ← setAt ns.typeinfo id
      (if signedness ≠ 0 then .eSPIRVTypeSInt32 else .eSPIRVTypeUInt32)
    pure { ns with resultnames := names, typeinfo := info }
  | .OpTypeFloat => do
    let id ← word spirv (it + 1)
    let names ← setAt ns.resultnames id "float"
    let bits ← word spirv (it + 2)
    RDCASSERT (bits == 32) .AssertionFailed
    let info ← setAt ns.typeinfo id .eSPIRVTypeFloat
    pure { ns with resultnames := names, typeinfo := info }
  | .OpTypeVector => do
    let baseId ← word spirv (it + 2)
    let base ← getAt ns.resultnames baseId
    let size ← word spirv (it + 3)
    let id ← word spirv (it + 1)
    let names ← setAt ns.resultnames id (base ++ fmtU32 size)
    let baseInfo ← getAt ns.typeinfo baseId
    let info ← setAt ns.typeinfo id baseInfo
    pure { ns with resultnames := names, typeinfo := info }
  | .OpTypeArray => do
    let baseId ← word spirv (it + 2)
    let base ← getAt ns.resultnames baseId
    let lengthId ← word spirv (it + 3)
    let length ← getAt ns.values lengthId
    let id ← word spirv (it + 1)
    let names ← setAt ns.resultnames id (base ++ "[" ++ fmtU32 length ++ "]")
    let baseInfo ← getAt ns.typeinfo baseId
    let info ← setAt ns.typeinfo id baseInfo
    pure { ns with resultnames := names, typeinfo := info }
  | .OpTypeStruct => do
    let id ← word spirv (it + 1)
    let names ← setAt ns.resultnames id "struct"
    pure { ns with resultnames := names }
  | .OpTypePointer => do
    let id ← word spirv (it + 1)
    let _storage ← word spirv (it + 2)
    let baseType ← word spirv (it + 3)
    let base ← getAt ns.resultnames baseType
    let names ← setAt ns.resultnames id (base ++ "*")
    pure { ns with resultnames := names }
  | .OpTypeFunction => do
    let args ← joinNames ns.resultnames spirv it wc (wc - 3) 3
    let id ← word spirv (it + 1)
    let names ← setAt ns.resultnames id (if args = "" then "void" else args)
    pure { ns with resultnames := names }
  | .OpConstant => do
    let typeId ← word spirv (it + 1)
    let id ← word spirv (it + 2)
    let value ← word spirv (it + 3)
    let values ← setAt ns.values id value
    let type ← getAt ns.typeinfo typeId
    let typeName ← getAt ns.resultnames typeId
    let names ← setAt ns.resultnames id
      (typeName ++ "(" ++ literalString X type value ++ ")")
    pure { ns with resultnames := names, values := values }
  | .OpConstantComposite => do
    let typeId ← word spirv (it + 1)
    let id ← word spirv (it + 2)
    let type ← getAt ns.typeinfo typeId
    let lits ← joinLiterals X ns.values type spirv it wc (wc - 3) 3
    let typeName ← getAt ns.resultnames typeId
    let names ← setAt ns.resultnames id (typeName ++ "(" ++ lits ++ ")")
    pure { ns with resultnames := names }
  | .default =>
    pure ns

/-- The third `while(it < spirv.size())` loop of `DisassembleSPIRV`, from offset `it`. -/
def pass3 (X : Externals) (spirv : List Nat) : Nat → Nat → NameState → Run NameState
  | 0, it, ns => if it < spirv.length then .outOfFuel else .done ns
  | fuel + 1, it, ns =>
    if it < spirv.length then
      match collectNames X spirv it ns with
      | .error e => .fault e
      | .ok ns1 => pass3 X spirv fuel (it + WordCount spirv it) ns1
    else .done ns

/-- The tables before the name-collection pass: `resize(idbound)` on the three tables
indexed by ID, the other two empty. -/
def NameState.new (idbound : Nat) : NameState :=
  { resultnames := List.replicate idbound "",
    typeinfo := List.replicate idbound .eSPIRVTypeVoid,
    values := List.replicate idbound 0,
    membernames := [],
    decorations := [] }

/-- The loop `for(size_t i=0; i < resultnames.size(); i++)` that gives every ID without a
name the placeholder `{i}`; `i` is the index of the head of `names`. -/
def fillPlaceholders : Nat → List String → List String
  | _, [] => []
  | i, name :: rest =>
    (if name = "" then "\x7b" ++ fmtD32 i ++ "\x7d" else name) :: fillPlaceholders (i + 1) rest

/-! ## Pass 4: the render pass -/

/-- The variables that the render pass updates: the output `disasm`, `resultnames` (which
`OpExtInstImport` writes), `extensionSets` (the IDs of the sets whose name table is
`GLSL_STD_450_names`), `indent` (a string of spaces, kept as its length), `funcname`,
`flowstack` and the flag `variables`. -/
structure RenderState where
  disasm : String
  resultnames : List String
  extensionSets : List Nat
  indent : Nat
  funcname : String
  flowstack : List Nat
  variablesSeen : Bool
  deriving DecidableEq, Repr

/-- The statement `disasm += StringFormat::Fmt("%s%s\n", indent.c_str(), body.c_str())`. -/
def RenderState.emitLine (r : RenderState) (body : String) : RenderState :=
  { r with disasm := r.disasm ++ spaces r.indent ++ body ++ "\n" }

/-- The statement `indent.resize(indent.size() - tabSize)`. -/
def RenderState.unindent (r : RenderState) : Except Fault RenderState :=
  if 2 ≤ r.indent then .ok { r with indent := r.indent - 2 } else .error .IndentUnderflow

/-- The statement `indent.insert(indent.end(), tabSize, ' ')`. -/
def RenderState.indentMore (r : RenderState) : RenderState :=
  { r with indent := r.indent + 2 }

/-- The loop over `decorations` in the case `OpVariable`: the names of the decorations whose
target is `resultId`, each followed by a space. -/
def decorationsStr (decorations : List (Nat × String)) (resultId : Nat) : String :=
  decorations.foldl (fun acc d => if d.1 = resultId then acc ++ d.2 ++ " " else acc) ""

/-- The loop of the case `OpAccessChain` over the index operands `spirv[it+i]`, ...,
`spirv[it+WordCount-1]`, run for `n` more iterations from `i`; the result is the text
appended to `body`. An entry of `membernames` that is null is passed to `%s` as it is. -/
def accessChainSuffix (ns : NameState) (resultnames : List String) (spirv : List Nat)
    (it : Nat) : Nat → Nat → Except Fault String
  | 0, _ => .ok ""
  | n + 1, i => do
    let first ←
      if i = 4 then do
        let id ← word spirv (it + 4)
        let v ← getAt ns.values id
        pure (if v < ns.membernames.length then some v else none)
      else
        pure none
    let piece ←
      match first with
      | some v => do
        let p ← getAt ns.membernames v
        let name ←
          match p with
          | some off => cString spirv off
          | none => pure fmtNullString
        pure ("." ++ name)
      | none => do
        let id ← word spirv (it + i)
        let name ← getAt resultnames id
        pure ("[" ++ name ++ "]")
    let rest ← accessChainSuffix ns resultnames spirv it n (i + 1)
    pure (piece ++ rest)

/-- The loop of the case `OpExtInst` over `extensionSets`: each entry whose ID is `extset`
assigns entry `instruction` of its name table to `instructionName`. -/
def extInstName (X : Externals) (extset instruction : Nat) :
    List Nat → String → Except Fault String
  | [], name => .ok name
  | e :: rest, name =>
    if e = extset then
      match X.GLSL_STD_450_names[instruction]? with
      | some n => extInstName X extset instruction rest n
      | none => .error (.NameOutOfRange instruction)
    else extInstName X extset instruction rest name

/-- The loop of the `default` case over the operand words `spirv[it+i]`, ...,
`spirv[it+WordCount-1]`, run for `n` more iterations from `i`; the result is the text
appended to `body`. -/
def rawOperands (spirv : List Nat) (idbound it wc : Nat) : Nat → Nat → Except Fault String
  | 0, _ => .ok ""
  | n + 1, i => do
    let w ← word spirv (it + i)
    let rest ← rawOperands spirv idbound it wc n (i + 1)
    pure (" " ++ (if w ≤ idbound then fmtU32 w else fmtHashX w) ++
      (if i + 1 < wc then "," else "") ++ rest)

/-- The bodies of the first `switch` of the render pass: one label for each group of `case`
labels that share a body (named after the first of them), and `default` for every other
opcode. A shared body that tests the opcode again (`OpStore` and `OpCopyMemory`, the
arithmetic operators) has one label for each outcome of the test. -/
inductive Pass4Case where
  | OpSource | OpExtInstImport | OpMemoryModel | OpEntryPoint | OpVariable | OpFunction
  | OpFunctionEnd | OpAccessChain | OpLoad | OpStore | OpCopyMemory | OpName | OpIAdd | OpIMul
  | OpSLessThan | OpExtInst | OpReturn | OpSelectionMerge | OpLoopMerge | OpBranch
  | OpBranchConditional | OpLabel | default
  deriving DecidableEq, Repr

/-- The body of the first `switch` of the render pass that an opcode reaches. -/
def pass4Case : Op → Pass4Case
  | .OpSource => .OpSource
  | .OpExtInstImport => .OpExtInstImport
  | .OpMemoryModel => .OpMemoryModel
  | .OpEntryPoint => .OpEntryPoint
  | .OpVariable => .OpVariable
  | .OpFunction => .OpFunction
  | .OpFunctionEnd => .OpFunctionEnd
  | .OpAccessChain => .OpAccessChain
  | .OpLoad => .OpLoad
  | .OpStore => .OpStore
  | .OpCopyMemory => .OpCopyMemory
  | .OpName | .OpMemberName | .OpDecorate | .OpConstant | .OpConstantComposite | .OpTypeVoid | .OpTypeBool | .OpTypeInt | .OpTypeFloat | .OpTypeVector | .OpTypePointer | .OpTypeArray | .OpTypeStruct | .OpTypeFunction => .OpName
  | .OpIAdd | .OpFAdd => .OpIAdd
  | .OpIMul | .OpFMul => .OpIMul
  | .OpSLessThan => .OpSLessThan
  | .OpExtInst => .OpExtInst
  | .OpReturn => .OpReturn
  | .OpSelectionMerge => .OpSelectionMerge
  | .OpLoopMerge => .OpLoopMerge
  | .OpBranch => .OpBranch
  | .OpBranchConditional => .OpBranchConditional
  | .OpLabel => .OpLabel
  | _ => .default

/-- One iteration of the fourth `while` loop of `DisassembleSPIRV`, without the final
`it += WordCount`: the text of the instruction whose header is at `it` is appended to
`disasm`, unless the instruction is silent. The weighted form of `BranchConditional` calls
`StringFormat::Fmt` with the arguments in the order `a`, condition, true target, `b`, false
target for the format `"if(%s) goto %.2f%% %s, else goto %.2f%% %s"`; a variadic call hands
over floating-point and pointer arguments separately, so each conversion takes the next
argument of its own kind and the text is the one that the format describes. -/
def renderInstruction (X : Externals) (spirv : List Nat) (idbound : Nat) (ns : NameState)
    (it : Nat) (r : RenderState) : Except Fault RenderState :=
  let wc := WordCount spirv it
  match pass4Case (X.opOf (OpCode spirv it)) with
  | .OpSource => do
    let lang ← word spirv (it + 1)
    let ver ← word spirv (it + 2)
    pure (r.emitLine ("Source " ++ ToStrSourceLanguage X lang ++ " " ++ fmtD32 ver))
  | .OpExtInstImport => do
    let id ← word spirv (it + 1)
    let name ← cString spirv (it + 2)
    let names ← setAt r.resultnames id name
    let sets := if name = "GLSL.std.450" then r.extensionSets ++ [id] else r.extensionSets
    pure ({ r with resultnames := names, extensionSets := sets }.emitLine
      ("ExtInstImport " ++ name))
  | .OpMemoryModel => do
    let addr ← word spirv (it + 1)
    let mem ← word spirv (it + 2)
    pure (r.emitLine ("MemoryModel " ++ ToStrAddressingModel X addr ++ " Addressing, " ++
      ToStrMemoryModel X mem ++ " Memory model"))
  | .OpEntryPoint => do
    let func ← word spirv (it + 2)
    let name ← getAt r.resultnames func
    let model ← word spirv (it + 1)
    pure (r.emitLine ("EntryPoint = " ++ name ++ " (" ++ ToStrExecutionModel X model ++ ")"))
  | .OpVariable => do
    let r1 :=
      if r.variablesSeen then r
      else { r with variablesSeen := true, disasm := r.disasm ++ "\n" }
    let retType ← word spirv (it + 1)
    let resultId ← word spirv (it + 2)
    let control ← word spirv (it + 3)
    let initializer ← if wc > 4 then word spirv (it + 4) else pure (2 ^ 32 - 1)
    let typeName ← getAt r1.resultnames retType
    let name ← getAt r1.resultnames resultId
    let body := decorationsStr ns.decorations resultId ++ ToStrStorageClass X control ++ " " ++
      typeName ++ " " ++ name
    if initializer < idbound then do
      let init ← getAt r1.resultnames initializer
      pure (r1.emitLine (body ++ " = " ++ init))
    else
      pure (r1.emitLine body)
  | .OpFunction => do
    let retType ← word spirv (it + 1)
    let resultId ← word spirv (it + 2)
    let control ← word spirv (it + 3)
    let funcType ← word spirv (it + 4)
    let retName ← getAt r.resultnames retType
    let name ← getAt r.resultnames resultId
    let args ← getAt r.resultnames funcType
    let r1 := { r with disasm := r.disasm ++ "\n", funcname := name }
    pure (r1.emitLine (retName ++ " " ++ name ++ "(" ++ args ++ ") " ++
      OptionalFlagString (ToStrFunctionControlMask X) control ++ " \x7b")).indentMore
  | .OpFunctionEnd => do
    let body := "\x7d // end of " ++ r.funcname
    let r1 ← { r with funcname := "" }.unindent
    pure (r1.emitLine body)
  | .OpAccessChain => do
    let retType ← word spirv (it + 1)
    let resultId ← word spirv (it + 2)
    let base ← word spirv (it + 3)
    let typeName ← getAt r.resultnames retType
    let name ← getAt r.resultnames resultId
    let baseName ← getAt r.resultnames base
    let suffix ← accessChainSuffix ns r.resultnames spirv it (wc - 4) 4
    pure (r.emitLine (typeName ++ " " ++ name ++ " = " ++ baseName ++ suffix))
  | .OpLoad => do
    let retType ← word spirv (it + 1)
    let resultId ← word spirv (it + 2)
    let pointer ← word spirv (it + 3)
    let access ← memoryAccess spirv it wc (OpCode spirv it) (wc - 4) 4 X.MemoryAccessMaskNone
    let typeName ← getAt r.resultnames retType
    let name ← getAt r.resultnames resultId
    let ptrName ← getAt r.resultnames pointer
    pure (r.emitLine (typeName ++ " " ++ name ++ " = Load(" ++ ptrName ++ ") " ++
      OptionalFlagString (ToStrMemoryAccessMask X) access))
  | .OpStore => do
    let pointer ← word spirv (it + 1)
    let object ← word spirv (it + 2)
    let access ← memoryAccess spirv it wc (OpCode spirv it) (wc - 3) 3 X.MemoryAccessMaskNone
    let ptrName ← getAt r.resultnames pointer
    let objName ← getAt r.resultnames object
    pure (r.emitLine ("Store(" ++ ptrName ++ ") = " ++ objName ++ " " ++
      OptionalFlagString (ToStrMemoryAccessMask X) access))
  | .OpCopyMemory => do
    let pointer ← word spirv (it + 1)
    let object ← word spirv (it + 2)
    let access ← memoryAccess spirv it wc (OpCode spirv it) (wc - 3) 3 X.MemoryAccessMaskNone
    let ptrName ← getAt r.resultnames pointer
    let objName ← getAt r.resultnames object
    pure (r.emitLine ("Copy(" ++ ptrName ++ ") = Load(" ++ objName ++ ") " ++
      OptionalFlagString (ToStrMemoryAccessMask X) access))
  | .OpName =>
    pure r
  | .OpIAdd => do
    let retType ← word spirv (it + 1)
    let result ← word spirv (it + 2)
    let a ← word spirv (it + 3)
    let b ← word spirv (it + 4)
    let typeName ← getAt r.resultnames retType
    let name ← getAt r.resultnames result
    let aName ← getAt r.resultnames a
    let bName ← getAt r.resultnames b
    pure (r.emitLine (typeName ++ " " ++ name ++ " = " ++ aName ++ " + " ++ bName))
  | .OpIMul => do
    let retType ← word spirv (it + 1)
    let result ← word spirv (it + 2)
    let a ← word spirv (it + 3)
    let b ← word spirv (it + 4)
    let typeName ← getAt r.resultnames retType
    let name ← getAt r.resultnames result
    let aName ← getAt r.resultnames a
    let bName ← getAt r.resultnames b
    pure (r.emitLine (typeName ++ " " ++ name ++ " = " ++ aName ++ " * " ++ bName))
  | .OpSLessThan => do
    let retType ← word spirv (it + 1)
    let result ← word spirv (it + 2)
    let a ← word spirv (it + 3)
    let b ← word spirv (it + 4)
    let typeName ← getAt r.resultnames retType
    let name ← getAt r.resultnames result
    let aName ← getAt r.resultnames a
    let bName ← getAt r.resultnames b
    pure (r.emitLine (typeName ++ " " ++ name ++ " = " ++ aName ++ " < " ++ bName))
  | .OpExtInst => do
    let retType ← word spirv (it + 1)
    let result ← word spirv (it + 2)
    let extset ← word spirv (it + 3)
    let instruction ← word spirv (it + 4)
    let found ← extInstName X extset instruction r.extensionSets ""
    let instructionName := if found = "" then "Unknown" ++ fmtU32 instruction else found
    let args ← joinNames r.resultnames spirv it wc (wc - 5) 5
    let typeName ← getAt r.resultnames retType
    let name ← getAt r.resultnames result
    let setName ← getAt r.resultnames extset
    pure (r.emitLine (typeName ++ " " ++ name ++ " = " ++ setName ++ "::" ++ instructionName ++
      "(" ++ args ++ ")"))
  | .OpReturn =>
    pure (r.emitLine "Return")
  | .OpSelectionMerge => do
    let mergeLabel ← word spirv (it + 1)
    let control ← word spirv (it + 2)
    let name ← getAt r.resultnames mergeLabel
    pure ({ r with flowstack := r.flowstack ++ [mergeLabel] }.emitLine
      ("SelectionMerge " ++ name ++ " " ++
        OptionalFlagString (ToStrSelectionControlMask X) control)).indentMore
  | .OpLoopMerge => do
    let mergeLabel ← word spirv (it + 1)
    let control ← word spirv (it + 2)
    let name ← getAt r.resultnames mergeLabel
    pure ({ r with flowstack := r.flowstack ++ [mergeLabel] }.emitLine
      ("LoopMerge " ++ name ++ " " ++
        OptionalFlagString (ToStrLoopControlMask X) control)).indentMore
  | .OpBranch => do
    let target ← word spirv (it + 1)
    let name ← getAt r.resultnames target
    pure (r.emitLine ("goto " ++ name))
  | .OpBranchConditional => do
    let condition ← word spirv (it + 1)
    let truelabel ← word spirv (it + 2)
    let falselabel ← word spirv (it + 3)
    if wc = 4 then do
      let condName ← getAt r.resultnames condition
      let trueName ← getAt r.resultnames truelabel
      let falseName ← getAt r.resultnames falselabel
      pure (r.emitLine ("if(" ++ condName ++ ") goto " ++ trueName ++ ", else goto " ++
        falseName))
    else do
      let weightA ← word spirv (it + 4)
      let weightB ← word spirv (it + 5)
      let a := f32Div (f32OfU32 weightA) (f32OfU32 ((weightA + weightB) % 2 ^ 32))
      let b := f32Div (f32OfU32 weightB) (f32OfU32 ((weightA + weightB) % 2 ^ 32))
      let a := f32Mul a f32Hundred
      let b := f32Mul b f32Hundred
      let condName ← getAt r.resultnames condition
      let trueName ← getAt r.resultnames truelabel
      let falseName ← getAt r.resultnames falselabel
      pure (r.emitLine ("if(" ++ condName ++ ") goto " ++ fmtF32p2 a ++ "% " ++ trueName ++
        ", else goto " ++ fmtF32p2 b ++ "% " ++ falseName))
  | .OpLabel => do
    let id ← word spirv (it + 1)
    let name ← getAt r.resultnames id
    let r1 ← if r.flowstack.getLast? = some id then r.unindent else pure r
    pure (r1.emitLine (name ++ ":"))
  | .default => do
    let operands ← rawOperands spirv idbound it wc (wc - 1) 1
    pure (r.emitLine ("!" ++ ToStrOp X (OpCode spirv it) ++ operands))

/-- The fourth `while(it < spirv.size())` loop of `DisassembleSPIRV`, from offset `it`. -/
def pass4 (X : Externals) (spirv : List Nat) (idbound : Nat) (ns : NameState) :
    Nat → Nat → RenderState → Run RenderState
  | 0, it, r => if it < spirv.length then .outOfFuel else .done r
  | fuel + 1, it, r =>
    if it < spirv.length then
      match renderInstruction X spirv idbound ns it r with
      | .error e => .fault e
      | .ok r1 => pass4 X spirv idbound ns fuel (it + WordCount spirv it) r1
    else .done r

/-! ## The function `DisassembleSPIRV` -/

/-- How a call of `DisassembleSPIRV` ends. -/
inductive Outcome where
  /-- The stage is not a shader stage (`shadType >= eSPIRVInvalid`): the function returns
  without touching `disasm`. -/
  | skipped
  /-- The first word is not the magic number: `disasm` is set to the diagnostic text and
  the function returns. -/
  | MalformedInput (disasm : String)
  /-- The four scans ran to their end; `disasm` is the text and `module` the decoded
  module as it stands when the function returns. -/
  | finished (disasm : String) (module : SPVModule)
  /-- A scan stopped with a fault. -/
  | fault (e : Fault)
  /-- A scan did not reach the end of the buffer within the fuel. -/
  | outOfFuel
  deriving DecidableEq, Repr

/-- The function `DisassembleSPIRV(shadType, spirv, disasm)`; the result tells how the call
ends and what `disasm` then holds. Each of the four loops may run `fuel` iterations. -/
def DisassembleSPIRV (X : Externals) (fuel shadType : Nat) (spirv : List Nat)
    (disasm : String) : Outcome :=
  if shadType ≥ X.eSPIRVInvalid then .skipped
  else
    match word spirv 0 with
    | .error e => .fault e
    | .ok magic =>
      if magic ≠ X.MagicNumber then
        .MalformedInput ("Unrecognised magic number " ++ Fmt08x magic)
      else
        match decode X fuel shadType spirv with
        | .fault e => .fault e
        | .outOfFuel => .outOfFuel
        | .done module =>
          let idbound := module.ids.length
          match pass3 X spirv fuel 5 (NameState.new idbound) with
          | .fault e => .fault e
          | .outOfFuel => .outOfFuel
          | .done ns =>
            let r0 : RenderState :=
              { disasm := disasm, resultnames := fillPlaceholders 0 ns.resultnames,
                extensionSets := [], indent := 0, funcname := "", flowstack := [],
                variablesSeen := false }
            match pass4 X spirv idbound ns fuel 5 r0 with
            | .fault e => .fault e
            | .outOfFuel => .outOfFuel
            | .done r => .finished r.disasm module

/-! ## A sample instance of the headers -/

/-- The enumerators 0 to 31 of `spv::Op`, in the order in which
`ToStrHelper<false, spv::Op>::Get` lists them. -/
def opList0 : List Op :=
  [Op.OpNop, Op.OpSource, Op.OpSourceExtension, Op.OpExtension, Op.OpExtInstImport,
   Op.OpMemoryModel, Op.OpEntryPoint, Op.OpExecutionMode, Op.OpTypeVoid, Op.OpTypeBool,
   Op.OpTypeInt, Op.OpTypeFloat, Op.OpTypeVector, Op.OpTypeMatrix, Op.OpTypeSampler,
   Op.OpTypeFilter, Op.OpTypeArray, Op.OpTypeRuntimeArray, Op.OpTypeStruct, Op.OpTypeOpaque,
   Op.OpTypePointer, Op.OpTypeFunction, Op.OpTypeEvent, Op.OpTypeDeviceEvent, Op.OpTypeReserveId,
   Op.OpTypeQueue, Op.OpTypePipe, Op.OpConstantTrue, Op.OpConstantFalse, Op.OpConstant,
   Op.OpConstantComposite, Op.OpConstantSampler]

/-- The enumerators 32 to 63 of `spv::Op`, in the order in which
`ToStrHelper<false, spv::Op>::Get` lists them. -/
def opList1 : List Op :=
  [Op.OpConstantNullPointer, Op.OpConstantNullObject, Op.OpSpecConstantTrue,
   Op.OpSpecConstantFalse, Op.OpSpecConstant, Op.OpSpecConstantComposite, Op.OpVariable,
   Op.OpVariableArray, Op.OpFunction, Op.OpFunctionParameter, Op.OpFunctionEnd, Op.OpFunctionCall,
   Op.OpExtInst, Op.OpUndef, Op.OpLoad, Op.OpStore, Op.OpPhi, Op.OpDecorationGroup, Op.OpDecorate,
   Op.OpMemberDecorate, Op.OpGroupDecorate, Op.OpGroupMemberDecorate, Op.OpName, Op.OpMemberName,
   Op.OpString, Op.OpLine, Op.OpVectorExtractDynamic, Op.OpVectorInsertDynamic, Op.OpVectorShuffle,
   Op.OpCompositeConstruct, Op.OpCompositeExtract, Op.OpCompositeInsert]

/-- The enumerators 64 to 95 of `spv::Op`, in the order in which
`ToStrHelper<false, spv::Op>::Get` lists them. -/
def opList2 : List Op :=
  [Op.OpCopyObject, Op.OpCopyMemory, Op.OpCopyMemorySized, Op.OpSampler, Op.OpTextureSample,
   Op.OpTextureSampleDref, Op.OpTextureSampleLod, Op.OpTextureSampleProj, Op.OpTextureSampleGrad,
   Op.OpTextureSampleOffset, Op.OpTextureSampleProjLod, Op.OpTextureSampleProjGrad,
   Op.OpTextureSampleLodOffset, Op.OpTextureSampleProjOffset, Op.OpTextureSampleGradOffset,
   Op.OpTextureSampleProjLodOffset, Op.OpTextureSampleProjGradOffset, Op.OpTextureFetchTexelLod,
   Op.OpTextureFetchTexelOffset, Op.OpTextureFetchSample, Op.OpTextureFetchTexel,
   Op.OpTextureGather, Op.OpTextureGatherOffset, Op.OpTextureGatherOffsets,
   Op.OpTextureQuerySizeLod, Op.OpTextureQuerySize, Op.OpTextureQueryLod, Op.OpTextureQueryLevels,
   Op.OpTextureQuerySamples, Op.OpAccessChain, Op.OpInBoundsAccessChain, Op.OpSNegate]

/-- The enumerators 96 to 127 of `spv::Op`, in the order in which
`ToStrHelper<false, spv::Op>::Get` lists them. -/
def opList3 : List Op :=
  [Op.OpFNegate, Op.OpNot, Op.OpAny, Op.OpAll, Op.OpConvertFToU, Op.OpConvertFToS,
   Op.OpConvertSToF, Op.OpConvertUToF, Op.OpUConvert, Op.OpSConvert, Op.OpFConvert,
   Op.OpConvertPtrToU, Op.OpConvertUToPtr, Op.OpPtrCastToGeneric, Op.OpGenericCastToPtr,
   Op.OpBitcast, Op.OpTranspose, Op.OpIsNan, Op.OpIsInf, Op.OpIsFinite, Op.OpIsNormal,
   Op.OpSignBitSet, Op.OpLessOrGreater, Op.OpOrdered, Op.OpUnordered, Op.OpArrayLength, Op.OpIAdd,
   Op.OpFAdd, Op.OpISub, Op.OpFSub, Op.OpIMul, Op.OpFMul]

/-- The enumerators 128 to 159 of `spv::Op`, in the order in which
`ToStrHelper<false, spv::Op>::Get` lists them. -/
def opList4 : List Op :=
  [Op.OpUDiv, Op.OpSDiv, Op.OpFDiv, Op.OpUMod, Op.OpSRem, Op.OpSMod, Op.OpFRem, Op.OpFMod,
   Op.OpVectorTimesScalar, Op.OpMatrixTimesScalar, Op.OpVectorTimesMatrix, Op.OpMatrixTimesVector,
   Op.OpMatrixTimesMatrix, Op.OpOuterProduct, Op.OpDot, Op.OpShiftRightLogical,
   Op.OpShiftRightArithmetic, Op.OpShiftLeftLogical, Op.OpLogicalOr, Op.OpLogicalXor,
   Op.OpLogicalAnd, Op.OpBitwiseOr, Op.OpBitwiseXor, Op.OpBitwiseAnd, Op.OpSelect, Op.OpIEqual,
   Op.OpFOrdEqual, Op.OpFUnordEqual, Op.OpINotEqual, Op.OpFOrdNotEqual, Op.OpFUnordNotEqual,
   Op.OpULessThan]

/-- The enumerators 160 to 191 of `spv::Op`, in the order in which
`ToStrHelper<false, spv::Op>::Get` lists them. -/
def opList5 : List Op :=
  [Op.OpSLessThan, Op.OpFOrdLessThan, Op.OpFUnordLessThan, Op.OpUGreaterThan, Op.OpSGreaterThan,
   Op.OpFOrdGreaterThan, Op.OpFUnordGreaterThan, Op.OpULessThanEqual, Op.OpSLessThanEqual,
   Op.OpFOrdLessThanEqual, Op.OpFUnordLessThanEqual, Op.OpUGreaterThanEqual,
   Op.OpSGreaterThanEqual, Op.OpFOrdGreaterThanEqual, Op.OpFUnordGreaterThanEqual, Op.OpDPdx,
   Op.OpDPdy, Op.OpFwidth, Op.OpDPdxFine, Op.OpDPdyFine, Op.OpFwidthFine, Op.OpDPdxCoarse,
   Op.OpDPdyCoarse, Op.OpFwidthCoarse, Op.OpEmitVertex, Op.OpEndPrimitive, Op.OpEmitStreamVertex,
   Op.OpEndStreamPrimitive, Op.OpControlBarrier, Op.OpMemoryBarrier, Op.OpImagePointer,
   Op.OpAtomicInit]

/-- The enumerators 192 to 223 of `spv::Op`, in the order in which
`ToStrHelper<false, spv::Op>::Get` lists them. -/
def opList6 : List Op :=
  [Op.OpAtomicLoad, Op.OpAtomicStore, Op.OpAtomicExchange, Op.OpAtomicCompareExchange,
   Op.OpAtomicCompareExchangeWeak, Op.OpAtomicIIncrement, Op.OpAtomicIDecrement, Op.OpAtomicIAdd,
   Op.OpAtomicISub, Op.OpAtomicUMin, Op.OpAtomicUMax, Op.OpAtomicAnd, Op.OpAtomicOr,
   Op.OpAtomicXor, Op.OpLoopMerge, Op.OpSelectionMerge, Op.OpLabel, Op.OpBranch,
   Op.OpBranchConditional, Op.OpSwitch, Op.OpKill, Op.OpReturn, Op.OpReturnValue, Op.OpUnreachable,
   Op.OpLifetimeStart, Op.OpLifetimeStop, Op.OpCompileFlag, Op.OpAsyncGroupCopy,
   Op.OpWaitGroupEvents, Op.OpGroupAll, Op.OpGroupAny, Op.OpGroupBroadcast]

/-- The enumerators 224 to 255 of `spv::Op`, in the order in which
`ToStrHelper<false, spv::Op>::Get` lists them. -/
def opList7 : List Op :=
  [Op.OpGroupIAdd, Op.OpGroupFAdd, Op.OpGroupFMin, Op.OpGroupUMin, Op.OpGroupSMin, Op.OpGroupFMax,
   Op.OpGroupUMax, Op.OpGroupSMax, Op.OpGenericCastToPtrExplicit, Op.OpGenericPtrMemSemantics,
   Op.OpReadPipe, Op.OpWritePipe, Op.OpReservedReadPipe, Op.OpReservedWritePipe,
   Op.OpReserveReadPipePackets, Op.OpReserveWritePipePackets, Op.OpCommitReadPipe,
   Op.OpCommitWritePipe, Op.OpIsValidReserveId, Op.OpGetNumPipePackets, Op.OpGetMaxPipePackets,
   Op.OpGroupReserveReadPipePackets, Op.OpGroupReserveWritePipePackets, Op.OpGroupCommitReadPipe,
   Op.OpGroupCommitWritePipe, Op.OpEnqueueMarker, Op.OpEnqueueKernel,
   Op.OpGetKernelNDrangeSubGroupCount, Op.OpGetKernelNDrangeMaxSubGroupSize,
   Op.OpGetKernelWorkGroupSize, Op.OpGetKernelPreferredWorkGroupSizeMultiple, Op.OpRetainEvent]

/-- The enumerators 256 to 266 of `spv::Op`, in the order in which
`ToStrHelper<false, spv::Op>::Get` lists them. -/
def opList8 : List Op :=
  [Op.OpReleaseEvent, Op.OpCreateUserEvent, Op.OpIsValidEvent, Op.OpSetUserEventStatus,
   Op.OpCaptureEventProfilingInfo, Op.OpGetDefaultQueue, Op.OpBuildNDRange, Op.OpSatConvertSToU,
   Op.OpSatConvertUToS, Op.OpAtomicIMin, Op.OpAtomicIMax]

/-- The enumerators of `spv::Op` in the order in which `ToStrHelper<false, spv::Op>::Get` lists
them. -/
def opList : List Op :=
  opList0 ++ opList1 ++ opList2 ++ opList3 ++ opList4 ++ opList5 ++ opList6 ++ opList7 ++ opList8

/-- A sample instance of `Externals`, used to run the definitions on concrete
buffers: the magic number of SPIR-V, the opcodes numbered by their position in
`opList`, six shader stages, no other enumerator recognised, zero for every
default enumerator, the mask bits one, two, four and eight, no names of
extended instructions and no text for a `float`. -/
def sampleExternals : Externals :=
  { MagicNumber := 0x07230203,
    opOf := fun n => opList.getD n .Unrecognised,
    sourceLanguageOf := fun _ => .Unrecognised,
    addressingModelOf := fun _ => .Unrecognised,
    memoryModelOf := fun _ => .Unrecognised,
    executionModelOf := fun _ => .Unrecognised,
    decorationOf := fun _ => .Unrecognised,
    storageClassOf := fun _ => .Unrecognised,
    eSPIRVInvalid := 6,
    StorageClassUniformConstant := 0,
    DecorationPrecisionLow := 0,
    ExecutionModelVertex := 0,
    SourceLanguageUnknown := 0,
    AddressingModelLogical := 0,
    MemoryModelSimple := 0,
    SelectionControlMaskNone := 0,
    FunctionControlMaskNone := 0,
    MemoryAccessMaskNone := 0,
    FunctionControlInlineMask := 1,
    FunctionControlDontInlineMask := 2,
    FunctionControlPureMask := 4,
    FunctionControlConstMask := 8,
    SelectionControlFlattenMask := 1,
    SelectionControlDontFlattenMask := 2,
    LoopControlUnrollMask := 1,
    LoopControlDontUnrollMask := 2,
    MemoryAccessVolatileMask := 1,
    MemoryAccessAlignedMask := 2,
    GLSL_STD_450_names := [],
    FmtFloat := fun _ => "" }

/-- The header word of an instruction with word count `wc` and opcode `opcode`. -/
def headerWord (wc opcode : Nat) : Nat := wc * 65536 + opcode

/-! ## Definitions used by the statements -/

/-- The value of a lowercase hexadecimal digit. -/
def hexValue (c : Char) : Nat :=
  if c.toNat < 58 then c.toNat - 48 else c.toNat - 87

/-- The classes of opcodes that the structural pass treats alike as far as the current
function, the current block and the earlier instructions are concerned. -/
inductive OpClass where
  | label | terminator | merge | operation | function | functionEnd | variableDecl | other
  deriving DecidableEq, Repr

/-- The class of a body of the `switch` of the structural pass. -/
def classify : Pass1Case → OpClass
  | .OpLabel => .label
  | .OpKill | .OpReturnValue | .OpBranch | .OpBranchConditional => .terminator
  | .OpSelectionMerge => .merge
  | .OpAccessChain | .OpLoad | .OpStore | .OpIAdd => .operation
  | .OpFunction => .function
  | .OpFunctionEnd => .functionEnd
  | .OpVariable => .variableDecl
  | _ => .other

/-- The class of the instruction whose header is at `it`. -/
def classAt (X : Externals) (spirv : List Nat) (it : Nat) : OpClass :=
  classify (pass1Case (X.opOf (OpCode spirv it)))

/-- The write `curBlock->instructions.push_back(&op)` seen on an instruction. -/
def pushInstruction (idx : Nat) (inst : SPVInstruction) : SPVInstruction :=
  { inst with
    block := inst.block.map (fun blk => { blk with instructions := blk.instructions ++ [idx] }) }

/-- The writes of a terminator to its block, seen on an instruction. -/
def setExit (idx : Nat) (inst : SPVInstruction) : SPVInstruction :=
  { inst with
    block := inst.block.map
      (fun blk => { blk with exitFlow := some idx, instructions := blk.instructions ++ [idx] }) }

/-- The writes of a merge instruction to its block, seen on an instruction. -/
def setMerge (idx : Nat) (inst : SPVInstruction) : SPVInstruction :=
  { inst with
    block := inst.block.map
      (fun blk => { blk with mergeFlow := some idx, instructions := blk.instructions ++ [idx] }) }

/-- The write `curFunc->blocks.push_back(&op)` seen on an instruction. -/
def pushBlock (idx : Nat) (inst : SPVInstruction) : SPVInstruction :=
  { inst with func := inst.func.map (fun fn => { fn with blocks := fn.blocks ++ [idx] }) }

/-- The write `curFunc->variables.push_back(&op)` seen on an instruction. -/
def pushVariable (idx : Nat) (inst : SPVInstruction) : SPVInstruction :=
  { inst with
    func := inst.func.map (fun fn => { fn with localVariables := fn.localVariables ++ [idx] }) }

/-- The class of an instruction. -/
def classOf (X : Externals) (inst : SPVInstruction) : OpClass :=
  classify (pass1Case (X.opOf inst.opcode))

/-- What the invariants of the structural pass look at: the class and the block of every
instruction, the block list of every function, and the two cursors. -/
structure Abs where
  cls : List OpClass
  blks : List (Option SPVBlock)
  fblocks : List (Option (List Nat))
  curFunc : Option Nat
  curBlock : Option Nat

/-- The view of a state of the structural pass. -/
def absOf (X : Externals) (s : DecodeState) : Abs :=
  { cls := s.module.operations.map (classOf X),
    blks := s.module.operations.map (fun inst => inst.block),
    fblocks := s.module.operations.map (fun inst => inst.func.map (fun fn => fn.blocks)),
    curFunc := s.curFunc,
    curBlock := s.curBlock }

/-- The block after `curBlock->instructions.push_back(&op)`. -/
def SPVBlock.push (idx : Nat) (blk : SPVBlock) : SPVBlock :=
  { blk with instructions := blk.instructions ++ [idx] }

/-- The block after the writes of a terminator. -/
def SPVBlock.close (idx : Nat) (blk : SPVBlock) : SPVBlock :=
  { blk with exitFlow := some idx, instructions := blk.instructions ++ [idx] }

/-- The block after the writes of a merge instruction. -/
def SPVBlock.merge (idx : Nat) (blk : SPVBlock) : SPVBlock :=
  { blk with mergeFlow := some idx, instructions := blk.instructions ++ [idx] }

/-- One step of the structural pass on the view, for an instruction of class `c`. -/
def AbsStep (c : OpClass) (a a1 : Abs) : Prop :=
  a1.cls = a.cls ++ [c] ∧
  match c with
  | .other | .variableDecl =>
    a1.blks = a.blks ++ [none] ∧ a1.fblocks = a.fblocks ++ [none] ∧
      a1.curFunc = a.curFunc ∧ a1.curBlock = a.curBlock
  | .function =>
    a1.blks = a.blks ++ [none] ∧ a1.fblocks = a.fblocks ++ [some []] ∧
      a1.curFunc = some a.cls.length ∧ a1.curBlock = a.curBlock
  | .functionEnd =>
    a1.blks = a.blks ++ [none] ∧ a1.fblocks = a.fblocks ++ [none] ∧
      a1.curFunc = none ∧ a1.curBlock = a.curBlock
  | .label =>
    ∃ f, a.curFunc = some f ∧
      a1.blks = a.blks ++
        [some { instructions := [a.cls.length], mergeFlow := none, exitFlow := none }] ∧
      a1.fblocks = a.fblocks.modify (Option.map (fun bl => bl ++ [a.cls.length])) f ++ [none] ∧
      a1.curFunc = some f ∧ a1.curBlock = some a.cls.length
  | .terminator =>
    ∃ b, a.curBlock = some b ∧
      a1.blks = a.blks.modify (Option.map (SPVBlock.close a.cls.length)) b ++ [none] ∧
      a1.fblocks = a.fblocks ++ [none] ∧ a1.curFunc = a.curFunc ∧ a1.curBlock = none
  | .merge =>
    ∃ b, a.curBlock = some b ∧
      a1.blks = a.blks.modify (Option.map (SPVBlock.merge a.cls.length)) b ++ [none] ∧
      a1.fblocks = a.fblocks ++ [none] ∧ a1.curFunc = a.curFunc ∧ a1.curBlock = some b
  | .operation =>
    ∃ b, a.curBlock = some b ∧
      a1.blks = a.blks.modify (Option.map (SPVBlock.push a.cls.length)) b ++ [none] ∧
      a1.fblocks = a.fblocks ++ [none] ∧ a1.curFunc = a.curFunc ∧ a1.curBlock = some b

/-- What holds of the block of the instruction `j`: it belongs to a label, its list starts
with that label and holds indices of instructions; without an exit instruction the list
holds no terminator, with one the list ends with it and holds no other terminator; the
merge instruction, if any, is a merge instruction of the list. -/
def BlockOK (cls : List OpClass) (j : Nat) (blk : SPVBlock) : Prop :=
  cls[j]? = some .label ∧
  (∃ rest, blk.instructions = j :: rest) ∧
  (∀ k ∈ blk.instructions, k < cls.length) ∧
  (match blk.exitFlow with
   | none => ∀ k ∈ blk.instructions, cls[k]? ≠ some .terminator
   | some e => ∃ pre, blk.instructions = pre ++ [e] ∧ cls[e]? = some .terminator ∧
       ∀ k ∈ pre, cls[k]? ≠ some .terminator) ∧
  (∀ m, blk.mergeFlow = some m → m ∈ blk.instructions ∧ cls[m]? = some .merge)

/-- The invariant of the structural pass on blocks. -/
structure BlockInv (a : Abs) : Prop where
  len : a.blks.length = a.cls.length
  blocks : ∀ j blk, a.blks[j]? = some (some blk) → BlockOK a.cls j blk
  labels : ∀ j : Nat, a.cls[j]? = some OpClass.label → ∃ blk, a.blks[j]? = some (some blk)
  cur : ∀ b, a.curBlock = some b → ∃ blk, a.blks[b]? = some (some blk) ∧ blk.exitFlow = none

/-- Whether an instruction of this class opens or closes a function. -/
def isBoundary : OpClass → Bool
  | .function | .functionEnd => true
  | _ => false

/-- The indices of the labels of a list of classes up to its first `Function` or `FunctionEnd`;
`j` is the index of the head of the list. -/
def labelsUntil : List OpClass → Nat → List Nat
  | [], _ => []
  | c :: rest, j =>
    match c with
    | .function | .functionEnd => []
    | .label => j :: labelsUntil rest (j + 1)
    | _ => labelsUntil rest (j + 1)

/-- The invariant of the structural pass on functions: the block list of a function holds
the labels that follow it up to the next `Function` or `FunctionEnd`; the current function is
a function that no `Function` or `FunctionEnd` follows, and every other function is followed
by one. -/
structure FuncInv (a : Abs) : Prop where
  len : a.fblocks.length = a.cls.length
  funcs : ∀ k, a.cls[k]? = some .function →
    a.fblocks[k]? = some (some (labelsUntil (a.cls.drop (k + 1)) (k + 1)))
  cur : ∀ f, a.curFunc = some f →
    a.cls[f]? = some .function ∧ ∀ c ∈ a.cls.drop (f + 1), isBoundary c = false
  closed : ∀ k, a.cls[k]? = some .function → a.curFunc ≠ some k →
    ∃ c ∈ a.cls.drop (k + 1), isBoundary c = true

/-- What the annotation pass leaves alone in an instruction: the opcode, the block and the
function. -/
def skel (inst : SPVInstruction) : Nat × Option SPVBlock × Option SPVFunction :=
  (inst.opcode, inst.block, inst.func)

/-- The view of a decoded module: the state that holds it, with both cursors null. -/
def absOfModule (X : Externals) (m : SPVModule) : Abs :=
  absOf X { module := m, curFunc := none, curBlock := none }

/-- Whether an opcode is one of the terminators of the structural pass. -/
def isTerminator : Op → Bool
  | .OpKill | .OpUnreachable | .OpReturn | .OpReturnValue | .OpBranch | .OpBranchConditional => true
  | _ => false

/-- Whether an opcode is one of the two merge instructions. -/
def isMerge : Op → Bool
  | .OpSelectionMerge | .OpLoopMerge => true
  | _ => false

/-- Whether the structural pass appends an instruction with this opcode to the current
block through `curBlock`. -/
def appendsToBlock : Op → Bool
  | .OpKill | .OpUnreachable | .OpReturn | .OpReturnValue | .OpBranch | .OpBranchConditional
  | .OpSelectionMerge | .OpLoopMerge
  | .OpAccessChain | .OpLoad | .OpStore | .OpCopyMemory
  | .OpIAdd | .OpIMul | .OpFAdd | .OpFMul | .OpSLessThan | .OpExtInst => true
  | _ => false

/-- Whether a fault is one that the program raises itself (an `RDCASSERT` or an `RDCBREAK`), as
opposed to an unguarded access. -/
def Fault.isFlagged : Fault → Bool
  | .UnresolvedReference _ | .UnsupportedOpcode _ | .AssertionFailed => true
  | _ => false

/-- The indices of the `Label` instructions of a list of instructions up to its first
`Function` or `FunctionEnd` (or its end); `j` is the index of the head of the list. -/
def labelsUntilBoundary (X : Externals) : List SPVInstruction → Nat → List Nat
  | [], _ => []
  | inst :: rest, j =>
    match X.opOf inst.opcode with
    | .OpFunction | .OpFunctionEnd => []
    | .OpLabel => j :: labelsUntilBoundary X rest (j + 1)
    | _ => labelsUntilBoundary X rest (j + 1)

/-- The indices of the `Label` instructions of a list of instructions up to its first
`FunctionEnd` (or its end), as claim C10 words it; `j` is the index of the head of the list. -/
def labelsUntilFunctionEnd (X : Externals) : List SPVInstruction → Nat → List Nat
  | [], _ => []
  | inst :: rest, j =>
    match X.opOf inst.opcode with
    | .OpFunctionEnd => []
    | .OpLabel => j :: labelsUntilFunctionEnd X rest (j + 1)
    | _ => labelsUntilFunctionEnd X rest (j + 1)

/-- The segmentation of the instruction stream as claim C3 words it: the header offsets
visited from `it`, the next header being at `it + (h >> 16)` for the header word `h` at `it`; at
most `fuel` headers. -/
def headerOffsets (spirv : List Nat) : Nat → Nat → List Nat
  | 0, _ => []
  | fuel + 1, it =>
    if it < spirv.length then
      it :: headerOffsets spirv fuel (it + ((spirv[it]?.getD 0) >>> 16))
    else []

/-- The Type that an ID names: the instruction that `ids` assigns to the ID, provided that
instruction defines a type. -/
def SPVModule.typeNamedBy (m : SPVModule) (id : Nat) : Option Nat :=
  match m.ids[id]? with
  | some (some j) => if m.hasType j then some j else none
  | _ => none

/-- The `n` operand words from offset `off` on. -/
def operandIds (spirv : List Nat) (off n : Nat) : List Nat :=
  (spirv.drop off).take n

/-- Whether a body of the structural pass declares a composite type. -/
def isCompositeType : Pass1Case → Bool
  | .OpTypeVector | .OpTypeArray | .OpTypePointer | .OpTypeStruct | .OpTypeFunction => true
  | _ => false

/-- The least word count of a composite type declaration. -/
def minWordCount : Pass1Case → Nat
  | .OpTypeStruct => 2
  | .OpTypeFunction => 3
  | _ => 4

/-- The member (or parameter) type operands of the composite type declaration at `it`. -/
def memberOperands (k : Pass1Case) (spirv : List Nat) (it : Nat) : List Nat :=
  match k with
  | .OpTypeStruct => operandIds spirv (it + 2) (WordCount spirv it - 2)
  | .OpTypeFunction => operandIds spirv (it + 3) (WordCount spirv it - 3)
  | _ => []

/-- The base type (or return type) operand of the composite type declaration at `it`. -/
def baseOperand (k : Pass1Case) (spirv : List Nat) (it : Nat) : Option Nat :=
  match k with
  | .OpTypeVector | .OpTypeArray | .OpTypeFunction => spirv[it + 2]?
  | .OpTypePointer => spirv[it + 3]?
  | _ => none

/-- Whether the string that starts at word `off` has its zero byte inside the buffer. -/
def stringEnds (spirv : List Nat) (off : Nat) : Bool :=
  (takeUntilZero ((spirv.drop off).flatMap wordBytes)).isSome

/-- The number of words, from the header on, that the structural pass reads of an
instruction with word count `wc` (a string operand apart, which is read up to its zero
byte). -/
def footprint1 (k : Pass1Case) (wc : Nat) : Nat :=
  match k with
  | .OpSource | .OpMemoryModel | .OpEntryPoint => 3
  | .OpExtInstImport | .OpString => 2
  | .OpTypeVoid | .OpTypeBool => 2
  | .OpTypeInt => 4
  | .OpTypeFloat => 3
  | .OpTypeVector | .OpTypeArray | .OpTypePointer => 4
  | .OpTypeStruct => max 2 wc
  | .OpTypeFunction => max 3 wc
  | .OpConstant => if wc > 3 then 5 else 4
  | .OpConstantComposite => max 3 wc
  | .OpFunction => 5
  | .OpFunctionEnd => 1
  | .OpVariable => if wc > 4 then 5 else 4
  | .OpLabel => 2
  | .OpKill => 1
  | .OpReturnValue | .OpBranch => 2
  | .OpBranchConditional => if wc = 6 then 6 else 4
  | .OpSelectionMerge => 3
  | .OpAccessChain => max 4 wc
  | .OpLoad => if wc > 4 then 5 else 4
  | .OpStore => if wc > 3 then 4 else 3
  | .OpIAdd => max 3 wc
  | .default => 1

/-- Whether the structural pass reads a string operand of the instruction. -/
def readsString1 : Pass1Case → Bool
  | .OpExtInstImport | .OpString => true
  | _ => false

/-- A computation that does not stop on a read of the word buffer past its end. -/
def NoOverrun {α : Type} (x : Except Fault α) : Prop :=
  ∀ o, x ≠ .error (.WordOutOfRange o)

/-- The number of words, from the header on, that the annotation pass reads of an
instruction with word count `wc` (a string operand apart). -/
def footprint2 (k : Pass2Case) (wc : Nat) : Nat :=
  match k with
  | .OpName => 2
  | .OpMemberName => 3
  | .OpLine => 5
  | .OpDecorate => if wc > 2 then 4 else 3
  | .OpMemberDecorate | .default => 1

/-- The number of words, from the header on, that the name-collection pass reads of an
instruction with word count `wc` (a string operand apart). -/
def footprint3 (k : Pass3Case) (wc : Nat) : Nat :=
  match k with
  | .OpName | .OpLabel | .OpTypeVoid | .OpTypeBool | .OpTypeStruct => 2
  | .OpMemberName | .OpDecorate | .OpTypeFloat => 3
  | .OpTypeInt | .OpTypeVector | .OpTypeArray | .OpTypePointer | .OpConstant => 4
  | .OpTypeFunction | .OpConstantComposite => max 3 wc
  | .default => 1

/-- The number of words, from the header on, that the render pass reads of an instruction
with word count `wc` (a string operand apart). -/
def footprint4 (k : Pass4Case) (wc : Nat) : Nat :=
  match k with
  | .OpSource | .OpMemoryModel | .OpEntryPoint | .OpSelectionMerge | .OpLoopMerge => 3
  | .OpExtInstImport | .OpBranch | .OpLabel => 2
  | .OpVariable | .OpLoad => if wc > 4 then 5 else 4
  | .OpFunction | .OpIAdd | .OpIMul | .OpSLessThan => 5
  | .OpFunctionEnd | .OpName | .OpReturn => 1
  | .OpAccessChain => max 4 wc
  | .OpStore | .OpCopyMemory => if wc > 3 then 4 else 3
  | .OpExtInst => max 5 wc
  | .OpBranchConditional => if wc = 4 then 4 else 6
  | .default => max 1 wc

/-- The number of words, from the header on, that the four passes read of the instruction
whose header is at `it` (a string operand apart). -/
def footprint (X : Externals) (spirv : List Nat) (it : Nat) : Nat :=
  let op := X.opOf (OpCode spirv it)
  let wc := WordCount spirv it
  max (max (footprint1 (pass1Case op) wc) (footprint2 (pass2Case op) wc))
    (max (footprint3 (pass3Case op) wc) (footprint4 (pass4Case op) wc))

/-- The offset of the string operand of an instruction with opcode `op` and header at `it`. -/
def stringOffset (op : Op) (it : Nat) : Option Nat :=
  match op with
  | .OpName | .OpExtInstImport | .OpString => some (it + 2)
  | .OpMemberName => some (it + 3)
  | _ => none

/-- Whether the instruction whose header is at `it` lies in the buffer as far as the four
passes read it: the words of its footprint, and its string operand up to the zero byte. -/
def InBuffer (X : Externals) (spirv : List Nat) (it : Nat) : Bool :=
  decide (it + footprint X spirv it ≤ spirv.length) &&
    match stringOffset (X.opOf (OpCode spirv it)) it with
    | some off => stringEnds spirv off
    | none => true

/-- The header offsets that each of the four loops visits from `it`, at most `fuel` of them. -/
def instructionOffsets (spirv : List Nat) : Nat → Nat → List Nat
  | 0, _ => []
  | fuel + 1, it =>
    if it < spirv.length then it :: instructionOffsets spirv fuel (it + WordCount spirv it)
    else []

/-- Every string the table `membernames` points to ends inside the buffer. -/
def MemberNamesEnd (spirv : List Nat) (ns : NameState) : Prop :=
  ∀ off, some off ∈ ns.membernames → stringEnds spirv off = true

/-- A module with one function whose only block is never terminated: `TypeVoid`,
`TypeFunction`, `Function`, `Label`, `FunctionEnd`. -/
def openBlockModule : List Nat :=
  [0x07230203, 99, 0, 5, 0,
   headerWord 2 8, 1,
   headerWord 3 21, 2, 1,
   headerWord 5 40, 1, 3, 0, 2,
   headerWord 2 208, 4,
   headerWord 1 42]

/-- A module with one function of two blocks: `TypeVoid`, `TypeFunction`, `Function`, `Label`,
`Branch` to the second label, `Label`, `Return`, `FunctionEnd`. -/
def twoBlockModule : List Nat :=
  [0x07230203, 99, 0, 6, 0,
   headerWord 2 8, 1,
   headerWord 3 21, 2, 1,
   headerWord 5 40, 1, 3, 0, 2,
   headerWord 2 208, 4,
   headerWord 2 209, 5,
   headerWord 2 208, 5,
   headerWord 1 213,
   headerWord 1 42]

/-- The state of the structural pass once it has consumed the whole of `spirv` (the header words
included), or the initial state if the pass does not reach the end. -/
def stateAfter (X : Externals) (spirv : List Nat) (fuel : Nat) : DecodeState :=
  let s0 := initialState X 0 (spirv[1]?.getD 0) (spirv[2]?.getD 0) (spirv[3]?.getD 0)
  match pass1 X spirv fuel 5 s0 with
  | .done s => s
  | _ => s0

/-- A module whose last instruction, `TypeVoid` with word count 2, has only its header word in
the buffer. -/
def truncatedModule : List Nat :=
  [0x07230203, 99, 0, 5, 0,
   headerWord 2 8]

/-- A module whose last instruction, `FunctionEnd`, declares 100 words of which the buffer holds
one: `TypeVoid`, `TypeFunction`, `Function`, `Label`, `Return`, `FunctionEnd`. -/
def overlongModule : List Nat :=
  [0x07230203, 99, 0, 5, 0,
   headerWord 2 8, 1,
   headerWord 3 21, 2, 1,
   headerWord 5 40, 1, 3, 0, 2,
   headerWord 2 208, 4,
   headerWord 1 213,
   headerWord 100 42]

/-- A module with one function of one block: `TypeVoid`, `TypeFunction`, `Function`, `Label`,
`Return`, `FunctionEnd`. -/
def minimalModule : List Nat :=
  [0x07230203, 99, 0, 5, 0,
   headerWord 2 8, 1,
   headerWord 3 21, 2, 1,
   headerWord 5 40, 1, 3, 0, 2,
   headerWord 2 208, 4,
   headerWord 1 213,
   headerWord 1 42]

/-- A module with a 32-bit constant followed by another instruction: `TypeInt 32 1`,
`Constant` of that type with the value word 7 (word count 4), `TypeVoid`. -/
def constantModule : List Nat :=
  [0x07230203, 99, 0, 4, 0,
   headerWord 4 10, 1, 32, 1,
   headerWord 4 29, 1, 2, 7,
   headerWord 2 8, 3]

/-- A module with a constant of two value words: `TypeInt 64 1`, `Constant` of that type with
the value words 7 and 1 (word count 5). -/
def wideConstantModule : List Nat :=
  [0x07230203, 99, 0, 3, 0,
   headerWord 4 10, 1, 64, 1,
   headerWord 5 29, 1, 2, 7, 1]

/-- A module with a vector type: `TypeFloat 32`, `TypeVector` of four of them. -/
def vectorModule : List Nat :=
  [0x07230203, 99, 0, 3, 0,
   headerWord 3 11, 1, 32,
   headerWord 4 12, 2, 1, 4]

/-- A module whose first block has a selection merge: `TypeVoid`, `TypeFunction`, `Function`,
`Label`, `SelectionMerge`, `Branch`, `Label`, `Return`, `FunctionEnd`. -/
def mergeModule : List Nat :=
  [0x07230203, 99, 0, 6, 0,
   headerWord 2 8, 1,
   headerWord 3 21, 2, 1,
   headerWord 5 40, 1, 3, 0, 2,
   headerWord 2 208, 4,
   headerWord 3 207, 5, 0,
   headerWord 2 209, 5,
   headerWord 2 208, 5,
   headerWord 1 213,
   headerWord 1 42]

/-- A module whose only block has two merge instructions: `TypeVoid`, `TypeFunction`,
`Function`, `Label`, `SelectionMerge`, `LoopMerge`, `Return`, `FunctionEnd`. -/
def twoMergeModule : List Nat :=
  [0x07230203, 99, 0, 6, 0,
   headerWord 2 8, 1,
   headerWord 3 21, 2, 1,
   headerWord 5 40, 1, 3, 0, 2,
   headerWord 2 208, 4,
   headerWord 3 207, 4, 0,
   headerWord 3 206, 4, 0,
   headerWord 1 213,
   headerWord 1 42]

/-- A module with a terminator after the terminator of its only block: `TypeVoid`,
`TypeFunction`, `Function`, `Label`, `Return`, `Return`, `FunctionEnd`. -/
def doubleReturnModule : List Nat :=
  [0x07230203, 99, 0, 5, 0,
   headerWord 2 8, 1,
   headerWord 3 21, 2, 1,
   headerWord 5 40, 1, 3, 0, 2,
   headerWord 2 208, 4,
   headerWord 1 213,
   headerWord 1 213,
   headerWord 1 42]

/-- A module with a second `Function` before the `FunctionEnd` of the first: `TypeVoid`,
`TypeFunction`, `Function`, `Label`, `Return`, `Function`, `Label`, `Return`, `FunctionEnd`. -/
def nestedFunctionModule : List Nat :=
  [0x07230203, 99, 0, 7, 0,
   headerWord 2 8, 1,
   headerWord 3 21, 2, 1,
   headerWord 5 40, 1, 3, 0, 2,
   headerWord 2 208, 4,
   headerWord 1 213,
   headerWord 5 40, 1, 5, 0, 2,
   headerWord 2 208, 6,
   headerWord 1 213,
   headerWord 1 42]

/-- Whether the structural pass records a result ID for an instruction of this body of its
`switch`: the bodies with the statements `op.id = ...; module.ids[...] = &op;`. -/
def recordsId : Pass1Case → Bool
  | .OpExtInstImport | .OpString | .OpTypeVoid | .OpTypeBool | .OpTypeInt | .OpTypeFloat
  | .OpTypeVector | .OpTypeArray | .OpTypeStruct | .OpTypePointer | .OpTypeFunction
  | .OpConstant | .OpConstantComposite | .OpFunction | .OpVariable | .OpLabel
  | .OpAccessChain | .OpLoad | .OpIAdd => true
  | _ => false

/-- The fields of an instruction that no later step of the structural pass writes. -/
def fixedPart (inst : SPVInstruction) : Nat × Nat :=
  (inst.opcode, inst.id)

/-- The invariant of the structural pass on the ID table `ids`, stated on the opcode and
the ID of every instruction: the table keeps the size `bound`; a slot that is not null holds
an instruction that records a result ID, the index of the slot; the ID of every
instruction that records one is below the bound and its slot is not null. -/
structure IdInv (X : Externals) (bound : Nat) (ids : List (Option Nat))
    (fixed : List (Nat × Nat)) : Prop where
  len : ids.length = bound
  stored : ∀ i j : Nat, ids[i]? = some (some j) →
    ∃ oc, fixed[j]? = some (oc, i) ∧ recordsId (pass1Case (X.opOf oc)) = true
  assigned : ∀ j oc i : Nat, fixed[j]? = some (oc, i) → recordsId (pass1Case (X.opOf oc)) = true →
    i < ids.length ∧ ∃ j1, ids[i]? = some (some j1)

/-- The list `func->variables` of the function that an instruction defines. -/
def localsOf (inst : SPVInstruction) : Option (List Nat) :=
  inst.func.map (fun fn => fn.localVariables)

/-- The indices of the variables of a list of classes up to its first `Function` or
`FunctionEnd`; `j` is the index of the head of the list. -/
def variablesUntil : List OpClass → Nat → List Nat
  | [], _ => []
  | c :: rest, j =>
    match c with
    | .function | .functionEnd => []
    | .variableDecl => j :: variablesUntil rest (j + 1)
    | _ => variablesUntil rest (j + 1)

/-- Whether a function is open after a list of classes: the last `Function` or `FunctionEnd`
of the list is a `Function`; `o` tells whether one is open before the list. -/
def openAfter : List OpClass → Bool → Bool
  | [], o => o
  | c :: rest, o =>
    match c with
    | .function => openAfter rest true
    | .functionEnd => openAfter rest false
    | _ => openAfter rest o

/-- The indices of the variables of a list of classes that occur while no function is open;
`j` is the index of the head of the list and `o` tells whether a function is open before
it. -/
def globalsFrom : List OpClass → Nat → Bool → List Nat
  | [], _, _ => []
  | c :: rest, j, o =>
    match c with
    | .function => globalsFrom rest (j + 1) true
    | .functionEnd => globalsFrom rest (j + 1) false
    | .variableDecl => if o then globalsFrom rest (j + 1) o else j :: globalsFrom rest (j + 1) o
    | _ => globalsFrom rest (j + 1) o

/-- The indices of the `Variable` instructions of a list of instructions up to its first
`Function` or `FunctionEnd` (or its end): the variables declared while the function that
precedes the list is the open one; `j` is the index of the head of the list. -/
def variablesUntilBoundary (X : Externals) : List SPVInstruction → Nat → List Nat
  | [], _ => []
  | inst :: rest, j =>
    match X.opOf inst.opcode with
    | .OpFunction | .OpFunctionEnd => []
    | .OpVariable => j :: variablesUntilBoundary X rest (j + 1)
    | _ => variablesUntilBoundary X rest (j + 1)

/-- The indices of the `Variable` instructions of a list of instructions that occur while no
function is open, a function being open from a `Function` to the next `FunctionEnd`; `j` is
the index of the head of the list and `o` tells whether a function is open before it. -/
def globalVariables (X : Externals) : List SPVInstruction → Nat → Bool → List Nat
  | [], _, _ => []
  | inst :: rest, j, o =>
    match X.opOf inst.opcode with
    | .OpFunction => globalVariables X rest (j + 1) true
    | .OpFunctionEnd => globalVariables X rest (j + 1) false
    | .OpVariable =>
      if o then globalVariables X rest (j + 1) o else j :: globalVariables X rest (j + 1) o
    | _ => globalVariables X rest (j + 1) o

/-- The invariant of the structural pass on the variable lists: the list of a function holds
the variables that follow it up to the next `Function` or `FunctionEnd`, `globals` holds the
variables that occur while no function is open, and a function is open exactly when
`curFunc` is not null. -/
structure VarInv (a : Abs) (locals : List (Option (List Nat))) (globals : List Nat) :
    Prop where
  vlen : locals.length = a.cls.length
  vfuncs : ∀ k : Nat, a.cls[k]? = some .function →
    locals[k]? = some (some (variablesUntil (a.cls.drop (k + 1)) (k + 1)))
  vopen : openAfter a.cls false = a.curFunc.isSome
  vglobals : globals = globalsFrom a.cls 0 false

/-- Whether an opcode is one of the four that the annotation pass does not support. -/
def isUnsupported : Op → Bool
  | .OpMemberDecorate | .OpGroupDecorate | .OpGroupMemberDecorate | .OpDecorationGroup => true
  | _ => false

/-- A module with a `DecorationGroup` followed by a `TypeVector` whose component type is not
declared. -/
def groupThenBadTypeModule : List Nat :=
  [0x07230203, 99, 0, 3, 0,
   headerWord 2 49, 1,
   headerWord 4 12, 2, 1, 4]

/-- A module whose only instruction is a `DecorationGroup`. -/
def groupModule : List Nat :=
  [0x07230203, 99, 0, 3, 0,
   headerWord 2 49, 1]

/-- Byte `i` of a string operand whose first word is at `off`, as claim C16 words it: the
bytes of the consecutive words from `off` on, the least significant byte of each word
first. -/
def byteAt (spirv : List Nat) (off i : Nat) : Nat :=
  (spirv[off + i / 4]?.getD 0) / 256 ^ (i % 4) % 256

/-- A module with a function whose body nests one selection construct in another: the
outer construct merges at label 10, the inner one at label 12. `TypeVoid`, `TypeFunction`,
`TypeInt`, `Constant`, `TypeBool`, `Function`, `Label 7`, `SLessThan`, `SelectionMerge 10`,
`BranchConditional`, `Label 9`, `SelectionMerge 12`, `BranchConditional`, `Label 11`, `Branch`,
`Label 12`, `Branch`, `Label 10`, `Return`, `FunctionEnd`. -/
def nestedMergeModule : List Nat :=
  [0x07230203, 99, 0, 13, 0,
   headerWord 2 8, 1,
   headerWord 3 21, 2, 1,
   headerWord 4 10, 3, 32, 1,
   headerWord 4 29, 3, 4, 7,
   headerWord 2 9, 5,
   headerWord 5 40, 1, 6, 0, 2,
   headerWord 2 208, 7,
   headerWord 5 160, 5, 8, 4, 4,
   headerWord 3 207, 10, 0,
   headerWord 4 210, 8, 9, 10,
   headerWord 2 208, 9,
   headerWord 3 207, 12, 0,
   headerWord 4 210, 8, 11, 12,
   headerWord 2 208, 11,
   headerWord 2 209, 12,
   headerWord 2 208, 12,
   headerWord 2 209, 10,
   headerWord 2 208, 10,
   headerWord 1 213,
   headerWord 1 42]

/-- A module with a `Decorate` without a literal (word count 3) that targets the void type
and is followed by another instruction: `TypeVoid 1`, `Decorate 1 7`, `TypeBool 2`. -/
def decorateModule : List Nat :=
  [0x07230203, 99, 0, 3, 0,
   headerWord 2 8, 1,
   headerWord 3 50, 1, 7,
   headerWord 2 9, 2]

/-- A module with a `Decorate` that has a literal (word count 4): `TypeVoid 1`,
`Decorate 1 7 5`, `TypeBool 2`. -/
def literalDecorateModule : List Nat :=
  [0x07230203, 99, 0, 3, 0,
   headerWord 2 8, 1,
   headerWord 4 50, 1, 7, 5,
   headerWord 2 9, 2]

/-- The state in which the render pass starts, given the output text so far and the tables
of the name-collection pass. -/
def renderStart (disasm : String) (ns : NameState) : RenderState :=
  { disasm := disasm, resultnames := fillPlaceholders 0 ns.resultnames,
    extensionSets := [], indent := 0, funcname := "", flowstack := [],
    variablesSeen := false }

/-- The ID whose entry of `resultnames` the name-collection pass writes at the instruction
whose header is at `it`: the target of a `Name`, the result ID of a `Label`, of a type
declaration and of a `Constant` or `ConstantComposite`; no entry for any other opcode. -/
def writesName (X : Externals) (spirv : List Nat) (it : Nat) : Option Nat :=
  match pass3Case (X.opOf (OpCode spirv it)) with
  | .OpName | .OpLabel | .OpTypeVoid | .OpTypeBool | .OpTypeInt | .OpTypeFloat
  | .OpTypeVector | .OpTypeArray | .OpTypeStruct | .OpTypePointer | .OpTypeFunction =>
    spirv[it + 1]?
  | .OpConstant | .OpConstantComposite => spirv[it + 2]?
  | _ => none

/-- A module in which the `Name` "entry" targets label 4 and precedes the function:
`Name 4 "entry"`, `TypeVoid`, `TypeFunction`, `Function`, `Label 4`, `Return`,
`FunctionEnd`. -/
def namedLabelModule : List Nat :=
  [0x07230203, 99, 0, 5, 0,
   headerWord 4 54, 4, 0x72746e65, 0x79,
   headerWord 2 8, 1,
   headerWord 3 21, 2, 1,
   headerWord 5 40, 1, 3, 0, 2,
   headerWord 2 208, 4,
   headerWord 1 213,
   headerWord 1 42]

/-- A module in which the `Name` "main" targets function 3 and precedes it: `Name 3 "main"`,
`TypeVoid`, `TypeFunction`, `Function 3`, `Label`, `Return`, `FunctionEnd`. -/
def namedFunctionModule : List Nat :=
  [0x07230203, 99, 0, 5, 0,
   headerWord 4 54, 3, 0x6e69616d, 0,
   headerWord 2 8, 1,
   headerWord 3 21, 2, 1,
   headerWord 5 40, 1, 3, 0, 2,
   headerWord 2 208, 4,
   headerWord 1 213,
   headerWord 1 42]

/-- A valid minimal module, as claim C19 words it: after the five header words, a void type
`v`, a function type `t` that returns `v` and takes no parameter, and one function `f` of
type `t`, with function control mask 0, that holds a Label `l` and a Return. -/
structure MinimalModule (X : Externals) (spirv : List Nat) (bound v t f l : Nat) : Prop where
  length : spirv.length = 19
  magic : spirv[0]? = some X.MagicNumber
  idBound : spirv[3]? = some bound
  reserved : spirv[4]? = some 0
  voidOp : X.opOf (OpCode spirv 5) = .OpTypeVoid
  voidCount : WordCount spirv 5 = 2
  voidId : spirv[6]? = some v
  typeOp : X.opOf (OpCode spirv 7) = .OpTypeFunction
  typeCount : WordCount spirv 7 = 3
  typeId : spirv[8]? = some t
  typeReturn : spirv[9]? = some v
  funcOp : X.opOf (OpCode spirv 10) = .OpFunction
  funcCount : WordCount spirv 10 = 5
  funcReturn : spirv[11]? = some v
  funcId : spirv[12]? = some f
  funcControl : spirv[13]? = some 0
  funcType : spirv[14]? = some t
  labelOp : X.opOf (OpCode spirv 15) = .OpLabel
  labelCount : WordCount spirv 15 = 2
  labelId : spirv[16]? = some l
  returnOp : X.opOf (OpCode spirv 17) = .OpReturn
  returnCount : WordCount spirv 17 = 1
  endOp : X.opOf (OpCode spirv 18) = .OpFunctionEnd
  endCount : WordCount spirv 18 = 1
  voidBelow : v < bound
  typeBelow : t < bound
  funcBelow : f < bound
  labelBelow : l < bound
  distinct : [v, t, f, l].Nodup

/-- The lines of a text: the maximal runs of characters other than the line feed. -/
def splitLines : List Char → List (List Char)
  | [] => [[]]
  | c :: cs =>
    if c = '\n' then [] :: splitLines cs
    else
      match splitLines cs with
      | [] => [[c]]
      | line :: rest => (c :: line) :: rest

/-- The lines of the output text. -/
def outputLines (text : String) : List String :=
  (splitLines text.data).map String.mk

/-- A module with three `Variable` instructions, one before the function, one inside it and
one after its `FunctionEnd`: `TypeVoid`, `TypeFunction`, `TypeInt`, `TypePointer`,
`Variable 5`, `Function 6`, `Label 7`, `Variable 8`, `Return`, `FunctionEnd`, `Variable 9`. -/
def variableModule : List Nat :=
  [0x07230203, 99, 0, 10, 0,
   headerWord 2 8, 1,
   headerWord 3 21, 2, 1,
   headerWord 4 10, 3, 32, 1,
   headerWord 4 20, 4, 0, 3,
   headerWord 4 38, 4, 5, 0,
   headerWord 5 40, 1, 6, 0, 2,
   headerWord 2 208, 7,
   headerWord 4 38, 4, 8, 0,
   headerWord 1 213,
   headerWord 1 42,
   headerWord 4 38, 4, 9, 0]

/-- A module with a struct type of two members and three annotations of it: `TypeInt 1`,
`TypeStruct 2` with the members 1 and 1, `MemberName 2 1 "b"`, `MemberName 2 2 "c"`,
`Name 2 "S"`. -/
def structModule : List Nat :=
  [0x07230203, 99, 0, 3, 0,
   headerWord 4 10, 1, 32, 1,
   headerWord 4 18, 2, 1, 1,
   headerWord 4 55, 2, 1, 0x62,
   headerWord 4 55, 2, 2, 0x63,
   headerWord 3 54, 2, 0x53]

/-- The texts of a list joined with `", "`, as the spec words the name of a function type
and the argument list of an extended instruction. -/
def commaJoin : List String → String
  | [] => ""
  | [a] => a
  | a :: b :: rest => a ++ ", " ++ commaJoin (b :: rest)

/-- The six decimal digits of a number below a million, with leading zeros. -/
def sixDigits (n : Nat) : String :=
  String.mk ((List.replicate (6 - (Nat.toDigits 10 n).length) '0') ++ Nat.toDigits 10 n)

/-- Modelled from the spec: the text that `StringFormat::Fmt("%f", x)` gives for the `float`
with the bit pattern `w`; `StringFormat::Fmt` is not part of the source file. The word is
read as an IEEE-754 single (sign, eight bits of exponent, 23 bits of fraction) and its
value is written as a decimal with six fractional digits, rounded to nearest, ties to
even. -/
def fmtF32 (w : Nat) : String :=
  let sign := if w / 2 ^ 31 % 2 = 1 then "-" else ""
  let e := w / 2 ^ 23 % 256
  let f := w % 2 ^ 23
  if e = 255 then
    if f = 0 then sign ++ "inf" else sign ++ "nan"
  else
    let mant := if e = 0 then f else f + 2 ^ 23
    let ex := if e = 0 then 1 else e
    let num := if 150 ≤ ex then mant * 2 ^ (ex - 150) * 10 ^ 6 else mant * 10 ^ 6
    let den := if 150 ≤ ex then 1 else 2 ^ (150 - ex)
    let q := num / den
    let r := num % den
    let q := if den < 2 * r ∨ (2 * r = den ∧ q % 2 = 1) then q + 1 else q
    sign ++ Nat.repr (q / 10 ^ 6) ++ "." ++ sixDigits (q % 10 ^ 6)

/-- The sample headers with the text of a `float` as the spec gives it. -/
def floatExternals : Externals :=
  { sampleExternals with FmtFloat := fmtF32 }

/-- A module with a signed and an unsigned integer type, a boolean type and a constant of
each: `TypeInt 1` (signed), `TypeInt 2` (unsigned), `TypeBool 3`, `Constant` 4 of type 1
and 5 of type 2, both with the value word `0xFFFFFFFF`, `Constant` 6 of type 3 with the
value word 1, `TypeVoid 7`. -/
def scalarConstantModule : List Nat :=
  [0x07230203, 99, 0, 8, 0,
   headerWord 4 10, 1, 32, 1,
   headerWord 4 10, 2, 32, 0,
   headerWord 2 9, 3,
   headerWord 4 29, 1, 4, 0xFFFFFFFF,
   headerWord 4 29, 2, 5, 0xFFFFFFFF,
   headerWord 4 29, 3, 6, 1,
   headerWord 2 8, 7]

/-- A module with a float constant: `TypeFloat 1`, `Constant` 2 of type 1 with the value
word `0x3F800000`, `TypeVoid 3`. -/
def floatConstantModule : List Nat :=
  [0x07230203, 99, 0, 4, 0,
   headerWord 3 11, 1, 32,
   headerWord 4 29, 1, 2, 0x3F800000,
   headerWord 2 8, 3]

/-- A module with the composite types: `TypeFloat 1`, `TypeInt 2`, `Constant 3` of type 2
with the value 5, `TypeVector 4` of four floats, `TypeArray 5` of vectors with the length
operand 3, `TypePointer 6` to the array, `TypeFunction 7` that returns 1 and takes 4 and
6. -/
def typeNamesModule : List Nat :=
  [0x07230203, 99, 0, 8, 0,
   headerWord 3 11, 1, 32,
   headerWord 4 10, 2, 32, 0,
   headerWord 4 29, 2, 3, 5,
   headerWord 4 12, 4, 1, 4,
   headerWord 4 16, 5, 4, 3,
   headerWord 4 20, 6, 7, 5,
   headerWord 5 21, 7, 1, 4, 6]

/-- A module with a function type whose only parameter type has the empty name:
`TypeVoid 1`, `TypeFloat 2`, `Name 2 ""`, `TypeFunction 3` that returns 1 and takes 2,
`Function 4` of type 3, `Label 5`, `Return`, `FunctionEnd`. -/
def emptyNameModule : List Nat :=
  [0x07230203, 99, 0, 6, 0,
   headerWord 2 8, 1,
   headerWord 3 11, 2, 32,
   headerWord 3 54, 2, 0,
   headerWord 4 21, 3, 1, 2,
   headerWord 5 40, 1, 4, 0, 3,
   headerWord 2 208, 5,
   headerWord 1 213,
   headerWord 1 42]

/-- The tables of the name-collection pass once it has consumed the whole of `spirv`, from
the tables of size `idbound`; the initial tables if the pass does not reach the end. -/
def namesAfter (X : Externals) (spirv : List Nat) (fuel idbound : Nat) : NameState :=
  match pass3 X spirv fuel 5 (NameState.new idbound) with
  | .done ns => ns
  | _ => NameState.new idbound

/-- A module with two struct types whose member 0 is named: `MemberName 4 0 "a"`,
`MemberName 5 0 "b"`, `TypeVoid 1`, `TypeFunction 2`, `TypeInt 3`, `TypeStruct 4` and
`TypeStruct 5` with one member of type 3 each, `TypePointer 6` to struct 4,
`TypePointer 7` to the integer type, `Constant 8` with the value 0, `Function 9`,
`Label 10`, `Variable 11` of type 6, `AccessChain 12` of type 7 on the base 11 with the
index 8, `Return`, `FunctionEnd`. -/
def twoStructModule : List Nat :=
  [0x07230203, 99, 0, 13, 0,
   headerWord 4 55, 4, 0, 0x61,
   headerWord 4 55, 5, 0, 0x62,
   headerWord 2 8, 1,
   headerWord 3 21, 2, 1,
   headerWord 4 10, 3, 32, 1,
   headerWord 3 18, 4, 3,
   headerWord 3 18, 5, 3,
   headerWord 4 20, 6, 7, 4,
   headerWord 4 20, 7, 7, 3,
   headerWord 4 29, 3, 8, 0,
   headerWord 5 40, 1, 9, 0, 2,
   headerWord 2 208, 10,
   headerWord 4 38, 6, 11, 7,
   headerWord 5 93, 7, 12, 11, 8,
   headerWord 1 213,
   headerWord 1 42]

/-- A module with a named struct member and an access chain into an array with an index
that is not a constant: `MemberName 4 0 "a"`, `TypeVoid 1`, `TypeFunction 2`, `TypeInt 3`,
`TypeStruct 4` with one member, `Constant 5` with the value 4, `TypeArray 6` of 5 integers,
`TypePointer 7` to the array, `TypePointer 8` to the integer type, `Function 9`, `Label 10`,
`Variable 11` of type 7, `Variable 12` of type 8, `Load 13` of 12, `AccessChain 14` of
type 8 on the base 11 with the index 13, `Return`, `FunctionEnd`. -/
def variableIndexModule : List Nat :=
  [0x07230203, 99, 0, 15, 0,
   headerWord 4 55, 4, 0, 0x61,
   headerWord 2 8, 1,
   headerWord 3 21, 2, 1,
   headerWord 4 10, 3, 32, 1,
   headerWord 3 18, 4, 3,
   headerWord 4 29, 3, 5, 4,
   headerWord 4 16, 6, 3, 5,
   headerWord 4 20, 7, 7, 6,
   headerWord 4 20, 8, 7, 3,
   headerWord 5 40, 1, 9, 0, 2,
   headerWord 2 208, 10,
   headerWord 4 38, 7, 11, 7,
   headerWord 4 38, 8, 12, 7,
   headerWord 4 46, 3, 13, 12,
   headerWord 5 93, 8, 14, 11, 13,
   headerWord 1 213,
   headerWord 1 42]

/-- A module in which only member 1 of the struct is named and the access chain selects
member 0: `MemberName 4 1 "b"`, `TypeVoid 1`, `TypeFunction 2`, `TypeInt 3`, `TypeStruct 4`
with two members, `TypePointer 6` to the struct, `TypePointer 7` to the integer type,
`Constant 8` with the value 0, `Function 9`, `Label 10`, `Variable 11` of type 6,
`AccessChain 12` of type 7 on the base 11 with the index 8, `Return`, `FunctionEnd`. -/
def unnamedMemberModule : List Nat :=
  [0x07230203, 99, 0, 13, 0,
   headerWord 4 55, 4, 1, 0x62,
   headerWord 2 8, 1,
   headerWord 3 21, 2, 1,
   headerWord 4 10, 3, 32, 1,
   headerWord 4 18, 4, 3, 3,
   headerWord 4 20, 6, 7, 4,
   headerWord 4 20, 7, 7, 3,
   headerWord 4 29, 3, 8, 0,
   headerWord 5 40, 1, 9, 0, 2,
   headerWord 2 208, 10,
   headerWord 4 38, 6, 11, 7,
   headerWord 5 93, 7, 12, 11, 8,
   headerWord 1 213,
   headerWord 1 42]

/-- The sample headers with a table of three names of extended instructions. -/
def glslExternals : Externals :=
  { sampleExternals with GLSL_STD_450_names := ["Round", "RoundEven", "Trunc"] }

/-- A module that imports the set `GLSL.std.450` and calls its instructions 1 and 7:
`ExtInstImport 1 "GLSL.std.450"`, `TypeVoid 2`, `TypeFunction 3`, `TypeInt 4`,
`Constant 5` of type 4, `Function 6`, `Label 7`, `ExtInst 8` of type 4 from set 1,
instruction 1, with the arguments 5 and 5, `ExtInst 9` of type 4 from set 1, instruction 7,
with the argument 5, `Return`, `FunctionEnd`. -/
def extInstModule : List Nat :=
  [0x07230203, 99, 0, 10, 0,
   headerWord 6 4, 1, 0x4C534C47, 0x6474732E, 0x3035342E, 0,
   headerWord 2 8, 2,
   headerWord 3 21, 3, 2,
   headerWord 4 10, 4, 32, 1,
   headerWord 4 29, 4, 5, 7,
   headerWord 5 40, 2, 6, 0, 3,
   headerWord 2 208, 7,
   headerWord 7 44, 4, 8, 1, 1, 5, 5,
   headerWord 6 44, 4, 9, 1, 7, 5,
   headerWord 1 213,
   headerWord 1 42]

/-- The module `extInstModule` up to and including its first `ExtInst`, followed by `Return`
and `FunctionEnd`. -/
def extInstInRangeModule : List Nat :=
  extInstModule.take 38 ++ [headerWord 1 213, headerWord 1 42]

/-- The text of the operand words of an instruction without a rendering of its own, as the
spec words it: the words in order, separated by `", "` and preceded by a space; a word
above the ID bound in hexadecimal, any other word in decimal. -/
def operandText (idbound : Nat) (ws : List Nat) : String :=
  if ws = [] then ""
  else " " ++ commaJoin (ws.map (fun w => if w ≤ idbound then fmtU32 w else fmtHashX w))

/-- A module with two instructions that the render pass has no case for: `TypeBool 1`,
`ConstantTrue 2` of type 1, `ExecutionMode` with the operand words 2, 3 and 200. -/
def unknownOpcodeModule : List Nat :=
  [0x07230203, 99, 0, 3, 0,
   headerWord 2 9, 1,
   headerWord 3 27, 1, 2,
   headerWord 4 7, 2, 3, 200]

/-- A module with the memory operations: `TypeVoid 1`, `TypeFunction 2`, `TypeInt 3`,
`TypePointer 4`, `Function 5`, `Label 6`, `Variable 7`, `Variable 8`, `Load 9` of 7 without
a mask, `Load 10` of 7 with the mask 1, `Store` of 9 to 8 without a mask, `Store` of 9 to 8
with the mask 2, `CopyMemory` from 7 to 8 without a mask, `Return`, `FunctionEnd`. -/
def memoryModule : List Nat :=
  [0x07230203, 99, 0, 11, 0,
   headerWord 2 8, 1,
   headerWord 3 21, 2, 1,
   headerWord 4 10, 3, 32, 1,
   headerWord 4 20, 4, 7, 3,
   headerWord 5 40, 1, 5, 0, 2,
   headerWord 2 208, 6,
   headerWord 4 38, 4, 7, 7,
   headerWord 4 38, 4, 8, 7,
   headerWord 4 46, 3, 9, 7,
   headerWord 5 46, 3, 10, 7, 1,
   headerWord 3 47, 8, 9,
   headerWord 4 47, 8, 9, 2,
   headerWord 3 65, 8, 7,
   headerWord 1 213,
   headerWord 1 42]

/-- A module with a conditional branch that carries two weights: `TypeVoid 1`,
`TypeFunction 2`, `TypeInt 3`, `Constant 4`, `TypeBool 5`, `Function 6`, `Label 7`,
`SLessThan 8`, `BranchConditional` on 8 to the labels 9 and 10 with the weights 1 and 3
(word count 6), `Label 9`, `Return`, `Label 10`, `Return`, `FunctionEnd`. -/
def weightedBranchModule : List Nat :=
  [0x07230203, 99, 0, 11, 0,
   headerWord 2 8, 1,
   headerWord 3 21, 2, 1,
   headerWord 4 10, 3, 32, 1,
   headerWord 4 29, 3, 4, 7,
   headerWord 2 9, 5,
   headerWord 5 40, 1, 6, 0, 2,
   headerWord 2 208, 7,
   headerWord 5 160, 5, 8, 4, 4,
   headerWord 6 210, 8, 9, 10, 1, 3,
   headerWord 2 208, 9,
   headerWord 1 213,
   headerWord 2 208, 10,
   headerWord 1 213,
   headerWord 1 42]

/-- The module `weightedBranchModule` with a conditional branch of word count 5, one word
after the two targets. -/
def oddBranchModule : List Nat :=
  [0x07230203, 99, 0, 11, 0,
   headerWord 2 8, 1,
   headerWord 3 21, 2, 1,
   headerWord 4 10, 3, 32, 1,
   headerWord 4 29, 3, 4, 7,
   headerWord 2 9, 5,
   headerWord 5 40, 1, 6, 0, 2,
   headerWord 2 208, 7,
   headerWord 5 160, 5, 8, 4, 4,
   headerWord 5 210, 8, 9, 10, 1,
   headerWord 2 208, 9,
   headerWord 1 213,
   headerWord 2 208, 10,
   headerWord 1 213,
   headerWord 1 42]

/-- The module `weightedBranchModule` with a conditional branch without weights (word
count 4). -/
def plainBranchModule : List Nat :=
  [0x07230203, 99, 0, 11, 0,
   headerWord 2 8, 1,
   headerWord 3 21, 2, 1,
   headerWord 4 10, 3, 32, 1,
   headerWord 4 29, 3, 4, 7,
   headerWord 2 9, 5,
   headerWord 5 40, 1, 6, 0, 2,
   headerWord 2 208, 7,
   headerWord 5 160, 5, 8, 4, 4,
   headerWord 4 210, 8, 9, 10,
   headerWord 2 208, 9,
   headerWord 2 209, 10,
   headerWord 2 208, 10,
   headerWord 1 213,
   headerWord 1 42]

/-- The loop that the four scans share: `it = start; while(it < spirv.size()) { step;
it += WordCount; }`, with `step` the body of the scan; at most `fuel` iterations. -/
def scan {σ : Type} (step : Nat → σ → Except Fault σ) (spirv : List Nat) :
    Nat → Nat → σ → Run σ
  | 0, it, s => if it < spirv.length then .outOfFuel else .done s
  | fuel + 1, it, s =>
    if it < spirv.length then
      match step it s with
      | .error e => .fault e
      | .ok s1 => scan step spirv fuel (it + WordCount spirv it) s1
    else .done s

/-- The body of a scan applied at each header offset of a list, in order. -/
def scanAt {σ : Type} (step : Nat → σ → Except Fault σ) : List Nat → σ → Except Fault σ
  | [], s => .ok s
  | it :: rest, s =>
    match step it s with
    | .error e => .error e
    | .ok s1 => scanAt step rest s1

/-- Which of the nine payload pointers of an instruction are set, in the order of their
declaration: `ext`, `entry`, `op`, `flow`, `type`, `func`, `block`, `constant`, `var`. -/
def payloads (inst : SPVInstruction) : List Bool :=
  [inst.ext.isSome, inst.entry.isSome, inst.op.isSome, inst.flow.isSome, inst.type.isSome,
   inst.func.isSome, inst.block.isSome, inst.constant.isSome, inst.var.isSome]

/-- The payload pointers that the body of the structural pass for an opcode sets, in the
order of `payloads`. -/
def payloadsOf : Pass1Case → List Bool
  | .OpExtInstImport => [true, false, false, false, false, false, false, false, false]
  | .OpEntryPoint => [false, true, false, false, false, false, false, false, false]
  | .OpAccessChain | .OpLoad | .OpStore | .OpIAdd =>
    [false, false, true, false, false, false, false, false, false]
  | .OpKill | .OpReturnValue | .OpBranch | .OpBranchConditional | .OpSelectionMerge =>
    [false, false, false, true, false, false, false, false, false]
  | .OpTypeVoid | .OpTypeBool | .OpTypeInt | .OpTypeFloat | .OpTypeVector | .OpTypeArray
  | .OpTypeStruct | .OpTypePointer | .OpTypeFunction =>
    [false, false, false, false, true, false, false, false, false]
  | .OpFunction => [false, false, false, false, false, true, false, false, false]
  | .OpLabel => [false, false, false, false, false, false, true, false, false]
  | .OpConstant | .OpConstantComposite =>
    [false, false, false, false, false, false, false, true, false]
  | .OpVariable => [false, false, false, false, false, false, false, false, true]
  | .OpSource | .OpMemoryModel | .OpString | .OpFunctionEnd | .default =>
    [false, false, false, false, false, false, false, false, false]

/-- The opcode of an instruction with the payload pointers that are set. -/
def payloadPart (inst : SPVInstruction) : Nat × List Bool :=
  (inst.opcode, payloads inst)

/-- The module `extInstModule` with one `ExtInst` only, whose instruction number is 0:
`ExtInst` of type 4, result 8, set 1, instruction 0, argument 5. No instruction of the
module has the result ID 0. -/
def extInstZeroModule : List Nat :=
  extInstModule.take 31 ++ [headerWord 6 44, 4, 8, 1, 0, 5, headerWord 1 213, headerWord 1 42]

/-- The module `extInstZeroModule` with the instruction number 100, which is above the ID
bound 10. -/
def extInstLargeModule : List Nat :=
  extInstModule.take 31 ++
    [headerWord 6 44, 4, 8, 1, 100, 5, headerWord 1 213, headerWord 1 42]

/-- A module with a vector constant: `TypeInt 1` (signed), `Constant 2` with the value 1,
`Constant 3` with the value word `0xFFFFFFFF`, `TypeVector 4` of two integers,
`ConstantComposite 5` of type 4 with the children 2 and 3, `TypeVoid 6`. -/
def vectorConstantModule : List Nat :=
  [0x07230203, 99, 0, 7, 0,
   headerWord 4 10, 1, 32, 1,
   headerWord 4 29, 1, 2, 1,
   headerWord 4 29, 1, 3, 0xFFFFFFFF,
   headerWord 4 12, 4, 1, 2,
   headerWord 5 30, 4, 5, 2, 3,
   headerWord 2 8, 6]

/-- A module whose function has three blocks that end in `Kill`, `Unreachable` and
`ReturnValue 7`. -/
def terminatorModule : List Nat :=
  [0x07230203, 99, 0, 8, 0,
   headerWord 2 8, 1,
   headerWord 3 21, 2, 1,
   headerWord 5 40, 1, 3, 0, 2,
   headerWord 2 208, 4,
   headerWord 1 212,
   headerWord 2 208, 5,
   headerWord 1 215,
   headerWord 2 208, 6,
   headerWord 2 214, 7,
   headerWord 1 42]

/-- The display string of a mask as the spec words it: the names of the bits of the table
that are set in `el`, in the order of the table. -/
def setBitNames (el : Nat) (table : List (Nat × String)) : List String :=
  (table.filter (fun b => el &&& b.1 ≠ 0)).map (fun b => b.2)

/-- The bits of `spv::FunctionControlMask` in the order in which the code tests them. -/
def functionControlBits (X : Externals) : List (Nat × String) :=
  [(X.FunctionControlInlineMask, "Inline"), (X.FunctionControlDontInlineMask, "DontInline"),
   (X.FunctionControlPureMask, "Pure"), (X.FunctionControlConstMask, "Const")]

/-- The bits of `spv::SelectionControlMask` in the order in which the code tests them. -/
def selectionControlBits (X : Externals) : List (Nat × String) :=
  [(X.SelectionControlFlattenMask, "Flatten"),
   (X.SelectionControlDontFlattenMask, "DontFlatten")]

/-- The bits of `spv::LoopControlMask` in the order in which the code tests them. -/
def loopControlBits (X : Externals) : List (Nat × String) :=
  [(X.LoopControlUnrollMask, "Unroll"), (X.LoopControlDontUnrollMask, "DontUnroll")]

/-- The bits of `spv::MemoryAccessMask` in the order in which the code tests them. -/
def memoryAccessBits (X : Externals) : List (Nat × String) :=
  [(X.MemoryAccessVolatileMask, "Volatile"), (X.MemoryAccessAlignedMask, "Aligned")]

/-- A computation that does not stop on an underflow of the indentation. -/
def NoUnderflow {α : Type} (x : Except Fault α) : Prop :=
  x ≠ .error .IndentUnderflow

/-- The number of `Function` instructions among the instructions at the offsets `offs`. -/
def functionCount (X : Externals) (spirv : List Nat) (offs : List Nat) : Nat :=
  offs.countP (fun it => X.opOf (OpCode spirv it) = .OpFunction)

/-- The number of `FunctionEnd` instructions among the instructions at the offsets `offs`. -/
def functionEndCount (X : Externals) (spirv : List Nat) (offs : List Nat) : Nat :=
  offs.countP (fun it => X.opOf (OpCode spirv it) = .OpFunctionEnd)

/-- The merge labels of the `SelectionMerge` and `LoopMerge` instructions at the offsets
`offs`, in order. -/
def mergeTargets (X : Externals) (spirv : List Nat) (offs : List Nat) : List Nat :=
  offs.filterMap (fun it =>
    if X.opOf (OpCode spirv it) = .OpSelectionMerge ∨ X.opOf (OpCode spirv it) = .OpLoopMerge
    then spirv[it + 1]? else none)

/-- The IDs of the `Label` instructions at the offsets `offs`, in order. -/
def labelIds (X : Externals) (spirv : List Nat) (offs : List Nat) : List Nat :=
  offs.filterMap (fun it =>
    if X.opOf (OpCode spirv it) = .OpLabel then spirv[it + 1]? else none)

/-- What the render pass keeps true of its state `r` after the instructions at the offsets
`pre`: `flowstack` holds the merge labels met so far, and the indentation is two
spaces for each `Function` not yet closed and for each merge whose label has not been met
at the top of `flowstack`; `seen` lists the labels at which the indentation was decreased. -/
def IndentInv (X : Externals) (spirv : List Nat) (pre : List Nat) (r : RenderState) : Prop :=
  ∃ seen : List Nat, seen.Sublist (labelIds X spirv pre) ∧ (∀ L ∈ seen, L ∈ r.flowstack) ∧
    r.flowstack = mergeTargets X spirv pre ∧
    r.indent + 2 * seen.length + 2 * functionEndCount X spirv pre
      = 2 * functionCount X spirv pre + 2 * r.flowstack.length

/-! # Theorems -/

theorem hexValue_hexDigit (d : Nat) (h : d < 16) : hexValue (hexDigit d) = d := by
  interval_cases d <;> rfl

theorem hexDigit_mem (d : Nat) (h : d < 16) : hexDigit d ∈ "0123456789abcdef".data := by
  interval_cases d <;> decide

theorem Fmt08x_value (w : Nat) (h : w < 2 ^ 32) :
    (Fmt08x w).data.foldl (fun acc c => 16 * acc + hexValue c) 0 = w := by
  simp only [Fmt08x, List.foldl_cons, List.foldl_nil]
  rw [hexValue_hexDigit _ (Nat.mod_lt _ (by norm_num)), hexValue_hexDigit _ (Nat.mod_lt _ (by norm_num)),
    hexValue_hexDigit _ (Nat.mod_lt _ (by norm_num)), hexValue_hexDigit _ (Nat.mod_lt _ (by norm_num)),
    hexValue_hexDigit _ (Nat.mod_lt _ (by norm_num)), hexValue_hexDigit _ (Nat.mod_lt _ (by norm_num)),
    hexValue_hexDigit _ (Nat.mod_lt _ (by norm_num)), hexValue_hexDigit _ (Nat.mod_lt _ (by norm_num))]
  norm_num at h ⊢
  omega

theorem C1_malformed_magic (X : Externals) (fuel shadType w : Nat) (rest : List Nat) (disasm : String)
    (hstage : shadType < X.eSPIRVInvalid) (hmagic : w ≠ X.MagicNumber) :
    DisassembleSPIRV X fuel shadType (w :: rest) disasm
        = .MalformedInput ("Unrecognised magic number " ++ Fmt08x w)
      ∧ (Fmt08x w).data.length = 8
      ∧ (∀ c ∈ (Fmt08x w).data, c ∈ "0123456789abcdef".data)
      ∧ (w < 2 ^ 32 → (Fmt08x w).data.foldl (fun acc c => 16 * acc + hexValue c) 0 = w) := by
  refine ⟨?_, ?_, ?_, Fmt08x_value w⟩
  · simp [DisassembleSPIRV, word, hmagic, Nat.not_le.mpr hstage]
  · simp [Fmt08x]
  · intro c hc
    simp only [Fmt08x, List.mem_cons, List.mem_singleton, List.not_mem_nil, or_false] at hc
    rcases hc with h | h | h | h | h | h | h | h <;> subst h <;>
      exact hexDigit_mem _ (Nat.mod_lt _ (by norm_num))

/-! ## The shape of one step of the structural pass -/

theorem bind_ok_elim {ε α β : Type} {x : Except ε α} {f : α → Except ε β} {b : β}
    (h : x >>= f = .ok b) : ∃ a, x = .ok a ∧ f a = .ok b := by
  cases x with
  | error e => simp [bind, Except.bind] at h
  | ok a => exact ⟨a, rfl, h⟩

theorem assignId_ok {m m1 : SPVModule} {id idx : Nat} (h : m.assignId id idx = .ok m1) :
    m1.operations = m.operations ∧ id < m.ids.length ∧ m1.ids = m.ids.set id (some idx) := by
  unfold SPVModule.assignId at h
  split at h
  · cases h; simp [*]
  · cases h

theorem appendToBlock_ok {s s1 : DecodeState} {idx : Nat} (h : s.appendToBlock idx = .ok s1) :
    ∃ b, s.curBlock = some b ∧ s1.curBlock = some b ∧ s1.curFunc = s.curFunc ∧
      s1.module.operations = s.module.operations.modify (pushInstruction idx) b := by
  unfold DecodeState.appendToBlock at h
  split at h
  · cases h
  · rename_i b hb
    cases h
    exact ⟨b, hb, hb, rfl, rfl⟩

theorem closeBlock_ok {s s1 : DecodeState} {idx : Nat} (h : s.closeBlock idx = .ok s1) :
    ∃ b, s.curBlock = some b ∧ s1.curBlock = none ∧ s1.curFunc = s.curFunc ∧
      s1.module.operations = s.module.operations.modify (setExit idx) b := by
  unfold DecodeState.closeBlock at h
  split at h
  · cases h
  · rename_i b hb
    cases h
    exact ⟨b, hb, rfl, rfl, rfl⟩

theorem mergeBlock_ok {s s1 : DecodeState} {idx : Nat} (h : s.mergeBlock idx = .ok s1) :
    ∃ b, s.curBlock = some b ∧ s1.curBlock = some b ∧ s1.curFunc = s.curFunc ∧
      s1.module.operations = s.module.operations.modify (setMerge idx) b := by
  unfold DecodeState.mergeBlock at h
  split at h
  · cases h
  · rename_i b hb
    cases h
    exact ⟨b, hb, hb, rfl, rfl⟩

theorem shape_other (X : Externals) (spirv : List Nat) (it : Nat) (s s1 : DecodeState)
    (hc : classAt X spirv it = .other)
    (h : decodeInstruction X spirv it s = .ok s1) :
    ∃ op, s1.module.operations = s.module.operations ++ [op] ∧
      op.opcode = OpCode spirv it ∧ op.block = none ∧ op.func = none ∧
      s1.curFunc = s.curFunc ∧ s1.curBlock = s.curBlock := by
  unfold classAt at hc
  unfold decodeInstruction at h
  generalize pass1Case (X.opOf (OpCode spirv it)) = k at h hc
  cases k <;> first
    | (exact absurd hc (by decide))
    | (cases h; exact ⟨_, rfl, rfl, rfl, rfl, rfl, rfl⟩)
    | (dsimp only at h
       repeat' (first | (obtain ⟨_, hh, h⟩ := bind_ok_elim h) | split at h)
       all_goals cases h
       all_goals first
         | exact ⟨_, rfl, rfl, rfl, rfl, rfl, rfl⟩
         | exact ⟨_, congrArg (fun l => l ++ [_]) (assignId_ok hh).1, rfl, rfl, rfl, rfl, rfl⟩)

theorem shape_terminator (X : Externals) (spirv : List Nat) (it : Nat) (s s1 : DecodeState)
    (hc : classAt X spirv it = .terminator)
    (h : decodeInstruction X spirv it s = .ok s1) :
    ∃ b op, s1.module.operations
        = s.module.operations.modify (setExit s.module.operations.length) b ++ [op] ∧
      s.curBlock = some b ∧
      op.opcode = OpCode spirv it ∧ op.block = none ∧ op.func = none ∧
      s1.curFunc = s.curFunc ∧ s1.curBlock = none := by
  unfold classAt at hc
  unfold decodeInstruction at h
  generalize pass1Case (X.opOf (OpCode spirv it)) = k at h hc
  cases k <;> first
    | (exact absurd hc (by decide))
    | (dsimp only at h
       repeat' (first | (obtain ⟨_, hh, h⟩ := bind_ok_elim h) | split at h)
       all_goals cases h
       all_goals obtain ⟨b, hb, hcb, hcf, hops⟩ := closeBlock_ok hh
       all_goals exact ⟨b, _, congrArg (fun l => l ++ [_]) hops, hb, rfl, rfl, rfl, hcf, hcb⟩)

theorem deref_ok {p : Option Nat} {j : Nat} (h : deref p = .ok j) : p = some j := by
  cases p with
  | none => cases h
  | some k => cases h; rfl

theorem shape_merge (X : Externals) (spirv : List Nat) (it : Nat) (s s1 : DecodeState)
    (hc : classAt X spirv it = .merge)
    (h : decodeInstruction X spirv it s = .ok s1) :
    ∃ b op, s1.module.operations
        = s.module.operations.modify (setMerge s.module.operations.length) b ++ [op] ∧
      s.curBlock = some b ∧
      op.opcode = OpCode spirv it ∧ op.block = none ∧ op.func = none ∧
      s1.curFunc = s.curFunc ∧ s1.curBlock = some b := by
  unfold classAt at hc
  unfold decodeInstruction at h
  generalize pass1Case (X.opOf (OpCode spirv it)) = k at h hc
  cases k <;> first
    | (exact absurd hc (by decide))
    | (dsimp only at h
       repeat' (first | (obtain ⟨_, hh, h⟩ := bind_ok_elim h) | split at h)
       all_goals cases h
       all_goals obtain ⟨b, hb, hcb, hcf, hops⟩ := mergeBlock_ok hh
       all_goals exact ⟨b, _, congrArg (fun l => l ++ [_]) hops, hb, rfl, rfl, rfl, hcf, hcb⟩)

theorem shape_operation (X : Externals) (spirv : List Nat) (it : Nat) (s s1 : DecodeState)
    (hc : classAt X spirv it = .operation)
    (h : decodeInstruction X spirv it s = .ok s1) :
    ∃ b op, s1.module.operations
        = s.module.operations.modify (pushInstruction s.module.operations.length) b ++ [op] ∧
      s.curBlock = some b ∧
      op.opcode = OpCode spirv it ∧ op.block = none ∧ op.func = none ∧
      s1.curFunc = s.curFunc ∧ s1.curBlock = some b := by
  unfold classAt at hc
  unfold decodeInstruction at h
  generalize pass1Case (X.opOf (OpCode spirv it)) = k at h hc
  cases k <;> first
    | (exact absurd hc (by decide))
    | (dsimp only at h
       repeat' (first | (obtain ⟨_, hh, h⟩ := bind_ok_elim h) | split at h)
       all_goals cases h
       all_goals obtain ⟨b, hb, hcb, hcf, hops⟩ := appendToBlock_ok hh
       all_goals first
         | exact ⟨b, _, congrArg (fun l => l ++ [_]) hops, hb, rfl, rfl, rfl, hcf, hcb⟩
         | (have h1 := (assignId_ok (by assumption)).1
            dsimp only at hops h1
            rw [h1] at hops
            exact ⟨b, _, congrArg (fun l => l ++ [_]) hops, hb, rfl, rfl, rfl, hcf, hcb⟩))

theorem shape_function (X : Externals) (spirv : List Nat) (it : Nat) (s s1 : DecodeState)
    (hc : classAt X spirv it = .function)
    (h : decodeInstruction X spirv it s = .ok s1) :
    ∃ op fn, s1.module.operations = s.module.operations ++ [op] ∧
      op.opcode = OpCode spirv it ∧ op.block = none ∧ op.func = some fn ∧ fn.blocks = [] ∧
      s1.curFunc = some s.module.operations.length ∧ s1.curBlock = s.curBlock := by
  unfold classAt at hc
  unfold decodeInstruction at h
  generalize pass1Case (X.opOf (OpCode spirv it)) = k at h hc
  cases k <;> first
    | (exact absurd hc (by decide))
    | (dsimp only at h
       repeat' (first | (obtain ⟨_, hh, h⟩ := bind_ok_elim h) | split at h)
       all_goals cases h
       all_goals exact ⟨_, _, congrArg (fun l => l ++ [_]) (assignId_ok hh).1, rfl, rfl, rfl, rfl,
         rfl, rfl⟩)

theorem shape_functionEnd (X : Externals) (spirv : List Nat) (it : Nat) (s s1 : DecodeState)
    (hc : classAt X spirv it = .functionEnd)
    (h : decodeInstruction X spirv it s = .ok s1) :
    ∃ op, s1.module.operations = s.module.operations ++ [op] ∧
      op.opcode = OpCode spirv it ∧ op.block = none ∧ op.func = none ∧
      s1.curFunc = none ∧ s1.curBlock = s.curBlock := by
  unfold classAt at hc
  unfold decodeInstruction at h
  generalize pass1Case (X.opOf (OpCode spirv it)) = k at h hc
  cases k <;> first
    | (exact absurd hc (by decide))
    | (cases h; exact ⟨_, rfl, rfl, rfl, rfl, rfl, rfl⟩)

theorem shape_variable (X : Externals) (spirv : List Nat) (it : Nat) (s s1 : DecodeState)
    (hc : classAt X spirv it = .variableDecl)
    (h : decodeInstruction X spirv it s = .ok s1) :
    ∃ op, s1.module.operations
        = (match s.curFunc with
           | some f => s.module.operations.modify (pushVariable s.module.operations.length) f
           | none => s.module.operations) ++ [op] ∧
      op.opcode = OpCode spirv it ∧ op.block = none ∧ op.func = none ∧
      s1.curFunc = s.curFunc ∧ s1.curBlock = s.curBlock := by
  unfold classAt at hc
  unfold decodeInstruction at h
  generalize pass1Case (X.opOf (OpCode spirv it)) = k at h hc
  cases k <;> first
    | (exact absurd hc (by decide))
    | (dsimp only at h
       repeat' (first | (obtain ⟨_, hh, h⟩ := bind_ok_elim h) | split at h)
       all_goals cases h
       all_goals have h1 := (assignId_ok hh).1
       all_goals cases hcf : s.curFunc
       all_goals simp only [hcf] at h1
       all_goals exact ⟨_, congrArg (fun l => l ++ [_]) h1, rfl, rfl, rfl, hcf.symm ▸ rfl, rfl⟩)

theorem shape_label (X : Externals) (spirv : List Nat) (it : Nat) (s s1 : DecodeState)
    (hc : classAt X spirv it = .label)
    (h : decodeInstruction X spirv it s = .ok s1) :
    ∃ f op, s1.module.operations
        = s.module.operations.modify (pushBlock s.module.operations.length) f ++ [op] ∧
      s.curFunc = some f ∧
      op.opcode = OpCode spirv it ∧
      op.block = some { instructions := [s.module.operations.length], mergeFlow := none,
                        exitFlow := none } ∧
      op.func = none ∧
      s1.curFunc = s.curFunc ∧ s1.curBlock = some s.module.operations.length := by
  unfold classAt at hc
  unfold decodeInstruction at h
  generalize pass1Case (X.opOf (OpCode spirv it)) = k at h hc
  cases k <;> first
    | (exact absurd hc (by decide))
    | (dsimp only at h
       repeat' (first | (obtain ⟨_, hh, h⟩ := bind_ok_elim h) | split at h)
       all_goals cases h
       all_goals have h1 := (assignId_ok hh).1
       all_goals have hf := deref_ok (by assumption)
       all_goals exact ⟨_, _, congrArg (fun l => l ++ [_]) h1, hf, rfl, rfl, rfl, rfl, rfl⟩)

/-! ## The structural pass seen through the opcodes, the blocks and the functions -/

theorem map_modify_comm {α β : Type} (v : α → β) (g : α → α) (g1 : β → β)
    (hv : ∀ a, v (g a) = g1 (v a)) (l : List α) (n : Nat) :
    (l.modify g n).map v = (l.map v).modify g1 n := by
  induction l generalizing n with
  | nil => simp
  | cons a l ih =>
    cases n with
    | zero => simp [hv]
    | succ n => simp [ih]

theorem map_modify_same {α β : Type} (v : α → β) (g : α → α)
    (hv : ∀ a, v (g a) = v a) (l : List α) (n : Nat) :
    (l.modify g n).map v = l.map v := by
  induction l generalizing n with
  | nil => simp
  | cons a l ih =>
    cases n with
    | zero => simp [hv]
    | succ n => simp [ih]

theorem decodeInstruction_abs (X : Externals) (spirv : List Nat) (it : Nat) (s s1 : DecodeState)
    (h : decodeInstruction X spirv it s = .ok s1) :
    AbsStep (classAt X spirv it) (absOf X s) (absOf X s1) := by
  have hcls : ∀ op : SPVInstruction, op.opcode = OpCode spirv it →
      classOf X op = classAt X spirv it := by
    intro op hop; simp [classOf, classAt, hop]
  cases hc : classAt X spirv it with
  | other =>
    obtain ⟨op, hops, hopc, hb, hf, hcf, hcb⟩ := shape_other X spirv it s s1 hc h
    simp [AbsStep, absOf, hops, hcls op hopc, hc, hb, hf, hcf, hcb]
  | variableDecl =>
    obtain ⟨op, hops, hopc, hb, hf, hcf, hcb⟩ := shape_variable X spirv it s s1 hc h
    cases hcur : s.curFunc with
    | none =>
      simp only [hcur] at hops
      simp [AbsStep, absOf, hops, hcls op hopc, hc, hb, hf, hcf, hcb, hcur]
    | some f =>
      simp only [hcur] at hops
      simp [AbsStep, absOf, hops, hcls op hopc, hc, hb, hf, hcf, hcb, hcur,
        map_modify_same (classOf X) (pushVariable _) (fun _ => rfl),
        map_modify_same (fun inst : SPVInstruction => inst.block) (pushVariable _) (fun _ => rfl)]
      apply map_modify_same
      intro a; cases hfa : a.func <;> simp [pushVariable, hfa]
  | function =>
    obtain ⟨op, fn, hops, hopc, hb, hf, hfb, hcf, hcb⟩ := shape_function X spirv it s s1 hc h
    simp [AbsStep, absOf, hops, hcls op hopc, hc, hb, hf, hfb, hcf, hcb]
  | functionEnd =>
    obtain ⟨op, hops, hopc, hb, hf, hcf, hcb⟩ := shape_functionEnd X spirv it s s1 hc h
    simp [AbsStep, absOf, hops, hcls op hopc, hc, hb, hf, hcf, hcb]
  | label =>
    obtain ⟨f, op, hops, hcur, hopc, hb, hf, hcf, hcb⟩ := shape_label X spirv it s s1 hc h
    simp only [AbsStep, absOf]
    refine ⟨?_, f, hcur, ?_, ?_, hcf.trans hcur, by simpa using hcb⟩
    · simp [hops, hcls op hopc, hc, map_modify_same (classOf X) (pushBlock _) (fun _ => rfl)]
    · simp [hops, hb,
        map_modify_same (fun inst : SPVInstruction => inst.block) (pushBlock _) (fun _ => rfl)]
    · simp only [hops, List.map_append, List.map_cons, List.map_nil, hf, Option.map_none',
        List.length_map]
      congr 1
      apply map_modify_comm
      intro a; cases hfa : a.func <;> simp [pushBlock, hfa]
  | terminator =>
    obtain ⟨b, op, hops, hcur, hopc, hb, hf, hcf, hcb⟩ := shape_terminator X spirv it s s1 hc h
    simp only [AbsStep, absOf]
    refine ⟨?_, b, hcur, ?_, ?_, hcf, hcb⟩
    · simp [hops, hcls op hopc, hc, map_modify_same (classOf X) (setExit _) (fun _ => rfl)]
    · simp only [hops, List.map_append, List.map_cons, List.map_nil, hb, List.length_map]
      congr 1
      apply map_modify_comm
      intro a; cases hba : a.block <;> simp [setExit, SPVBlock.close, hba]
    · simp only [hops, List.map_append, List.map_cons, List.map_nil, hf, Option.map_none']
      congr 1
      apply map_modify_same
      intro a; rfl
  | merge =>
    obtain ⟨b, op, hops, hcur, hopc, hb, hf, hcf, hcb⟩ := shape_merge X spirv it s s1 hc h
    simp only [AbsStep, absOf]
    refine ⟨?_, b, hcur, ?_, ?_, hcf, hcb⟩
    · simp [hops, hcls op hopc, hc, map_modify_same (classOf X) (setMerge _) (fun _ => rfl)]
    · simp only [hops, List.map_append, List.map_cons, List.map_nil, hb, List.length_map]
      congr 1
      apply map_modify_comm
      intro a; cases hba : a.block <;> simp [setMerge, SPVBlock.merge, hba]
    · simp only [hops, List.map_append, List.map_cons, List.map_nil, hf, Option.map_none']
      congr 1
      apply map_modify_same
      intro a; rfl
  | operation =>
    obtain ⟨b, op, hops, hcur, hopc, hb, hf, hcf, hcb⟩ := shape_operation X spirv it s s1 hc h
    simp only [AbsStep, absOf]
    refine ⟨?_, b, hcur, ?_, ?_, hcf, hcb⟩
    · simp [hops, hcls op hopc, hc, map_modify_same (classOf X) (pushInstruction _) (fun _ => rfl)]
    · simp only [hops, List.map_append, List.map_cons, List.map_nil, hb, List.length_map]
      congr 1
      apply map_modify_comm
      intro a; cases hba : a.block <;> simp [pushInstruction, SPVBlock.push, hba]
    · simp only [hops, List.map_append, List.map_cons, List.map_nil, hf, Option.map_none']
      congr 1
      apply map_modify_same
      intro a; rfl

/-! ## Invariants of the blocks -/

theorem getElem?_append_lt {α : Type} (l : List α) (x : α) (k : Nat) (h : k < l.length) :
    (l ++ [x])[k]? = l[k]? := by
  simp [List.getElem?_append, h]

theorem BlockOK.mono {cls : List OpClass} {j : Nat} {blk : SPVBlock} (c : OpClass)
    (h : BlockOK cls j blk) : BlockOK (cls ++ [c]) j blk := by
  obtain ⟨h1, h2, h3, h4, h5⟩ := h
  have hj : j < cls.length := by
    obtain ⟨rest, hr⟩ := h2
    exact h3 j (by simp [hr])
  refine ⟨by rw [getElem?_append_lt _ _ _ hj]; exact h1, h2, ?_, ?_, ?_⟩
  · intro k hk
    have := h3 k hk
    simp; omega
  · cases he : blk.exitFlow with
    | none =>
      simp only [he] at h4 ⊢
      intro k hk
      rw [getElem?_append_lt _ _ _ (h3 k hk)]
      exact h4 k hk
    | some e =>
      simp only [he] at h4 ⊢
      obtain ⟨pre, hp, he1, hpre⟩ := h4
      have hek : e < cls.length := h3 e (by simp [hp])
      refine ⟨pre, hp, by rw [getElem?_append_lt _ _ _ hek]; exact he1, ?_⟩
      intro k hk
      rw [getElem?_append_lt _ _ _ (h3 k (by simp [hp, hk]))]
      exact hpre k hk
  · intro m hm
    obtain ⟨hm1, hm2⟩ := h5 m hm
    exact ⟨hm1, by rw [getElem?_append_lt _ _ _ (h3 m hm1)]; exact hm2⟩

theorem getElem?_modify_append {α : Type} (l : List α) (g : α → α) (b : Nat) (x y : α) (j : Nat)
    (h : (l.modify g b ++ [x])[j]? = some y) :
    (j < l.length ∧ ((j ≠ b ∧ l[j]? = some y) ∨ (j = b ∧ ∃ z, l[j]? = some z ∧ y = g z))) ∨
      (j = l.length ∧ y = x) := by
  by_cases hj : j < l.length
  · left
    refine ⟨hj, ?_⟩
    rw [List.getElem?_append, if_pos (by simpa using hj), List.getElem?_modify] at h
    by_cases hb : b = j
    · right
      subst hb
      cases hl : l[b]? with
      | none => simp [hl] at h
      | some z => simp [hl] at h; exact ⟨rfl, z, rfl, h.symm⟩
    · left
      refine ⟨fun e => hb e.symm, ?_⟩
      cases hl : l[j]? with
      | none => simp [hl] at h
      | some z => simp [hl, hb] at h; simp [h]
  · right
    rw [List.getElem?_append, if_neg (by simpa using hj)] at h
    simp only [List.length_modify] at h
    have : j - l.length = 0 := by
      by_contra hne
      have : j - l.length = (j - l.length - 1) + 1 := by omega
      rw [this] at h
      simp at h
    rw [this] at h
    simp at h
    exact ⟨by omega, h.symm⟩

theorem getElem?_append_one {α : Type} (l : List α) (x y : α) (j : Nat)
    (h : (l ++ [x])[j]? = some y) :
    (j < l.length ∧ l[j]? = some y) ∨ (j = l.length ∧ y = x) := by
  have h1 : (l.modify id 0 ++ [x])[j]? = some y := by
    have : l.modify id 0 = l := by cases l <;> simp
    rw [this]; exact h
  rcases getElem?_modify_append l id 0 x y j h1 with ⟨hj, h2 | ⟨_, z, hz, hy⟩⟩ | h2
  · exact Or.inl ⟨hj, h2.2⟩
  · exact Or.inl ⟨hj, by simp [hz, hy]⟩
  · exact Or.inr h2

/-- The invariant on blocks holds after a step that adds an instruction without a block and
leaves the blocks and the current block as they are. -/
theorem BlockInv.plain {a a1 : Abs} (c : OpClass) (h : BlockInv a) (hc : c ≠ .label)
    (hcls : a1.cls = a.cls ++ [c]) (hblks : a1.blks = a.blks ++ [none])
    (hcur : a1.curBlock = a.curBlock) : BlockInv a1 := by
  refine ⟨by simp [hcls, hblks, h.len], ?_, ?_, ?_⟩
  · intro j blk hj
    rw [hblks] at hj
    rcases getElem?_append_one _ _ _ _ hj with ⟨_, h1⟩ | ⟨_, h1⟩
    · rw [hcls]; exact (h.blocks j blk h1).mono c
    · cases h1
  · intro j hj
    rw [hcls] at hj
    rcases getElem?_append_one _ _ _ _ hj with ⟨hlt, h1⟩ | ⟨_, h1⟩
    · obtain ⟨blk, hb⟩ := h.labels j h1
      exact ⟨blk, by rw [hblks, getElem?_append_lt _ _ _ (by rw [h.len]; exact hlt)]; exact hb⟩
    · exact absurd h1.symm hc
  · intro b hb
    rw [hcur] at hb
    obtain ⟨blk, h1, h2⟩ := h.cur b hb
    have hlt : b < a.blks.length := by
      by_contra hge
      rw [List.getElem?_eq_none (by omega)] at h1
      cases h1
    exact ⟨blk, by rw [hblks, getElem?_append_lt _ _ _ hlt]; exact h1, h2⟩

theorem getElem?_length_append {α : Type} (l : List α) (x : α) : (l ++ [x])[l.length]? = some x := by
  simp

/-- The invariant on blocks holds after a `Label`. -/
theorem BlockInv.label {a a1 : Abs} (h : BlockInv a)
    (hcls : a1.cls = a.cls ++ [.label])
    (hblks : a1.blks = a.blks ++
      [some { instructions := [a.cls.length], mergeFlow := none, exitFlow := none }])
    (hcur : a1.curBlock = some a.cls.length) : BlockInv a1 := by
  refine ⟨by simp [hcls, hblks, h.len], ?_, ?_, ?_⟩
  · intro j blk hj
    rw [hblks] at hj
    rcases getElem?_append_one _ _ _ _ hj with ⟨_, h1⟩ | ⟨hjl, h1⟩
    · rw [hcls]; exact (h.blocks j blk h1).mono _
    · have hjl1 : j = a.cls.length := by rw [hjl, h.len]
      cases h1
      subst hjl1
      rw [hcls]
      refine ⟨getElem?_length_append _ _, ⟨[], rfl⟩, ?_, ?_, ?_⟩
      · intro k hk; simp at hk; subst hk; simp
      · show ∀ k ∈ [a.cls.length], _
        intro k hk
        simp only [List.mem_singleton] at hk
        subst hk
        rw [getElem?_length_append]
        simp
      · intro m hm; cases hm
  · intro j hj
    rw [hcls] at hj
    rcases getElem?_append_one _ _ _ _ hj with ⟨hlt, h1⟩ | ⟨hjl, _⟩
    · obtain ⟨blk, hb⟩ := h.labels j h1
      exact ⟨blk, by rw [hblks, getElem?_append_lt _ _ _ (by rw [h.len]; exact hlt)]; exact hb⟩
    · exact ⟨_, by rw [hblks, hjl, ← h.len]; exact getElem?_length_append _ _⟩
  · intro b hb
    rw [hcur] at hb
    cases hb
    exact ⟨_, by rw [hblks, ← h.len]; exact getElem?_length_append _ _, rfl⟩

/-- The invariant on blocks holds after a step that updates the open block with `upd`. -/
theorem BlockInv.update {a a1 : Abs} (c : OpClass) (upd : SPVBlock → SPVBlock) (b : Nat)
    (h : BlockInv a) (hc : c ≠ .label) (hcb : a.curBlock = some b)
    (hcls : a1.cls = a.cls ++ [c])
    (hblks : a1.blks = a.blks.modify (Option.map upd) b ++ [none])
    (hupd : ∀ blk0, BlockOK a.cls b blk0 → blk0.exitFlow = none →
      BlockOK (a.cls ++ [c]) b (upd blk0))
    (hcur : a1.curBlock = none ∨
      (a1.curBlock = some b ∧ ∀ blk0 : SPVBlock, (upd blk0).exitFlow = blk0.exitFlow)) :
    BlockInv a1 := by
  obtain ⟨blk0, hb0, he0⟩ := h.cur b hcb
  refine ⟨by simp [hcls, hblks, h.len], ?_, ?_, ?_⟩
  · intro j blk hj
    rw [hblks] at hj
    rcases getElem?_modify_append _ _ _ _ _ _ hj with ⟨_, ⟨_, h1⟩ | ⟨hjb, z, hz, hy⟩⟩ | ⟨_, h1⟩
    · rw [hcls]; exact (h.blocks j blk h1).mono c
    · subst hjb
      rw [hb0] at hz
      cases hz
      simp only [Option.map_some', Option.some.injEq] at hy
      subst hy
      rw [hcls]
      exact hupd blk0 (h.blocks j blk0 hb0) he0
    · cases h1
  · intro j hj
    rw [hcls] at hj
    rcases getElem?_append_one _ _ _ _ hj with ⟨hlt, h1⟩ | ⟨_, h1⟩
    · obtain ⟨blk, hb⟩ := h.labels j h1
      rw [hblks, getElem?_append_lt _ _ _ (by rw [List.length_modify, h.len]; exact hlt),
        List.getElem?_modify, hb]
      by_cases hbj : b = j
      · exact ⟨upd blk, by simp [hbj]⟩
      · exact ⟨blk, by simp [hbj]⟩
    · exact absurd h1.symm hc
  · intro b1 hb1
    rcases hcur with hn | ⟨hs, hex⟩
    · rw [hn] at hb1; cases hb1
    · rw [hs] at hb1
      cases hb1
      have hlt : b < a.blks.length := by
        by_contra hge
        rw [List.getElem?_eq_none (by omega)] at hb0
        cases hb0
      refine ⟨upd blk0, ?_, by rw [hex]; exact he0⟩
      rw [hblks, getElem?_append_lt _ _ _ (by simpa using hlt), List.getElem?_modify_eq, hb0]
      rfl

theorem BlockOK.close {cls : List OpClass} {b : Nat} {blk0 : SPVBlock}
    (h : BlockOK cls b blk0) (he : blk0.exitFlow = none) :
    BlockOK (cls ++ [.terminator]) b (SPVBlock.close cls.length blk0) := by
  have hm := h.mono .terminator
  obtain ⟨h1, ⟨rest, h2⟩, h3, h4, h5⟩ := hm
  simp only [he] at h4
  refine ⟨h1, ⟨rest ++ [cls.length], by simp [SPVBlock.close, h2]⟩, ?_, ?_, ?_⟩
  · intro k hk
    simp only [SPVBlock.close, List.mem_append, List.mem_singleton] at hk
    rcases hk with hk | hk
    · exact h3 k hk
    · subst hk; simp
  · show ∃ pre, _
    exact ⟨blk0.instructions, rfl, getElem?_length_append _ _, h4⟩
  · intro m hm
    obtain ⟨hm1, hm2⟩ := h5 m hm
    exact ⟨by simp [SPVBlock.close, hm1], hm2⟩

theorem BlockOK.merge {cls : List OpClass} {b : Nat} {blk0 : SPVBlock}
    (h : BlockOK cls b blk0) (he : blk0.exitFlow = none) :
    BlockOK (cls ++ [.merge]) b (SPVBlock.merge cls.length blk0) := by
  have hm := h.mono .merge
  obtain ⟨h1, ⟨rest, h2⟩, h3, h4, h5⟩ := hm
  simp only [he] at h4
  refine ⟨h1, ⟨rest ++ [cls.length], by simp [SPVBlock.merge, h2]⟩, ?_, ?_, ?_⟩
  · intro k hk
    simp only [SPVBlock.merge, List.mem_append, List.mem_singleton] at hk
    rcases hk with hk | hk
    · exact h3 k hk
    · subst hk; simp
  · show match blk0.exitFlow with
      | none => _
      | some e => _
    simp only [he]
    intro k hk
    simp only [SPVBlock.merge, List.mem_append, List.mem_singleton] at hk
    rcases hk with hk | hk
    · exact h4 k hk
    · subst hk; rw [getElem?_length_append]; simp
  · intro m hm
    simp only [SPVBlock.merge, Option.some.injEq] at hm
    subst hm
    exact ⟨by simp [SPVBlock.merge], getElem?_length_append _ _⟩

theorem BlockOK.push {cls : List OpClass} {b : Nat} {blk0 : SPVBlock}
    (h : BlockOK cls b blk0) (he : blk0.exitFlow = none) :
    BlockOK (cls ++ [.operation]) b (SPVBlock.push cls.length blk0) := by
  have hm := h.mono .operation
  obtain ⟨h1, ⟨rest, h2⟩, h3, h4, h5⟩ := hm
  simp only [he] at h4
  refine ⟨h1, ⟨rest ++ [cls.length], by simp [SPVBlock.push, h2]⟩, ?_, ?_, ?_⟩
  · intro k hk
    simp only [SPVBlock.push, List.mem_append, List.mem_singleton] at hk
    rcases hk with hk | hk
    · exact h3 k hk
    · subst hk; simp
  · show match blk0.exitFlow with
      | none => _
      | some e => _
    simp only [he]
    intro k hk
    simp only [SPVBlock.push, List.mem_append, List.mem_singleton] at hk
    rcases hk with hk | hk
    · exact h4 k hk
    · subst hk; rw [getElem?_length_append]; simp
  · intro m hm
    obtain ⟨hm1, hm2⟩ := h5 m hm
    exact ⟨by simp [SPVBlock.push, hm1], hm2⟩

/-- Every step of the structural pass keeps the invariant on blocks. -/
theorem BlockInv.step {a a1 : Abs} {c : OpClass} (h : BlockInv a) (hs : AbsStep c a a1) :
    BlockInv a1 := by
  obtain ⟨hcls, hrest⟩ := hs
  cases c with
  | other => exact h.plain .other (by decide) hcls hrest.1 hrest.2.2.2
  | variableDecl => exact h.plain .variableDecl (by decide) hcls hrest.1 hrest.2.2.2
  | function => exact h.plain .function (by decide) hcls hrest.1 hrest.2.2.2
  | functionEnd => exact h.plain .functionEnd (by decide) hcls hrest.1 hrest.2.2.2
  | label =>
    obtain ⟨f, _, hb, _, _, hcb⟩ := hrest
    exact h.label hcls hb hcb
  | terminator =>
    obtain ⟨b, hcur, hb, _, _, hcb⟩ := hrest
    exact h.update .terminator _ b (by decide) hcur hcls hb (fun _ hk he => hk.close he) (Or.inl hcb)
  | merge =>
    obtain ⟨b, hcur, hb, _, _, hcb⟩ := hrest
    exact h.update .merge _ b (by decide) hcur hcls hb (fun _ hk he => hk.merge he)
      (Or.inr ⟨hcb, fun _ => rfl⟩)
  | operation =>
    obtain ⟨b, hcur, hb, _, _, hcb⟩ := hrest
    exact h.update .operation _ b (by decide) hcur hcls hb (fun _ hk he => hk.push he)
      (Or.inr ⟨hcb, fun _ => rfl⟩)

/-! ## Invariants of the functions -/

theorem labelsUntil_append_closed (l : List OpClass) (c : OpClass) (j : Nat)
    (h : ∃ x ∈ l, isBoundary x = true) : labelsUntil (l ++ [c]) j = labelsUntil l j := by
  induction l generalizing j with
  | nil => simp at h
  | cons a l ih =>
    cases a <;> simp only [labelsUntil, List.cons_append, List.append_eq]
    all_goals
      have h1 : ∃ x ∈ l, isBoundary x = true := by
        obtain ⟨x, hx, hb⟩ := h
        simp only [List.mem_cons] at hx
        rcases hx with hx | hx
        · subst hx; simp [isBoundary] at hb
        · exact ⟨x, hx, hb⟩
      rw [ih _ h1]

theorem labelsUntil_append_open (l : List OpClass) (c : OpClass) (j : Nat)
    (h : ∀ x ∈ l, isBoundary x = false) :
    labelsUntil (l ++ [c]) j = labelsUntil l j ++ (if c = .label then [j + l.length] else []) := by
  induction l generalizing j with
  | nil => cases c <;> simp [labelsUntil]
  | cons a l ih =>
    have h1 : ∀ x ∈ l, isBoundary x = false := fun x hx => h x (by simp [hx])
    have ha := h a (by simp)
    cases a <;> simp only [labelsUntil, List.cons_append, isBoundary, List.append_eq] at ha ⊢ <;>
      (try (cases ha)) <;> rw [ih _ h1] <;> simp <;>
      (have e : j + 1 + l.length = j + (l.length + 1) := by omega) <;> rw [e]

theorem labelsUntil_append_other (l : List OpClass) (c : OpClass) (j : Nat)
    (hc : c ≠ .label) : labelsUntil (l ++ [c]) j = labelsUntil l j := by
  induction l generalizing j with
  | nil => cases c <;> simp [labelsUntil] at hc ⊢
  | cons a l ih =>
    cases a <;> simp only [labelsUntil, List.cons_append, List.append_eq] <;> rw [ih]

theorem drop_succ_append {α : Type} (l : List α) (x : α) (k : Nat) (h : k < l.length) :
    (l ++ [x]).drop (k + 1) = l.drop (k + 1) ++ [x] := by
  rw [List.drop_append_of_le_length (by omega)]

theorem cls_lt_of_function {cls : List OpClass} {c : OpClass} {k : Nat} (hc : c ≠ .function)
    (h : (cls ++ [c])[k]? = some .function) : k < cls.length ∧ cls[k]? = some .function := by
  rcases getElem?_append_one _ _ _ _ h with ⟨h1, h2⟩ | ⟨_, h2⟩
  · exact ⟨h1, h2⟩
  · exact absurd h2.symm hc

theorem lt_of_getElem?_eq_some {α : Type} {l : List α} {k : Nat} {x : α} (h : l[k]? = some x) :
    k < l.length := by
  by_contra hge
  rw [List.getElem?_eq_none (by omega)] at h
  cases h

/-- The invariant on functions holds after an instruction that is no label and neither opens
nor closes a function. -/
theorem FuncInv.plainStep {a a1 : Abs} (c : OpClass) (h : FuncInv a)
    (hl : c ≠ .label) (hb : isBoundary c = false)
    (hcls : a1.cls = a.cls ++ [c]) (hfb : a1.fblocks = a.fblocks ++ [none])
    (hcur : a1.curFunc = a.curFunc) : FuncInv a1 := by
  have hnf : c ≠ .function := by intro e; subst e; simp [isBoundary] at hb
  refine ⟨by simp [hcls, hfb, h.len], ?_, ?_, ?_⟩
  · intro k hk
    rw [hcls] at hk ⊢
    obtain ⟨hlt, hk1⟩ := cls_lt_of_function hnf hk
    rw [drop_succ_append _ _ _ hlt, labelsUntil_append_other _ _ _ hl, hfb,
      getElem?_append_lt _ _ _ (by rw [h.len]; exact hlt)]
    exact h.funcs k hk1
  · intro f hf
    rw [hcur] at hf
    obtain ⟨h1, h2⟩ := h.cur f hf
    have hlt := lt_of_getElem?_eq_some h1
    rw [hcls, getElem?_append_lt _ _ _ hlt, drop_succ_append _ _ _ hlt]
    refine ⟨h1, ?_⟩
    intro x hx
    simp only [List.mem_append, List.mem_singleton] at hx
    rcases hx with hx | hx
    · exact h2 x hx
    · subst hx; exact hb
  · intro k hk hne
    rw [hcls] at hk ⊢
    obtain ⟨hlt, hk1⟩ := cls_lt_of_function hnf hk
    rw [hcur] at hne
    obtain ⟨x, hx, hxb⟩ := h.closed k hk1 hne
    rw [drop_succ_append _ _ _ hlt]
    exact ⟨x, by simp [hx], hxb⟩

/-- The invariant on functions holds after a `Function`. -/
theorem FuncInv.function {a a1 : Abs} (h : FuncInv a)
    (hcls : a1.cls = a.cls ++ [.function]) (hfb : a1.fblocks = a.fblocks ++ [some []])
    (hcur : a1.curFunc = some a.cls.length) : FuncInv a1 := by
  refine ⟨by simp [hcls, hfb, h.len], ?_, ?_, ?_⟩
  · intro k hk
    rw [hcls] at hk ⊢
    rcases getElem?_append_one _ _ _ _ hk with ⟨hlt, hk1⟩ | ⟨hkl, _⟩
    · rw [drop_succ_append _ _ _ hlt, labelsUntil_append_other _ _ _ (by decide), hfb,
        getElem?_append_lt _ _ _ (by rw [h.len]; exact hlt)]
      exact h.funcs k hk1
    · subst hkl
      rw [hfb, ← h.len, getElem?_length_append, h.len]
      simp [labelsUntil]
  · intro f hf
    rw [hcur] at hf
    cases hf
    rw [hcls]
    exact ⟨getElem?_length_append _ _, by simp⟩
  · intro k hk hne
    rw [hcls] at hk ⊢
    rcases getElem?_append_one _ _ _ _ hk with ⟨hlt, hk1⟩ | ⟨hkl, _⟩
    · rw [drop_succ_append _ _ _ hlt]
      exact ⟨.function, by simp, rfl⟩
    · rw [hcur, hkl] at hne
      exact absurd rfl hne

/-- The invariant on functions holds after a `FunctionEnd`. -/
theorem FuncInv.functionEnd {a a1 : Abs} (h : FuncInv a)
    (hcls : a1.cls = a.cls ++ [.functionEnd]) (hfb : a1.fblocks = a.fblocks ++ [none])
    (hcur : a1.curFunc = none) : FuncInv a1 := by
  refine ⟨by simp [hcls, hfb, h.len], ?_, ?_, ?_⟩
  · intro k hk
    rw [hcls] at hk ⊢
    obtain ⟨hlt, hk1⟩ := cls_lt_of_function (by decide) hk
    rw [drop_succ_append _ _ _ hlt, labelsUntil_append_other _ _ _ (by decide), hfb,
      getElem?_append_lt _ _ _ (by rw [h.len]; exact hlt)]
    exact h.funcs k hk1
  · intro f hf
    rw [hcur] at hf
    cases hf
  · intro k hk _
    rw [hcls] at hk ⊢
    obtain ⟨hlt, hk1⟩ := cls_lt_of_function (by decide) hk
    rw [drop_succ_append _ _ _ hlt]
    exact ⟨.functionEnd, by simp, rfl⟩

/-- The invariant on functions holds after a `Label`. -/
theorem FuncInv.labelStep {a a1 : Abs} (f : Nat) (h : FuncInv a) (hf : a.curFunc = some f)
    (hcls : a1.cls = a.cls ++ [.label])
    (hfb : a1.fblocks
      = a.fblocks.modify (Option.map (fun bl => bl ++ [a.cls.length])) f ++ [none])
    (hcur : a1.curFunc = some f) : FuncInv a1 := by
  obtain ⟨hf1, hf2⟩ := h.cur f hf
  have hflt := lt_of_getElem?_eq_some hf1
  refine ⟨by simp [hcls, hfb, h.len], ?_, ?_, ?_⟩
  · intro k hk
    rw [hcls] at hk ⊢
    obtain ⟨hlt, hk1⟩ := cls_lt_of_function (by decide) hk
    rw [drop_succ_append _ _ _ hlt, hfb,
      getElem?_append_lt _ _ _ (by rw [List.length_modify, h.len]; exact hlt)]
    by_cases hkf : f = k
    · subst hkf
      rw [List.getElem?_modify_eq, h.funcs f hk1, labelsUntil_append_open _ _ _ hf2]
      simp only [List.length_drop, if_true, Option.map_eq_map, Option.map_some']
      have : f + 1 + (a.cls.length - (f + 1)) = a.cls.length := by omega
      rw [this]
    · rw [List.getElem?_modify_ne _ _ hkf, h.funcs k hk1,
        labelsUntil_append_closed _ _ _ (h.closed k hk1 (by rw [hf]; intro e; cases e; exact hkf rfl))]
  · intro g hg
    rw [hcur] at hg
    cases hg
    rw [hcls, getElem?_append_lt _ _ _ hflt, drop_succ_append _ _ _ hflt]
    refine ⟨hf1, ?_⟩
    intro x hx
    simp only [List.mem_append, List.mem_singleton] at hx
    rcases hx with hx | hx
    · exact hf2 x hx
    · subst hx; rfl
  · intro k hk hne
    rw [hcls] at hk ⊢
    obtain ⟨hlt, hk1⟩ := cls_lt_of_function (by decide) hk
    rw [hcur, ← hf] at hne
    obtain ⟨x, hx, hxb⟩ := h.closed k hk1 hne
    rw [drop_succ_append _ _ _ hlt]
    exact ⟨x, by simp [hx], hxb⟩

/-- Every step of the structural pass keeps the invariant on functions. -/
theorem FuncInv.funcStep {a a1 : Abs} {c : OpClass} (h : FuncInv a) (hs : AbsStep c a a1) :
    FuncInv a1 := by
  obtain ⟨hcls, hrest⟩ := hs
  cases c with
  | other => exact h.plainStep .other (by decide) rfl hcls hrest.2.1 hrest.2.2.1
  | variableDecl => exact h.plainStep .variableDecl (by decide) rfl hcls hrest.2.1 hrest.2.2.1
  | function => exact h.function hcls hrest.2.1 hrest.2.2.1
  | functionEnd => exact h.functionEnd hcls hrest.2.1 hrest.2.2.1
  | label =>
    obtain ⟨f, hf, _, hfb, hcf, _⟩ := hrest
    exact h.labelStep f hf hcls hfb hcf
  | terminator =>
    obtain ⟨b, _, _, hfb, hcf, _⟩ := hrest
    exact h.plainStep .terminator (by decide) rfl hcls hfb hcf
  | merge =>
    obtain ⟨b, _, _, hfb, hcf, _⟩ := hrest
    exact h.plainStep .merge (by decide) rfl hcls hfb hcf
  | operation =>
    obtain ⟨b, _, _, hfb, hcf, _⟩ := hrest
    exact h.plainStep .operation (by decide) rfl hcls hfb hcf

/-! ## From one step to the whole decoder -/

/-- A property that every successful step of the structural pass keeps holds at the end of
the pass. -/
theorem pass1_induct (X : Externals) (spirv : List Nat) (P : DecodeState → Prop)
    (hstep : ∀ it s s1, decodeInstruction X spirv it s = .ok s1 → P s → P s1) :
    ∀ fuel it s s1, pass1 X spirv fuel it s = .done s1 → P s → P s1 := by
  intro fuel
  induction fuel with
  | zero =>
    intro it s s1 h hP
    unfold pass1 at h
    split at h
    · cases h
    · cases h; exact hP
  | succ fuel ih =>
    intro it s s1 h hP
    unfold pass1 at h
    split at h
    · split at h
      · cases h
      · rename_i s2 hs2
        exact ih _ _ _ h (hstep _ _ _ hs2 hP)
    · cases h; exact hP

/-- A property that every successful step of the annotation pass keeps holds at the end of
the pass. -/
theorem pass2_induct (X : Externals) (spirv : List Nat) (P : SPVModule → Prop)
    (hstep : ∀ it m m1, annotateInstruction X spirv it m = .ok m1 → P m → P m1) :
    ∀ fuel it m m1, pass2 X spirv fuel it m = .done m1 → P m → P m1 := by
  intro fuel
  induction fuel with
  | zero =>
    intro it m m1 h hP
    unfold pass2 at h
    split at h
    · cases h
    · cases h; exact hP
  | succ fuel ih =>
    intro it m m1 h hP
    unfold pass2 at h
    split at h
    · split at h
      · cases h
      · rename_i m2 hm2
        exact ih _ _ _ h (hstep _ _ _ hm2 hP)
    · cases h; exact hP

theorem annotateInstruction_skel (X : Externals) (spirv : List Nat) (it : Nat)
    (m m1 : SPVModule) (h : annotateInstruction X spirv it m = .ok m1) :
    m1.operations.map skel = m.operations.map skel := by
  unfold annotateInstruction at h
  generalize pass2Case (X.opOf (OpCode spirv it)) = k at h
  cases k <;> first
    | (cases h; rfl)
    | (dsimp only at h
       repeat' (first | (obtain ⟨_, hh, h⟩ := bind_ok_elim h) | split at h)
       all_goals cases h
       all_goals (simp only [SPVModule.modifyInst]; apply map_modify_same; intro a; rfl))

theorem map_classOf_eq_of_skel (X : Externals) (l1 l2 : List SPVInstruction)
    (h : l1.map skel = l2.map skel) : l1.map (classOf X) = l2.map (classOf X) := by
  have : ∀ l : List SPVInstruction,
      l.map (classOf X) = (l.map skel).map (fun t => classify (pass1Case (X.opOf t.1))) := by
    intro l; simp [classOf, skel]
  rw [this, this, h]

theorem map_block_eq_of_skel (l1 l2 : List SPVInstruction)
    (h : l1.map skel = l2.map skel) :
    l1.map (fun inst => inst.block) = l2.map (fun inst => inst.block) := by
  have : ∀ l : List SPVInstruction,
      l.map (fun inst => inst.block) = (l.map skel).map (fun t => t.2.1) := by
    intro l; simp [skel]
  rw [this, this, h]

theorem map_fblocks_eq_of_skel (l1 l2 : List SPVInstruction)
    (h : l1.map skel = l2.map skel) :
    l1.map (fun inst => inst.func.map (fun fn => fn.blocks))
      = l2.map (fun inst => inst.func.map (fun fn => fn.blocks)) := by
  have : ∀ l : List SPVInstruction,
      l.map (fun inst => inst.func.map (fun fn => fn.blocks))
        = (l.map skel).map (fun t => t.2.2.map (fun fn => fn.blocks)) := by
    intro l; simp [skel]
  rw [this, this, h]

theorem decode_elim (X : Externals) (fuel shadType : Nat) (spirv : List Nat) (m : SPVModule)
    (h : decode X fuel shadType spirv = .done m) :
    ∃ moduleVersion generator bound s1,
      pass1 X spirv fuel 5 (initialState X shadType moduleVersion generator bound) = .done s1 ∧
      pass2 X spirv fuel 5 s1.module = .done m := by
  unfold decode at h
  split at h
  · cases h
  · rename_i s0 hs0
    split at h
    · cases h
    · cases h
    · rename_i s1 hs1
      obtain ⟨mv, _, h1⟩ := bind_ok_elim hs0
      obtain ⟨g, _, h2⟩ := bind_ok_elim h1
      obtain ⟨b, _, h3⟩ := bind_ok_elim h2
      obtain ⟨r, _, h4⟩ := bind_ok_elim h3
      obtain ⟨_, _, h5⟩ := bind_ok_elim h4
      cases h5
      exact ⟨mv, g, b, s1, hs1, h⟩

/-- The two invariants hold of the module that the decoder builds. -/
theorem decode_inv (X : Externals) (fuel shadType : Nat) (spirv : List Nat) (m : SPVModule)
    (h : decode X fuel shadType spirv = .done m) :
    ∃ cb cf, BlockInv { absOfModule X m with curBlock := cb } ∧
      FuncInv { absOfModule X m with curFunc := cf } := by
  obtain ⟨mv, g, b, s1, h1, h2⟩ := decode_elim X fuel shadType spirv m h
  have hinv : BlockInv (absOf X s1) ∧ FuncInv (absOf X s1) := by
    refine pass1_induct X spirv (fun s => BlockInv (absOf X s) ∧ FuncInv (absOf X s)) ?_
      fuel 5 _ s1 h1 ?_
    · intro it s s2 hs hP
      have habs := decodeInstruction_abs X spirv it s s2 hs
      exact ⟨hP.1.step habs, hP.2.funcStep habs⟩
    · constructor
      · refine ⟨rfl, ?_, ?_, ?_⟩
        · intro j blk hj; simp [absOf, initialState, SPVModule.new] at hj
        · intro j hj; simp [absOf, initialState, SPVModule.new] at hj
        · intro b hb; simp [absOf, initialState] at hb
      · refine ⟨rfl, ?_, ?_, ?_⟩
        · intro k hk; simp [absOf, initialState, SPVModule.new] at hk
        · intro f hf; simp [absOf, initialState] at hf
        · intro k hk; simp [absOf, initialState, SPVModule.new] at hk
  have hsk : m.operations.map skel = s1.module.operations.map skel := by
    refine pass2_induct X spirv
      (fun m1 => m1.operations.map skel = s1.module.operations.map skel) ?_ fuel 5 _ m h2 rfl
    intro it m1 m2 hm hP
    rw [annotateInstruction_skel X spirv it m1 m2 hm]
    exact hP
  have e1 := map_classOf_eq_of_skel X _ _ hsk
  have e2 := map_block_eq_of_skel _ _ hsk
  have e3 := map_fblocks_eq_of_skel _ _ hsk
  refine ⟨s1.curBlock, s1.curFunc, ?_, ?_⟩
  · have : ({ absOfModule X m with curBlock := s1.curBlock } : Abs).cls = (absOf X s1).cls := e1
    exact ⟨by simp [absOfModule, absOf],
      by simpa [absOfModule, absOf, e1, e2] using hinv.1.blocks,
      by simpa [absOfModule, absOf, e1, e2] using hinv.1.labels,
      by simpa [absOfModule, absOf, e1, e2] using hinv.1.cur⟩
  · exact ⟨by simp [absOfModule, absOf],
      by simpa [absOfModule, absOf, e1, e3] using hinv.2.funcs,
      by simpa [absOfModule, absOf, e1, e3] using hinv.2.cur,
      by simpa [absOfModule, absOf, e1, e3] using hinv.2.closed⟩

theorem classify_terminator (o : Op) :
    decide (classify (pass1Case o) = .terminator) = isTerminator o := by
  cases o <;> rfl

theorem classify_merge (o : Op) : decide (classify (pass1Case o) = .merge) = isMerge o := by
  cases o <;> rfl

theorem classify_label (o : Op) : decide (classify (pass1Case o) = .label) = decide (o = .OpLabel) := by
  cases o <;> rfl

theorem classify_function (o : Op) :
    decide (classify (pass1Case o) = .function) = decide (o = .OpFunction) := by
  cases o <;> rfl

theorem classOf_terminator (X : Externals) (t : SPVInstruction) :
    classOf X t = .terminator ↔ isTerminator (X.opOf t.opcode) = true := by
  have := classify_terminator (X.opOf t.opcode)
  unfold classOf
  rw [← this]
  simp

theorem classOf_merge (X : Externals) (t : SPVInstruction) :
    classOf X t = .merge ↔ isMerge (X.opOf t.opcode) = true := by
  have := classify_merge (X.opOf t.opcode)
  unfold classOf
  rw [← this]
  simp

theorem classOf_label (X : Externals) (t : SPVInstruction) :
    classOf X t = .label ↔ X.opOf t.opcode = .OpLabel := by
  have := classify_label (X.opOf t.opcode)
  unfold classOf
  simpa using this

theorem classOf_function (X : Externals) (t : SPVInstruction) :
    classOf X t = .function ↔ X.opOf t.opcode = .OpFunction := by
  have := classify_function (X.opOf t.opcode)
  unfold classOf
  simpa using this

theorem decode_blockOK (X : Externals) (fuel shadType : Nat) (spirv : List Nat) (m : SPVModule)
    (h : decode X fuel shadType spirv = .done m) (j : Nat) (inst : SPVInstruction)
    (blk : SPVBlock) (hj : m.operations[j]? = some inst) (hb : inst.block = some blk) :
    BlockOK (m.operations.map (classOf X)) j blk := by
  obtain ⟨cb, cf, hB, _⟩ := decode_inv X fuel shadType spirv m h
  refine hB.blocks j blk ?_
  simp [absOfModule, absOf, hj, hb]

/-- Claim C7, as amended. Once decoding completes, every block has at most one exit
instruction. A block with an exit instruction has a terminator (Return, ReturnValue, Branch,
BranchConditional, Kill or Unreachable) as its exit instruction, that instruction is the last
element of the block's instruction list and no other element of the list is a terminator; a
block without an exit instruction has no terminator in its list. -/
theorem C7_exit_is_last_and_only_terminator (X : Externals) (fuel shadType : Nat)
    (spirv : List Nat) (m : SPVModule) (j : Nat) (inst : SPVInstruction) (blk : SPVBlock)
    (h : decode X fuel shadType spirv = .done m)
    (hj : m.operations[j]? = some inst) (hb : inst.block = some blk) :
    match blk.exitFlow with
    | some e =>
      blk.instructions.getLast? = some e ∧
      (∃ t, m.operations[e]? = some t ∧ isTerminator (X.opOf t.opcode) = true) ∧
      (∀ k ∈ blk.instructions.dropLast, ∀ t, m.operations[k]? = some t →
        isTerminator (X.opOf t.opcode) = false)
    | none =>
      ∀ k ∈ blk.instructions, ∀ t, m.operations[k]? = some t →
        isTerminator (X.opOf t.opcode) = false := by
  obtain ⟨_, _, _, h4, _⟩ := decode_blockOK X fuel shadType spirv m h j inst blk hj hb
  have hnot : ∀ k : Nat, (m.operations.map (classOf X))[k]? ≠ some .terminator →
      ∀ t, m.operations[k]? = some t → isTerminator (X.opOf t.opcode) = false := by
    intro k hk t ht
    rw [List.getElem?_map, ht] at hk
    cases hT : isTerminator (X.opOf t.opcode)
    · rfl
    · exact absurd (congrArg some ((classOf_terminator X t).2 hT)) hk
  cases he : blk.exitFlow with
  | none =>
    simp only [he] at h4 ⊢
    intro k hk
    exact hnot k (h4 k hk)
  | some e =>
    simp only [he] at h4 ⊢
    obtain ⟨pre, hp, he1, hpre⟩ := h4
    refine ⟨by simp [hp], ?_, ?_⟩
    · rw [List.getElem?_map] at he1
      cases ht : m.operations[e]? with
      | none => simp [ht] at he1
      | some t =>
        simp only [ht, Option.map_some', Option.some.injEq] at he1
        exact ⟨t, rfl, (classOf_terminator X t).1 he1⟩
    · intro k hk
      rw [hp, List.dropLast_concat] at hk
      exact hnot k (hpre k hk)

theorem pass1Case_merge (o : Op) : isMerge o = decide (pass1Case o = .OpSelectionMerge) := by
  cases o <;> rfl

theorem appendsToBlock_class (o : Op) :
    appendsToBlock o = (decide (classify (pass1Case o) = .terminator) ||
      decide (classify (pass1Case o) = .merge) || decide (classify (pass1Case o) = .operation)) := by
  cases o <;> rfl

theorem getElem?_modify_append_self {α : Type} (l : List α) (g : α → α) (b : Nat) (x y : α)
    (h : l[b]? = some y) : (l.modify g b ++ [x])[b]? = some (g y) := by
  have hlt := lt_of_getElem?_eq_some h
  rw [getElem?_append_lt _ _ _ (by simpa using hlt), List.getElem?_modify_eq, h]
  rfl

theorem decode_mergeOK (X : Externals) (fuel shadType : Nat) (spirv : List Nat) (m : SPVModule)
    (j : Nat) (inst : SPVInstruction) (blk : SPVBlock) (mi : Nat)
    (h : decode X fuel shadType spirv = .done m)
    (hj : m.operations[j]? = some inst) (hb : inst.block = some blk)
    (hm : blk.mergeFlow = some mi) :
    (∃ t, m.operations[mi]? = some t ∧ isMerge (X.opOf t.opcode) = true) ∧
      mi ∈ blk.instructions ∧
      (∀ e, blk.exitFlow = some e →
        mi ∈ blk.instructions.dropLast ∧ blk.instructions.getLast? = some e) := by
  obtain ⟨_, _, _, h4, h5⟩ := decode_blockOK X fuel shadType spirv m h j inst blk hj hb
  obtain ⟨hm1, hm2⟩ := h5 mi hm
  have hmt : ∃ t, m.operations[mi]? = some t ∧ isMerge (X.opOf t.opcode) = true := by
    rw [List.getElem?_map] at hm2
    cases ht : m.operations[mi]? with
    | none => simp [ht] at hm2
    | some t =>
      simp only [ht, Option.map_some', Option.some.injEq] at hm2
      exact ⟨t, rfl, (classOf_merge X t).1 hm2⟩
  refine ⟨hmt, hm1, ?_⟩
  intro e he
  simp only [he] at h4
  obtain ⟨pre, hp, he1, _⟩ := h4
  refine ⟨?_, by simp [hp]⟩
  rw [hp, List.dropLast_concat]
  rw [hp, List.mem_append, List.mem_singleton] at hm1
  rcases hm1 with hm1 | hm1
  · exact hm1
  · subst hm1
    rw [hm2] at he1
    cases he1

/-- Claim C8, as amended. Decoding a merge instruction (SelectionMerge or LoopMerge) while a
block is open records it as that block's merge instruction and appends it to the block's
instruction list without closing the block (the block stays the current block and its exit
instruction is untouched). Once decoding completes, the merge instruction that a block
records (the last one decoded in it) is a merge instruction of the block's instruction list,
and if the block has an exit instruction the merge instruction precedes it. -/
theorem C8_merge_recorded_before_exit (X : Externals) (spirv : List Nat) (it : Nat)
    (s : DecodeState) (target control b : Nat) (cur : SPVInstruction) (curBlk : SPVBlock)
    (fuel shadType : Nat) (buffer : List Nat) (m : SPVModule) (j : Nat) (inst : SPVInstruction)
    (blk : SPVBlock) (mi : Nat)
    (hop : isMerge (X.opOf (OpCode spirv it)) = true)
    (ht : spirv[it + 1]? = some target) (hc : spirv[it + 2]? = some control)
    (hcb : s.curBlock = some b) (hcur : s.module.operations[b]? = some cur)
    (hblk : cur.block = some curBlk)
    (h : decode X fuel shadType buffer = .done m)
    (hj : m.operations[j]? = some inst) (hb : inst.block = some blk)
    (hm : blk.mergeFlow = some mi) :
    (∃ s1 cur1, decodeInstruction X spirv it s = .ok s1 ∧ s1.curBlock = some b ∧
        s1.module.operations.length = s.module.operations.length + 1 ∧
        s1.module.operations[b]? = some cur1 ∧
        cur1.block = some { instructions := curBlk.instructions ++ [s.module.operations.length],
                            mergeFlow := some s.module.operations.length,
                            exitFlow := curBlk.exitFlow }) ∧
      ((∃ t, m.operations[mi]? = some t ∧ isMerge (X.opOf t.opcode) = true) ∧
        mi ∈ blk.instructions ∧
        (∀ e, blk.exitFlow = some e →
          mi ∈ blk.instructions.dropLast ∧ blk.instructions.getLast? = some e)) := by
  refine ⟨?_, decode_mergeOK X fuel shadType buffer m j inst blk mi h hj hb hm⟩
  have hk : pass1Case (X.opOf (OpCode spirv it)) = .OpSelectionMerge := by
    have := pass1Case_merge (X.opOf (OpCode spirv it))
    rw [hop] at this
    simpa using this.symm
  have hclass : classAt X spirv it = .merge := by simp [classAt, hk, classify]
  cases hres : decodeInstruction X spirv it s with
  | error e =>
    simp [decodeInstruction, hk, word, ht, hc, DecodeState.mergeBlock, hcb, bind,
      Except.bind, pure, Except.pure] at hres
  | ok s1 =>
    obtain ⟨b1, op, hops, hcb1, _, _, _, _, hcur1⟩ := shape_merge X spirv it s s1 hclass hres
    rw [hcb] at hcb1
    cases hcb1
    refine ⟨s1, setMerge s.module.operations.length cur, rfl, hcur1, by simp [hops], ?_, ?_⟩
    · rw [hops]; exact getElem?_modify_append_self _ _ _ _ _ hcur
    · simp [setMerge, hblk]

theorem decodeInstruction_frame (X : Externals) (spirv : List Nat) (it : Nat)
    (s s1 : DecodeState) (j : Nat) (inst : SPVInstruction)
    (h : decodeInstruction X spirv it s = .ok s1)
    (hj : s.module.operations[j]? = some inst) (hne : s.curBlock ≠ some j) :
    ∃ inst1, s1.module.operations[j]? = some inst1 ∧ inst1.block = inst.block := by
  have habs := decodeInstruction_abs X spirv it s s1 h
  have hlt := lt_of_getElem?_eq_some hj
  have hold : (absOf X s).blks[j]? = some inst.block := by simp [absOf, hj]
  have hgoal : (absOf X s1).blks[j]? = some inst.block := by
    obtain ⟨_, hrest⟩ := habs
    have hl : j < (absOf X s).blks.length := by simpa [absOf] using hlt
    have plain : ∀ x, (absOf X s1).blks = (absOf X s).blks ++ [x] →
        (absOf X s1).blks[j]? = some inst.block := by
      intro x hx
      rw [hx, getElem?_append_lt _ _ _ hl]; exact hold
    have upd : ∀ (g : Option SPVBlock → Option SPVBlock) (b : Nat), s.curBlock = some b →
        (absOf X s1).blks = (absOf X s).blks.modify g b ++ [none] →
        (absOf X s1).blks[j]? = some inst.block := by
      intro g b hb hx
      have hbj : b ≠ j := by intro e; subst e; exact hne hb
      rw [hx, getElem?_append_lt _ _ _ (by simpa using hl), List.getElem?_modify_ne _ _ hbj]
      exact hold
    cases hc : classAt X spirv it <;> simp only [hc] at hrest
    · obtain ⟨f, _, hb, _⟩ := hrest; exact plain _ hb
    · obtain ⟨b, hcb, hb, _⟩ := hrest; exact upd _ b hcb hb
    · obtain ⟨b, hcb, hb, _⟩ := hrest; exact upd _ b hcb hb
    · obtain ⟨b, hcb, hb, _⟩ := hrest; exact upd _ b hcb hb
    · exact plain _ hrest.1
    · exact plain _ hrest.1
    · exact plain _ hrest.1
    · exact plain _ hrest.1
  simp only [absOf, List.getElem?_map] at hgoal
  cases h1 : s1.module.operations[j]? with
  | none => simp [h1] at hgoal
  | some inst1 =>
    simp only [h1, Option.map_some', Option.some.injEq] at hgoal
    exact ⟨inst1, rfl, hgoal⟩

/-- Claim C9, as amended. A terminator sets the current block's exit instruction, appends
itself to that block and clears the current block (and a terminator without operands does so
whenever a block is open). A block-appended instruction (terminator, merge, AccessChain, Load,
Store, CopyMemory, arithmetic, ExtInst) that occurs while no block is open is neither ignored
nor checked for: decoding stops there, for a terminator without operands with the fault of
the write through the null current-block pointer. No instruction is ever appended to a block
other than the current one, so never to a closed block. -/
theorem C9_terminator_closes_block (X : Externals) (spirv : List Nat) (it : Nat)
    (s : DecodeState) :
    (∀ s1, isTerminator (X.opOf (OpCode spirv it)) = true →
        decodeInstruction X spirv it s = .ok s1 →
        ∃ b, s.curBlock = some b ∧ s1.curBlock = none ∧
          ∀ cur curBlk, s.module.operations[b]? = some cur → cur.block = some curBlk →
            ∃ cur1, s1.module.operations[b]? = some cur1 ∧
              cur1.block = some { instructions := curBlk.instructions ++ [s.module.operations.length],
                                  mergeFlow := curBlk.mergeFlow,
                                  exitFlow := some s.module.operations.length }) ∧
      (∀ b, pass1Case (X.opOf (OpCode spirv it)) = .OpKill → s.curBlock = some b →
        ∃ s1, decodeInstruction X spirv it s = .ok s1) ∧
      (appendsToBlock (X.opOf (OpCode spirv it)) = true → s.curBlock = none →
        ∃ e, decodeInstruction X spirv it s = .error e) ∧
      (pass1Case (X.opOf (OpCode spirv it)) = .OpKill → s.curBlock = none →
        decodeInstruction X spirv it s = .error .NullPointer) ∧
      (∀ s1 j inst, decodeInstruction X spirv it s = .ok s1 →
        s.module.operations[j]? = some inst → s.curBlock ≠ some j →
        ∃ inst1, s1.module.operations[j]? = some inst1 ∧ inst1.block = inst.block) := by
  refine ⟨?_, ?_, ?_, ?_, ?_⟩
  · intro s1 hop h
    have hclass : classAt X spirv it = .terminator := by
      have := classify_terminator (X.opOf (OpCode spirv it))
      rw [hop] at this
      simpa [classAt] using this
    obtain ⟨b, op, hops, hcb, _, _, _, _, hcur1⟩ := shape_terminator X spirv it s s1 hclass h
    refine ⟨b, hcb, hcur1, ?_⟩
    intro cur curBlk hcur hblk
    refine ⟨setExit s.module.operations.length cur, ?_, by simp [setExit, hblk]⟩
    rw [hops]; exact getElem?_modify_append_self _ _ _ _ _ hcur
  · intro b hk hcb
    cases hres : decodeInstruction X spirv it s with
    | error e =>
      simp [decodeInstruction, hk, DecodeState.closeBlock, hcb, bind, Except.bind, pure,
        Except.pure] at hres
    | ok s1 => exact ⟨s1, rfl⟩
  · intro hop hnone
    cases hres : decodeInstruction X spirv it s with
    | error e => exact ⟨e, rfl⟩
    | ok s1 =>
      exfalso
      have hcl := appendsToBlock_class (X.opOf (OpCode spirv it))
      rw [hop] at hcl
      simp only [Bool.true_eq, Bool.or_eq_true, decide_eq_true_eq] at hcl
      rcases hcl with (hcl | hcl) | hcl
      · obtain ⟨b, _, _, hcb, _⟩ := shape_terminator X spirv it s s1 hcl hres
        rw [hnone] at hcb; cases hcb
      · obtain ⟨b, _, _, hcb, _⟩ := shape_merge X spirv it s s1 hcl hres
        rw [hnone] at hcb; cases hcb
      · obtain ⟨b, _, _, hcb, _⟩ := shape_operation X spirv it s s1 hcl hres
        rw [hnone] at hcb; cases hcb
  · intro hk hnone
    simp [decodeInstruction, hk, DecodeState.closeBlock, hnone, bind, Except.bind]
  · intro s1 j inst h hj hne
    exact decodeInstruction_frame X spirv it s s1 j inst h hj hne

theorem labelsUntilBoundary_eq (X : Externals) (l : List SPVInstruction) (j : Nat) :
    labelsUntilBoundary X l j = labelsUntil (l.map (classOf X)) j := by
  induction l generalizing j with
  | nil => rfl
  | cons a l ih =>
    simp only [labelsUntilBoundary, List.map_cons, labelsUntil, classOf]
    generalize X.opOf a.opcode = o
    cases o <;> first | exact ih _ | exact congrArg _ (ih _) | rfl

theorem mem_labelsUntil (l : List OpClass) (j0 j : Nat) (h : j ∈ labelsUntil l j0) :
    j0 ≤ j ∧ l[j - j0]? = some .label := by
  induction l generalizing j0 with
  | nil => simp [labelsUntil] at h
  | cons a l ih =>
    cases a <;> simp only [labelsUntil, List.mem_cons, List.not_mem_nil] at h
    case label =>
      rcases h with h | h
      · subst h; simp
      · obtain ⟨h1, h2⟩ := ih _ h
        refine ⟨by omega, ?_⟩
        have : j - j0 = (j - (j0 + 1)) + 1 := by omega
        rw [this, List.getElem?_cons_succ]; exact h2
    all_goals
      obtain ⟨h1, h2⟩ := ih _ h
      refine ⟨by omega, ?_⟩
      have : j - j0 = (j - (j0 + 1)) + 1 := by omega
      rw [this, List.getElem?_cons_succ]; exact h2

/-- Claim C10, as amended. For every Function instruction F, F's block list is exactly the
sequence of Label instructions that occur between F and the next Function or FunctionEnd
(or the end of the stream), in stream order, and each such block's instruction list begins
with its own Label instruction. -/
theorem C10_function_blocks (X : Externals) (fuel shadType : Nat) (spirv : List Nat)
    (m : SPVModule) (k : Nat) (inst : SPVInstruction)
    (h : decode X fuel shadType spirv = .done m)
    (hk : m.operations[k]? = some inst) (hop : X.opOf inst.opcode = .OpFunction) :
    ∃ fn, inst.func = some fn ∧
      fn.blocks = labelsUntilBoundary X (m.operations.drop (k + 1)) (k + 1) ∧
      ∀ j ∈ fn.blocks, ∃ lbl blk rest, m.operations[j]? = some lbl ∧
        X.opOf lbl.opcode = .OpLabel ∧ lbl.block = some blk ∧ blk.instructions = j :: rest := by
  obtain ⟨cb, cf, hB, hF⟩ := decode_inv X fuel shadType spirv m h
  have hcls : (m.operations.map (classOf X))[k]? = some .function := by
    rw [List.getElem?_map, hk]
    exact congrArg some ((classOf_function X inst).2 hop)
  have hf := hF.funcs k hcls
  simp only [absOfModule, absOf, List.getElem?_map, hk, Option.map_some', Option.some.injEq]
    at hf
  cases hfn : inst.func with
  | none => rw [hfn] at hf; cases hf
  | some fn =>
    rw [hfn] at hf
    simp only [Option.map_some', Option.some.injEq] at hf
    have hbl : fn.blocks = labelsUntilBoundary X (m.operations.drop (k + 1)) (k + 1) := by
      rw [labelsUntilBoundary_eq, hf, List.map_drop]
    refine ⟨fn, rfl, hbl, ?_⟩
    intro j hj
    rw [hf] at hj
    obtain ⟨hle, hlab⟩ := mem_labelsUntil _ _ _ hj
    rw [List.getElem?_drop] at hlab
    have hjk : k + 1 + (j - (k + 1)) = j := by omega
    rw [hjk] at hlab
    obtain ⟨blk, hblk⟩ := hB.labels j hlab
    have hok := hB.blocks j blk hblk
    simp only [absOfModule, absOf, List.getElem?_map] at hblk hlab
    cases hl : m.operations[j]? with
    | none => simp [hl] at hblk
    | some lbl =>
      simp only [hl, Option.map_some', Option.some.injEq] at hblk hlab
      obtain ⟨_, ⟨rest, hrest⟩, _⟩ := hok
      exact ⟨lbl, blk, rest, rfl, (classOf_label X lbl).1 hlab, hblk, hrest⟩

theorem decodeInstruction_opcodes (X : Externals) (spirv : List Nat) (it : Nat)
    (s s1 : DecodeState) (h : decodeInstruction X spirv it s = .ok s1) :
    s1.module.operations.map (fun inst => inst.opcode)
      = s.module.operations.map (fun inst => inst.opcode) ++ [OpCode spirv it] := by
  have key : ∀ (g : SPVInstruction → SPVInstruction) (b : Nat) (op : SPVInstruction),
      (∀ a, (g a).opcode = a.opcode) → op.opcode = OpCode spirv it →
      s1.module.operations = s.module.operations.modify g b ++ [op] →
      s1.module.operations.map (fun inst => inst.opcode)
        = s.module.operations.map (fun inst => inst.opcode) ++ [OpCode spirv it] := by
    intro g b op hg hop hops
    rw [hops, List.map_append, map_modify_same _ g hg]
    simp [hop]
  cases hc : classAt X spirv it with
  | other =>
    obtain ⟨op, hops, hopc, _⟩ := shape_other X spirv it s s1 hc h
    simp [hops, hopc]
  | variableDecl =>
    obtain ⟨op, hops, hopc, _⟩ := shape_variable X spirv it s s1 hc h
    cases hcur : s.curFunc with
    | none => simp only [hcur] at hops; simp [hops, hopc]
    | some f =>
      simp only [hcur] at hops
      exact key (pushVariable s.module.operations.length) f op (fun _ => rfl) hopc hops
  | function =>
    obtain ⟨op, fn, hops, hopc, _⟩ := shape_function X spirv it s s1 hc h
    simp [hops, hopc]
  | functionEnd =>
    obtain ⟨op, hops, hopc, _⟩ := shape_functionEnd X spirv it s s1 hc h
    simp [hops, hopc]
  | label =>
    obtain ⟨f, op, hops, _, hopc, _⟩ := shape_label X spirv it s s1 hc h
    exact key (pushBlock s.module.operations.length) f op (fun _ => rfl) hopc hops
  | terminator =>
    obtain ⟨b, op, hops, _, hopc, _⟩ := shape_terminator X spirv it s s1 hc h
    exact key (setExit s.module.operations.length) b op (fun _ => rfl) hopc hops
  | merge =>
    obtain ⟨b, op, hops, _, hopc, _⟩ := shape_merge X spirv it s s1 hc h
    exact key (setMerge s.module.operations.length) b op (fun _ => rfl) hopc hops
  | operation =>
    obtain ⟨b, op, hops, _, hopc, _⟩ := shape_operation X spirv it s s1 hc h
    exact key (pushInstruction s.module.operations.length) b op (fun _ => rfl) hopc hops

theorem WordCount_eq_shift (spirv : List Nat) (it : Nat) (h32 : ∀ w ∈ spirv, w < 2 ^ 32) :
    WordCount spirv it = (spirv[it]?.getD 0) >>> 16 := by
  unfold WordCount
  have hw : spirv[it]?.getD 0 < 2 ^ 32 := by
    cases hg : spirv[it]? with
    | none => simp
    | some w => simpa using h32 w (List.getElem?_mem hg)
  rw [Nat.shiftRight_eq_div_pow]
  apply Nat.mod_eq_of_lt
  have : spirv[it]?.getD 0 / 2 ^ 16 < 2 ^ 16 := by
    apply Nat.div_lt_of_lt_mul
    norm_num at hw ⊢
    omega
  exact this

theorem pass1_opcodes (X : Externals) (spirv : List Nat) (h32 : ∀ w ∈ spirv, w < 2 ^ 32) :
    ∀ fuel it s s1, pass1 X spirv fuel it s = .done s1 →
      s1.module.operations.map (fun inst => inst.opcode)
        = s.module.operations.map (fun inst => inst.opcode)
          ++ (headerOffsets spirv fuel it).map (fun i => (spirv[i]?.getD 0) &&& 0xFFFF) := by
  intro fuel
  induction fuel with
  | zero =>
    intro it s s1 h
    unfold pass1 at h
    split at h
    · cases h
    · cases h; simp [headerOffsets]
  | succ fuel ih =>
    intro it s s1 h
    unfold pass1 at h
    split at h
    · rename_i hlt
      split at h
      · cases h
      · rename_i s2 hs2
        rw [ih _ _ _ h, decodeInstruction_opcodes X spirv it s s2 hs2,
          WordCount_eq_shift spirv it h32]
        simp [headerOffsets, hlt, OpCode]
    · rename_i hge
      cases h
      simp [headerOffsets, hge]

/-- Claim C3. The instruction stream is segmented from word offset 5: the opcode of the
instruction whose header word `h` is at offset `i` is `h & 0xFFFF`, its word count is `h >> 16` and
the next header is at `i + (h >> 16)`; the module's instruction list has exactly one entry for
each header visited this way, in stream order, with that opcode. -/
theorem C3_segmentation (X : Externals) (fuel shadType : Nat) (spirv : List Nat)
    (m : SPVModule) (h32 : ∀ w ∈ spirv, w < 2 ^ 32)
    (h : decode X fuel shadType spirv = .done m) :
    m.operations.map (fun inst => inst.opcode)
        = (headerOffsets spirv fuel 5).map (fun i => (spirv[i]?.getD 0) &&& 0xFFFF) ∧
      (∀ it, WordCount spirv it = (spirv[it]?.getD 0) >>> 16 ∧
        OpCode spirv it = (spirv[it]?.getD 0) &&& 0xFFFF) := by
  obtain ⟨mv, g, b, s1, h1, h2⟩ := decode_elim X fuel shadType spirv m h
  have hsk : m.operations.map skel = s1.module.operations.map skel := by
    refine pass2_induct X spirv
      (fun m1 => m1.operations.map skel = s1.module.operations.map skel) ?_ fuel 5 _ m h2 rfl
    intro it m1 m2 hm hP
    rw [annotateInstruction_skel X spirv it m1 m2 hm]
    exact hP
  have hop : m.operations.map (fun inst => inst.opcode)
      = s1.module.operations.map (fun inst => inst.opcode) := by
    have : ∀ l : List SPVInstruction,
        l.map (fun inst => inst.opcode) = (l.map skel).map (fun t => t.1) := by
      intro l; simp [skel]
    rw [this, this, hsk]
  refine ⟨?_, fun it => ⟨WordCount_eq_shift spirv it h32, rfl⟩⟩
  rw [hop, pass1_opcodes X spirv h32 fuel 5 _ s1 h1]
  simp [initialState, SPVModule.new]

theorem pass1Case_of_eq (o : Op) :
    (o = .OpBranch → pass1Case o = .OpBranch) ∧
    (o = .OpBranchConditional → pass1Case o = .OpBranchConditional) ∧
    (o = .OpLabel → pass1Case o = .OpLabel) := by
  refine ⟨?_, ?_, ?_⟩ <;> intro h <;> subst h <;> rfl

/-- Claim C6. A Branch, BranchConditional, SelectionMerge or LoopMerge decodes successfully
whatever `ids` holds for its target label IDs (the targets need not have been encountered,
nor even be below the ID bound): the targets are stored as plain IDs in operand order and
`ids` is left as it is. A Label decoded later is appended to the block list of the function
that is open at that point, so it takes the position in which it is declared. -/
theorem C6_forward_references (X : Externals) (spirv : List Nat) (it : Nat) (s : DecodeState)
    (b : Nat) (hcb : s.curBlock = some b) :
    (∀ t, X.opOf (OpCode spirv it) = .OpBranch → spirv[it + 1]? = some t →
        ∃ s1 op flow, decodeInstruction X spirv it s = .ok s1 ∧ s1.module.ids = s.module.ids ∧
          s1.module.operations.getLast? = some op ∧ op.flow = some flow ∧
          flow.targets = [t]) ∧
      (∀ c ci t f, X.opOf (OpCode spirv it) = .OpBranchConditional →
        spirv[it + 1]? = some c → s.module.findInst c = .ok ci →
        spirv[it + 2]? = some t → spirv[it + 3]? = some f →
        (WordCount spirv it = 6 → it + 5 < spirv.length) →
        ∃ s1 op flow, decodeInstruction X spirv it s = .ok s1 ∧ s1.module.ids = s.module.ids ∧
          s1.module.operations.getLast? = some op ∧ op.flow = some flow ∧
          flow.condition = some ci ∧ flow.targets = [t, f]) ∧
      (∀ t control, isMerge (X.opOf (OpCode spirv it)) = true →
        spirv[it + 1]? = some t → spirv[it + 2]? = some control →
        ∃ s1 op flow, decodeInstruction X spirv it s = .ok s1 ∧ s1.module.ids = s.module.ids ∧
          s1.module.operations.getLast? = some op ∧ op.flow = some flow ∧
          flow.targets = [t]) ∧
      (∀ f fi fn id, X.opOf (OpCode spirv it) = .OpLabel →
        s.curFunc = some f → s.module.operations[f]? = some fi → fi.func = some fn →
        spirv[it + 1]? = some id → id < s.module.ids.length →
        ∃ s1 fi1 fn1, decodeInstruction X spirv it s = .ok s1 ∧
          s1.module.operations[f]? = some fi1 ∧ fi1.func = some fn1 ∧
          fn1.blocks = fn.blocks ++ [s.module.operations.length]) := by
  refine ⟨?_, ?_, ?_, ?_⟩
  · intro t hop ht
    have hk := (pass1Case_of_eq _).1 hop
    simp only [decodeInstruction, hk, word, ht, DecodeState.closeBlock, hcb, bind,
      Except.bind, pure, Except.pure, Except.ok.injEq]
    exact ⟨_, _, _, rfl, rfl, List.getLast?_concat _, rfl, rfl⟩
  · intro c ci t f hop hc hci ht hf hw
    have hk := (pass1Case_of_eq _).2.1 hop
    by_cases h6 : WordCount spirv it = 6
    · have h5 := hw h6
      obtain ⟨w4, hw4⟩ : ∃ w4, spirv[it + 4]? = some w4 :=
        ⟨spirv[it + 4], List.getElem?_eq_getElem (by omega)⟩
      obtain ⟨w5, hw5⟩ : ∃ w5, spirv[it + 5]? = some w5 :=
        ⟨spirv[it + 5], List.getElem?_eq_getElem h5⟩
      simp only [decodeInstruction, hk, word, hc, hci, ht, hf, h6, hw4, hw5, if_true,
        DecodeState.closeBlock, hcb, bind, Except.bind, pure, Except.pure, Except.ok.injEq]
      exact ⟨_, _, _, rfl, rfl, List.getLast?_concat _, rfl, rfl, rfl⟩
    · simp only [decodeInstruction, hk, word, hc, hci, ht, hf, h6, if_false,
        DecodeState.closeBlock, hcb, bind, Except.bind, pure, Except.pure, Except.ok.injEq]
      exact ⟨_, _, _, rfl, rfl, List.getLast?_concat _, rfl, rfl, rfl⟩
  · intro t control hop ht hc
    have hk : pass1Case (X.opOf (OpCode spirv it)) = .OpSelectionMerge := by
      have := pass1Case_merge (X.opOf (OpCode spirv it))
      rw [hop] at this
      simpa using this.symm
    simp only [decodeInstruction, hk, word, ht, hc, DecodeState.mergeBlock, hcb, bind,
      Except.bind, pure, Except.pure, Except.ok.injEq]
    exact ⟨_, _, _, rfl, rfl, List.getLast?_concat _, rfl, rfl⟩
  · intro f fi fn id hop hcf hfi hfn hid hlt
    have hk := (pass1Case_of_eq _).2.2 hop
    have hclass : classAt X spirv it = .label := by simp [classAt, hk, classify]
    cases hres : decodeInstruction X spirv it s with
    | error e =>
      simp [decodeInstruction, hk, word, hid, hcf, RDCASSERT, deref, SPVModule.assignId,
        SPVModule.modifyFunc, SPVModule.modifyInst, hlt, bind, Except.bind, pure,
        Except.pure] at hres
    | ok s1 =>
      obtain ⟨f1, op, hops, hcf1, _⟩ := shape_label X spirv it s s1 hclass hres
      rw [hcf] at hcf1
      cases hcf1
      refine ⟨s1, pushBlock s.module.operations.length fi,
        { fn with blocks := fn.blocks ++ [s.module.operations.length] }, rfl, ?_, ?_, rfl⟩
      · rw [hops]; exact getElem?_modify_append_self _ _ _ _ _ hfi
      · simp [pushBlock, hfn]

theorem findType_eq (m : SPVModule) (id : Nat) (hlt : id < m.ids.length) :
    m.findType id =
      match m.typeNamedBy id with
      | some j => .ok j
      | none => .error (.UnresolvedReference id) := by
  unfold SPVModule.findType SPVModule.idAt SPVModule.typeNamedBy
  rw [List.getElem?_eq_getElem hlt]
  cases hp : m.ids[id] with
  | none => simp [RDCASSERT, bind, Except.bind]
  | some j =>
    cases hj : m.hasType j <;> simp [RDCASSERT, deref, hj, bind, Except.bind]

theorem operandIds_succ (spirv : List Nat) (off n : Nat) (h : off < spirv.length) :
    operandIds spirv off (n + 1) = spirv[off] :: operandIds spirv (off + 1) n := by
  unfold operandIds
  rw [List.drop_eq_getElem_cons h, List.take_succ_cons]

theorem findTypes_ok (m : SPVModule) (spirv : List Nat) :
    ∀ n off, off + n ≤ spirv.length →
      (∀ id ∈ operandIds spirv off n, id < m.ids.length) →
      (∀ id ∈ operandIds spirv off n, (m.typeNamedBy id).isSome) →
      findTypes m spirv n off = .ok ((operandIds spirv off n).filterMap m.typeNamedBy) := by
  intro n
  induction n with
  | zero => intro off _ _ _; simp [findTypes, operandIds]
  | succ n ih =>
    intro off hfit hids hall
    have hlt : off < spirv.length := by omega
    rw [operandIds_succ _ _ _ hlt] at hids hall ⊢
    have h1 := hall spirv[off] (by simp)
    obtain ⟨j, hj⟩ := Option.isSome_iff_exists.1 h1
    have ih1 := ih (off + 1) (by omega) (fun id hid => hids id (by simp [hid]))
      (fun id hid => hall id (by simp [hid]))
    simp only [findTypes, word, List.getElem?_eq_getElem hlt, bind, Except.bind,
      findType_eq m _ (hids spirv[off] (by simp)), hj, ih1, pure, Except.pure,
      List.filterMap_cons]

theorem findTypes_error (m : SPVModule) (spirv : List Nat) :
    ∀ n off, off + n ≤ spirv.length →
      (∀ id ∈ operandIds spirv off n, id < m.ids.length) →
      (∃ id ∈ operandIds spirv off n, m.typeNamedBy id = none) →
      ∃ id ∈ operandIds spirv off n, m.typeNamedBy id = none ∧
        findTypes m spirv n off = .error (.UnresolvedReference id) := by
  intro n
  induction n with
  | zero => intro off _ _ h; simp [operandIds] at h
  | succ n ih =>
    intro off hfit hids hex
    have hlt : off < spirv.length := by omega
    rw [operandIds_succ _ _ _ hlt] at hids hex ⊢
    cases h0 : m.typeNamedBy spirv[off] with
    | none =>
      refine ⟨spirv[off], by simp, h0, ?_⟩
      simp only [findTypes, word, List.getElem?_eq_getElem hlt, bind, Except.bind,
        findType_eq m _ (hids spirv[off] (by simp)), h0]
    | some j =>
      have hex1 : ∃ id ∈ operandIds spirv (off + 1) n, m.typeNamedBy id = none := by
        obtain ⟨id, hid, hn⟩ := hex
        simp only [List.mem_cons] at hid
        rcases hid with hid | hid
        · subst hid; rw [h0] at hn; cases hn
        · exact ⟨id, hid, hn⟩
      obtain ⟨id, hid, hn, herr⟩ := ih (off + 1) (by omega)
        (fun id hid => hids id (by simp [hid])) hex1
      refine ⟨id, by simp [hid], hn, ?_⟩
      simp only [findTypes, word, List.getElem?_eq_getElem hlt, bind, Except.bind,
        findType_eq m _ (hids spirv[off] (by simp)), h0, herr]

theorem word_eq (spirv : List Nat) (i : Nat) (h : i < spirv.length) :
    word spirv i = .ok spirv[i] := by
  simp [word, List.getElem?_eq_getElem h]

/-- Claim C4. For a composite type declaration (TypeVector, TypeArray, TypePointer, TypeStruct,
TypeFunction) whose words lie in the buffer and whose IDs are below the ID bound: if one of
its member, parameter, base-type or return-type operands names no type (the ID is not yet
assigned, or assigned to an instruction that defines no type), decoding fails with
UnresolvedReference for such an operand; if all of them name a type, decoding succeeds and
the new Type's base type and children are exactly the Types those IDs name, in operand
order. -/
theorem C4_composite_type_operands (X : Externals) (spirv : List Nat) (it : Nat)
    (s : DecodeState) (k : Pass1Case) (rid : Nat)
    (hk : pass1Case (X.opOf (OpCode spirv it)) = k) (hcomp : isCompositeType k = true)
    (hfit : it + WordCount spirv it ≤ spirv.length) (hmin : minWordCount k ≤ WordCount spirv it)
    (hids : ∀ id ∈ memberOperands k spirv it ++ (baseOperand k spirv it).toList,
      id < s.module.ids.length)
    (hrid : spirv[it + 1]? = some rid) (hres : rid < s.module.ids.length) :
    ((∃ id ∈ memberOperands k spirv it ++ (baseOperand k spirv it).toList,
          s.module.typeNamedBy id = none) →
        ∃ id ∈ memberOperands k spirv it ++ (baseOperand k spirv it).toList,
          s.module.typeNamedBy id = none ∧
          decodeInstruction X spirv it s = .error (.UnresolvedReference id)) ∧
      ((∀ id ∈ memberOperands k spirv it ++ (baseOperand k spirv it).toList,
          (s.module.typeNamedBy id).isSome) →
        ∃ s1 op t, decodeInstruction X spirv it s = .ok s1 ∧
          s1.module.operations = s.module.operations ++ [op] ∧ op.type = some t ∧
          t.baseType = (baseOperand k spirv it).bind s.module.typeNamedBy ∧
          t.children = ((memberOperands k spirv it).filterMap s.module.typeNamedBy).map
            (fun j => (j, ""))) := by
  subst hk
  have w1 : word spirv (it + 1) = .ok rid := by simp [word, hrid]
  cases hkk : pass1Case (X.opOf (OpCode spirv it)) <;>
    simp only [hkk, isCompositeType] at hcomp <;>
    (try (exact absurd hcomp (by decide)))
  all_goals simp only [hkk, minWordCount] at hmin
  all_goals simp only [hkk, memberOperands, baseOperand, List.nil_append] at hids ⊢
  case OpTypeVector =>
    have h2 : it + 2 < spirv.length := by omega
    have h3 : it + 3 < spirv.length := by omega
    rw [List.getElem?_eq_getElem h2] at hids ⊢
    simp only [Option.toList_some, List.mem_singleton, forall_eq, exists_eq_left,
      Option.some_bind] at hids ⊢
    constructor
    · intro hn
      refine ⟨hn, ?_⟩
      simp [decodeInstruction, hkk, word_eq _ _ h2, findType_eq _ _ hids, hn, bind, Except.bind]
    · intro hs
      obtain ⟨j, hj⟩ := Option.isSome_iff_exists.1 hs
      simp only [decodeInstruction, hkk, word_eq _ _ h2, word_eq _ _ h3, w1,
        findType_eq _ _ hids, hj, SPVModule.assignId, hres, if_true, bind, Except.bind, pure,
        Except.pure, Except.ok.injEq]
      exact ⟨_, _, _, rfl, rfl, rfl, rfl, rfl⟩
  case OpTypeArray =>
    have h2 : it + 2 < spirv.length := by omega
    have h3 : it + 3 < spirv.length := by omega
    rw [List.getElem?_eq_getElem h2] at hids ⊢
    simp only [Option.toList_some, List.mem_singleton, forall_eq, exists_eq_left,
      Option.some_bind] at hids ⊢
    constructor
    · intro hn
      refine ⟨hn, ?_⟩
      simp [decodeInstruction, hkk, word_eq _ _ h2, findType_eq _ _ hids, hn, bind, Except.bind]
    · intro hs
      obtain ⟨j, hj⟩ := Option.isSome_iff_exists.1 hs
      simp only [decodeInstruction, hkk, word_eq _ _ h2, word_eq _ _ h3, w1,
        findType_eq _ _ hids, hj, SPVModule.assignId, hres, if_true, bind, Except.bind, pure,
        Except.pure, Except.ok.injEq]
      exact ⟨_, _, _, rfl, rfl, rfl, rfl, rfl⟩
  case OpTypePointer =>
    have h2 : it + 2 < spirv.length := by omega
    have h3 : it + 3 < spirv.length := by omega
    rw [List.getElem?_eq_getElem h3] at hids ⊢
    simp only [Option.toList_some, List.mem_singleton, forall_eq, exists_eq_left,
      Option.some_bind] at hids ⊢
    constructor
    · intro hn
      refine ⟨hn, ?_⟩
      simp [decodeInstruction, hkk, word_eq _ _ h3, findType_eq _ _ hids, hn, bind, Except.bind]
    · intro hs
      obtain ⟨j, hj⟩ := Option.isSome_iff_exists.1 hs
      simp only [decodeInstruction, hkk, word_eq _ _ h2, word_eq _ _ h3, w1,
        findType_eq _ _ hids, hj, SPVModule.assignId, hres, if_true, bind, Except.bind, pure,
        Except.pure, Except.ok.injEq]
      exact ⟨_, _, _, rfl, rfl, rfl, rfl, rfl⟩
  case OpTypeStruct =>
    simp only [Option.toList_none, List.append_nil, Option.none_bind] at hids ⊢
    have hfit2 : it + 2 + (WordCount spirv it - 2) ≤ spirv.length := by omega
    constructor
    · intro hn
      obtain ⟨id, hid, hnone, herr⟩ := findTypes_error s.module spirv _ _ hfit2 hids hn
      refine ⟨id, hid, hnone, ?_⟩
      simp [decodeInstruction, hkk, herr, bind, Except.bind]
    · intro hs
      have hok := findTypes_ok s.module spirv _ _ hfit2 hids hs
      simp only [decodeInstruction, hkk, hok, w1, SPVModule.assignId, hres, if_true, bind,
        Except.bind, pure, Except.pure, Except.ok.injEq]
      exact ⟨_, _, _, rfl, rfl, rfl, rfl, rfl⟩
  case OpTypeFunction =>
    have h2 : it + 2 < spirv.length := by omega
    rw [List.getElem?_eq_getElem h2] at hids ⊢
    simp only [Option.toList_some, Option.some_bind] at hids ⊢
    have hfit3 : it + 3 + (WordCount spirv it - 3) ≤ spirv.length := by omega
    have hidsM : ∀ id ∈ operandIds spirv (it + 3) (WordCount spirv it - 3),
        id < s.module.ids.length := fun id hid => hids id (by simp [hid])
    have hidB : spirv[it + 2] < s.module.ids.length := hids _ (by simp)
    constructor
    · intro hn
      by_cases hm : ∃ id ∈ operandIds spirv (it + 3) (WordCount spirv it - 3),
          s.module.typeNamedBy id = none
      · obtain ⟨id, hid, hnone, herr⟩ := findTypes_error s.module spirv _ _ hfit3 hidsM hm
        refine ⟨id, by simp [hid], hnone, ?_⟩
        simp [decodeInstruction, hkk, herr, bind, Except.bind]
      · have hall : ∀ id ∈ operandIds spirv (it + 3) (WordCount spirv it - 3),
            (s.module.typeNamedBy id).isSome := by
          intro id hid
          cases hq : s.module.typeNamedBy id with
          | none => exact absurd ⟨id, hid, hq⟩ hm
          | some j => rfl
        have hok := findTypes_ok s.module spirv _ _ hfit3 hidsM hall
        have hb : s.module.typeNamedBy spirv[it + 2] = none := by
          obtain ⟨id, hid, hq⟩ := hn
          simp only [List.mem_append, List.mem_singleton] at hid
          rcases hid with hid | hid
          · exact absurd ⟨id, hid, hq⟩ hm
          · subst hid; exact hq
        refine ⟨spirv[it + 2], by simp, hb, ?_⟩
        simp [decodeInstruction, hkk, hok, word_eq _ _ h2, findType_eq _ _ hidB, hb, bind,
          Except.bind]
    · intro hs
      have hall : ∀ id ∈ operandIds spirv (it + 3) (WordCount spirv it - 3),
          (s.module.typeNamedBy id).isSome := fun id hid => hs id (by simp [hid])
      have hok := findTypes_ok s.module spirv _ _ hfit3 hidsM hall
      obtain ⟨j, hj⟩ := Option.isSome_iff_exists.1 (hs spirv[it + 2] (by simp))
      simp only [decodeInstruction, hkk, hok, word_eq _ _ h2, w1, findType_eq _ _ hidB, hj,
        SPVModule.assignId, hres, if_true, bind, Except.bind, pure, Except.pure,
        Except.ok.injEq]
      exact ⟨_, _, _, rfl, rfl, rfl, rfl, rfl⟩

/-! ## Reads of the word buffer -/

theorem NoOverrun.pure {α : Type} (a : α) : NoOverrun (pure a : Except Fault α) := by
  intro o h; cases h

theorem NoOverrun.ok {α : Type} (a : α) : NoOverrun (.ok a : Except Fault α) := by
  intro o h; cases h

theorem NoOverrun.bind {α β : Type} {x : Except Fault α} {f : α → Except Fault β}
    (hx : NoOverrun x) (hf : ∀ a, x = .ok a → NoOverrun (f a)) : NoOverrun (x >>= f) := by
  intro o h
  cases x with
  | error e =>
    simp only [Bind.bind, Except.bind] at h
    cases h
    exact hx o rfl
  | ok a => exact hf a rfl o h

theorem NoOverrun.word (spirv : List Nat) (i : Nat) (h : i < spirv.length) :
    NoOverrun (word spirv i) := by
  rw [word_eq _ _ h]; exact NoOverrun.ok _

theorem NoOverrun.cString (spirv : List Nat) (off : Nat) (h : stringEnds spirv off = true) :
    NoOverrun (cString spirv off) := by
  unfold stringEnds at h
  unfold Renderdoc.cString
  obtain ⟨bs, hbs⟩ := Option.isSome_iff_exists.1 h
  rw [hbs]
  exact NoOverrun.ok _

theorem NoOverrun.RDCASSERT (c : Bool) (e : Fault) (he : ∀ o, e ≠ .WordOutOfRange o) :
    NoOverrun (RDCASSERT c e) := by
  intro o h
  unfold Renderdoc.RDCASSERT at h
  split at h
  · cases h
  · cases h; exact he o rfl

theorem NoOverrun.RDCBREAK {α : Type} (opcode : Nat) :
    NoOverrun (RDCBREAK opcode : Except Fault α) := by
  intro o h; cases h

theorem NoOverrun.deref (p : Option Nat) : NoOverrun (deref p) := by
  intro o h; cases p <;> cases h

theorem NoOverrun.idAt (m : SPVModule) (id : Nat) : NoOverrun (m.idAt id) := by
  intro o h
  unfold SPVModule.idAt at h
  split at h <;> cases h

theorem NoOverrun.findInst (m : SPVModule) (id : Nat) : NoOverrun (m.findInst id) := by
  unfold SPVModule.findInst
  refine NoOverrun.bind (NoOverrun.idAt _ _) (fun a _ => ?_)
  refine NoOverrun.bind (NoOverrun.RDCASSERT _ _ (by intro o h; cases h)) (fun _ _ => ?_)
  exact NoOverrun.deref _

theorem NoOverrun.findType (m : SPVModule) (id : Nat) : NoOverrun (m.findType id) := by
  unfold SPVModule.findType
  refine NoOverrun.bind (NoOverrun.idAt _ _) (fun a _ => ?_)
  refine NoOverrun.bind (NoOverrun.RDCASSERT _ _ (by intro o h; cases h)) (fun _ _ => ?_)
  exact NoOverrun.deref _

theorem NoOverrun.findConstant (m : SPVModule) (id : Nat) : NoOverrun (m.findConstant id) := by
  unfold SPVModule.findConstant
  refine NoOverrun.bind (NoOverrun.idAt _ _) (fun a _ => ?_)
  refine NoOverrun.bind (NoOverrun.RDCASSERT _ _ (by intro o h; cases h)) (fun _ _ => ?_)
  exact NoOverrun.deref _

theorem NoOverrun.assignId (m : SPVModule) (id idx : Nat) : NoOverrun (m.assignId id idx) := by
  intro o h
  unfold SPVModule.assignId at h
  split at h <;> cases h

theorem NoOverrun.appendToBlock (s : DecodeState) (idx : Nat) :
    NoOverrun (s.appendToBlock idx) := by
  intro o h
  unfold DecodeState.appendToBlock at h
  split at h <;> cases h

theorem NoOverrun.closeBlock (s : DecodeState) (idx : Nat) : NoOverrun (s.closeBlock idx) := by
  intro o h
  unfold DecodeState.closeBlock at h
  split at h <;> cases h

theorem NoOverrun.mergeBlock (s : DecodeState) (idx : Nat) : NoOverrun (s.mergeBlock idx) := by
  intro o h
  unfold DecodeState.mergeBlock at h
  split at h <;> cases h

theorem NoOverrun.wordsFrom (spirv : List Nat) :
    ∀ n off, off + n ≤ spirv.length → NoOverrun (wordsFrom spirv n off) := by
  intro n
  induction n with
  | zero => intro off _; exact NoOverrun.ok _
  | succ n ih =>
    intro off h
    unfold Renderdoc.wordsFrom
    refine NoOverrun.bind (NoOverrun.word _ _ (by omega)) (fun _ _ => ?_)
    refine NoOverrun.bind (ih _ (by omega)) (fun _ _ => ?_)
    exact NoOverrun.pure _

theorem NoOverrun.findTypes (m : SPVModule) (spirv : List Nat) :
    ∀ n off, off + n ≤ spirv.length → NoOverrun (findTypes m spirv n off) := by
  intro n
  induction n with
  | zero => intro off _; exact NoOverrun.ok _
  | succ n ih =>
    intro off h
    unfold Renderdoc.findTypes
    refine NoOverrun.bind (NoOverrun.word _ _ (by omega)) (fun _ _ => ?_)
    refine NoOverrun.bind (NoOverrun.findType _ _) (fun _ _ => ?_)
    refine NoOverrun.bind (ih _ (by omega)) (fun _ _ => ?_)
    exact NoOverrun.pure _

theorem NoOverrun.findConstants (m : SPVModule) (spirv : List Nat) :
    ∀ n off, off + n ≤ spirv.length → NoOverrun (findConstants m spirv n off) := by
  intro n
  induction n with
  | zero => intro off _; exact NoOverrun.ok _
  | succ n ih =>
    intro off h
    unfold Renderdoc.findConstants
    refine NoOverrun.bind (NoOverrun.word _ _ (by omega)) (fun _ _ => ?_)
    refine NoOverrun.bind (NoOverrun.findConstant _ _) (fun _ _ => ?_)
    refine NoOverrun.bind (ih _ (by omega)) (fun _ _ => ?_)
    exact NoOverrun.pure _

theorem NoOverrun.findInsts (m : SPVModule) (spirv : List Nat) :
    ∀ n off, off + n ≤ spirv.length → NoOverrun (findInsts m spirv n off) := by
  intro n
  induction n with
  | zero => intro off _; exact NoOverrun.ok _
  | succ n ih =>
    intro off h
    unfold Renderdoc.findInsts
    refine NoOverrun.bind (NoOverrun.word _ _ (by omega)) (fun _ _ => ?_)
    refine NoOverrun.bind (NoOverrun.findInst _ _) (fun _ _ => ?_)
    refine NoOverrun.bind (ih _ (by omega)) (fun _ _ => ?_)
    exact NoOverrun.pure _

theorem NoOverrun.memoryAccess (spirv : List Nat) (it wc opcode : Nat) :
    ∀ n i access, i + n = wc → 0 < n → it + i < spirv.length →
      NoOverrun (memoryAccess spirv it wc opcode n i access) := by
  intro n
  induction n with
  | zero => intro i access _ h; omega
  | succ n ih =>
    intro i access hw _ hlt
    unfold Renderdoc.memoryAccess
    split
    · rename_i hi
      refine NoOverrun.bind (NoOverrun.word _ _ hlt) (fun _ _ => ?_)
      have : n = 0 := by omega
      subst this
      exact NoOverrun.ok _
    · refine NoOverrun.bind (NoOverrun.word _ _ hlt) (fun _ _ => ?_)
      exact NoOverrun.RDCBREAK _

theorem NoOverrun.memoryAccess_of (spirv : List Nat) (it wc opcode n i access : Nat)
    (h : n ≠ 0 → i + n = wc ∧ it + i < spirv.length) :
    NoOverrun (Renderdoc.memoryAccess spirv it wc opcode n i access) := by
  rcases Nat.eq_zero_or_pos n with h0 | h0
  · subst h0; exact NoOverrun.ok _
  · exact NoOverrun.memoryAccess _ _ _ _ _ _ _ (h (by omega)).1 h0 (h (by omega)).2

/-- The structural pass reads no word past the end of the buffer at an instruction whose
footprint lies inside the buffer. -/
theorem decodeInstruction_noOverrun (X : Externals) (spirv : List Nat) (it : Nat)
    (s : DecodeState)
    (hfoot : it + footprint1 (pass1Case (X.opOf (OpCode spirv it))) (WordCount spirv it)
      ≤ spirv.length)
    (hstr : readsString1 (pass1Case (X.opOf (OpCode spirv it))) = true →
      stringEnds spirv (it + 2) = true) :
    NoOverrun (decodeInstruction X spirv it s) := by
  unfold decodeInstruction
  generalize pass1Case (X.opOf (OpCode spirv it)) = k at hfoot hstr
  generalize WordCount spirv it = wc at hfoot
  cases k <;> dsimp only [footprint1, readsString1] at hfoot hstr ⊢ <;>
    (try split at hfoot) <;>
    repeat' first
      | (with_reducible refine NoOverrun.bind ?_ (fun _ _ => ?_))
      | (with_reducible exact NoOverrun.pure _)
      | ((with_reducible refine NoOverrun.word _ _ ?_); omega)
      | (with_reducible exact NoOverrun.cString _ _ (hstr rfl))
      | (with_reducible exact NoOverrun.findType _ _)
      | (with_reducible exact NoOverrun.findInst _ _)
      | (with_reducible exact NoOverrun.findConstant _ _)
      | (with_reducible exact NoOverrun.assignId _ _ _)
      | (with_reducible exact NoOverrun.appendToBlock _ _)
      | (with_reducible exact NoOverrun.closeBlock _ _)
      | (with_reducible exact NoOverrun.mergeBlock _ _)
      | (with_reducible exact NoOverrun.deref _)
      | ((with_reducible refine NoOverrun.RDCASSERT _ _ ?_); intro o h; cases h)
      | ((with_reducible refine NoOverrun.wordsFrom _ _ _ ?_); omega)
      | ((with_reducible refine NoOverrun.findTypes _ _ _ _ ?_); omega)
      | ((with_reducible refine NoOverrun.findConstants _ _ _ _ ?_); omega)
      | ((with_reducible refine NoOverrun.findInsts _ _ _ _ ?_); omega)
      | ((with_reducible refine NoOverrun.memoryAccess_of _ _ _ _ _ _ _ ?_); omega)
      | split

theorem noOverrun_getAt {α : Type} (table : List α) (i : Nat) : NoOverrun (getAt table i) := by
  intro o h
  unfold getAt at h
  split at h <;> cases h

theorem noOverrun_setAt {α : Type} (table : List α) (i : Nat) (a : α) :
    NoOverrun (setAt table i a) := by
  intro o h
  unfold setAt at h
  split at h <;> cases h

theorem noOverrun_unindent (r : RenderState) : NoOverrun r.unindent := by
  intro o h
  unfold RenderState.unindent at h
  split at h <;> cases h

theorem noOverrun_error {α : Type} (e : Fault) (he : ∀ o, e ≠ .WordOutOfRange o) :
    NoOverrun (.error e : Except Fault α) := by
  intro o h; cases h; exact he o rfl

theorem noOverrun_joinNames (resultnames : List String) (spirv : List Nat) (it wc : Nat) :
    ∀ n i, it + i + n ≤ spirv.length → NoOverrun (joinNames resultnames spirv it wc n i) := by
  intro n
  induction n with
  | zero => intro i _; exact NoOverrun.ok _
  | succ n ih =>
    intro i h
    unfold joinNames
    refine NoOverrun.bind (NoOverrun.word _ _ (by omega)) (fun _ _ => ?_)
    refine NoOverrun.bind (noOverrun_getAt _ _) (fun _ _ => ?_)
    refine NoOverrun.bind (ih _ (by omega)) (fun _ _ => ?_)
    exact NoOverrun.pure _

theorem noOverrun_joinLiterals (X : Externals) (values : List Nat) (type : BaseType)
    (spirv : List Nat) (it wc : Nat) :
    ∀ n i, it + i + n ≤ spirv.length →
      NoOverrun (joinLiterals X values type spirv it wc n i) := by
  intro n
  induction n with
  | zero => intro i _; exact NoOverrun.ok _
  | succ n ih =>
    intro i h
    unfold joinLiterals
    dsimp only
    repeat' first
      | (with_reducible refine NoOverrun.bind ?_ (fun _ _ => ?_))
      | (with_reducible exact NoOverrun.pure _)
      | ((with_reducible refine NoOverrun.word _ _ ?_); omega)
      | (with_reducible exact noOverrun_getAt _ _)
      | ((with_reducible refine ih _ ?_); omega)
      | split

theorem noOverrun_rawOperands (spirv : List Nat) (idbound it wc : Nat) :
    ∀ n i, it + i + n ≤ spirv.length → NoOverrun (rawOperands spirv idbound it wc n i) := by
  intro n
  induction n with
  | zero => intro i _; exact NoOverrun.ok _
  | succ n ih =>
    intro i h
    unfold rawOperands
    refine NoOverrun.bind (NoOverrun.word _ _ (by omega)) (fun _ _ => ?_)
    refine NoOverrun.bind (ih _ (by omega)) (fun _ _ => ?_)
    exact NoOverrun.pure _

theorem noOverrun_extInstName (X : Externals) (extset instruction : Nat) :
    ∀ sets name, NoOverrun (extInstName X extset instruction sets name) := by
  intro sets
  induction sets with
  | nil => intro name; exact NoOverrun.ok _
  | cons e rest ih =>
    intro name
    unfold extInstName
    split
    · split
      · exact ih _
      · exact noOverrun_error _ (by intro o h; cases h)
    · exact ih _

theorem getAt_mem {α : Type} {table : List α} {i : Nat} {a : α}
    (h : getAt table i = .ok a) : a ∈ table := by
  unfold getAt at h
  split at h
  · rename_i b hb
    cases h
    exact List.getElem?_mem hb
  · cases h

theorem deref_some {p : Option Nat} {j : Nat} (h : deref p = .ok j) : p = some j := by
  cases p with
  | none => cases h
  | some k => cases h; rfl

theorem noOverrun_memberString {spirv : List Nat} {ns : NameState}
    (hns : MemberNamesEnd spirv ns) {v off : Nat}
    (hp : getAt ns.membernames v = .ok (some off)) :
    NoOverrun (cString spirv off) :=
  NoOverrun.cString _ _ (hns off (getAt_mem hp))

theorem noOverrun_accessChainSuffix (ns : NameState) (resultnames : List String)
    (spirv : List Nat) (it : Nat) (hns : MemberNamesEnd spirv ns) :
    ∀ n i, it + i + n ≤ spirv.length →
      NoOverrun (accessChainSuffix ns resultnames spirv it n i) := by
  intro n
  induction n with
  | zero => intro i _; exact NoOverrun.ok _
  | succ n ih =>
    intro i h
    unfold accessChainSuffix
    dsimp only
    repeat' first
      | (with_reducible refine NoOverrun.bind ?_ (fun _ _ => ?_))
      | (with_reducible exact NoOverrun.pure _)
      | ((with_reducible refine NoOverrun.word _ _ ?_); omega)
      | (with_reducible exact noOverrun_getAt _ _)
      | (with_reducible exact noOverrun_memberString hns (by assumption))
      | ((with_reducible refine ih _ ?_); omega)
      | split

/-- The annotation pass reads no word past the end of the buffer at an instruction whose
footprint lies inside the buffer. -/
theorem annotateInstruction_noOverrun (X : Externals) (spirv : List Nat) (it : Nat)
    (m : SPVModule)
    (hfoot : it + footprint2 (pass2Case (X.opOf (OpCode spirv it))) (WordCount spirv it)
      ≤ spirv.length)
    (hname : pass2Case (X.opOf (OpCode spirv it)) = .OpName → stringEnds spirv (it + 2) = true)
    (hmember : pass2Case (X.opOf (OpCode spirv it)) = .OpMemberName →
      stringEnds spirv (it + 3) = true) :
    NoOverrun (annotateInstruction X spirv it m) := by
  unfold annotateInstruction
  generalize pass2Case (X.opOf (OpCode spirv it)) = k at hfoot hname hmember
  generalize WordCount spirv it = wc at hfoot
  cases k <;> dsimp only [footprint2] at hfoot ⊢ <;>
    (try split at hfoot) <;>
    repeat' first
      | (with_reducible refine NoOverrun.bind ?_ (fun _ _ => ?_))
      | (with_reducible exact NoOverrun.pure _)
      | ((with_reducible refine NoOverrun.word _ _ ?_); omega)
      | (with_reducible exact NoOverrun.cString _ _ (hname rfl))
      | (with_reducible exact NoOverrun.cString _ _ (hmember rfl))
      | (with_reducible exact NoOverrun.findInst _ _)
      | (with_reducible exact NoOverrun.idAt _ _)
      | (with_reducible exact NoOverrun.deref _)
      | (with_reducible exact NoOverrun.RDCBREAK _)
      | ((with_reducible refine NoOverrun.RDCASSERT _ _ ?_); intro o h; cases h)
      | split

/-- The name-collection pass reads no word past the end of the buffer at an instruction
whose footprint lies inside the buffer. -/
theorem collectNames_noOverrun (X : Externals) (spirv : List Nat) (it : Nat)
    (ns : NameState)
    (hfoot : it + footprint3 (pass3Case (X.opOf (OpCode spirv it))) (WordCount spirv it)
      ≤ spirv.length)
    (hname : pass3Case (X.opOf (OpCode spirv it)) = .OpName → stringEnds spirv (it + 2) = true) :
    NoOverrun (collectNames X spirv it ns) := by
  unfold collectNames
  generalize pass3Case (X.opOf (OpCode spirv it)) = k at hfoot hname
  generalize WordCount spirv it = wc at hfoot
  cases k <;> dsimp only [footprint3] at hfoot ⊢ <;>
    repeat' first
      | (with_reducible refine NoOverrun.bind ?_ (fun _ _ => ?_))
      | (with_reducible exact NoOverrun.pure _)
      | ((with_reducible refine NoOverrun.word _ _ ?_); omega)
      | (with_reducible exact NoOverrun.cString _ _ (hname rfl))
      | (with_reducible exact noOverrun_getAt _ _)
      | (with_reducible exact noOverrun_setAt _ _ _)
      | ((with_reducible refine NoOverrun.RDCASSERT _ _ ?_); intro o h; cases h)
      | ((with_reducible refine noOverrun_joinNames _ _ _ _ _ _ ?_); omega)
      | ((with_reducible refine noOverrun_joinLiterals _ _ _ _ _ _ _ _ ?_); omega)

/-- The render pass reads no word past the end of the buffer at an instruction whose
footprint lies inside the buffer, when the member names collected end inside the buffer. -/
theorem renderInstruction_noOverrun (X : Externals) (spirv : List Nat) (idbound : Nat)
    (ns : NameState) (it : Nat) (r : RenderState) (hns : MemberNamesEnd spirv ns)
    (hfoot : it + footprint4 (pass4Case (X.opOf (OpCode spirv it))) (WordCount spirv it)
      ≤ spirv.length)
    (hname : pass4Case (X.opOf (OpCode spirv it)) = .OpExtInstImport →
      stringEnds spirv (it + 2) = true) :
    NoOverrun (renderInstruction X spirv idbound ns it r) := by
  unfold renderInstruction
  generalize pass4Case (X.opOf (OpCode spirv it)) = k at hfoot hname
  generalize WordCount spirv it = wc at hfoot
  cases k <;> dsimp only [footprint4] at hfoot ⊢ <;>
    (try split at hfoot) <;>
    repeat' first
      | (with_reducible refine NoOverrun.bind ?_ (fun _ _ => ?_))
      | (with_reducible exact NoOverrun.pure _)
      | ((with_reducible refine NoOverrun.word _ _ ?_); omega)
      | (with_reducible exact NoOverrun.cString _ _ (hname rfl))
      | (with_reducible exact noOverrun_getAt _ _)
      | (with_reducible exact noOverrun_setAt _ _ _)
      | (with_reducible exact noOverrun_unindent _)
      | (with_reducible exact noOverrun_extInstName _ _ _ _ _)
      | ((with_reducible refine noOverrun_joinNames _ _ _ _ _ _ ?_); omega)
      | ((with_reducible refine noOverrun_rawOperands _ _ _ _ _ _ ?_); omega)
      | ((with_reducible refine noOverrun_accessChainSuffix _ _ _ _ hns _ _ ?_); omega)
      | ((with_reducible refine NoOverrun.memoryAccess_of _ _ _ _ _ _ _ ?_); omega)
      | split

theorem stringOffset_pass1 (o : Op) (it : Nat) (h : readsString1 (pass1Case o) = true) :
    stringOffset o it = some (it + 2) := by
  cases o <;> first | rfl | exact absurd h (by decide)

theorem stringOffset_pass2_name (o : Op) (it : Nat) (h : pass2Case o = .OpName) :
    stringOffset o it = some (it + 2) := by
  cases o <;> first | rfl | exact absurd h (by decide)

theorem stringOffset_pass2_member (o : Op) (it : Nat) (h : pass2Case o = .OpMemberName) :
    stringOffset o it = some (it + 3) := by
  cases o <;> first | rfl | exact absurd h (by decide)

theorem stringOffset_pass3_name (o : Op) (it : Nat) (h : pass3Case o = .OpName) :
    stringOffset o it = some (it + 2) := by
  cases o <;> first | rfl | exact absurd h (by decide)

theorem stringOffset_pass3_member (o : Op) (it : Nat) (h : pass3Case o = .OpMemberName) :
    stringOffset o it = some (it + 3) := by
  cases o <;> first | rfl | exact absurd h (by decide)

theorem stringOffset_pass4 (o : Op) (it : Nat) (h : pass4Case o = .OpExtInstImport) :
    stringOffset o it = some (it + 2) := by
  cases o <;> first | rfl | exact absurd h (by decide)

theorem inBuffer_foot {X : Externals} {spirv : List Nat} {it : Nat}
    (h : InBuffer X spirv it = true) : it + footprint X spirv it ≤ spirv.length := by
  unfold InBuffer at h
  simp only [Bool.and_eq_true, decide_eq_true_eq] at h
  exact h.1

theorem inBuffer_string {X : Externals} {spirv : List Nat} {it off : Nat}
    (h : InBuffer X spirv it = true)
    (hoff : stringOffset (X.opOf (OpCode spirv it)) it = some off) :
    stringEnds spirv off = true := by
  unfold InBuffer at h
  rw [hoff] at h
  simp only [Bool.and_eq_true, decide_eq_true_eq] at h
  exact h.2

theorem inBuffer_foot1 {X : Externals} {spirv : List Nat} {it : Nat}
    (h : InBuffer X spirv it = true) :
    it + footprint1 (pass1Case (X.opOf (OpCode spirv it))) (WordCount spirv it)
      ≤ spirv.length :=
  le_trans (Nat.add_le_add_left (le_trans (le_max_left _ _) (le_max_left _ _)) it)
    (inBuffer_foot h)

theorem inBuffer_foot2 {X : Externals} {spirv : List Nat} {it : Nat}
    (h : InBuffer X spirv it = true) :
    it + footprint2 (pass2Case (X.opOf (OpCode spirv it))) (WordCount spirv it)
      ≤ spirv.length :=
  le_trans (Nat.add_le_add_left (le_trans (le_max_right _ _) (le_max_left _ _)) it)
    (inBuffer_foot h)

theorem inBuffer_foot3 {X : Externals} {spirv : List Nat} {it : Nat}
    (h : InBuffer X spirv it = true) :
    it + footprint3 (pass3Case (X.opOf (OpCode spirv it))) (WordCount spirv it)
      ≤ spirv.length :=
  le_trans (Nat.add_le_add_left (le_trans (le_max_left _ _) (le_max_right _ _)) it)
    (inBuffer_foot h)

theorem inBuffer_foot4 {X : Externals} {spirv : List Nat} {it : Nat}
    (h : InBuffer X spirv it = true) :
    it + footprint4 (pass4Case (X.opOf (OpCode spirv it))) (WordCount spirv it)
      ≤ spirv.length :=
  le_trans (Nat.add_le_add_left (le_trans (le_max_right _ _) (le_max_right _ _)) it)
    (inBuffer_foot h)

/-- The name-collection pass keeps every member name inside the buffer. -/
theorem collectNames_memberNames (X : Externals) (spirv : List Nat) (it : Nat)
    (ns ns1 : NameState) (h : collectNames X spirv it ns = .ok ns1)
    (hns : MemberNamesEnd spirv ns)
    (hm : pass3Case (X.opOf (OpCode spirv it)) = .OpMemberName →
      stringEnds spirv (it + 3) = true) :
    MemberNamesEnd spirv ns1 := by
  unfold collectNames at h
  generalize pass3Case (X.opOf (OpCode spirv it)) = k at h hm
  cases k <;> dsimp only at h <;>
    repeat' (first | (obtain ⟨_, hh, h⟩ := bind_ok_elim h) | split at h)
  all_goals cases h
  all_goals first
    | exact hns
    | skip
  intro off hmem
  rcases List.mem_or_eq_of_mem_set hmem with h1 | h1
  · rcases List.mem_append.1 h1 with h2 | h2
    · exact hns off h2
    · cases (List.mem_replicate.1 h2).2
  · cases h1
    exact hm rfl

theorem mem_instructionOffsets_head (spirv : List Nat) (fuel it : Nat)
    (h : it < spirv.length) : it ∈ instructionOffsets spirv (fuel + 1) it := by
  simp [instructionOffsets, h]

theorem mem_instructionOffsets_tail (spirv : List Nat) (fuel it i : Nat)
    (h : it < spirv.length) (hi : i ∈ instructionOffsets spirv fuel (it + WordCount spirv it)) :
    i ∈ instructionOffsets spirv (fuel + 1) it := by
  simp [instructionOffsets, h, hi]

theorem pass1_noOverrun (X : Externals) (spirv : List Nat) :
    ∀ fuel it s, (∀ i ∈ instructionOffsets spirv fuel it, InBuffer X spirv i = true) →
      ∀ o, pass1 X spirv fuel it s ≠ .fault (.WordOutOfRange o) := by
  intro fuel
  induction fuel with
  | zero =>
    intro it s _ o h
    unfold pass1 at h
    split at h <;> cases h
  | succ fuel ih =>
    intro it s hall o h
    unfold pass1 at h
    split at h
    · rename_i hlt
      have hin := hall it (mem_instructionOffsets_head spirv fuel it hlt)
      split at h
      · rename_i e he
        cases h
        exact decodeInstruction_noOverrun X spirv it s (inBuffer_foot1 hin)
          (fun hs => inBuffer_string hin (stringOffset_pass1 _ it hs)) o he
      · exact ih _ _ (fun i hi => hall i (mem_instructionOffsets_tail spirv fuel it i hlt hi)) o h
    · cases h

theorem pass2_noOverrun (X : Externals) (spirv : List Nat) :
    ∀ fuel it m, (∀ i ∈ instructionOffsets spirv fuel it, InBuffer X spirv i = true) →
      ∀ o, pass2 X spirv fuel it m ≠ .fault (.WordOutOfRange o) := by
  intro fuel
  induction fuel with
  | zero =>
    intro it s _ o h
    unfold pass2 at h
    split at h <;> cases h
  | succ fuel ih =>
    intro it s hall o h
    unfold pass2 at h
    split at h
    · rename_i hlt
      have hin := hall it (mem_instructionOffsets_head spirv fuel it hlt)
      split at h
      · rename_i e he
        cases h
        exact annotateInstruction_noOverrun X spirv it s (inBuffer_foot2 hin)
          (fun hs => inBuffer_string hin (stringOffset_pass2_name _ it hs))
          (fun hs => inBuffer_string hin (stringOffset_pass2_member _ it hs)) o he
      · exact ih _ _ (fun i hi => hall i (mem_instructionOffsets_tail spirv fuel it i hlt hi)) o h
    · cases h

theorem pass3_noOverrun (X : Externals) (spirv : List Nat) :
    ∀ fuel it ns, (∀ i ∈ instructionOffsets spirv fuel it, InBuffer X spirv i = true) →
      MemberNamesEnd spirv ns →
      (∀ o, pass3 X spirv fuel it ns ≠ .fault (.WordOutOfRange o)) ∧
        (∀ ns1, pass3 X spirv fuel it ns = .done ns1 → MemberNamesEnd spirv ns1) := by
  intro fuel
  induction fuel with
  | zero =>
    intro it s _ hns
    unfold pass3
    constructor
    · intro o h
      split at h <;> cases h
    · intro ns1 h
      split at h <;> cases h
      exact hns
  | succ fuel ih =>
    intro it s hall hns
    unfold pass3
    split
    · rename_i hlt
      have hin := hall it (mem_instructionOffsets_head spirv fuel it hlt)
      split
      · rename_i e he
        constructor
        · intro o h
          cases h
          exact collectNames_noOverrun X spirv it s (inBuffer_foot3 hin)
            (fun hs => inBuffer_string hin (stringOffset_pass3_name _ it hs)) o he
        · intro ns1 h; cases h
      · rename_i s1 hs1
        exact ih _ _ (fun i hi => hall i (mem_instructionOffsets_tail spirv fuel it i hlt hi))
          (collectNames_memberNames X spirv it s s1 hs1 hns
            (fun hs => inBuffer_string hin (stringOffset_pass3_member _ it hs)))
    · constructor
      · intro o h; cases h
      · intro ns1 h; cases h; exact hns

theorem pass4_noOverrun (X : Externals) (spirv : List Nat) (idbound : Nat) (ns : NameState)
    (hns : MemberNamesEnd spirv ns) :
    ∀ fuel it r, (∀ i ∈ instructionOffsets spirv fuel it, InBuffer X spirv i = true) →
      ∀ o, pass4 X spirv idbound ns fuel it r ≠ .fault (.WordOutOfRange o) := by
  intro fuel
  induction fuel with
  | zero =>
    intro it s _ o h
    unfold pass4 at h
    split at h <;> cases h
  | succ fuel ih =>
    intro it s hall o h
    unfold pass4 at h
    split at h
    · rename_i hlt
      have hin := hall it (mem_instructionOffsets_head spirv fuel it hlt)
      split at h
      · rename_i e he
        cases h
        exact renderInstruction_noOverrun X spirv idbound ns it s hns (inBuffer_foot4 hin)
          (fun hs => inBuffer_string hin (stringOffset_pass4 _ it hs)) o he
      · exact ih _ _ (fun i hi => hall i (mem_instructionOffsets_tail spirv fuel it i hlt hi)) o h
    · cases h

theorem decode_noOverrun (X : Externals) (fuel shadType : Nat) (spirv : List Nat)
    (h5 : 5 ≤ spirv.length)
    (hall : ∀ i ∈ instructionOffsets spirv fuel 5, InBuffer X spirv i = true) :
    ∀ o, decode X fuel shadType spirv ≠ .fault (.WordOutOfRange o) := by
  intro o h
  unfold decode at h
  rw [word_eq spirv 1 (by omega), word_eq spirv 2 (by omega), word_eq spirv 3 (by omega),
    word_eq spirv 4 (by omega)] at h
  simp only [bind, Except.bind, RDCASSERT, pure, Except.pure] at h
  by_cases hr : (spirv[4] == 0) = true
  · simp only [hr, if_true] at h
    split at h
    · rename_i e he
      cases h
      exact pass1_noOverrun X spirv fuel 5 _ hall o he
    · cases h
    · exact pass2_noOverrun X spirv fuel 5 _ hall o h
  · simp only [hr] at h
    cases h

/-- Claim C2 (amended). With a valid header the function never reports MalformedInput,
whatever the buffer holds after its first word, truncated instructions included: no
instruction's word count is compared with the buffer length. No word at an offset at or past
the buffer length is read by any of the four passes when the five header words are present
and every instruction visited lies in the buffer as far as the passes read it: the operand
words of its opcode and its string operand up to the zero byte. -/
theorem C2_reads_stay_in_buffer (X : Externals) (fuel shadType : Nat) (spirv : List Nat)
    (disasm : String) (hmagic : spirv[0]? = some X.MagicNumber) :
    (∀ text, DisassembleSPIRV X fuel shadType spirv disasm ≠ .MalformedInput text) ∧
      (5 ≤ spirv.length →
        (∀ i ∈ instructionOffsets spirv fuel 5, InBuffer X spirv i = true) →
        ∀ o, DisassembleSPIRV X fuel shadType spirv disasm ≠ .fault (.WordOutOfRange o)) := by
  have hw : word spirv 0 = .ok X.MagicNumber := by
    unfold word; rw [hmagic]
  unfold DisassembleSPIRV
  rw [hw]
  simp only [ne_eq, not_true_eq_false, if_false]
  constructor
  · intro text h
    repeat' split at h
    all_goals cases h
  · intro h5 hall o h
    split at h
    · cases h
    · split at h
      · rename_i e he
        cases h
        exact decode_noOverrun X fuel shadType spirv h5 hall o he
      · cases h
      · rename_i m hm
        have h3 := pass3_noOverrun X spirv fuel 5 (NameState.new m.ids.length) hall
          (by intro off hmem; cases hmem)
        split at h
        · rename_i e he
          cases h
          exact h3.1 o he
        · cases h
        · rename_i ns hns
          split at h
          · rename_i e he
            cases h
            exact pass4_noOverrun X spirv _ ns (h3.2 ns hns) fuel 5 _ hall o he
          · cases h
          · cases h

/-- Claim C7 fails as stated: in `openBlockModule` decoding (and the whole disassembly)
completes, and the block of the label at index 3 has no exit instruction. -/
theorem C7_counterexample :
    ∃ text m inst blk, DisassembleSPIRV sampleExternals 18 0 openBlockModule "" = .finished text m ∧
      decode sampleExternals 18 0 openBlockModule = .done m ∧
      m.operations[3]? = some inst ∧ inst.block = some blk ∧ blk.exitFlow = none :=
  ⟨_, _, _, _, rfl, rfl, rfl, rfl, rfl⟩

theorem C1_witness :
    (0 < sampleExternals.eSPIRVInvalid ∧ 5 ≠ sampleExternals.MagicNumber) ∧
      DisassembleSPIRV sampleExternals 0 0 [5, 1] ""
        = .MalformedInput "Unrecognised magic number 00000005" :=
  ⟨⟨by decide, by decide⟩,
    (C1_malformed_magic sampleExternals 0 0 5 [1] "" (by decide) (by decide)).1⟩

/-- Claim C2 fails as stated. In `truncatedModule` the last instruction declares two words and
the buffer ends after its header: the decoder reads the word at offset 6, the length of the
buffer, and no MalformedInput is reported. In `overlongModule` the last instruction declares
100 words and the buffer holds one of them: the disassembly finishes. -/
theorem C2_counterexample :
    truncatedModule.length = 6 ∧
      DisassembleSPIRV sampleExternals 10 0 truncatedModule "" = .fault (.WordOutOfRange 6) ∧
      WordCount overlongModule 18 = 100 ∧ overlongModule.length = 19 ∧
      ∃ text m, DisassembleSPIRV sampleExternals 10 0 overlongModule "" = .finished text m :=
  ⟨rfl, rfl, rfl, rfl, _, _, rfl⟩

theorem C2_witness :
    (minimalModule[0]? = some sampleExternals.MagicNumber ∧ 5 ≤ minimalModule.length ∧
      ∀ i ∈ instructionOffsets minimalModule 10 5, InBuffer sampleExternals minimalModule i = true) ∧
      (∀ o, DisassembleSPIRV sampleExternals 10 0 minimalModule "" ≠ .fault (.WordOutOfRange o)) ∧
      (truncatedModule[0]? = some sampleExternals.MagicNumber ∧
        ¬ (∀ i ∈ instructionOffsets truncatedModule 10 5,
          InBuffer sampleExternals truncatedModule i = true)) ∧
      ∀ text, DisassembleSPIRV sampleExternals 10 0 truncatedModule "" ≠ .MalformedInput text :=
  ⟨⟨rfl, by decide, by decide⟩,
    (C2_reads_stay_in_buffer sampleExternals 10 0 minimalModule "" rfl).2 (by decide)
      (by decide),
    ⟨rfl, by decide⟩,
    (C2_reads_stay_in_buffer sampleExternals 10 0 truncatedModule "" rfl).1⟩

theorem C3_witness :
    (∀ w ∈ twoBlockModule, w < 2 ^ 32) ∧
      ∃ m, decode sampleExternals 21 0 twoBlockModule = .done m ∧
        m.operations.map (fun inst => inst.opcode) = [8, 21, 40, 208, 209, 208, 213, 42] :=
  ⟨by decide, _, rfl,
    (C3_segmentation sampleExternals 21 0 twoBlockModule _ (by decide) rfl).1.trans rfl⟩

theorem C4_witness :
    ∃ s1 op t,
      decodeInstruction sampleExternals vectorModule 8 (stateAfter sampleExternals
        (vectorModule.take 8) 8) = .ok s1 ∧
      s1.module.operations.getLast? = some op ∧ op.type = some t ∧ t.baseType = some 0 ∧
      t.children = [] :=
  let ⟨s1, op, t, h1, h2, h3, h4, h5⟩ :=
    (C4_composite_type_operands sampleExternals vectorModule 8
      (stateAfter sampleExternals (vectorModule.take 8) 8) .OpTypeVector 2 rfl rfl
      (by decide) (by decide) (by decide) rfl (by decide)).2 (by decide)
  ⟨s1, op, t, h1, by rw [h2]; exact List.getLast?_concat _, h3, h4.trans rfl, h5.trans rfl⟩

/-- Claim C5 fails in the code. The `Constant` of `constantModule` has word count 4 and the one
value word 7, yet its payload is not 7: the guard `WordCount > 3` holds for it, so the word after
the instruction (the header of the next instruction) is taken as the high half. The
`Constant` of `wideConstantModule` has word count 5 and the value words 7 and 1, and decoding
stops at the assertion `WordCount <= 4`. -/
theorem C5_constant_payload_reads_next_word :
    (∃ m inst c, decode sampleExternals 10 0 constantModule = .done m ∧
        m.operations[1]? = some inst ∧ sampleExternals.opOf inst.opcode = .OpConstant ∧
        WordCount constantModule 9 = 4 ∧ constantModule[12]? = some 7 ∧
        inst.constant = some c ∧ c.u64 = 7 + headerWord 2 8 * 2 ^ 32) ∧
      WordCount wideConstantModule 9 = 5 ∧
      decode sampleExternals 10 0 wideConstantModule = .fault .AssertionFailed :=
  ⟨⟨_, _, _, rfl, rfl, rfl, rfl, rfl, rfl, rfl⟩, rfl, rfl⟩

theorem C6_witness :
    (stateAfter sampleExternals (twoBlockModule.take 17) 17).curBlock = some 3 ∧
      (stateAfter sampleExternals (twoBlockModule.take 17) 17).module.ids.get? 5 = some none ∧
      ∃ s1 op flow,
        decodeInstruction sampleExternals twoBlockModule 17
          (stateAfter sampleExternals (twoBlockModule.take 17) 17) = .ok s1 ∧
        s1.module.ids = (stateAfter sampleExternals (twoBlockModule.take 17) 17).module.ids ∧
        s1.module.operations.getLast? = some op ∧ op.flow = some flow ∧ flow.targets = [5] :=
  ⟨rfl, rfl,
    (C6_forward_references sampleExternals twoBlockModule 17
      (stateAfter sampleExternals (twoBlockModule.take 17) 17) 3 rfl).1 5 rfl rfl⟩

theorem C7_witness :
    ∃ m inst blk, decode sampleExternals 21 0 twoBlockModule = .done m ∧
      m.operations[3]? = some inst ∧ inst.block = some blk ∧ blk.instructions = [3, 4] ∧
      match blk.exitFlow with
      | some e =>
        blk.instructions.getLast? = some e ∧
        (∃ t, m.operations[e]? = some t ∧ isTerminator (sampleExternals.opOf t.opcode) = true) ∧
        (∀ k ∈ blk.instructions.dropLast, ∀ t, m.operations[k]? = some t →
          isTerminator (sampleExternals.opOf t.opcode) = false)
      | none =>
        ∀ k ∈ blk.instructions, ∀ t, m.operations[k]? = some t →
          isTerminator (sampleExternals.opOf t.opcode) = false :=
  ⟨_, _, _, rfl, rfl, rfl, rfl,
    C7_exit_is_last_and_only_terminator sampleExternals 21 0 twoBlockModule _ 3 _ _ rfl rfl rfl⟩

/-- Claim C8 fails as stated. In `twoMergeModule` decoding completes, and the instruction
list of the block of the label at index 3 holds two merge instructions, at indices 4 and 5; the
block records the second one. -/
theorem C8_counterexample :
    ∃ m inst blk i4 i5, decode sampleExternals 10 0 twoMergeModule = .done m ∧
      m.operations[3]? = some inst ∧ inst.block = some blk ∧
      blk.instructions = [3, 4, 5, 6] ∧ blk.mergeFlow = some 5 ∧
      m.operations[4]? = some i4 ∧ sampleExternals.opOf i4.opcode = .OpSelectionMerge ∧
      m.operations[5]? = some i5 ∧ sampleExternals.opOf i5.opcode = .OpLoopMerge :=
  ⟨_, _, _, _, _, rfl, rfl, rfl, rfl, rfl, rfl, rfl, rfl, rfl⟩

theorem C8_witness :
    (∃ s1, decodeInstruction sampleExternals mergeModule 17
        (stateAfter sampleExternals (mergeModule.take 17) 17) = .ok s1 ∧
      s1.curBlock = some 3) ∧
      ∃ m inst blk, decode sampleExternals 10 0 mergeModule = .done m ∧
        m.operations[3]? = some inst ∧ inst.block = some blk ∧ blk.mergeFlow = some 4 ∧
        blk.exitFlow = some 5 ∧ 4 ∈ blk.instructions.dropLast :=
  have h := C8_merge_recorded_before_exit sampleExternals mergeModule 17
    (stateAfter sampleExternals (mergeModule.take 17) 17) 5 0 3 _ _ 10 0 mergeModule _ 3 _ _ 4
    rfl rfl rfl rfl rfl rfl rfl rfl rfl rfl
  ⟨let ⟨s1, _, h1, h2, _⟩ := h.1; ⟨s1, h1, h2⟩,
    ⟨_, _, _, rfl, rfl, rfl, rfl, rfl, (h.2.2.2 5 rfl).1⟩⟩

/-- Claim C9 fails as stated. In `doubleReturnModule` the second `Return` occurs while no block
is open; it is neither ignored nor flagged: decoding stops at the write through the null
current-block pointer, which is no error that the program raises. -/
theorem C9_counterexample :
    decode sampleExternals 10 0 doubleReturnModule = .fault .NullPointer ∧
      DisassembleSPIRV sampleExternals 10 0 doubleReturnModule "" = .fault .NullPointer ∧
      Fault.isFlagged .NullPointer = false ∧
      (stateAfter sampleExternals (doubleReturnModule.take 18) 18).curBlock = none ∧
      decodeInstruction sampleExternals doubleReturnModule 18
        (stateAfter sampleExternals (doubleReturnModule.take 18) 18) = .error .NullPointer :=
  ⟨rfl, rfl, rfl, rfl, rfl⟩

theorem C9_witness :
    ∃ s1, decodeInstruction sampleExternals twoBlockModule 21
        (stateAfter sampleExternals (twoBlockModule.take 21) 21) = .ok s1 ∧
      (stateAfter sampleExternals (twoBlockModule.take 21) 21).curBlock = some 5 ∧
      s1.curBlock = none :=
  let ⟨s1, h1⟩ := (C9_terminator_closes_block sampleExternals twoBlockModule 21
    (stateAfter sampleExternals (twoBlockModule.take 21) 21)).2.1 5 rfl rfl
  let ⟨_, _, h3, _⟩ := (C9_terminator_closes_block sampleExternals twoBlockModule 21
    (stateAfter sampleExternals (twoBlockModule.take 21) 21)).1 s1 rfl h1
  ⟨s1, h1, rfl, h3⟩

/-- Claim C10 fails as stated. In `nestedFunctionModule` a second `Function` occurs before the
`FunctionEnd` of the first; the Labels between the first `Function` and the next `FunctionEnd`
are those at indices 3 and 6, and the block list of the first `Function` holds the first only. -/
theorem C10_counterexample :
    ∃ m inst fn, decode sampleExternals 10 0 nestedFunctionModule = .done m ∧
      m.operations[2]? = some inst ∧ sampleExternals.opOf inst.opcode = .OpFunction ∧
      inst.func = some fn ∧ fn.blocks = [3] ∧
      labelsUntilFunctionEnd sampleExternals (m.operations.drop 3) 3 = [3, 6] :=
  ⟨_, _, _, rfl, rfl, rfl, rfl, rfl, rfl⟩

theorem C10_witness :
    ∃ m inst, decode sampleExternals 21 0 twoBlockModule = .done m ∧
      m.operations[2]? = some inst ∧ sampleExternals.opOf inst.opcode = .OpFunction ∧
      labelsUntilBoundary sampleExternals (m.operations.drop 3) 3 = [3, 5] ∧
      ∃ fn, inst.func = some fn ∧
        fn.blocks = labelsUntilBoundary sampleExternals (m.operations.drop (2 + 1)) (2 + 1) ∧
        ∀ j ∈ fn.blocks, ∃ lbl blk rest, m.operations[j]? = some lbl ∧
          sampleExternals.opOf lbl.opcode = .OpLabel ∧ lbl.block = some blk ∧
          blk.instructions = j :: rest :=
  ⟨_, _, rfl, rfl, rfl, rfl,
    C10_function_blocks sampleExternals 21 0 twoBlockModule _ 2 _ rfl rfl rfl⟩

theorem assignId_eq {m m1 : SPVModule} {id idx : Nat} (h : m.assignId id idx = .ok m1) :
    id < m.ids.length ∧ m1 = { m with ids := m.ids.set id (some idx) } := by
  unfold SPVModule.assignId at h
  split at h
  · cases h; exact ⟨by assumption, rfl⟩
  · cases h

theorem appendToBlock_eq {s s1 : DecodeState} {idx : Nat} (h : s.appendToBlock idx = .ok s1) :
    ∃ b, s1 = { s with
      module := s.module.modifyBlock b
        (fun blk => { blk with instructions := blk.instructions ++ [idx] }) } := by
  unfold DecodeState.appendToBlock at h
  split at h
  · cases h
  · cases h; exact ⟨_, rfl⟩

theorem closeBlock_eq {s s1 : DecodeState} {idx : Nat} (h : s.closeBlock idx = .ok s1) :
    ∃ b, s1 = { s with
      module := s.module.modifyBlock b
        (fun blk => { blk with exitFlow := some idx, instructions := blk.instructions ++ [idx] }),
      curBlock := none } := by
  unfold DecodeState.closeBlock at h
  split at h
  · cases h
  · cases h; exact ⟨_, rfl⟩

theorem mergeBlock_eq {s s1 : DecodeState} {idx : Nat} (h : s.mergeBlock idx = .ok s1) :
    ∃ b, s1 = { s with
      module := s.module.modifyBlock b
        (fun blk => { blk with mergeFlow := some idx, instructions := blk.instructions ++ [idx] }) } := by
  unfold DecodeState.mergeBlock at h
  split at h
  · cases h
  · cases h; exact ⟨_, rfl⟩

theorem map_fixedPart_modifyInst (m : SPVModule) (b : Nat)
    (g : SPVInstruction → SPVInstruction) (hg : ∀ a, fixedPart (g a) = fixedPart a) :
    (m.modifyInst b g).operations.map fixedPart = m.operations.map fixedPart := by
  simp only [SPVModule.modifyInst]
  exact map_modify_same _ g hg _ _

theorem word_ok_getElem? {spirv : List Nat} {i w : Nat} (h : word spirv i = .ok w) :
    spirv[i]? = some w := by
  unfold word at h
  split at h
  · cases h; assumption
  · cases h

/-- The annotation pass writes to instructions only, and leaves their opcode and ID alone:
the ID table and the list of globals stay. -/
theorem annotateInstruction_tables (X : Externals) (spirv : List Nat) (it : Nat)
    (m m1 : SPVModule) (h : annotateInstruction X spirv it m = .ok m1) :
    m1.ids = m.ids ∧ m1.globals = m.globals ∧
      m1.operations.map fixedPart = m.operations.map fixedPart := by
  unfold annotateInstruction at h
  generalize pass2Case (X.opOf (OpCode spirv it)) = k at h
  cases k <;> first
    | (cases h; exact ⟨rfl, rfl, rfl⟩)
    | (dsimp only at h
       repeat' (first | (obtain ⟨_, hh, h⟩ := bind_ok_elim h) | split at h)
       all_goals cases h
       all_goals exact ⟨rfl, rfl, map_fixedPart_modifyInst _ _ _ (fun _ => rfl)⟩)

theorem IdInv.init (X : Externals) (bound : Nat) :
    IdInv X bound (List.replicate bound none) [] := by
  refine ⟨by simp, ?_, ?_⟩
  · intro i j h
    rw [List.getElem?_replicate] at h
    split at h <;> cases h
  · intro j oc i h
    simp at h

theorem variablesUntil_append_closed (l : List OpClass) (c : OpClass) (j : Nat)
    (h : ∃ x ∈ l, isBoundary x = true) :
    variablesUntil (l ++ [c]) j = variablesUntil l j := by
  induction l generalizing j with
  | nil => simp at h
  | cons a l ih =>
    cases a <;> simp only [variablesUntil, List.cons_append, List.append_eq]
    all_goals
      have h1 : ∃ x ∈ l, isBoundary x = true := by
        obtain ⟨x, hx, hb⟩ := h
        simp only [List.mem_cons] at hx
        rcases hx with hx | hx
        · subst hx; simp [isBoundary] at hb
        · exact ⟨x, hx, hb⟩
      rw [ih _ h1]

theorem variablesUntil_append_open (l : List OpClass) (c : OpClass) (j : Nat)
    (h : ∀ x ∈ l, isBoundary x = false) :
    variablesUntil (l ++ [c]) j
      = variablesUntil l j ++ (if c = .variableDecl then [j + l.length] else []) := by
  induction l generalizing j with
  | nil => cases c <;> simp [variablesUntil]
  | cons a l ih =>
    have h1 : ∀ x ∈ l, isBoundary x = false := fun x hx => h x (by simp [hx])
    have ha := h a (by simp)
    cases a <;>
      simp only [variablesUntil, List.cons_append, isBoundary, List.append_eq] at ha ⊢ <;>
      (try (cases ha)) <;> rw [ih _ h1] <;> simp <;>
      (have e : j + 1 + l.length = j + (l.length + 1) := by omega) <;> rw [e]

theorem variablesUntil_append_other (l : List OpClass) (c : OpClass) (j : Nat)
    (hc : c ≠ .variableDecl) : variablesUntil (l ++ [c]) j = variablesUntil l j := by
  induction l generalizing j with
  | nil => cases c <;> simp [variablesUntil] at hc ⊢
  | cons a l ih =>
    cases a <;> simp only [variablesUntil, List.cons_append, List.append_eq] <;> rw [ih]

theorem openAfter_append (l : List OpClass) (c : OpClass) (o : Bool) :
    openAfter (l ++ [c]) o
      = (match c with
         | .function => true
         | .functionEnd => false
         | _ => openAfter l o) := by
  induction l generalizing o with
  | nil => cases c <;> rfl
  | cons a l ih =>
    cases a <;> simp only [openAfter, List.cons_append, List.append_eq] <;> rw [ih]

theorem globalsFrom_append (l : List OpClass) (c : OpClass) (j : Nat) (o : Bool) :
    globalsFrom (l ++ [c]) j o
      = globalsFrom l j o ++
        (if c = .variableDecl ∧ openAfter l o = false then [j + l.length] else []) := by
  induction l generalizing j o with
  | nil => cases c <;> cases o <;> simp [globalsFrom, openAfter]
  | cons a l ih =>
    have e : j + 1 + l.length = j + (l.length + 1) := by omega
    cases a <;> simp only [globalsFrom, openAfter, List.cons_append, List.append_eq] <;>
      first
      | (rw [ih, e]; rfl)
      | (cases o <;> simp only [if_true, Bool.false_eq_true, if_false] <;> rw [ih, e] <;> rfl)

theorem map_localsOf_modifyBlock (m : SPVModule) (j : Nat) (f : SPVBlock → SPVBlock) :
    (m.modifyBlock j f).operations.map localsOf = m.operations.map localsOf := by
  simp only [SPVModule.modifyBlock, SPVModule.modifyInst]
  refine map_modify_same _ _ (fun a => ?_) _ _
  rfl

theorem map_localsOf_pushBlock (m : SPVModule) (j idx : Nat) :
    (m.modifyFunc j (fun fn => { fn with blocks := fn.blocks ++ [idx] })).operations.map localsOf
      = m.operations.map localsOf := by
  simp only [SPVModule.modifyFunc, SPVModule.modifyInst]
  refine map_modify_same _ _ (fun a => ?_) _ _
  simp [localsOf, Option.map_map, Function.comp_def]

theorem map_localsOf_pushVariable (m : SPVModule) (j idx : Nat) :
    (m.modifyFunc j
        (fun fn => { fn with localVariables := fn.localVariables ++ [idx] })).operations.map
        localsOf
      = (m.operations.map localsOf).modify (Option.map (fun l => l ++ [idx])) j := by
  simp only [SPVModule.modifyFunc, SPVModule.modifyInst]
  refine map_modify_comm _ _ _ (fun a => ?_) _ _
  simp [localsOf, Option.map_map, Function.comp_def]

/-- One step of the structural pass on the variable lists: a `Variable` is appended to the
list of the current function if there is one and to `globals` otherwise; no other
instruction is appended to either, and a `Function` starts with an empty list. -/
theorem decodeInstruction_vars (X : Externals) (spirv : List Nat) (it : Nat)
    (s s1 : DecodeState) (h : decodeInstruction X spirv it s = .ok s1) :
    s1.module.operations.map localsOf
        = (match classify (pass1Case (X.opOf (OpCode spirv it))), s.curFunc with
           | .variableDecl, some f =>
             (s.module.operations.map localsOf).modify
               (Option.map (fun l => l ++ [s.module.operations.length])) f
           | _, _ => s.module.operations.map localsOf)
          ++ [if classify (pass1Case (X.opOf (OpCode spirv it))) = .function then some []
              else none] ∧
      s1.module.globals
        = (if classify (pass1Case (X.opOf (OpCode spirv it))) = .variableDecl ∧ s.curFunc = none
           then s.module.globals ++ [s.module.operations.length] else s.module.globals) := by
  obtain ⟨m, cf, cb⟩ := s
  unfold decodeInstruction at h
  generalize pass1Case (X.opOf (OpCode spirv it)) = k at h ⊢
  cases k <;> cases cf <;> dsimp only at h <;>
    repeat' (first | (obtain ⟨_, hh, h⟩ := bind_ok_elim h) | split at h)
  all_goals cases h
  all_goals
    (try (obtain ⟨hlt, rfl⟩ := assignId_eq (by assumption)))
  all_goals
    (try (obtain ⟨b, rfl⟩ := appendToBlock_eq (by assumption)))
  all_goals
    (try (obtain ⟨b, rfl⟩ := closeBlock_eq (by assumption)))
  all_goals
    (try (obtain ⟨b, rfl⟩ := mergeBlock_eq (by assumption)))
  all_goals
    constructor
  all_goals
    first
    | rfl
    | simp [DecodeState.emit, classify, map_localsOf_modifyBlock, map_localsOf_pushBlock,
        map_localsOf_pushVariable, localsOf, SPVInstruction.new]

theorem absStep_curFunc {c : OpClass} {a a1 : Abs} (hs : AbsStep c a a1) :
    a1.curFunc = (match c with
      | .function => some a.cls.length
      | .functionEnd => none
      | _ => a.curFunc) := by
  cases c
  case other => exact hs.2.2.2.1
  case variableDecl => exact hs.2.2.2.1
  case function => exact hs.2.2.2.1
  case functionEnd => exact hs.2.2.2.1
  case label =>
    obtain ⟨_, f, hf, _, _, hcf, _⟩ := hs
    show a1.curFunc = a.curFunc
    rw [hcf, hf]
  case terminator =>
    obtain ⟨_, b, _, _, _, hcf, _⟩ := hs
    exact hcf
  case merge =>
    obtain ⟨_, b, _, _, _, hcf, _⟩ := hs
    exact hcf
  case operation =>
    obtain ⟨_, b, _, _, _, hcf, _⟩ := hs
    exact hcf

/-- Every step of the structural pass keeps the invariant on the variable lists. -/
theorem VarInv.varStep {c : OpClass} {a a1 : Abs} {locals locals1 : List (Option (List Nat))}
    {globals globals1 : List Nat} (h : VarInv a locals globals) (hF : FuncInv a)
    (hs : AbsStep c a a1)
    (hl : locals1
      = (match c, a.curFunc with
         | .variableDecl, some f =>
           locals.modify (Option.map (fun l => l ++ [a.cls.length])) f
         | _, _ => locals)
        ++ [if c = .function then some [] else none])
    (hg : globals1
      = (if c = .variableDecl ∧ a.curFunc = none then globals ++ [a.cls.length]
         else globals)) :
    VarInv a1 locals1 globals1 := by
  have hcls : a1.cls = a.cls ++ [c] := hs.1
  have hcur := absStep_curFunc hs
  have hopen : openAfter a1.cls false = a1.curFunc.isSome := by
    rw [hcls, openAfter_append, hcur]
    cases c <;> first | rfl | exact h.vopen
  have hglob : globals1 = globalsFrom a1.cls 0 false := by
    rw [hg, hcls, globalsFrom_append, h.vglobals, h.vopen]
    cases hcf : a.curFunc <;> cases c <;> simp
  have hlen : locals1.length = a1.cls.length := by
    rw [hl, hcls]
    cases c <;> cases a.curFunc <;> simp [h.vlen]
  refine ⟨hlen, ?_, hopen, hglob⟩
  intro k hk
  rw [hcls] at hk ⊢
  rcases getElem?_append_one _ _ _ _ hk with ⟨hlt, hk1⟩ | ⟨hkl, hkc⟩
  · rw [drop_succ_append _ _ _ hlt]
    by_cases hv : c = .variableDecl
    · subst hv
      cases hcf : a.curFunc with
      | none =>
        have hl1 : locals1 = locals ++ [none] := by rw [hl, hcf]; rfl
        rw [hl1, getElem?_append_lt _ _ _ (by rw [h.vlen]; exact hlt), h.vfuncs k hk1]
        have hclosed := hF.closed k hk1 (by rw [hcf]; intro e; cases e)
        rw [variablesUntil_append_closed _ _ _ hclosed]
      | some f =>
        have hl1 : locals1
            = locals.modify (Option.map (fun l => l ++ [a.cls.length])) f ++ [none] := by
          rw [hl, hcf]; rfl
        rw [hl1, getElem?_append_lt _ _ _ (by rw [List.length_modify, h.vlen]; exact hlt)]
        obtain ⟨hf1, hf2⟩ := hF.cur f hcf
        by_cases hkf : f = k
        · subst hkf
          rw [List.getElem?_modify_eq, h.vfuncs f hk1, variablesUntil_append_open _ _ _ hf2]
          simp only [List.length_drop, if_true, Option.map_eq_map, Option.map_some']
          have : f + 1 + (a.cls.length - (f + 1)) = a.cls.length := by omega
          rw [this]
        · rw [List.getElem?_modify_ne _ _ hkf, h.vfuncs k hk1,
            variablesUntil_append_closed _ _ _
              (hF.closed k hk1 (by rw [hcf]; intro e; cases e; exact hkf rfl))]
    · rw [variablesUntil_append_other _ _ _ hv]
      have hl1 : locals1 = locals ++ [if c = .function then some [] else none] := by
        rw [hl]
        cases c <;> first | rfl | exact absurd rfl hv
      rw [hl1, getElem?_append_lt _ _ _ (by rw [h.vlen]; exact hlt)]
      exact h.vfuncs k hk1
  · subst hkl
    subst hkc
    have hl1 : locals1 = locals ++ [some []] := by rw [hl]; rfl
    rw [hl1, ← h.vlen, getElem?_length_append, h.vlen]
    simp [variablesUntil]

theorem variablesUntilBoundary_eq (X : Externals) (l : List SPVInstruction) (j : Nat) :
    variablesUntilBoundary X l j = variablesUntil (l.map (classOf X)) j := by
  induction l generalizing j with
  | nil => rfl
  | cons a l ih =>
    simp only [variablesUntilBoundary, List.map_cons, variablesUntil, classOf]
    generalize X.opOf a.opcode = o
    cases o <;> first | exact ih _ | exact congrArg _ (ih _) | rfl

theorem globalVariables_eq (X : Externals) (l : List SPVInstruction) (j : Nat) (o : Bool) :
    globalVariables X l j o = globalsFrom (l.map (classOf X)) j o := by
  induction l generalizing j o with
  | nil => rfl
  | cons a l ih =>
    simp only [globalVariables, List.map_cons, globalsFrom, classOf]
    generalize X.opOf a.opcode = op
    cases op <;> first
      | exact ih _ _
      | (cases o
         · exact congrArg _ (ih _ _)
         · exact ih _ _)

theorem map_localsOf_eq_of_skel (l1 l2 : List SPVInstruction)
    (h : l1.map skel = l2.map skel) : l1.map localsOf = l2.map localsOf := by
  have : ∀ l : List SPVInstruction,
      l.map localsOf = (l.map skel).map (fun t => t.2.2.map (fun fn => fn.localVariables)) := by
    intro l; simp [skel, localsOf]
  rw [this, this, h]

/-- The invariant on the variable lists holds of the module that the decoder builds. -/
theorem decode_varInv (X : Externals) (fuel shadType : Nat) (spirv : List Nat) (m : SPVModule)
    (h : decode X fuel shadType spirv = .done m) :
    ∃ cf, VarInv { absOfModule X m with curFunc := cf } (m.operations.map localsOf)
      m.globals := by
  obtain ⟨mv, g, b, s1, h1, h2⟩ := decode_elim X fuel shadType spirv m h
  have hinv : FuncInv (absOf X s1) ∧
      VarInv (absOf X s1) (s1.module.operations.map localsOf) s1.module.globals := by
    refine pass1_induct X spirv
      (fun s => FuncInv (absOf X s) ∧
        VarInv (absOf X s) (s.module.operations.map localsOf) s.module.globals) ?_
      fuel 5 _ s1 h1 ?_
    · intro it s s2 hs hP
      have habs := decodeInstruction_abs X spirv it s s2 hs
      obtain ⟨hv1, hv2⟩ := decodeInstruction_vars X spirv it s s2 hs
      refine ⟨hP.1.funcStep habs, hP.2.varStep hP.1 habs ?_ ?_⟩
      · rw [hv1]; simp only [absOf, List.length_map]; rfl
      · rw [hv2]; simp only [absOf, List.length_map]; rfl
    · constructor
      · refine ⟨rfl, ?_, ?_, ?_⟩
        · intro k hk; simp [absOf, initialState, SPVModule.new] at hk
        · intro f hf; simp [absOf, initialState] at hf
        · intro k hk; simp [absOf, initialState, SPVModule.new] at hk
      · refine ⟨rfl, ?_, rfl, rfl⟩
        intro k hk; simp [absOf, initialState, SPVModule.new] at hk
  have hsk : m.operations.map skel = s1.module.operations.map skel ∧
      m.globals = s1.module.globals := by
    refine pass2_induct X spirv
      (fun m1 => m1.operations.map skel = s1.module.operations.map skel ∧
        m1.globals = s1.module.globals) ?_ fuel 5 _ m h2 ⟨rfl, rfl⟩
    intro it m1 m2 hm hP
    rw [annotateInstruction_skel X spirv it m1 m2 hm,
      (annotateInstruction_tables X spirv it m1 m2 hm).2.1]
    exact hP
  have e1 := map_classOf_eq_of_skel X _ _ hsk.1
  have e2 := map_localsOf_eq_of_skel _ _ hsk.1
  refine ⟨s1.curFunc, ?_⟩
  rw [e2, hsk.2]
  exact ⟨by simp [absOfModule, absOf, e1],
    by simpa [absOfModule, absOf, e1] using hinv.2.vfuncs,
    by simpa [absOfModule, absOf, e1] using hinv.2.vopen,
    by simpa [absOfModule, absOf, e1] using hinv.2.vglobals⟩

/-- Claim C11. Every Variable instruction is appended to exactly one list: to the locals of
the current function if there is one, otherwise to the module's globals, and no list other
than that one changes. Once decoding completes, `globals` holds, in stream order, the
Variable instructions that occur while no function is open (a function is open from a
Function to the next FunctionEnd), and the locals of a Function hold, in stream order, the
Variable instructions that follow it while it is the open function. -/
theorem C11_variable_lists (X : Externals) (fuel shadType : Nat) (spirv : List Nat)
    (m : SPVModule) (h : decode X fuel shadType spirv = .done m) :
    (∀ (buffer : List Nat) (it : Nat) (s s1 : DecodeState),
        X.opOf (OpCode buffer it) = .OpVariable → decodeInstruction X buffer it s = .ok s1 →
        s1.module.operations.map localsOf
            = (match s.curFunc with
               | some f =>
                 (s.module.operations.map localsOf).modify
                   (Option.map (fun l => l ++ [s.module.operations.length])) f
               | none => s.module.operations.map localsOf) ++ [none] ∧
          s1.module.globals
            = (match s.curFunc with
               | some _ => s.module.globals
               | none => s.module.globals ++ [s.module.operations.length])) ∧
      m.globals = globalVariables X m.operations 0 false ∧
      (∀ (k : Nat) (inst : SPVInstruction), m.operations[k]? = some inst →
        X.opOf inst.opcode = .OpFunction →
        ∃ fn, inst.func = some fn ∧
          fn.localVariables = variablesUntilBoundary X (m.operations.drop (k + 1)) (k + 1)) := by
  refine ⟨?_, ?_, ?_⟩
  · intro buffer it s s1 hop hs
    obtain ⟨hv1, hv2⟩ := decodeInstruction_vars X buffer it s s1 hs
    rw [hop] at hv1 hv2
    rw [hv1, hv2]
    cases s.curFunc <;> exact ⟨rfl, rfl⟩
  · obtain ⟨cf, hV⟩ := decode_varInv X fuel shadType spirv m h
    rw [globalVariables_eq]
    exact hV.vglobals
  · intro k inst hk hop
    obtain ⟨cf, hV⟩ := decode_varInv X fuel shadType spirv m h
    have hcls : (m.operations.map (classOf X))[k]? = some .function := by
      rw [List.getElem?_map, hk]
      exact congrArg some ((classOf_function X inst).2 hop)
    have hf := hV.vfuncs k hcls
    simp only [absOfModule, absOf, List.getElem?_map, hk, Option.map_some', Option.some.injEq,
      localsOf] at hf
    cases hfn : inst.func with
    | none => rw [hfn] at hf; cases hf
    | some fn =>
      rw [hfn] at hf
      simp only [Option.map_some', Option.some.injEq] at hf
      exact ⟨fn, rfl, by rw [variablesUntilBoundary_eq, hf, List.map_drop]⟩

theorem pass2Case_unsupported (o : Op) :
    decide (pass2Case o = .OpMemberDecorate) = isUnsupported o := by
  cases o <;> rfl

theorem annotateInstruction_unsupported (X : Externals) (spirv : List Nat) (it : Nat)
    (m : SPVModule) (h : isUnsupported (X.opOf (OpCode spirv it)) = true) :
    annotateInstruction X spirv it m = .error (.UnsupportedOpcode (OpCode spirv it)) := by
  have hc : pass2Case (X.opOf (OpCode spirv it)) = .OpMemberDecorate := by
    have := pass2Case_unsupported (X.opOf (OpCode spirv it))
    rw [h] at this
    exact of_decide_eq_true this
  unfold annotateInstruction
  rw [hc]
  rfl

/-- The annotation pass stops at an unsupported instruction, unless it has stopped at an
earlier one. -/
theorem pass2_unsupported (X : Externals) (spirv : List Nat) (it : Nat)
    (hop : isUnsupported (X.opOf (OpCode spirv it)) = true) :
    ∀ fuel it0 m, it ∈ instructionOffsets spirv fuel it0 →
      pass2 X spirv fuel it0 m = .fault (.UnsupportedOpcode (OpCode spirv it)) ∨
        ∃ it1 ∈ (instructionOffsets spirv fuel it0).takeWhile (fun j => decide (j ≠ it)),
          ∃ m1 e, annotateInstruction X spirv it1 m1 = .error e ∧
            pass2 X spirv fuel it0 m = .fault e := by
  intro fuel
  induction fuel with
  | zero => intro it0 m hin; simp [instructionOffsets] at hin
  | succ fuel ih =>
    intro it0 m hin
    by_cases hlt : it0 < spirv.length
    · have hoff : instructionOffsets spirv (fuel + 1) it0
          = it0 :: instructionOffsets spirv fuel (it0 + WordCount spirv it0) := by
        simp [instructionOffsets, hlt]
      rw [hoff] at hin ⊢
      unfold pass2
      rw [if_pos hlt]
      by_cases e : it0 = it
      · subst e
        left
        rw [annotateInstruction_unsupported X spirv it0 m hop]
      · have hin1 : it ∈ instructionOffsets spirv fuel (it0 + WordCount spirv it0) := by
          rcases List.mem_cons.1 hin with h | h
          · exact absurd h.symm e
          · exact h
        cases hres : annotateInstruction X spirv it0 m with
        | error err =>
          right
          exact ⟨it0, by simp [List.takeWhile, e], m, err, hres, rfl⟩
        | ok m1 =>
          rcases ih _ m1 hin1 with h | ⟨it1, h1, m2, err, h2, h3⟩
          · left; exact h
          · right
            refine ⟨it1, ?_, m2, err, h2, h3⟩
            rw [List.takeWhile_cons_of_pos (by simpa using e)]
            exact List.mem_cons_of_mem _ h1
    · simp [instructionOffsets, hlt] at hin

/-- Claim C13, as amended. A word buffer with a MemberDecorate, GroupDecorate,
GroupMemberDecorate or DecorationGroup instruction is never decoded or disassembled to the
end: no output is produced. The instruction is rejected by the annotation pass, which runs
once the structural pass has scanned the whole stream: when the structural pass completes,
the call fails with UnsupportedOpcode naming the opcode, unless the annotation pass has
failed at an earlier instruction. -/
theorem C13_unsupported_opcodes (X : Externals) (fuel shadType : Nat) (spirv : List Nat)
    (disasm : String) (it : Nat) (hin : it ∈ instructionOffsets spirv fuel 5)
    (hop : isUnsupported (X.opOf (OpCode spirv it)) = true) :
    (∀ text m, DisassembleSPIRV X fuel shadType spirv disasm ≠ .finished text m) ∧
      (∀ m, decode X fuel shadType spirv ≠ .done m) ∧
      (∀ m0, pass2 X spirv fuel 5 m0 = .fault (.UnsupportedOpcode (OpCode spirv it)) ∨
        ∃ it1 ∈ (instructionOffsets spirv fuel 5).takeWhile (fun j => decide (j ≠ it)),
          ∃ m1 e, annotateInstruction X spirv it1 m1 = .error e ∧
            pass2 X spirv fuel 5 m0 = .fault e) ∧
      (∀ moduleVersion generator bound s1,
        shadType < X.eSPIRVInvalid → spirv[0]? = some X.MagicNumber →
        spirv[1]? = some moduleVersion → spirv[2]? = some generator →
        spirv[3]? = some bound → spirv[4]? = some 0 →
        pass1 X spirv fuel 5 (initialState X shadType moduleVersion generator bound)
          = .done s1 →
        ∀ e, pass2 X spirv fuel 5 s1.module = .fault e →
          DisassembleSPIRV X fuel shadType spirv disasm = .fault e) := by
  have hdec : ∀ m, decode X fuel shadType spirv ≠ .done m := by
    intro m h
    obtain ⟨mv, g, b, s1, _, h2⟩ := decode_elim X fuel shadType spirv m h
    rcases pass2_unsupported X spirv it hop fuel 5 s1.module hin with h3 | ⟨_, _, _, _, _, h3⟩
    · rw [h2] at h3; cases h3
    · rw [h2] at h3; cases h3
  refine ⟨?_, hdec, fun m0 => pass2_unsupported X spirv it hop fuel 5 m0 hin, ?_⟩
  · intro text m h
    unfold DisassembleSPIRV at h
    repeat' split at h
    all_goals first
      | cases h
      | exact hdec _ (by assumption)
  · intro mv g b s1 hstage hmagic h1 h2 h3 h4 hp1 e hp2
    have hdecode : decode X fuel shadType spirv = .fault e := by
      unfold decode
      simp only [word, h1, h2, h3, h4, bind, Except.bind, RDCASSERT, pure, Except.pure]
      simp [hp1, hp2]
    unfold DisassembleSPIRV
    simp [word, hmagic, Nat.not_le.mpr hstage, hdecode]

theorem word_of_getElem? {spirv : List Nat} {i w : Nat} (h : spirv[i]? = some w) :
    word spirv i = .ok w := by
  unfold word; rw [h]

theorem idAt_of_getElem? {m : SPVModule} {id : Nat} {p : Option Nat}
    (h : m.ids[id]? = some p) : m.idAt id = .ok p := by
  unfold SPVModule.idAt; rw [h]

theorem modify_eq_set {α : Type} (l : List α) (g : α → α) (j : Nat) (a : α)
    (h : l[j]? = some a) : l.modify g j = l.set j (g a) := by
  induction l generalizing j with
  | nil => simp at h
  | cons x l ih =>
    cases j with
    | zero => simp at h; subst h; simp
    | succ j => simp at h; simp [ih j h]

/-- Claim C15. In the annotation pass, a MemberName that targets the struct type `t` with a
member index `k` below the number of members sets the name of member `k` to the given string
and leaves everything else as it is: the member types, the member count, the names of the
other members, the other fields of the type and every other instruction. With `k` at or
above the member count, or a target that is not a struct type, it is rejected. A Name that
targets a type sets that type's display name. -/
theorem C15_member_name (X : Externals) (spirv : List Nat) (it : Nat) (m : SPVModule)
    (id : Nat) (p : Option Nat) (h1 : spirv[it + 1]? = some id) (hid : m.ids[id]? = some p) :
    (∀ j inst t k name, X.opOf (OpCode spirv it) = .OpMemberName →
        p = some j → m.operations[j]? = some inst → inst.type = some t →
        t.type = TypeKind.eStruct → spirv[it + 2]? = some k → k < t.children.length →
        cString spirv (it + 3) = .ok name →
        ∃ children1,
          annotateInstruction X spirv it m
            = .ok { m with
                operations := m.operations.set j
                  { inst with type := some { t with children := children1 } } } ∧
          children1.length = t.children.length ∧
          children1.map Prod.fst = t.children.map Prod.fst ∧
          children1[k]?.map Prod.snd = some name ∧
          ∀ i, i ≠ k → children1[i]? = t.children[i]?) ∧
      (∀ j inst t k, X.opOf (OpCode spirv it) = .OpMemberName →
        p = some j → m.operations[j]? = some inst → inst.type = some t →
        t.type = TypeKind.eStruct → spirv[it + 2]? = some k → t.children.length ≤ k →
        annotateInstruction X spirv it m = .error .AssertionFailed) ∧
      (X.opOf (OpCode spirv it) = .OpMemberName →
        (p = none ∨ ∃ j, p = some j ∧ ∀ inst, m.operations[j]? = some inst →
          ∀ t, inst.type = some t → t.type ≠ TypeKind.eStruct) →
        annotateInstruction X spirv it m = .error (.UnresolvedReference id)) ∧
      (∀ j inst t name, X.opOf (OpCode spirv it) = .OpName →
        p = some j → m.operations[j]? = some inst → inst.type = some t →
        cString spirv (it + 2) = .ok name →
        annotateInstruction X spirv it m
          = .ok { m with
              operations := m.operations.set j
                { inst with type := some { t with name := name } } }) := by
  have hw1 := word_of_getElem? h1
  have hi := idAt_of_getElem? hid
  refine ⟨?_, ?_, ?_, ?_⟩
  · intro j inst t k name hop hp hj ht hs h2 hk hname
    subst hp
    refine ⟨t.children.modify (fun c => (c.1, name)) k, ?_, ?_, ?_, ?_, ?_⟩
    · unfold annotateInstruction
      rw [hop]
      simp only [pass2Case, hw1, hi, word_of_getElem? h2, hname, bind, Except.bind, RDCASSERT,
        SPVModule.isStruct, SPVModule.childCount, hj, ht, hs, deref, hk, pure, Except.pure,
        SPVModule.modifyInst, modify_eq_set _ _ _ _ hj]
      simp [hs]
    · simp
    · apply List.ext_getElem?
      intro i
      simp only [List.getElem?_map, List.getElem?_modify]
      cases t.children[i]? <;> simp
      split <;> rfl
    · simp only [List.getElem?_modify]
      rw [List.getElem?_eq_getElem hk]
      simp
    · intro i hik
      simp only [List.getElem?_modify]
      cases t.children[i]? <;> simp [Ne.symm hik]
  · intro j inst t k hop hp hj ht hs h2 hk
    subst hp
    unfold annotateInstruction
    rw [hop]
    simp only [pass2Case, hw1, hi, word_of_getElem? h2, bind, Except.bind, RDCASSERT,
      SPVModule.isStruct, SPVModule.childCount, hj, ht, hs, deref, pure, Except.pure]
    simp [Nat.not_lt.mpr hk]
  · intro hop hno
    unfold annotateInstruction
    rw [hop]
    rcases hno with hp | ⟨j, hp, hj⟩
    · subst hp
      simp [pass2Case, hw1, hi, bind, Except.bind, RDCASSERT]
    · subst hp
      have hst : m.isStruct j = false := by
        simp only [SPVModule.isStruct]
        cases hinst : m.operations[j]? with
        | none => rfl
        | some inst =>
          cases ht : inst.type with
          | none => simp [ht]
          | some t =>
            have := hj inst hinst t ht
            simp [ht, this]
      simp [pass2Case, hw1, hi, bind, Except.bind, RDCASSERT, hst]
  · intro j inst t name hop hp hj ht hname
    subst hp
    unfold annotateInstruction
    rw [hop]
    simp only [pass2Case, hw1, hi, hname, bind, Except.bind, RDCASSERT, SPVModule.findInst,
      SPVModule.hasType, hj, ht, deref, pure, Except.pure,
      SPVModule.modifyInst, modify_eq_set _ _ _ _ hj]
    simp [SPVModule.idAt, hid, hj, ht, modify_eq_set _ _ _ _ hj]

theorem flatMap_wordBytes_getElem? (ws : List Nat) (i : Nat) :
    (ws.flatMap wordBytes)[i]? = (ws[i / 4]?).map (fun w => w / 256 ^ (i % 4) % 256) := by
  induction ws generalizing i with
  | nil => simp
  | cons w ws ih =>
    rw [List.flatMap_cons]
    by_cases hi : i < 4
    · rw [List.getElem?_append_left (by simpa [wordBytes] using hi)]
      interval_cases i <;> simp [wordBytes]
    · rw [List.getElem?_append_right (by simpa [wordBytes] using hi)]
      have hlen : (wordBytes w).length = 4 := rfl
      rw [hlen, ih]
      have e1 : (i - 4) / 4 + 1 = i / 4 := by omega
      have e2 : (i - 4) % 4 = i % 4 := by omega
      rw [e2, ← e1, List.getElem?_cons_succ]

theorem takeUntilZero_eq_some (l bs : List Nat) :
    takeUntilZero l = some bs ↔
      ∃ n, l[n]? = some 0 ∧ (∀ i, i < n → ∃ b, l[i]? = some b ∧ b ≠ 0) ∧ bs = l.take n := by
  induction l generalizing bs with
  | nil => simp [takeUntilZero]
  | cons b l ih =>
    unfold takeUntilZero
    split
    · rename_i hb
      subst hb
      constructor
      · intro h
        cases h
        exact ⟨0, by simp, fun i hi => absurd hi (Nat.not_lt_zero i), rfl⟩
      · rintro ⟨n, h0, hpre, hbs⟩
        cases n with
        | zero => simp [hbs]
        | succ n =>
          obtain ⟨b, hb, hne⟩ := hpre 0 (Nat.succ_pos n)
          simp at hb
          exact absurd hb.symm hne
    · rename_i hb
      constructor
      · intro h
        cases hr : takeUntilZero l with
        | none => rw [hr] at h; cases h
        | some r =>
          rw [hr] at h
          cases h
          obtain ⟨n, h0, hpre, hbs⟩ := (ih r).1 hr
          refine ⟨n + 1, by simpa using h0, ?_, by simp [hbs]⟩
          intro i hi
          cases i with
          | zero => exact ⟨b, by simp, hb⟩
          | succ i => simpa using hpre i (by omega)
      · rintro ⟨n, h0, hpre, hbs⟩
        cases n with
        | zero => simp at h0; exact absurd h0 hb
        | succ n =>
          have : takeUntilZero l = some (l.take n) :=
            (ih (l.take n)).2 ⟨n, by simpa using h0,
              fun i hi => by simpa using hpre (i + 1) (by omega), rfl⟩
          rw [this, hbs]
          rfl

theorem stringBytes_getElem? (spirv : List Nat) (off i : Nat) :
    ((spirv.drop off).flatMap wordBytes)[i]?
      = if off + i / 4 < spirv.length then some (byteAt spirv off i) else none := by
  rw [flatMap_wordBytes_getElem?, List.getElem?_drop]
  split
  · rename_i h
    rw [List.getElem?_eq_getElem h]
    simp [byteAt, List.getElem?_eq_getElem h]
  · rename_i h
    rw [List.getElem?_eq_none (by omega)]
    rfl

theorem take_stringBytes (spirv : List Nat) (off n : Nat) (hlt : off + n / 4 < spirv.length) :
    ((spirv.drop off).flatMap wordBytes).take n
      = (List.range n).map (fun i => byteAt spirv off i) := by
  apply List.ext_getElem?
  intro i
  rw [List.getElem?_take, List.getElem?_map]
  by_cases hi : i < n
  · rw [if_pos hi, stringBytes_getElem?, if_pos (by omega), List.getElem?_range hi]
    rfl
  · rw [if_neg hi, List.getElem?_eq_none (by simpa using hi)]
    rfl

/-- The string that `cString` reads at `off` is the sequence of the bytes `byteAt spirv off 0`,
`byteAt spirv off 1`, ... up to but excluding the first zero byte, which lies in the
buffer. -/
theorem cString_eq_ok (spirv : List Nat) (off : Nat) (s : String) :
    cString spirv off = .ok s ↔
      ∃ n, off + n / 4 < spirv.length ∧ byteAt spirv off n = 0 ∧
        (∀ i, i < n → byteAt spirv off i ≠ 0) ∧
        s = String.mk ((List.range n).map (fun i => Char.ofNat (byteAt spirv off i))) := by
  have key : ∀ bs, takeUntilZero ((spirv.drop off).flatMap wordBytes) = some bs ↔
      ∃ n, off + n / 4 < spirv.length ∧ byteAt spirv off n = 0 ∧
        (∀ i, i < n → byteAt spirv off i ≠ 0) ∧
        bs = (List.range n).map (fun i => byteAt spirv off i) := by
    intro bs
    rw [takeUntilZero_eq_some]
    constructor
    · rintro ⟨n, h0, hpre, hbs⟩
      rw [stringBytes_getElem?] at h0
      split at h0
      · rename_i hlt
        refine ⟨n, hlt, by simpa using h0, ?_, ?_⟩
        · intro i hi
          obtain ⟨b, hb, hne⟩ := hpre i hi
          rw [stringBytes_getElem?] at hb
          split at hb
          · cases hb; exact hne
          · cases hb
        · rw [hbs, take_stringBytes spirv off n hlt]
      · cases h0
    · rintro ⟨n, hlt, h0, hpre, hbs⟩
      refine ⟨n, by rw [stringBytes_getElem?, if_pos hlt, h0], ?_,
        by rw [hbs, take_stringBytes spirv off n hlt]⟩
      intro i hi
      exact ⟨byteAt spirv off i, by rw [stringBytes_getElem?, if_pos (by omega)], hpre i hi⟩
  unfold cString
  cases hr : takeUntilZero ((spirv.drop off).flatMap wordBytes) with
  | none =>
    constructor
    · intro h; cases h
    · rintro ⟨n, hlt, h0, hpre, _⟩
      have := (key _).2 ⟨n, hlt, h0, hpre, rfl⟩
      rw [hr] at this
      cases this
  | some bs =>
    obtain ⟨n, hlt, h0, hpre, hbs⟩ := (key bs).1 hr
    constructor
    · intro h
      cases h
      exact ⟨n, hlt, h0, hpre, by rw [hbs, List.map_map]; rfl⟩
    · rintro ⟨n1, hlt1, h01, hpre1, hs⟩
      have h1 := (key _).2 ⟨n1, hlt1, h01, hpre1, rfl⟩
      rw [hr] at h1
      cases h1
      rw [hs]
      simp only [List.map_map]
      rfl

theorem findInst_ok {m : SPVModule} {id j : Nat} (h : m.findInst id = .ok j) :
    m.ids[id]? = some (some j) := by
  unfold SPVModule.findInst at h
  obtain ⟨p, hp, h⟩ := bind_ok_elim h
  obtain ⟨_, _, h⟩ := bind_ok_elim h
  have := deref_some h
  subst this
  unfold SPVModule.idAt at hp
  split at hp
  · cases hp; assumption
  · cases hp

theorem RDCASSERT_ok {c : Bool} {e : Fault} {u : Unit} (h : RDCASSERT c e = .ok u) :
    c = true := by
  unfold RDCASSERT at h
  split at h
  · assumption
  · cases h

theorem setAt_ok {α : Type} {table table1 : List α} {i : Nat} {a : α}
    (h : setAt table i a = .ok table1) : i < table.length ∧ table1 = table.set i a := by
  unfold setAt at h
  split at h
  · cases h; exact ⟨by assumption, rfl⟩
  · cases h

theorem decodeInstruction_extInstImport (X : Externals) (spirv : List Nat) (it : Nat)
    (s s1 : DecodeState) (hop : X.opOf (OpCode spirv it) = .OpExtInstImport)
    (h : decodeInstruction X spirv it s = .ok s1) :
    ∃ name op e, cString spirv (it + 2) = .ok name ∧
      s1.module.operations.getLast? = some op ∧ op.ext = some e ∧ e.setname = name := by
  have hc : pass1Case (X.opOf (OpCode spirv it)) = .OpExtInstImport := by rw [hop]; rfl
  unfold decodeInstruction at h
  generalize pass1Case (X.opOf (OpCode spirv it)) = k at h hc
  subst hc
  dsimp only at h
  obtain ⟨name, hname, h⟩ := bind_ok_elim h
  obtain ⟨id, _, h⟩ := bind_ok_elim h
  obtain ⟨m1, _, h⟩ := bind_ok_elim h
  cases h
  exact ⟨name, _, _, hname, List.getLast?_concat _, rfl, rfl⟩

theorem decodeInstruction_string (X : Externals) (spirv : List Nat) (it : Nat)
    (s s1 : DecodeState) (hop : X.opOf (OpCode spirv it) = .OpString)
    (h : decodeInstruction X spirv it s = .ok s1) :
    ∃ name op, cString spirv (it + 2) = .ok name ∧
      s1.module.operations.getLast? = some op ∧ op.str = name := by
  have hc : pass1Case (X.opOf (OpCode spirv it)) = .OpString := by rw [hop]; rfl
  unfold decodeInstruction at h
  generalize pass1Case (X.opOf (OpCode spirv it)) = k at h hc
  subst hc
  dsimp only at h
  obtain ⟨name, hname, h⟩ := bind_ok_elim h
  obtain ⟨id, _, h⟩ := bind_ok_elim h
  obtain ⟨m1, _, h⟩ := bind_ok_elim h
  cases h
  exact ⟨name, _, hname, List.getLast?_concat _, rfl⟩

theorem annotateInstruction_name (X : Externals) (spirv : List Nat) (it : Nat)
    (m m1 : SPVModule) (hop : X.opOf (OpCode spirv it) = .OpName)
    (h : annotateInstruction X spirv it m = .ok m1) :
    ∃ id j name, spirv[it + 1]? = some id ∧ m.ids[id]? = some (some j) ∧
      cString spirv (it + 2) = .ok name ∧
      ∀ inst, m.operations[j]? = some inst →
        m1.operations[j]? = some
          (match inst.type with
           | some t => { inst with type := some { t with name := name } }
           | none => { inst with str := name }) := by
  have hc : pass2Case (X.opOf (OpCode spirv it)) = .OpName := by rw [hop]; rfl
  unfold annotateInstruction at h
  generalize pass2Case (X.opOf (OpCode spirv it)) = k at h hc
  subst hc
  dsimp only at h
  obtain ⟨id, hid, h⟩ := bind_ok_elim h
  obtain ⟨j, hj, h⟩ := bind_ok_elim h
  obtain ⟨name, hname, h⟩ := bind_ok_elim h
  refine ⟨id, j, name, word_ok_getElem? hid, findInst_ok hj, hname, ?_⟩
  intro inst hinst
  split at h
  · rename_i hty
    cases h
    simp only [SPVModule.hasType, hinst] at hty
    cases ht : inst.type with
    | none => rw [ht] at hty; cases hty
    | some t => simp [SPVModule.modifyInst, List.getElem?_modify_eq, hinst, ht]
  · rename_i hty
    cases h
    simp only [SPVModule.hasType, hinst] at hty
    cases ht : inst.type with
    | none => simp [SPVModule.modifyInst, List.getElem?_modify_eq, hinst, ht]
    | some t => rw [ht] at hty; exact absurd rfl hty

theorem annotateInstruction_memberName (X : Externals) (spirv : List Nat) (it : Nat)
    (m m1 : SPVModule) (hop : X.opOf (OpCode spirv it) = .OpMemberName)
    (h : annotateInstruction X spirv it m = .ok m1) :
    ∃ id j k name, spirv[it + 1]? = some id ∧ m.ids[id]? = some (some j) ∧
      spirv[it + 2]? = some k ∧ cString spirv (it + 3) = .ok name ∧
      ∀ inst t, m.operations[j]? = some inst → inst.type = some t →
        ∃ inst1 t1, m1.operations[j]? = some inst1 ∧ inst1.type = some t1 ∧
          t1.children[k]?.map Prod.snd = some name := by
  have hc : pass2Case (X.opOf (OpCode spirv it)) = .OpMemberName := by rw [hop]; rfl
  unfold annotateInstruction at h
  generalize pass2Case (X.opOf (OpCode spirv it)) = k at h hc
  subst hc
  dsimp only at h
  obtain ⟨id, hid, h⟩ := bind_ok_elim h
  obtain ⟨p, hp, h⟩ := bind_ok_elim h
  obtain ⟨_, hst, h⟩ := bind_ok_elim h
  obtain ⟨j, hj, h⟩ := bind_ok_elim h
  obtain ⟨k, hk, h⟩ := bind_ok_elim h
  obtain ⟨_, hcount, h⟩ := bind_ok_elim h
  obtain ⟨name, hname, h⟩ := bind_ok_elim h
  cases h
  have hpj := deref_some hj
  subst hpj
  have hids : m.ids[id]? = some (some j) := by
    unfold SPVModule.idAt at hp
    split at hp
    · cases hp; assumption
    · cases hp
  refine ⟨id, j, k, name, word_ok_getElem? hid, hids, word_ok_getElem? hk, hname, ?_⟩
  intro inst t hinst ht
  have hlt : k < t.children.length := by
    have := RDCASSERT_ok hcount
    simpa [SPVModule.childCount, hinst, ht] using this
  refine ⟨_, _, by simp [SPVModule.modifyInst, List.getElem?_modify_eq, hinst]; rfl,
    by simp [ht]; rfl, ?_⟩
  simp [List.getElem?_modify_eq, List.getElem?_eq_getElem hlt]

theorem collectNames_name (X : Externals) (spirv : List Nat) (it : Nat)
    (ns ns1 : NameState) (hop : X.opOf (OpCode spirv it) = .OpName)
    (h : collectNames X spirv it ns = .ok ns1) :
    ∃ id name, spirv[it + 1]? = some id ∧ cString spirv (it + 2) = .ok name ∧
      id < ns.resultnames.length ∧ ns1.resultnames = ns.resultnames.set id name := by
  have hc : pass3Case (X.opOf (OpCode spirv it)) = .OpName := by rw [hop]; rfl
  unfold collectNames at h
  generalize pass3Case (X.opOf (OpCode spirv it)) = k at h hc
  subst hc
  dsimp only at h
  obtain ⟨name, hname, h⟩ := bind_ok_elim h
  obtain ⟨id, hid, h⟩ := bind_ok_elim h
  obtain ⟨names, hnames, h⟩ := bind_ok_elim h
  cases h
  obtain ⟨hlt, hset⟩ := setAt_ok hnames
  exact ⟨id, name, word_ok_getElem? hid, hname, hlt, hset⟩

/-- Claim C16. The string operand of Name, MemberName, String and ExtInstImport is decoded
as the bytes of the consecutive words that start at the operand's first word (word 2 of the
instruction, word 3 for MemberName), the least significant byte of each word first, up to
but excluding the first zero byte: this is the string that each pass stores. -/
theorem C16_string_operand (X : Externals) (spirv : List Nat) (it : Nat) :
    (∀ off s, cString spirv off = .ok s ↔
      ∃ n, off + n / 4 < spirv.length ∧ byteAt spirv off n = 0 ∧
        (∀ i, i < n → byteAt spirv off i ≠ 0) ∧
        s = String.mk ((List.range n).map (fun i => Char.ofNat (byteAt spirv off i)))) ∧
      (∀ s s1, X.opOf (OpCode spirv it) = .OpExtInstImport →
        decodeInstruction X spirv it s = .ok s1 →
        ∃ name op e, cString spirv (it + 2) = .ok name ∧
          s1.module.operations.getLast? = some op ∧ op.ext = some e ∧ e.setname = name) ∧
      (∀ s s1, X.opOf (OpCode spirv it) = .OpString →
        decodeInstruction X spirv it s = .ok s1 →
        ∃ name op, cString spirv (it + 2) = .ok name ∧
          s1.module.operations.getLast? = some op ∧ op.str = name) ∧
      (∀ m m1, X.opOf (OpCode spirv it) = .OpName →
        annotateInstruction X spirv it m = .ok m1 →
        ∃ id j name, spirv[it + 1]? = some id ∧ m.ids[id]? = some (some j) ∧
          cString spirv (it + 2) = .ok name ∧
          ∀ inst, m.operations[j]? = some inst →
            m1.operations[j]? = some
              (match inst.type with
               | some t => { inst with type := some { t with name := name } }
               | none => { inst with str := name })) ∧
      (∀ m m1, X.opOf (OpCode spirv it) = .OpMemberName →
        annotateInstruction X spirv it m = .ok m1 →
        ∃ id j k name, spirv[it + 1]? = some id ∧ m.ids[id]? = some (some j) ∧
          spirv[it + 2]? = some k ∧ cString spirv (it + 3) = .ok name ∧
          ∀ inst t, m.operations[j]? = some inst → inst.type = some t →
            ∃ inst1 t1, m1.operations[j]? = some inst1 ∧ inst1.type = some t1 ∧
              t1.children[k]?.map Prod.snd = some name) ∧
      (∀ ns ns1, X.opOf (OpCode spirv it) = .OpName →
        collectNames X spirv it ns = .ok ns1 →
        ∃ id name, spirv[it + 1]? = some id ∧ cString spirv (it + 2) = .ok name ∧
          id < ns.resultnames.length ∧ ns1.resultnames = ns.resultnames.set id name) :=
  ⟨fun off s => cString_eq_ok spirv off s,
    fun s s1 => decodeInstruction_extInstImport X spirv it s s1,
    fun s s1 => decodeInstruction_string X spirv it s s1,
    fun m m1 => annotateInstruction_name X spirv it m m1,
    fun m m1 => annotateInstruction_memberName X spirv it m m1,
    fun ns ns1 => collectNames_name X spirv it ns ns1⟩

/-- Claim C14 fails in the code. The `Decorate` of `decorateModule` has word count 3, so no
literal, yet its value is not 0: the guard `WordCount > 2` holds for it and the word after
the instruction (the header of the next instruction) is taken as the value. The `Decorate`
of `literalDecorateModule` has the literal 5 (word count 4) and decoding stops at the
assertion `WordCount <= 3`. -/
theorem C14_decorate_value_reads_next_word :
    (∃ m inst, decode sampleExternals 10 0 decorateModule = .done m ∧
        m.operations[0]? = some inst ∧ WordCount decorateModule 7 = 3 ∧
        sampleExternals.opOf (OpCode decorateModule 7) = .OpDecorate ∧
        inst.decorations = [{ decoration := 7, val := headerWord 2 9 }]) ∧
      WordCount literalDecorateModule 7 = 4 ∧
      decode sampleExternals 10 0 literalDecorateModule = .fault .AssertionFailed :=
  ⟨⟨_, _, rfl, rfl, rfl, rfl, rfl⟩, rfl, rfl⟩

/-- Claim C17 fails in the code. In `nestedMergeModule` one selection construct is nested in
another; at the end of the disassembly the indentation is 2, not 0, and the stack of merge
targets still holds both targets: the render pass never pops it. -/
theorem C17_indentation_unbalanced :
    ∃ m ns r, decode sampleExternals 30 0 nestedMergeModule = .done m ∧
      pass3 sampleExternals nestedMergeModule 30 5 (NameState.new m.ids.length) = .done ns ∧
      pass4 sampleExternals nestedMergeModule m.ids.length ns 30 5 (renderStart "" ns)
        = .done r ∧
      DisassembleSPIRV sampleExternals 30 0 nestedMergeModule "" = .finished r.disasm m ∧
      r.indent = 2 ∧ r.flowstack = [10, 12] :=
  ⟨_, _, _, rfl, rfl, rfl, rfl, rfl, rfl⟩

set_option maxRecDepth 100000 in
/-- Claim C18 fails in the code. In `nestedMergeModule` the merge instruction with target
label 10 is emitted at indentation 2, and the line of label 10 at indentation 4: when label
10 is reached the top of the stack is still 12, the target of the inner construct, which
was not popped at label 12. -/
theorem C18_outer_merge_label_indentation :
    ∃ m, DisassembleSPIRV sampleExternals 30 0 nestedMergeModule ""
      = .finished ("\nvoid \x7b6\x7d(void)  \x7b\n  Label7:\n" ++
          "  bool \x7b8\x7d = int(7) < int(7)\n" ++
          "  SelectionMerge Label10 \n" ++
          "    if(\x7b8\x7d) goto Label9, else goto Label10\n" ++
          "    Label9:\n" ++
          "    SelectionMerge Label12 \n" ++
          "      if(\x7b8\x7d) goto Label11, else goto Label12\n" ++
          "      Label11:\n" ++
          "      goto Label12\n" ++
          "    Label12:\n" ++
          "    goto Label10\n" ++
          "    Label10:\n" ++
          "    Return\n" ++
          "  \x7d // end of \x7b6\x7d\n") m :=
  ⟨_, rfl⟩

theorem getAt_ok {α : Type} {table : List α} {i : Nat} {a : α}
    (h : getAt table i = .ok a) : table[i]? = some a := by
  unfold getAt at h
  split at h
  · cases h; assumption
  · cases h

theorem frame_of_setAt {spirv : List Nat} {i id : Nat} {table names : List String}
    {x : String} (hw : word spirv i = .ok id) (hs : setAt table id x = .ok names) :
    names.length = table.length ∧ ∀ t, spirv[i]? ≠ some t → names[t]? = table[t]? := by
  obtain ⟨_, rfl⟩ := setAt_ok hs
  refine ⟨List.length_set _ _ _, ?_⟩
  intro t ht
  have hne : id ≠ t := by
    intro e
    subst e
    exact ht (word_ok_getElem? hw)
  exact List.getElem?_set_ne hne

/-- One step of the name-collection pass leaves alone every entry of `resultnames` other
than the one it writes, and keeps the size of the table. -/
theorem collectNames_frame (X : Externals) (spirv : List Nat) (it : Nat)
    (ns ns1 : NameState) (h : collectNames X spirv it ns = .ok ns1) :
    ns1.resultnames.length = ns.resultnames.length ∧
      ∀ t, writesName X spirv it ≠ some t → ns1.resultnames[t]? = ns.resultnames[t]? := by
  unfold collectNames at h
  unfold writesName
  generalize pass3Case (X.opOf (OpCode spirv it)) = k at h
  cases k <;> dsimp only at h ⊢ <;>
    repeat' (first | (obtain ⟨_, hh, h⟩ := bind_ok_elim h) | split at h)
  all_goals cases h
  all_goals first
    | exact ⟨rfl, fun _ _ => rfl⟩
    | exact frame_of_setAt (by assumption) (by assumption)

theorem fillPlaceholders_getElem? (names : List String) (i k : Nat) :
    (fillPlaceholders i names)[k]?
      = (names[k]?).map
          (fun n => if n = "" then "\x7b" ++ fmtD32 (i + k) ++ "\x7d" else n) := by
  induction names generalizing i k with
  | nil => simp [fillPlaceholders]
  | cons n names ih =>
    cases k with
    | zero => simp [fillPlaceholders]
    | succ k =>
      simp only [fillPlaceholders, List.getElem?_cons_succ, ih]
      have : i + 1 + k = i + (k + 1) := by omega
      rw [this]

/-- The name-collection pass leaves alone every entry of `resultnames` that no instruction
it visits writes. -/
theorem pass3_frame (X : Externals) (spirv : List Nat) (t : Nat) :
    ∀ fuel it0 ns ns1, pass3 X spirv fuel it0 ns = .done ns1 →
      (∀ j ∈ instructionOffsets spirv fuel it0, writesName X spirv j ≠ some t) →
      ns1.resultnames[t]? = ns.resultnames[t]? := by
  intro fuel
  induction fuel with
  | zero =>
    intro it0 ns ns1 h _
    unfold pass3 at h
    split at h <;> cases h
    rfl
  | succ fuel ih =>
    intro it0 ns ns1 h hall
    unfold pass3 at h
    split at h
    · rename_i hlt
      split at h
      · cases h
      · rename_i ns2 hs
        rw [ih _ _ _ h (fun j hj => hall j (mem_instructionOffsets_tail spirv fuel it0 j hlt hj))]
        exact (collectNames_frame X spirv it0 ns ns2 hs).2 t
          (hall it0 (mem_instructionOffsets_head spirv fuel it0 hlt))
    · cases h
      rfl

/-- After the name-collection pass, the entry of an ID holds the string of the last `Name`
that targets it, provided no later instruction writes the entry. -/
theorem pass3_name_last (X : Externals) (spirv : List Nat) (t : Nat) (name : String)
    (it : Nat) (hop : X.opOf (OpCode spirv it) = .OpName) (ht : spirv[it + 1]? = some t)
    (hname : cString spirv (it + 2) = .ok name) :
    ∀ fuel it0 ns ns1 pre post, pass3 X spirv fuel it0 ns = .done ns1 →
      instructionOffsets spirv fuel it0 = pre ++ it :: post →
      (∀ j ∈ post, writesName X spirv j ≠ some t) →
      ns1.resultnames[t]? = some name := by
  intro fuel
  induction fuel with
  | zero =>
    intro it0 ns ns1 pre post _ hoff _
    simp [instructionOffsets] at hoff
  | succ fuel ih =>
    intro it0 ns ns1 pre post h hoff hpost
    unfold pass3 at h
    by_cases hlt : it0 < spirv.length
    · rw [if_pos hlt] at h
      have hoff1 : instructionOffsets spirv (fuel + 1) it0
          = it0 :: instructionOffsets spirv fuel (it0 + WordCount spirv it0) := by
        simp [instructionOffsets, hlt]
      rw [hoff1] at hoff
      split at h
      · cases h
      · rename_i ns2 hs
        cases pre with
        | nil =>
          simp only [List.nil_append, List.cons.injEq] at hoff
          obtain ⟨e, hrest⟩ := hoff
          subst e
          rw [pass3_frame X spirv t fuel _ ns2 ns1 h (by rw [hrest]; exact hpost)]
          obtain ⟨id, name1, h1, h2, h3, h4⟩ := collectNames_name X spirv it0 ns ns2 hop hs
          rw [ht] at h1
          cases h1
          rw [hname] at h2
          cases h2
          rw [h4, List.getElem?_set_self h3]
        | cons p pre =>
          simp only [List.cons_append, List.cons.injEq] at hoff
          exact ih _ ns2 ns1 pre post h hoff.2 hpost
    · have : instructionOffsets spirv (fuel + 1) it0 = [] := by
        simp [instructionOffsets, hlt]
      rw [this] at hoff
      simp at hoff

/-- Claim C20, as amended. In the table of result names, an ID that is the target of a Name
instruction renders as its given name (as the placeholder if the name is empty), whatever
kind of instruction defines the ID, provided no later instruction of the stream writes the
entry of that ID: a later Name of the same ID, or the Label, type declaration, Constant or
ConstantComposite that defines it, which overwrite the name. -/
theorem C20_given_name (X : Externals) (spirv : List Nat) (fuel it0 : Nat)
    (ns ns1 : NameState) (t : Nat) (name : String) (it : Nat) (pre post : List Nat)
    (hop : X.opOf (OpCode spirv it) = .OpName) (ht : spirv[it + 1]? = some t)
    (hname : cString spirv (it + 2) = .ok name)
    (h : pass3 X spirv fuel it0 ns = .done ns1)
    (hoff : instructionOffsets spirv fuel it0 = pre ++ it :: post)
    (hpost : ∀ j ∈ post, writesName X spirv j ≠ some t) :
    ns1.resultnames[t]? = some name ∧
      (fillPlaceholders 0 ns1.resultnames)[t]?
        = some (if name = "" then "\x7b" ++ fmtD32 t ++ "\x7d" else name) := by
  have h1 := pass3_name_last X spirv t name it hop ht hname fuel it0 ns ns1 pre post h hoff
    hpost
  refine ⟨h1, ?_⟩
  rw [fillPlaceholders_getElem?, h1]
  simp

theorem decodeInstruction_typeVoid (X : Externals) (spirv : List Nat) (it : Nat)
    (s : DecodeState) (id : Nat) (hc : X.opOf (OpCode spirv it) = .OpTypeVoid)
    (hid : spirv[it + 1]? = some id) (hlt : id < s.module.ids.length) :
    decodeInstruction X spirv it s
      = .ok ({ s with
          module := { s.module with
            ids := s.module.ids.set id (some s.module.operations.length) } }.emit
        { SPVInstruction.new (OpCode spirv it) with
          type := some (SPVTypeData.new X .eVoid), id := id }) := by
  have hk : pass1Case (X.opOf (OpCode spirv it)) = .OpTypeVoid := by rw [hc]; rfl
  unfold decodeInstruction
  generalize pass1Case (X.opOf (OpCode spirv it)) = k at hk
  subst hk
  simp [word_of_getElem? hid, SPVModule.assignId, hlt, bind, Except.bind, pure, Except.pure]

theorem decodeInstruction_typeFunction (X : Externals) (spirv : List Nat) (it : Nat)
    (s : DecodeState) (id retId ret : Nat) (hc : X.opOf (OpCode spirv it) = .OpTypeFunction)
    (hwc : WordCount spirv it = 3)
    (hid : spirv[it + 1]? = some id) (hret : spirv[it + 2]? = some retId)
    (hfind : s.module.findType retId = .ok ret) (hlt : id < s.module.ids.length) :
    decodeInstruction X spirv it s
      = .ok ({ s with
          module := { s.module with
            ids := s.module.ids.set id (some s.module.operations.length) } }.emit
        { SPVInstruction.new (OpCode spirv it) with
          type := some { SPVTypeData.new X .eFunction with
                         children := [], baseType := some ret },
          id := id }) := by
  have hk : pass1Case (X.opOf (OpCode spirv it)) = .OpTypeFunction := by rw [hc]; rfl
  unfold decodeInstruction
  generalize pass1Case (X.opOf (OpCode spirv it)) = k at hk
  subst hk
  simp [word_of_getElem? hid, word_of_getElem? hret, hfind, hwc, findTypes,
    SPVModule.assignId, hlt, bind, Except.bind, pure, Except.pure]

theorem decodeInstruction_function (X : Externals) (spirv : List Nat) (it : Nat)
    (s : DecodeState) (id retId ret typeId type control : Nat)
    (hc : X.opOf (OpCode spirv it) = .OpFunction)
    (hret : spirv[it + 1]? = some retId) (hid : spirv[it + 2]? = some id)
    (hcontrol : spirv[it + 3]? = some control) (htype : spirv[it + 4]? = some typeId)
    (hfind : s.module.findType retId = .ok ret) (hfind1 : s.module.findType typeId = .ok type)
    (hlt : id < s.module.ids.length) :
    decodeInstruction X spirv it s
      = .ok ({ s with
          module := { s.module with
            ids := s.module.ids.set id (some s.module.operations.length) },
          curFunc := some s.module.operations.length }.emit
        { SPVInstruction.new (OpCode spirv it) with
          func := some { retType := some ret, funcType := some type, control := control,
                         blocks := [], localVariables := [] },
          id := id }) := by
  have hk : pass1Case (X.opOf (OpCode spirv it)) = .OpFunction := by rw [hc]; rfl
  unfold decodeInstruction
  generalize pass1Case (X.opOf (OpCode spirv it)) = k at hk
  subst hk
  simp [word_of_getElem? hid, word_of_getElem? hret, word_of_getElem? hcontrol,
    word_of_getElem? htype, hfind, hfind1,
    SPVModule.assignId, hlt, bind, Except.bind, pure, Except.pure]

theorem decodeInstruction_label (X : Externals) (spirv : List Nat) (it : Nat)
    (s : DecodeState) (id fn : Nat) (hc : X.opOf (OpCode spirv it) = .OpLabel)
    (hcur : s.curFunc = some fn) (hid : spirv[it + 1]? = some id)
    (hlt : id < s.module.ids.length) :
    decodeInstruction X spirv it s
      = .ok ({ s with
          module := { s.module.modifyFunc fn
              (fun fd => { fd with blocks := fd.blocks ++ [s.module.operations.length] }) with
            ids := s.module.ids.set id (some s.module.operations.length) },
          curBlock := some s.module.operations.length }.emit
        { SPVInstruction.new (OpCode spirv it) with
          block := some { instructions := [s.module.operations.length], mergeFlow := none,
                          exitFlow := none },
          id := id }) := by
  have hk : pass1Case (X.opOf (OpCode spirv it)) = .OpLabel := by rw [hc]; rfl
  unfold decodeInstruction
  generalize pass1Case (X.opOf (OpCode spirv it)) = k at hk
  subst hk
  simp [word_of_getElem? hid, hcur, RDCASSERT, deref, SPVModule.modifyFunc,
    SPVModule.modifyInst, DecodeState.emit,
    SPVModule.assignId, hlt, bind, Except.bind, pure, Except.pure]

theorem decodeInstruction_return (X : Externals) (spirv : List Nat) (it : Nat)
    (s : DecodeState) (b : Nat) (hc : X.opOf (OpCode spirv it) = .OpReturn)
    (hcur : s.curBlock = some b) :
    decodeInstruction X spirv it s
      = .ok ({ s with
          module := s.module.modifyBlock b
            (fun blk => { blk with
              exitFlow := some s.module.operations.length,
              instructions := blk.instructions ++ [s.module.operations.length] }),
          curBlock := none }.emit
        { SPVInstruction.new (OpCode spirv it) with flow := some (SPVFlowControl.new X) }) := by
  have hk : pass1Case (X.opOf (OpCode spirv it)) = .OpKill := by rw [hc]; rfl
  unfold decodeInstruction
  generalize pass1Case (X.opOf (OpCode spirv it)) = k at hk
  subst hk
  simp [DecodeState.closeBlock, hcur, bind, Except.bind, pure, Except.pure]

theorem decodeInstruction_functionEnd (X : Externals) (spirv : List Nat) (it : Nat)
    (s : DecodeState) (hc : X.opOf (OpCode spirv it) = .OpFunctionEnd) :
    decodeInstruction X spirv it s
      = .ok ({ s with curFunc := none }.emit (SPVInstruction.new (OpCode spirv it))) := by
  have hk : pass1Case (X.opOf (OpCode spirv it)) = .OpFunctionEnd := by rw [hc]; rfl
  unfold decodeInstruction
  generalize pass1Case (X.opOf (OpCode spirv it)) = k at hk
  subst hk
  rfl

theorem pass1_step (X : Externals) (spirv : List Nat) (fuel it : Nat) (s s1 : DecodeState)
    (hlt : it < spirv.length) (h : decodeInstruction X spirv it s = .ok s1) :
    pass1 X spirv (fuel + 1) it s = pass1 X spirv fuel (it + WordCount spirv it) s1 := by
  rw [pass1, if_pos hlt, h]

theorem pass1_end (X : Externals) (spirv : List Nat) (fuel it : Nat) (s : DecodeState)
    (hge : spirv.length ≤ it) : pass1 X spirv fuel it s = .done s := by
  cases fuel <;> simp [pass1, Nat.not_lt.mpr hge]

theorem findType_ok (m : SPVModule) (id j : Nat) (inst : SPVInstruction)
    (h1 : m.ids[id]? = some (some j)) (h2 : m.operations[j]? = some inst)
    (h3 : inst.type.isSome = true) : m.findType id = .ok j := by
  simp [SPVModule.findType, SPVModule.idAt, SPVModule.hasType, h1, h2, h3, RDCASSERT, deref,
    bind, Except.bind]

theorem MinimalModule.ne (X : Externals) (spirv : List Nat) (bound v t f l : Nat)
    (hM : MinimalModule X spirv bound v t f l) :
    v ≠ t ∧ v ≠ f ∧ v ≠ l ∧ t ≠ f ∧ t ≠ l ∧ f ≠ l := by
  have h := hM.distinct
  simp only [List.nodup_cons, List.mem_cons, List.mem_singleton, not_or, List.not_mem_nil,
    not_false_eq_true, List.nodup_nil, and_true] at h
  obtain ⟨⟨h1, h2, h3⟩, ⟨h4, h5⟩, h6⟩ := h
  exact ⟨h1, h2, h3, h4, h5, h6⟩

/-- The structural pass on a minimal module runs to the end of the buffer. -/
theorem pass1_minimal (X : Externals) (spirv : List Nat) (bound v t f l : Nat)
    (hM : MinimalModule X spirv bound v t f l) (fuel : Nat) (s0 : DecodeState)
    (hids : s0.module.ids = List.replicate bound none) (hops : s0.module.operations = [])
    (hcf : s0.curFunc = none) :
    ∃ s, pass1 X spirv (fuel + 6) 5 s0 = .done s ∧ s.module.ids.length = bound := by
  obtain ⟨hvt, hvf, hvl, htf, htl, hfl⟩ := hM.ne
  have hlen := hM.length
  -- TypeVoid
  obtain ⟨s1, e1, hi1, ⟨op0, ho1, ht0⟩, hf1⟩ : ∃ s1, decodeInstruction X spirv 5 s0 = .ok s1 ∧
      s1.module.ids = (List.replicate bound none).set v (some 0) ∧
      (∃ op, s1.module.operations = [op] ∧ op.type.isSome = true) ∧ s1.curFunc = none :=
    ⟨_, decodeInstruction_typeVoid X spirv 5 s0 v hM.voidOp hM.voidId
        (by rw [hids]; simpa using hM.voidBelow),
      by simp [DecodeState.emit, hids, hops], ⟨_, by simp only [DecodeState.emit, hops, List.nil_append]; rfl, by rfl⟩,
      by simp [DecodeState.emit, hcf]⟩
  rw [show fuel + 6 = (fuel + 5) + 1 from rfl,
    pass1_step X spirv _ 5 s0 s1 (by rw [hlen]; decide) e1, hM.voidCount]
  -- TypeFunction
  have hfv1 : s1.module.findType v = .ok 0 :=
    findType_ok _ _ _ op0 (by rw [hi1]; simp [hM.voidBelow]) (by rw [ho1]; rfl) ht0
  obtain ⟨s2, e2, hi2, ⟨op1, ho2, ht1⟩, hf2⟩ : ∃ s2, decodeInstruction X spirv 7 s1 = .ok s2 ∧
      s2.module.ids = ((List.replicate bound none).set v (some 0)).set t (some 1) ∧
      (∃ op, s2.module.operations = [op0, op] ∧ op.type.isSome = true) ∧ s2.curFunc = none :=
    ⟨_, decodeInstruction_typeFunction X spirv 7 s1 t v 0 hM.typeOp hM.typeCount hM.typeId
        hM.typeReturn hfv1 (by rw [hi1]; simpa using hM.typeBelow),
      by simp [DecodeState.emit, hi1, ho1], ⟨_, by simp only [DecodeState.emit, ho1, List.singleton_append]; rfl, by rfl⟩,
      by simp [DecodeState.emit, hf1]⟩
  rw [show fuel + 5 = (fuel + 4) + 1 from rfl,
    pass1_step X spirv _ 7 s1 s2 (by rw [hlen]; decide) e2, hM.typeCount]
  -- Function
  have hfv2 : s2.module.findType v = .ok 0 :=
    findType_ok _ _ _ op0
      (by rw [hi2]; simp [hM.voidBelow, List.getElem?_set, hvt, Ne.symm hvt])
      (by rw [ho2]; rfl) ht0
  have hft2 : s2.module.findType t = .ok 1 :=
    findType_ok _ _ _ op1 (by rw [hi2]; simp [hM.typeBelow]) (by rw [ho2]; rfl) ht1
  obtain ⟨s3, e3, hi3, ho3, hf3⟩ : ∃ s3, decodeInstruction X spirv 10 s2 = .ok s3 ∧
      s3.module.ids.length = bound ∧ s3.module.operations.length = 3 ∧ s3.curFunc = some 2 :=
    ⟨_, decodeInstruction_function X spirv 10 s2 f v 0 t 1 0 hM.funcOp hM.funcReturn hM.funcId
        hM.funcControl hM.funcType hfv2 hft2 (by rw [hi2]; simpa using hM.funcBelow),
      by simp [DecodeState.emit, hi2], by simp [DecodeState.emit, ho2],
      by simp [DecodeState.emit, ho2]⟩
  rw [show fuel + 4 = (fuel + 3) + 1 from rfl,
    pass1_step X spirv _ 10 s2 s3 (by rw [hlen]; decide) e3, hM.funcCount]
  -- Label
  obtain ⟨s4, e4, hi4, hb4⟩ : ∃ s4, decodeInstruction X spirv 15 s3 = .ok s4 ∧
      s4.module.ids.length = bound ∧ s4.curBlock = some 3 :=
    ⟨_, decodeInstruction_label X spirv 15 s3 l 2 hM.labelOp hf3 hM.labelId
        (by rw [hi3]; exact hM.labelBelow),
      by simp [DecodeState.emit, SPVModule.modifyFunc, SPVModule.modifyInst, hi3],
      by simp [DecodeState.emit, ho3]⟩
  rw [show fuel + 3 = (fuel + 2) + 1 from rfl,
    pass1_step X spirv _ 15 s3 s4 (by rw [hlen]; decide) e4, hM.labelCount]
  -- Return
  obtain ⟨s5, e5, hi5⟩ : ∃ s5, decodeInstruction X spirv 17 s4 = .ok s5 ∧
      s5.module.ids.length = bound :=
    ⟨_, decodeInstruction_return X spirv 17 s4 3 hM.returnOp hb4,
      by simp [DecodeState.emit, SPVModule.modifyBlock, SPVModule.modifyInst, hi4]⟩
  rw [show fuel + 2 = (fuel + 1) + 1 from rfl,
    pass1_step X spirv _ 17 s4 s5 (by rw [hlen]; decide) e5, hM.returnCount]
  -- FunctionEnd
  rw [pass1_step X spirv _ 18 s5 _ (by rw [hlen]; decide)
      (decodeInstruction_functionEnd X spirv 18 s5 hM.endOp), hM.endCount,
    pass1_end X spirv _ _ _ (by rw [hlen])]
  exact ⟨_, rfl, by simp [DecodeState.emit, hi5]⟩

theorem pass2_step (X : Externals) (spirv : List Nat) (fuel it : Nat) (m : SPVModule)
    (hlt : it < spirv.length) (h : pass2Case (X.opOf (OpCode spirv it)) = .default) :
    pass2 X spirv (fuel + 1) it m = pass2 X spirv fuel (it + WordCount spirv it) m := by
  have e : annotateInstruction X spirv it m = .ok m := by
    unfold annotateInstruction
    generalize pass2Case (X.opOf (OpCode spirv it)) = k at h
    subst h
    rfl
  rw [pass2, if_pos hlt, e]

theorem pass2_end (X : Externals) (spirv : List Nat) (fuel it : Nat) (m : SPVModule)
    (hge : spirv.length ≤ it) : pass2 X spirv fuel it m = .done m := by
  cases fuel <;> simp [pass2, Nat.not_lt.mpr hge]

/-- The annotation pass leaves a minimal module as it is. -/
theorem pass2_minimal (X : Externals) (spirv : List Nat) (bound v t f l : Nat)
    (hM : MinimalModule X spirv bound v t f l) (fuel : Nat) (m : SPVModule) :
    pass2 X spirv (fuel + 6) 5 m = .done m := by
  have hlen := hM.length
  rw [show fuel + 6 = (fuel + 5) + 1 from rfl,
    pass2_step X spirv _ 5 m (by rw [hlen]; decide) (by rw [hM.voidOp]; rfl), hM.voidCount,
    show fuel + 5 = (fuel + 4) + 1 from rfl,
    pass2_step X spirv _ 7 m (by rw [hlen]; decide) (by rw [hM.typeOp]; rfl), hM.typeCount,
    show fuel + 4 = (fuel + 3) + 1 from rfl,
    pass2_step X spirv _ 10 m (by rw [hlen]; decide) (by rw [hM.funcOp]; rfl), hM.funcCount,
    show fuel + 3 = (fuel + 2) + 1 from rfl,
    pass2_step X spirv _ 15 m (by rw [hlen]; decide) (by rw [hM.labelOp]; rfl), hM.labelCount,
    show fuel + 2 = (fuel + 1) + 1 from rfl,
    pass2_step X spirv _ 17 m (by rw [hlen]; decide) (by rw [hM.returnOp]; rfl),
    hM.returnCount,
    pass2_step X spirv _ 18 m (by rw [hlen]; decide) (by rw [hM.endOp]; rfl), hM.endCount,
    pass2_end X spirv _ _ _ (by rw [hlen])]

/-- The decoding of a minimal module succeeds. -/
theorem decode_minimal (X : Externals) (spirv : List Nat) (bound v t f l : Nat)
    (hM : MinimalModule X spirv bound v t f l) (fuel shadType : Nat) :
    ∃ m, decode X (fuel + 6) shadType spirv = .done m ∧ m.ids.length = bound := by
  have hlen := hM.length
  obtain ⟨w1, h1⟩ : ∃ w, spirv[1]? = some w :=
    ⟨_, List.getElem?_eq_getElem (by rw [hlen]; decide)⟩
  obtain ⟨w2, h2⟩ : ∃ w, spirv[2]? = some w :=
    ⟨_, List.getElem?_eq_getElem (by rw [hlen]; decide)⟩
  obtain ⟨s, hs, hb⟩ := pass1_minimal X spirv bound v t f l hM fuel
    (initialState X shadType w1 w2 bound) rfl rfl rfl
  refine ⟨s.module, ?_, hb⟩
  unfold decode
  simp only [word_of_getElem? h1, word_of_getElem? h2, word_of_getElem? hM.idBound,
    word_of_getElem? hM.reserved, RDCASSERT, bind, Except.bind, pure, Except.pure,
    beq_self_eq_true, if_true, hs]
  exact pass2_minimal X spirv bound v t f l hM fuel s.module

theorem setAt_eq {α : Type} (table : List α) (i : Nat) (a : α) (h : i < table.length) :
    setAt table i a = .ok (table.set i a) := by
  simp [setAt, h]

theorem getAt_eq {α : Type} (table : List α) (i : Nat) (a : α) (h : table[i]? = some a) :
    getAt table i = .ok a := by
  simp [getAt, h]

theorem collectNames_typeVoid (X : Externals) (spirv : List Nat) (it : Nat) (ns : NameState)
    (id : Nat) (hc : X.opOf (OpCode spirv it) = .OpTypeVoid) (hid : spirv[it + 1]? = some id)
    (h1 : id < ns.resultnames.length) (h2 : id < ns.typeinfo.length) :
    collectNames X spirv it ns
      = .ok { ns with resultnames := ns.resultnames.set id "void",
                      typeinfo := ns.typeinfo.set id .eSPIRVTypeVoid } := by
  have hk : pass3Case (X.opOf (OpCode spirv it)) = .OpTypeVoid := by rw [hc]; rfl
  unfold collectNames
  generalize pass3Case (X.opOf (OpCode spirv it)) = k at hk
  subst hk
  simp [word_of_getElem? hid, setAt_eq _ _ _ h1, setAt_eq _ _ _ h2, bind, Except.bind, pure,
    Except.pure]

theorem collectNames_typeFunction (X : Externals) (spirv : List Nat) (it : Nat)
    (ns : NameState) (id : Nat) (hc : X.opOf (OpCode spirv it) = .OpTypeFunction)
    (hwc : WordCount spirv it = 3) (hid : spirv[it + 1]? = some id)
    (h1 : id < ns.resultnames.length) :
    collectNames X spirv it ns = .ok { ns with resultnames := ns.resultnames.set id "void" } := by
  have hk : pass3Case (X.opOf (OpCode spirv it)) = .OpTypeFunction := by rw [hc]; rfl
  unfold collectNames
  generalize pass3Case (X.opOf (OpCode spirv it)) = k at hk
  subst hk
  simp [word_of_getElem? hid, hwc, joinNames, setAt_eq _ _ _ h1, bind, Except.bind, pure,
    Except.pure]

theorem collectNames_label (X : Externals) (spirv : List Nat) (it : Nat) (ns : NameState)
    (id : Nat) (hc : X.opOf (OpCode spirv it) = .OpLabel) (hid : spirv[it + 1]? = some id)
    (h1 : id < ns.resultnames.length) :
    collectNames X spirv it ns
      = .ok { ns with resultnames := ns.resultnames.set id ("Label" ++ fmtU32 id) } := by
  have hk : pass3Case (X.opOf (OpCode spirv it)) = .OpLabel := by rw [hc]; rfl
  unfold collectNames
  generalize pass3Case (X.opOf (OpCode spirv it)) = k at hk
  subst hk
  simp [word_of_getElem? hid, setAt_eq _ _ _ h1, bind, Except.bind, pure, Except.pure]

theorem collectNames_default (X : Externals) (spirv : List Nat) (it : Nat) (ns : NameState)
    (hk : pass3Case (X.opOf (OpCode spirv it)) = .default) :
    collectNames X spirv it ns = .ok ns := by
  unfold collectNames
  generalize pass3Case (X.opOf (OpCode spirv it)) = k at hk
  subst hk
  rfl

theorem pass3_step (X : Externals) (spirv : List Nat) (fuel it : Nat) (ns ns1 : NameState)
    (hlt : it < spirv.length) (h : collectNames X spirv it ns = .ok ns1) :
    pass3 X spirv (fuel + 1) it ns = pass3 X spirv fuel (it + WordCount spirv it) ns1 := by
  rw [pass3, if_pos hlt, h]

theorem pass3_end (X : Externals) (spirv : List Nat) (fuel it : Nat) (ns : NameState)
    (hge : spirv.length ≤ it) : pass3 X spirv fuel it ns = .done ns := by
  cases fuel <;> simp [pass3, Nat.not_lt.mpr hge]

/-- The name-collection pass on a minimal module: the two types are named `void`, the
label `Label<l>`, and the function has no name. -/
theorem pass3_minimal (X : Externals) (spirv : List Nat) (bound v t f l : Nat)
    (hM : MinimalModule X spirv bound v t f l) (fuel : Nat) :
    ∃ ns, pass3 X spirv (fuel + 6) 5 (NameState.new bound) = .done ns ∧
      ns.resultnames = (((List.replicate bound "").set v "void").set t "void").set l
        ("Label" ++ fmtU32 l) := by
  have hlen := hM.length
  rw [show fuel + 6 = (fuel + 5) + 1 from rfl,
    pass3_step X spirv _ 5 _ _ (by rw [hlen]; decide)
      (collectNames_typeVoid X spirv 5 _ v hM.voidOp hM.voidId
        (by simpa [NameState.new] using hM.voidBelow)
        (by simpa [NameState.new] using hM.voidBelow)), hM.voidCount,
    show fuel + 5 = (fuel + 4) + 1 from rfl,
    pass3_step X spirv _ 7 _ _ (by rw [hlen]; decide)
      (collectNames_typeFunction X spirv 7 _ t hM.typeOp hM.typeCount hM.typeId
        (by simpa [NameState.new] using hM.typeBelow)), hM.typeCount,
    show fuel + 4 = (fuel + 3) + 1 from rfl,
    pass3_step X spirv _ 10 _ _ (by rw [hlen]; decide)
      (collectNames_default X spirv 10 _ (by rw [hM.funcOp]; rfl)), hM.funcCount,
    show fuel + 3 = (fuel + 2) + 1 from rfl,
    pass3_step X spirv _ 15 _ _ (by rw [hlen]; decide)
      (collectNames_label X spirv 15 _ l hM.labelOp hM.labelId
        (by simpa [NameState.new] using hM.labelBelow)), hM.labelCount,
    show fuel + 2 = (fuel + 1) + 1 from rfl,
    pass3_step X spirv _ 17 _ _ (by rw [hlen]; decide)
      (collectNames_default X spirv 17 _ (by rw [hM.returnOp]; rfl)), hM.returnCount,
    pass3_step X spirv _ 18 _ _ (by rw [hlen]; decide)
      (collectNames_default X spirv 18 _ (by rw [hM.endOp]; rfl)), hM.endCount,
    pass3_end X spirv _ _ _ (by rw [hlen])]
  exact ⟨_, rfl, rfl⟩

theorem renderInstruction_silent (X : Externals) (spirv : List Nat) (idbound : Nat)
    (ns : NameState) (it : Nat) (r : RenderState)
    (hk : pass4Case (X.opOf (OpCode spirv it)) = .OpName) :
    renderInstruction X spirv idbound ns it r = .ok r := by
  unfold renderInstruction
  generalize pass4Case (X.opOf (OpCode spirv it)) = k at hk
  subst hk
  rfl

theorem renderInstruction_function (X : Externals) (spirv : List Nat) (idbound : Nat)
    (ns : NameState) (it : Nat) (r : RenderState) (retType resultId control funcType : Nat)
    (retName name args : String)
    (hc : X.opOf (OpCode spirv it) = .OpFunction)
    (h1 : spirv[it + 1]? = some retType) (h2 : spirv[it + 2]? = some resultId)
    (h3 : spirv[it + 3]? = some control) (h4 : spirv[it + 4]? = some funcType)
    (hret : r.resultnames[retType]? = some retName)
    (hname : r.resultnames[resultId]? = some name)
    (hargs : r.resultnames[funcType]? = some args) :
    renderInstruction X spirv idbound ns it r
      = .ok ({ r with disasm := r.disasm ++ "\n", funcname := name }.emitLine
          (retName ++ " " ++ name ++ "(" ++ args ++ ") " ++
            OptionalFlagString (ToStrFunctionControlMask X) control ++ " \x7b")).indentMore := by
  have hk : pass4Case (X.opOf (OpCode spirv it)) = .OpFunction := by rw [hc]; rfl
  unfold renderInstruction
  generalize pass4Case (X.opOf (OpCode spirv it)) = k at hk
  subst hk
  simp [word_of_getElem? h1, word_of_getElem? h2, word_of_getElem? h3, word_of_getElem? h4,
    getAt_eq _ _ _ hret, getAt_eq _ _ _ hname, getAt_eq _ _ _ hargs, bind, Except.bind, pure,
    Except.pure]

theorem renderInstruction_label (X : Externals) (spirv : List Nat) (idbound : Nat)
    (ns : NameState) (it : Nat) (r : RenderState) (id : Nat) (name : String)
    (hc : X.opOf (OpCode spirv it) = .OpLabel) (h1 : spirv[it + 1]? = some id)
    (hname : r.resultnames[id]? = some name) (hflow : r.flowstack.getLast? ≠ some id) :
    renderInstruction X spirv idbound ns it r = .ok (r.emitLine (name ++ ":")) := by
  have hk : pass4Case (X.opOf (OpCode spirv it)) = .OpLabel := by rw [hc]; rfl
  unfold renderInstruction
  generalize pass4Case (X.opOf (OpCode spirv it)) = k at hk
  subst hk
  simp [word_of_getElem? h1, getAt_eq _ _ _ hname, hflow, bind, Except.bind, pure,
    Except.pure]

theorem renderInstruction_return (X : Externals) (spirv : List Nat) (idbound : Nat)
    (ns : NameState) (it : Nat) (r : RenderState)
    (hc : X.opOf (OpCode spirv it) = .OpReturn) :
    renderInstruction X spirv idbound ns it r = .ok (r.emitLine "Return") := by
  have hk : pass4Case (X.opOf (OpCode spirv it)) = .OpReturn := by rw [hc]; rfl
  unfold renderInstruction
  generalize pass4Case (X.opOf (OpCode spirv it)) = k at hk
  subst hk
  rfl

theorem renderInstruction_functionEnd (X : Externals) (spirv : List Nat) (idbound : Nat)
    (ns : NameState) (it : Nat) (r : RenderState)
    (hc : X.opOf (OpCode spirv it) = .OpFunctionEnd) (hind : 2 ≤ r.indent) :
    renderInstruction X spirv idbound ns it r
      = .ok ({ r with funcname := "", indent := r.indent - 2 }.emitLine
          ("\x7d // end of " ++ r.funcname)) := by
  have hk : pass4Case (X.opOf (OpCode spirv it)) = .OpFunctionEnd := by rw [hc]; rfl
  unfold renderInstruction
  generalize pass4Case (X.opOf (OpCode spirv it)) = k at hk
  subst hk
  simp [RenderState.unindent, hind, bind, Except.bind, pure, Except.pure]

theorem pass4_step (X : Externals) (spirv : List Nat) (idbound : Nat) (ns : NameState)
    (fuel it : Nat) (r r1 : RenderState)
    (hlt : it < spirv.length) (h : renderInstruction X spirv idbound ns it r = .ok r1) :
    pass4 X spirv idbound ns (fuel + 1) it r
      = pass4 X spirv idbound ns fuel (it + WordCount spirv it) r1 := by
  rw [pass4, if_pos hlt, h]

theorem pass4_end (X : Externals) (spirv : List Nat) (idbound : Nat) (ns : NameState)
    (fuel it : Nat) (r : RenderState) (hge : spirv.length ≤ it) :
    pass4 X spirv idbound ns fuel it r = .done r := by
  cases fuel <;> simp [pass4, Nat.not_lt.mpr hge]

/-- The render pass on a minimal module, from the tables that the name-collection pass
and the placeholder loop leave. -/
theorem pass4_minimal (X : Externals) (spirv : List Nat) (bound v t f l : Nat)
    (hM : MinimalModule X spirv bound v t f l) (fuel idbound : Nat) (ns : NameState)
    (disasm : String) (names : List String) (name label : String)
    (hv : names[v]? = some "void") (ht : names[t]? = some "void")
    (hf : names[f]? = some name) (hl : names[l]? = some label) :
    ∃ r, pass4 X spirv idbound ns (fuel + 6) 5
        { disasm := disasm, resultnames := names, extensionSets := [], indent := 0,
          funcname := "", flowstack := [], variablesSeen := false } = .done r ∧
      r.disasm = disasm ++ "\n" ++ "void " ++ name ++ "(void)  \x7b\n" ++
        "  " ++ label ++ ":\n" ++ "  Return\n" ++ "\x7d // end of " ++ name ++ "\n" := by
  have hlen := hM.length
  rw [show fuel + 6 = (fuel + 5) + 1 from rfl,
    pass4_step X spirv idbound ns _ 5 _ _ (by rw [hlen]; decide)
      (renderInstruction_silent X spirv idbound ns 5 _ (by rw [hM.voidOp]; rfl)),
    hM.voidCount,
    show fuel + 5 = (fuel + 4) + 1 from rfl,
    pass4_step X spirv idbound ns _ 7 _ _ (by rw [hlen]; decide)
      (renderInstruction_silent X spirv idbound ns 7 _ (by rw [hM.typeOp]; rfl)),
    hM.typeCount,
    show fuel + 4 = (fuel + 3) + 1 from rfl,
    pass4_step X spirv idbound ns _ 10 _ _ (by rw [hlen]; decide)
      (renderInstruction_function X spirv idbound ns 10 _ v f 0 t "void" name "void"
        hM.funcOp hM.funcReturn hM.funcId hM.funcControl hM.funcType hv hf ht),
    hM.funcCount,
    show fuel + 3 = (fuel + 2) + 1 from rfl,
    pass4_step X spirv idbound ns _ 15 _ _ (by rw [hlen]; decide)
      (renderInstruction_label X spirv idbound ns 15 _ l label hM.labelOp hM.labelId hl
        (by simp [RenderState.emitLine, RenderState.indentMore])),
    hM.labelCount,
    show fuel + 2 = (fuel + 1) + 1 from rfl,
    pass4_step X spirv idbound ns _ 17 _ _ (by rw [hlen]; decide)
      (renderInstruction_return X spirv idbound ns 17 _ hM.returnOp),
    hM.returnCount,
    pass4_step X spirv idbound ns _ 18 _ _ (by rw [hlen]; decide)
      (renderInstruction_functionEnd X spirv idbound ns 18 _ hM.endOp
        (by simp [RenderState.emitLine, RenderState.indentMore])),
    hM.endCount,
    pass4_end X spirv idbound ns _ _ _ (by rw [hlen])]
  refine ⟨_, rfl, ?_⟩
  apply String.ext
  simp only [RenderState.emitLine, RenderState.indentMore, OptionalFlagString, ne_eq,
    not_true_eq_false, if_false, String.data_append, List.append_assoc]
  rfl

/-- C19 (amended). For every valid minimal module (a void type `v`, a function type `t`
without parameters, and one function `f` with function control mask 0 that holds the
Label `l` and a Return), the decoding succeeds and the call appends exactly five lines to
`disasm`: an empty line, the opening line `void <name>(void)  \x7b` at indentation 0, with
two spaces before the brace because the empty text of the control mask stands between
them, the two body lines `Label<l>:` and `Return` indented by two spaces, and the closing
line `\x7d // end of <name>` at indentation 0; `<name>` is the placeholder of `f`. -/
theorem C19_minimal_module (X : Externals) (spirv : List Nat) (bound v t f l : Nat)
    (fuel shadType : Nat) (disasm : String)
    (hM : MinimalModule X spirv bound v t f l) (hstage : shadType < X.eSPIRVInvalid) :
    ∃ m, decode X (fuel + 6) shadType spirv = .done m ∧
      DisassembleSPIRV X (fuel + 6) shadType spirv disasm
        = .finished
            (disasm ++ "\n" ++
              "void " ++ ("\x7b" ++ fmtD32 f ++ "\x7d") ++ "(void)  \x7b\n" ++
              "  " ++ ("Label" ++ fmtU32 l) ++ ":\n" ++
              "  Return\n" ++
              "\x7d // end of " ++ ("\x7b" ++ fmtD32 f ++ "\x7d") ++ "\n") m := by
  obtain ⟨hvt, hvf, hvl, htf, htl, hfl⟩ := hM.ne
  obtain ⟨m, hm, hb⟩ := decode_minimal X spirv bound v t f l hM fuel shadType
  obtain ⟨ns, hns, hnames⟩ := pass3_minimal X spirv bound v t f l hM fuel
  have hv := hM.voidBelow
  have ht := hM.typeBelow
  have hf := hM.funcBelow
  have hl := hM.labelBelow
  obtain ⟨r, hr, htext⟩ := pass4_minimal X spirv bound v t f l hM fuel bound ns disasm
    (fillPlaceholders 0 ns.resultnames) ("\x7b" ++ fmtD32 f ++ "\x7d") ("Label" ++ fmtU32 l)
    (by rw [fillPlaceholders_getElem?, hnames]
        simp [List.getElem?_set, hv, hvt, hvl, Ne.symm hvt, Ne.symm hvl])
    (by rw [fillPlaceholders_getElem?, hnames]
        simp [List.getElem?_set, ht, htl, Ne.symm htl])
    (by rw [fillPlaceholders_getElem?, hnames]
        simp [List.getElem?_set, hf, Ne.symm hvf, Ne.symm htf, hfl, hvf, htf, Ne.symm hfl])
    (by rw [fillPlaceholders_getElem?, hnames]
        simp only [List.getElem?_set, List.length_set, List.length_replicate, hl, if_true,
          Option.map_some']
        rw [if_neg]
        intro h
        have h1 := congrArg String.length h
        simp only [String.length_append] at h1
        have h2 : "Label".length = 5 := by decide
        have h3 : "".length = 0 := rfl
        omega)
  refine ⟨m, hm, ?_⟩
  unfold DisassembleSPIRV
  simp only [ge_iff_le, Nat.not_le.mpr hstage, if_false, word_of_getElem? hM.magic, ne_eq,
    not_true_eq_false, hm, hb, hns, hr, htext]

theorem C11_witness :
    ∃ m inst, decode sampleExternals 11 0 variableModule = .done m ∧
      m.operations[5]? = some inst ∧ sampleExternals.opOf inst.opcode = .OpFunction ∧
      m.operations.map (fun i => decide (sampleExternals.opOf i.opcode = .OpVariable))
        = [false, false, false, false, true, false, false, true, false, false, true] ∧
      globalVariables sampleExternals m.operations 0 false = [4, 10] ∧
      variablesUntilBoundary sampleExternals (m.operations.drop 6) 6 = [7] ∧
      m.globals = globalVariables sampleExternals m.operations 0 false ∧
      ∃ fn, inst.func = some fn ∧
        fn.localVariables
          = variablesUntilBoundary sampleExternals (m.operations.drop (5 + 1)) (5 + 1) :=
  ⟨_, _, rfl, rfl, rfl, rfl, rfl, rfl,
    (C11_variable_lists sampleExternals 11 0 variableModule _ rfl).2.1,
    (C11_variable_lists sampleExternals 11 0 variableModule _ rfl).2.2 5 _ rfl rfl⟩

/-- Claim C13 fails as stated. `groupThenBadTypeModule` holds a DecorationGroup at offset 5,
followed by a TypeVector whose component type is not declared: the structural pass stops at
the TypeVector with an unresolved reference before the annotation pass, the only one that
rejects the DecorationGroup, has started. A buffer that holds a DecorationGroup and whose
first word is not the magic number is reported as such. -/
theorem C13_counterexample :
    5 ∈ instructionOffsets groupThenBadTypeModule 10 5 ∧
      isUnsupported (sampleExternals.opOf (OpCode groupThenBadTypeModule 5)) = true ∧
      DisassembleSPIRV sampleExternals 10 0 groupThenBadTypeModule ""
        = .fault (.UnresolvedReference 1) ∧
      DisassembleSPIRV sampleExternals 10 0 (5 :: groupModule.tail) ""
        = .MalformedInput "Unrecognised magic number 00000005" :=
  ⟨by decide, rfl, rfl, rfl⟩

theorem C13_witness :
    (5 ∈ instructionOffsets groupModule 10 5 ∧
      isUnsupported (sampleExternals.opOf (OpCode groupModule 5)) = true) ∧
      OpCode groupModule 5 = 49 ∧
      (∀ text m, DisassembleSPIRV sampleExternals 10 0 groupModule "" ≠ .finished text m) ∧
      DisassembleSPIRV sampleExternals 10 0 groupModule ""
        = .fault (.UnsupportedOpcode 49) :=
  ⟨⟨by decide, rfl⟩, rfl,
    (C13_unsupported_opcodes sampleExternals 10 0 groupModule "" 5 (by decide) rfl).1,
    (C13_unsupported_opcodes sampleExternals 10 0 groupModule "" 5 (by decide) rfl).2.2.2
      99 0 3 _ (by decide) rfl rfl rfl rfl rfl rfl _ rfl⟩

theorem C15_witness :
    structModule[13 + 1]? = some 2 ∧
      (stateAfter sampleExternals structModule 10).module.ids[2]? = some (some 1) ∧
      ∃ inst t,
        (stateAfter sampleExternals structModule 10).module.operations[1]? = some inst ∧
        inst.type = some t ∧ t.children = [(0, ""), (0, "")] ∧
        ∃ children1,
          annotateInstruction sampleExternals structModule 13
              (stateAfter sampleExternals structModule 10).module
            = .ok { (stateAfter sampleExternals structModule 10).module with
                operations := (stateAfter sampleExternals structModule 10).module.operations.set 1
                  { inst with type := some { t with children := children1 } } } ∧
          children1.length = t.children.length ∧
          children1.map Prod.fst = t.children.map Prod.fst ∧
          children1[1]?.map Prod.snd = some "b" ∧
          ∀ i, i ≠ 1 → children1[i]? = t.children[i]? :=
  ⟨rfl, rfl, _, _, rfl, rfl, rfl,
    (C15_member_name sampleExternals structModule 13
      (stateAfter sampleExternals structModule 10).module 2 (some 1) rfl rfl).1
      1 _ _ 1 "b" rfl rfl rfl rfl rfl rfl (by decide) rfl⟩

theorem C16_witness :
    cString namedFunctionModule 7 = .ok "main" ∧
      ∃ n, 7 + n / 4 < namedFunctionModule.length ∧ byteAt namedFunctionModule 7 n = 0 ∧
        (∀ i, i < n → byteAt namedFunctionModule 7 i ≠ 0) ∧
        "main" = String.mk ((List.range n).map
          (fun i => Char.ofNat (byteAt namedFunctionModule 7 i))) :=
  ⟨rfl, ((C16_string_operand sampleExternals namedFunctionModule 5).1 7 "main").mp rfl⟩

/-- Claim C19 fails as stated. The minimal module `minimalModule` is disassembled to six
lines: the opening line of the function has two spaces between `)` and the brace, and the
closing line carries the comment `// end of` with the name of the function, so neither the
line `void \x7b3\x7d(void) \x7b` nor a line that holds the closing brace alone occurs. -/
theorem C19_counterexample :
    MinimalModule sampleExternals minimalModule 5 1 2 3 4 ∧
      ∃ text m, DisassembleSPIRV sampleExternals 6 0 minimalModule "" = .finished text m ∧
        outputLines text
          = ["", "void \x7b3\x7d(void)  \x7b", "  Label4:", "  Return",
             "\x7d // end of \x7b3\x7d", ""] ∧
        "void \x7b3\x7d(void) \x7b" ∉ outputLines text ∧ "\x7d" ∉ outputLines text :=
  ⟨⟨rfl, rfl, rfl, rfl, rfl, rfl, rfl, rfl, rfl, rfl, rfl, rfl, rfl, rfl, rfl, rfl, rfl, rfl,
      rfl, rfl, rfl, rfl, rfl, rfl, by decide, by decide, by decide, by decide, by decide⟩,
    _, _, rfl, by decide, by decide, by decide⟩

theorem C19_witness :
    (MinimalModule sampleExternals minimalModule 5 1 2 3 4 ∧
      0 < sampleExternals.eSPIRVInvalid) ∧
      ∃ m, decode sampleExternals (0 + 6) 0 minimalModule = .done m ∧
        DisassembleSPIRV sampleExternals (0 + 6) 0 minimalModule ""
          = .finished
              ("" ++ "\n" ++
                "void " ++ ("\x7b" ++ fmtD32 3 ++ "\x7d") ++ "(void)  \x7b\n" ++
                "  " ++ ("Label" ++ fmtU32 4) ++ ":\n" ++
                "  Return\n" ++
                "\x7d // end of " ++ ("\x7b" ++ fmtD32 3 ++ "\x7d") ++ "\n") m :=
  have hM : MinimalModule sampleExternals minimalModule 5 1 2 3 4 :=
    ⟨rfl, rfl, rfl, rfl, rfl, rfl, rfl, rfl, rfl, rfl, rfl, rfl, rfl, rfl, rfl, rfl, rfl, rfl,
      rfl, rfl, rfl, rfl, rfl, rfl, by decide, by decide, by decide, by decide, by decide⟩
  ⟨⟨hM, by decide⟩,
    C19_minimal_module sampleExternals minimalModule 5 1 2 3 4 0 0 "" hM (by decide)⟩

/-- Claim C20 fails as stated. In `namedLabelModule` the instruction `Name 4 "entry"`
targets the label 4 and stands, as debug instructions do, before the function. The
name-collection pass writes "entry" at the Name and overwrites it with `Label4` when it
reaches the Label, so the label is rendered as `Label4`. -/
theorem C20_counterexample :
    sampleExternals.opOf (OpCode namedLabelModule 5) = .OpName ∧
      namedLabelModule[5 + 1]? = some 4 ∧ cString namedLabelModule (5 + 2) = .ok "entry" ∧
      (∃ ns, pass3 sampleExternals namedLabelModule 10 5 (NameState.new 5) = .done ns ∧
        ns.resultnames[4]? = some "Label4") ∧
      ∃ m, DisassembleSPIRV sampleExternals 10 0 namedLabelModule ""
        = .finished
            "\nvoid \x7b3\x7d(void)  \x7b\n  Label4:\n  Return\n\x7d // end of \x7b3\x7d\n" m :=
  ⟨rfl, rfl, rfl, ⟨_, rfl, rfl⟩, _, rfl⟩

theorem C20_witness :
    (sampleExternals.opOf (OpCode namedFunctionModule 5) = .OpName ∧
      namedFunctionModule[5 + 1]? = some 3 ∧
      cString namedFunctionModule (5 + 2) = .ok "main" ∧
      instructionOffsets namedFunctionModule 10 5 = [] ++ 5 :: [9, 11, 14, 19, 21, 22] ∧
      ∀ j ∈ [9, 11, 14, 19, 21, 22], writesName sampleExternals namedFunctionModule j ≠ some 3) ∧
      ∃ ns1, pass3 sampleExternals namedFunctionModule 10 5 (NameState.new 5) = .done ns1 ∧
        ns1.resultnames[3]? = some "main" ∧
        (fillPlaceholders 0 ns1.resultnames)[3]?
          = some (if "main" = "" then "\x7b" ++ fmtD32 3 ++ "\x7d" else "main") :=
  ⟨⟨rfl, rfl, rfl, rfl, by decide⟩, _, rfl,
    C20_given_name sampleExternals namedFunctionModule 10 5 (NameState.new 5) _ 3 "main" 5 []
      [9, 11, 14, 19, 21, 22] rfl rfl rfl rfl rfl (by decide)⟩

/-- One step of the name-collection pass keeps an empty entry of `resultnames` empty, unless
it writes the entry; a `Name` with the empty string writes the empty string. -/
theorem collectNames_keeps_empty (X : Externals) (spirv : List Nat) (it : Nat)
    (ns ns1 : NameState) (i : Nat) (h : collectNames X spirv it ns = .ok ns1)
    (hw : writesName X spirv it = some i →
      X.opOf (OpCode spirv it) = .OpName ∧ cString spirv (it + 2) = .ok "")
    (he : ns.resultnames[i]? = some "") : ns1.resultnames[i]? = some "" := by
  by_cases hwi : writesName X spirv it = some i
  · obtain ⟨hop, hstr⟩ := hw hwi
    obtain ⟨id, name, _, hname, _, hset⟩ := collectNames_name X spirv it ns ns1 hop h
    rw [hstr] at hname
    cases hname
    rw [hset, List.getElem?_set]
    split
    · have hlt : i < ns.resultnames.length := by
        by_contra hge
        rw [List.getElem?_eq_none (Nat.le_of_not_lt hge)] at he
        cases he
      subst_vars
      simp [hlt]
    · exact he
  · rw [(collectNames_frame X spirv it ns ns1 h).2 i hwi]
    exact he

/-- The name-collection pass keeps the size of `resultnames`, and keeps empty every entry that
is empty before it and that only `Name` instructions with an empty string write. -/
theorem pass3_keeps_empty (X : Externals) (spirv : List Nat) (i : Nat) :
    ∀ fuel it0 ns ns1, pass3 X spirv fuel it0 ns = .done ns1 →
      ns1.resultnames.length = ns.resultnames.length ∧
      ((∀ j ∈ instructionOffsets spirv fuel it0, writesName X spirv j = some i →
          X.opOf (OpCode spirv j) = .OpName ∧ cString spirv (j + 2) = .ok "") →
        ns.resultnames[i]? = some "" → ns1.resultnames[i]? = some "") := by
  intro fuel
  induction fuel with
  | zero =>
    intro it0 ns ns1 h
    unfold pass3 at h
    split at h <;> cases h
    exact ⟨rfl, fun _ he => he⟩
  | succ fuel ih =>
    intro it0 ns ns1 h
    unfold pass3 at h
    split at h
    · rename_i hlt
      split at h
      · cases h
      · rename_i ns2 hs
        obtain ⟨hlen, hkeep⟩ := ih _ _ _ h
        refine ⟨hlen.trans (collectNames_frame X spirv it0 ns ns2 hs).1, fun hall he => ?_⟩
        exact hkeep (fun j hj => hall j (mem_instructionOffsets_tail spirv fuel it0 j hlt hj))
          (collectNames_keeps_empty X spirv it0 ns ns2 i hs
            (hall it0 (mem_instructionOffsets_head spirv fuel it0 hlt)) he)
    · cases h
      exact ⟨rfl, fun _ he => he⟩

theorem fillPlaceholders_length (names : List String) (i : Nat) :
    (fillPlaceholders i names).length = names.length := by
  induction names generalizing i with
  | nil => rfl
  | cons n names ih => simp [fillPlaceholders, ih]

theorem placeholder_ne_empty (s : String) : "\x7b" ++ s ++ "\x7d" ≠ "" := by
  intro h
  have h1 := congrArg String.length h
  simp only [String.length_append] at h1
  have h2 : "\x7b".length = 1 := by decide
  have h3 : "".length = 0 := rfl
  omega

/-- Claim C21. After the name-collection scan and the loop that follows it, no entry of the
table of result names is the empty string, the table has one entry for each ID below the
bound, and every ID below the bound that received no name -- no instruction writes its
entry, apart from `Name` instructions with the empty string -- holds the placeholder
`\x7bi\x7d`, with `i` in decimal. -/
theorem C21_placeholders (X : Externals) (spirv : List Nat) (fuel idbound : Nat)
    (ns1 : NameState) (i : Nat)
    (h : pass3 X spirv fuel 5 (NameState.new idbound) = .done ns1) (hi : i < idbound) :
    (∀ k : Nat, (fillPlaceholders 0 ns1.resultnames)[k]? ≠ some "") ∧
      (fillPlaceholders 0 ns1.resultnames).length = idbound ∧
      ((∀ j ∈ instructionOffsets spirv fuel 5, writesName X spirv j = some i →
          X.opOf (OpCode spirv j) = .OpName ∧ cString spirv (j + 2) = .ok "") →
        (fillPlaceholders 0 ns1.resultnames)[i]? = some ("\x7b" ++ fmtD32 i ++ "\x7d")) ∧
      (i < 2 ^ 31 → fmtD32 i = Nat.repr i) := by
  obtain ⟨hlen, hkeep⟩ := pass3_keeps_empty X spirv i fuel 5 _ ns1 h
  refine ⟨?_, ?_, ?_, ?_⟩
  · intro k hk
    rw [fillPlaceholders_getElem?] at hk
    cases hn : ns1.resultnames[k]? with
    | none => rw [hn] at hk; cases hk
    | some n =>
      rw [hn] at hk
      simp only [Option.map_some', Option.some.injEq] at hk
      split at hk
      · exact placeholder_ne_empty _ hk
      · contradiction
  · rw [fillPlaceholders_length, hlen]
    simp [NameState.new]
  · intro hall
    rw [fillPlaceholders_getElem?, hkeep hall (by simp [NameState.new, hi])]
    simp
  · intro h31
    have hm : i % 2 ^ 32 = i := Nat.mod_eq_of_lt (by omega)
    unfold fmtD32
    rw [hm, if_pos h31]

theorem C21_witness :
    ∃ ns1, (pass3 sampleExternals minimalModule 6 5 (NameState.new 5) = .done ns1 ∧ 3 < 5) ∧
      (∀ j ∈ instructionOffsets minimalModule 6 5,
        writesName sampleExternals minimalModule j ≠ some 3) ∧
      ns1.resultnames = ["", "void", "void", "", "Label4"] ∧
      fillPlaceholders 0 ns1.resultnames
        = ["\x7b0\x7d", "void", "void", "\x7b3\x7d", "Label4"] ∧
      (fillPlaceholders 0 ns1.resultnames)[3]? = some ("\x7b" ++ fmtD32 3 ++ "\x7d") :=
  ⟨_, ⟨rfl, by decide⟩, by decide, rfl, rfl,
    (C21_placeholders sampleExternals minimalModule 6 5 _ 3 rfl (by decide)).2.2.1
      (fun j hj hw => absurd hw
        ((by decide : ∀ j ∈ instructionOffsets minimalModule 6 5,
          writesName sampleExternals minimalModule j ≠ some 3) j hj))⟩

theorem fmtU32_eq (w : Nat) (h : w < 2 ^ 32) : fmtU32 w = Nat.repr w := by
  unfold fmtU32
  rw [Nat.mod_eq_of_lt h]

theorem fmtD32_eq (w : Nat) (h : w < 2 ^ 32) :
    fmtD32 w = if w < 2 ^ 31 then Nat.repr w else "-" ++ Nat.repr (2 ^ 32 - w) := by
  unfold fmtD32
  rw [Nat.mod_eq_of_lt h]

theorem collectNames_typeBool (X : Externals) (spirv : List Nat) (it : Nat) (ns : NameState)
    (id : Nat) (hc : X.opOf (OpCode spirv it) = .OpTypeBool) (hid : spirv[it + 1]? = some id)
    (h1 : id < ns.resultnames.length) (h2 : id < ns.typeinfo.length) :
    collectNames X spirv it ns
      = .ok { ns with resultnames := ns.resultnames.set id "bool",
                      typeinfo := ns.typeinfo.set id .eSPIRVTypeBool } := by
  have hk : pass3Case (X.opOf (OpCode spirv it)) = .OpTypeBool := by rw [hc]; rfl
  unfold collectNames
  generalize pass3Case (X.opOf (OpCode spirv it)) = k at hk
  subst hk
  simp [word_of_getElem? hid, setAt_eq _ _ _ h1, setAt_eq _ _ _ h2, bind, Except.bind, pure,
    Except.pure]

theorem collectNames_typeInt (X : Externals) (spirv : List Nat) (it : Nat) (ns : NameState)
    (id signedness : Nat) (hc : X.opOf (OpCode spirv it) = .OpTypeInt)
    (hid : spirv[it + 1]? = some id) (hbits : spirv[it + 2]? = some 32)
    (hsign : spirv[it + 3]? = some signedness)
    (h1 : id < ns.resultnames.length) (h2 : id < ns.typeinfo.length) :
    collectNames X spirv it ns
      = .ok { ns with resultnames := ns.resultnames.set id "int",
                      typeinfo := ns.typeinfo.set id
                        (if signedness ≠ 0 then .eSPIRVTypeSInt32 else .eSPIRVTypeUInt32) } := by
  have hk : pass3Case (X.opOf (OpCode spirv it)) = .OpTypeInt := by rw [hc]; rfl
  unfold collectNames
  generalize pass3Case (X.opOf (OpCode spirv it)) = k at hk
  subst hk
  simp [word_of_getElem? hid, word_of_getElem? hbits, word_of_getElem? hsign, RDCASSERT,
    setAt_eq _ _ _ h1, setAt_eq _ _ _ h2, bind, Except.bind, pure, Except.pure]

theorem collectNames_typeFloat (X : Externals) (spirv : List Nat) (it : Nat) (ns : NameState)
    (id : Nat) (hc : X.opOf (OpCode spirv it) = .OpTypeFloat)
    (hid : spirv[it + 1]? = some id) (hbits : spirv[it + 2]? = some 32)
    (h1 : id < ns.resultnames.length) (h2 : id < ns.typeinfo.length) :
    collectNames X spirv it ns
      = .ok { ns with resultnames := ns.resultnames.set id "float",
                      typeinfo := ns.typeinfo.set id .eSPIRVTypeFloat } := by
  have hk : pass3Case (X.opOf (OpCode spirv it)) = .OpTypeFloat := by rw [hc]; rfl
  unfold collectNames
  generalize pass3Case (X.opOf (OpCode spirv it)) = k at hk
  subst hk
  simp [word_of_getElem? hid, word_of_getElem? hbits, RDCASSERT,
    setAt_eq _ _ _ h1, setAt_eq _ _ _ h2, bind, Except.bind, pure, Except.pure]

theorem collectNames_typeVector (X : Externals) (spirv : List Nat) (it : Nat) (ns : NameState)
    (id baseId size : Nat) (base : String) (info : BaseType)
    (hc : X.opOf (OpCode spirv it) = .OpTypeVector)
    (hid : spirv[it + 1]? = some id) (hbase : spirv[it + 2]? = some baseId)
    (hsize : spirv[it + 3]? = some size)
    (hname : ns.resultnames[baseId]? = some base) (hinfo : ns.typeinfo[baseId]? = some info)
    (h1 : id < ns.resultnames.length) (h2 : id < ns.typeinfo.length) :
    collectNames X spirv it ns
      = .ok { ns with resultnames := ns.resultnames.set id (base ++ fmtU32 size),
                      typeinfo := ns.typeinfo.set id info } := by
  have hk : pass3Case (X.opOf (OpCode spirv it)) = .OpTypeVector := by rw [hc]; rfl
  unfold collectNames
  generalize pass3Case (X.opOf (OpCode spirv it)) = k at hk
  subst hk
  simp [word_of_getElem? hid, word_of_getElem? hbase, word_of_getElem? hsize,
    getAt_eq _ _ _ hname, getAt_eq _ _ _ hinfo,
    setAt_eq _ _ _ h1, setAt_eq _ _ _ h2, bind, Except.bind, pure, Except.pure]

theorem collectNames_typeArray (X : Externals) (spirv : List Nat) (it : Nat) (ns : NameState)
    (id baseId lengthId n : Nat) (base : String) (info : BaseType)
    (hc : X.opOf (OpCode spirv it) = .OpTypeArray)
    (hid : spirv[it + 1]? = some id) (hbase : spirv[it + 2]? = some baseId)
    (hlength : spirv[it + 3]? = some lengthId)
    (hname : ns.resultnames[baseId]? = some base) (hvalue : ns.values[lengthId]? = some n)
    (hinfo : ns.typeinfo[baseId]? = some info)
    (h1 : id < ns.resultnames.length) (h2 : id < ns.typeinfo.length) :
    collectNames X spirv it ns
      = .ok { ns with resultnames := ns.resultnames.set id (base ++ "[" ++ fmtU32 n ++ "]"),
                      typeinfo := ns.typeinfo.set id info } := by
  have hk : pass3Case (X.opOf (OpCode spirv it)) = .OpTypeArray := by rw [hc]; rfl
  unfold collectNames
  generalize pass3Case (X.opOf (OpCode spirv it)) = k at hk
  subst hk
  simp [word_of_getElem? hid, word_of_getElem? hbase, word_of_getElem? hlength,
    getAt_eq _ _ _ hname, getAt_eq _ _ _ hinfo, getAt_eq _ _ _ hvalue,
    setAt_eq _ _ _ h1, setAt_eq _ _ _ h2, bind, Except.bind, pure, Except.pure]

theorem collectNames_typePointer (X : Externals) (spirv : List Nat) (it : Nat)
    (ns : NameState) (id storage baseId : Nat) (base : String)
    (hc : X.opOf (OpCode spirv it) = .OpTypePointer)
    (hid : spirv[it + 1]? = some id) (hstorage : spirv[it + 2]? = some storage)
    (hbase : spirv[it + 3]? = some baseId)
    (hname : ns.resultnames[baseId]? = some base) (h1 : id < ns.resultnames.length) :
    collectNames X spirv it ns
      = .ok { ns with resultnames := ns.resultnames.set id (base ++ "*") } := by
  have hk : pass3Case (X.opOf (OpCode spirv it)) = .OpTypePointer := by rw [hc]; rfl
  unfold collectNames
  generalize pass3Case (X.opOf (OpCode spirv it)) = k at hk
  subst hk
  simp [word_of_getElem? hid, word_of_getElem? hbase, word_of_getElem? hstorage,
    getAt_eq _ _ _ hname, setAt_eq _ _ _ h1, bind, Except.bind, pure, Except.pure]

/-- The loop that joins names yields the names of the operand words joined with `", "`. -/
theorem joinNames_eq (resultnames : List String) (spirv : List Nat) (it wc : Nat) :
    ∀ n i, i + n = wc → it + wc ≤ spirv.length →
      (∀ p ∈ operandIds spirv (it + i) n, p < resultnames.length) →
      joinNames resultnames spirv it wc n i
        = .ok (commaJoin ((operandIds spirv (it + i) n).map (fun p => resultnames[p]?.getD ""))) := by
  intro n
  induction n with
  | zero => intro i _ _ _; simp [joinNames, operandIds, commaJoin]
  | succ n ih =>
    intro i hi hlen hall
    have hlt : it + i < spirv.length := by omega
    rw [operandIds_succ _ _ _ hlt] at hall ⊢
    have hp : spirv[it + i] < resultnames.length := hall _ (List.mem_cons_self _ _)
    have hw : word spirv (it + i) = .ok spirv[it + i] :=
      word_of_getElem? (List.getElem?_eq_getElem hlt)
    have hg : getAt resultnames spirv[it + i] = .ok (resultnames[spirv[it + i]]?.getD "") := by
      apply getAt_eq
      rw [List.getElem?_eq_getElem hp]
      rfl
    have hrest := ih (i + 1) (by omega) hlen
      (fun p hp => hall p (List.mem_cons_of_mem _ (by rw [Nat.add_assoc]; exact hp)))
    rw [← Nat.add_assoc] at hrest
    simp only [joinNames, hw, hg, hrest, bind, Except.bind, pure, Except.pure, List.map_cons]
    cases n with
    | zero =>
      have : ¬ i + 1 < wc := by omega
      simp [this, operandIds, commaJoin]
    | succ n =>
      have : i + 1 < wc := by omega
      have hlt1 : it + i + 1 < spirv.length := by omega
      rw [operandIds_succ _ _ _ hlt1]
      simp [this, commaJoin]

theorem collectNames_functionType (X : Externals) (spirv : List Nat) (it : Nat)
    (ns : NameState) (id : Nat) (hc : X.opOf (OpCode spirv it) = .OpTypeFunction)
    (hid : spirv[it + 1]? = some id) (hwc : 3 ≤ WordCount spirv it)
    (hlen : it + WordCount spirv it ≤ spirv.length)
    (hall : ∀ p ∈ operandIds spirv (it + 3) (WordCount spirv it - 3), p < ns.resultnames.length)
    (h1 : id < ns.resultnames.length) :
    collectNames X spirv it ns
      = .ok { ns with
          resultnames := ns.resultnames.set id
            (if commaJoin ((operandIds spirv (it + 3) (WordCount spirv it - 3)).map
                  (fun p => ns.resultnames[p]?.getD "")) = "" then "void"
             else commaJoin ((operandIds spirv (it + 3) (WordCount spirv it - 3)).map
                  (fun p => ns.resultnames[p]?.getD ""))) } := by
  have hk : pass3Case (X.opOf (OpCode spirv it)) = .OpTypeFunction := by rw [hc]; rfl
  have hj := joinNames_eq ns.resultnames spirv it (WordCount spirv it)
    (WordCount spirv it - 3) 3 (by omega) hlen hall
  unfold collectNames
  generalize pass3Case (X.opOf (OpCode spirv it)) = k at hk
  subst hk
  simp only [hj, word_of_getElem? hid, setAt_eq _ _ _ h1, bind, Except.bind, pure, Except.pure]

theorem commaJoin_ne_empty (names : List String) (hne : names ≠ [])
    (hall : ∀ n ∈ names, n ≠ "") : commaJoin names ≠ "" := by
  have key : ∀ (a : String) (rest : List String), a ≠ "" → commaJoin (a :: rest) ≠ "" := by
    intro a rest ha h
    have hlen : 0 < a.length := by
      rcases Nat.eq_zero_or_pos a.length with h0 | h0
      · exact absurd (String.ext (List.length_eq_zero.mp (show a.data.length = 0 from h0))) ha
      · exact h0
    cases rest with
    | nil => exact ha h
    | cons b rest =>
      have h1 := congrArg String.length h
      simp only [commaJoin, String.length_append] at h1
      have h3 : "".length = 0 := rfl
      omega
  cases names with
  | nil => exact absurd rfl hne
  | cons a rest => exact key a rest (hall a (List.mem_cons_self _ _))

theorem collectNames_constant (X : Externals) (spirv : List Nat) (it : Nat) (ns : NameState)
    (typeId id w : Nat) (typeName : String) (T : BaseType)
    (hc : X.opOf (OpCode spirv it) = .OpConstant)
    (h1 : spirv[it + 1]? = some typeId) (h2 : spirv[it + 2]? = some id)
    (h3 : spirv[it + 3]? = some w)
    (hT : ns.typeinfo[typeId]? = some T) (hname : ns.resultnames[typeId]? = some typeName)
    (hid : id < ns.resultnames.length) (hv : id < ns.values.length) :
    collectNames X spirv it ns
      = .ok { ns with
          resultnames := ns.resultnames.set id
            (typeName ++ "(" ++ literalString X T w ++ ")"),
          values := ns.values.set id w } := by
  have hk : pass3Case (X.opOf (OpCode spirv it)) = .OpConstant := by rw [hc]; rfl
  unfold collectNames
  generalize pass3Case (X.opOf (OpCode spirv it)) = k at hk
  subst hk
  simp [word_of_getElem? h1, word_of_getElem? h2, word_of_getElem? h3,
    getAt_eq _ _ _ hT, getAt_eq _ _ _ hname,
    setAt_eq _ _ _ hid, setAt_eq _ _ _ hv, bind, Except.bind, pure, Except.pure]

/-- Only `Constant` writes the table `values`. -/
theorem collectNames_values (X : Externals) (spirv : List Nat) (it : Nat)
    (ns ns1 : NameState) (h : collectNames X spirv it ns = .ok ns1)
    (hop : X.opOf (OpCode spirv it) ≠ .OpConstant) : ns1.values = ns.values := by
  have hk : pass3Case (X.opOf (OpCode spirv it)) ≠ .OpConstant := by
    intro e
    apply hop
    revert e
    cases X.opOf (OpCode spirv it) <;> simp [pass3Case]
  unfold collectNames at h
  generalize pass3Case (X.opOf (OpCode spirv it)) = k at h hk
  cases k <;> dsimp only at h <;>
    repeat' (first | (obtain ⟨_, hh, h⟩ := bind_ok_elim h) | split at h)
  all_goals first
    | (cases h; rfl)
    | exact absurd rfl hk

theorem commaJoin_eq_empty_iff (names : List String) :
    commaJoin names = "" ↔ names = [] ∨ names = [""] := by
  cases names with
  | nil => simp [commaJoin]
  | cons a rest =>
    cases rest with
    | nil => simp [commaJoin]
    | cons b rest =>
      constructor
      · intro h
        have h1 := congrArg String.length h
        simp only [commaJoin, String.length_append] at h1
        have h2 : ", ".length = 2 := rfl
        have h3 : "".length = 0 := rfl
        omega
      · intro h
        rcases h with h | h <;> cases h

/-- Claim C22, amended. In the name-collection pass the name of a type is computed from the
names that the table holds when the declaration is reached: a vector type is the name of its
element type immediately followed by the component count in decimal; an array type is
`<base>[<n>]`, where `n` is the entry of the table `values` for the length operand, which
is the value word of the last `Constant` with that result ID (only `Constant` writes the
table); a pointer type is `<base>*`; a function type is `void` when it has no parameter,
and also when its only parameter has the empty name, and otherwise the names of its
parameter types joined with `", "`. -/
theorem C22_type_names (X : Externals) (spirv : List Nat) (it : Nat) (ns : NameState)
    (id : Nat) (hid : spirv[it + 1]? = some id) (h1 : id < ns.resultnames.length) :
    (∀ baseId size base info, X.opOf (OpCode spirv it) = .OpTypeVector →
        spirv[it + 2]? = some baseId → spirv[it + 3]? = some size →
        ns.resultnames[baseId]? = some base → ns.typeinfo[baseId]? = some info →
        id < ns.typeinfo.length →
        collectNames X spirv it ns
          = .ok { ns with resultnames := ns.resultnames.set id (base ++ fmtU32 size),
                          typeinfo := ns.typeinfo.set id info }) ∧
      (∀ baseId lengthId n base info, X.opOf (OpCode spirv it) = .OpTypeArray →
        spirv[it + 2]? = some baseId → spirv[it + 3]? = some lengthId →
        ns.resultnames[baseId]? = some base → ns.values[lengthId]? = some n →
        ns.typeinfo[baseId]? = some info → id < ns.typeinfo.length →
        collectNames X spirv it ns
          = .ok { ns with
              resultnames := ns.resultnames.set id (base ++ "[" ++ fmtU32 n ++ "]"),
              typeinfo := ns.typeinfo.set id info }) ∧
      (∀ storage baseId base, X.opOf (OpCode spirv it) = .OpTypePointer →
        spirv[it + 2]? = some storage → spirv[it + 3]? = some baseId →
        ns.resultnames[baseId]? = some base →
        collectNames X spirv it ns
          = .ok { ns with resultnames := ns.resultnames.set id (base ++ "*") }) ∧
      (X.opOf (OpCode spirv it) = .OpTypeFunction → 3 ≤ WordCount spirv it →
        it + WordCount spirv it ≤ spirv.length →
        (∀ p ∈ operandIds spirv (it + 3) (WordCount spirv it - 3),
          p < ns.resultnames.length) →
        collectNames X spirv it ns
          = .ok { ns with
              resultnames := ns.resultnames.set id
                (if (operandIds spirv (it + 3) (WordCount spirv it - 3)).map
                      (fun p => ns.resultnames[p]?.getD "") = [] ∨
                    (operandIds spirv (it + 3) (WordCount spirv it - 3)).map
                      (fun p => ns.resultnames[p]?.getD "") = [""] then "void"
                 else commaJoin ((operandIds spirv (it + 3) (WordCount spirv it - 3)).map
                   (fun p => ns.resultnames[p]?.getD ""))) }) ∧
      (∀ typeId w typeName T, X.opOf (OpCode spirv it) = .OpConstant →
        spirv[it + 1]? = some typeId → spirv[it + 2]? = some id → spirv[it + 3]? = some w →
        ns.typeinfo[typeId]? = some T → ns.resultnames[typeId]? = some typeName →
        id < ns.values.length →
        ∃ ns1, collectNames X spirv it ns = .ok ns1 ∧ ns1.values = ns.values.set id w) ∧
      (∀ ns1, collectNames X spirv it ns = .ok ns1 →
        X.opOf (OpCode spirv it) ≠ .OpConstant → ns1.values = ns.values) ∧
      (∀ w, w < 2 ^ 32 → fmtU32 w = Nat.repr w) := by
  refine ⟨?_, ?_, ?_, ?_, ?_, ?_, fmtU32_eq⟩
  · intro baseId size base info hop hb hs hname hinfo h2
    exact collectNames_typeVector X spirv it ns id baseId size base info hop hid hb hs hname
      hinfo h1 h2
  · intro baseId lengthId n base info hop hb hl hname hv hinfo h2
    exact collectNames_typeArray X spirv it ns id baseId lengthId n base info hop hid hb hl
      hname hv hinfo h1 h2
  · intro storage baseId base hop hs hb hname
    exact collectNames_typePointer X spirv it ns id storage baseId base hop hid hs hb hname h1
  · intro hop hwc hlen hall
    rw [collectNames_functionType X spirv it ns id hop hid hwc hlen hall h1]
    by_cases he : commaJoin ((operandIds spirv (it + 3) (WordCount spirv it - 3)).map
        (fun p => ns.resultnames[p]?.getD "")) = ""
    · rw [if_pos he, if_pos ((commaJoin_eq_empty_iff _).mp he)]
    · rw [if_neg he, if_neg (fun h => he ((commaJoin_eq_empty_iff _).mpr h))]
  · intro typeId w typeName T hop ht hi hw hT hname hv
    exact ⟨_, collectNames_constant X spirv it ns typeId id w typeName T hop ht hi hw hT hname
      h1 hv, rfl⟩
  · intro ns1 h hop
    exact collectNames_values X spirv it ns ns1 h hop

theorem C22_witness :
    (typeNamesModule[20 + 1]? = some 5 ∧
      5 < (namesAfter sampleExternals (typeNamesModule.take 20) 10 8).resultnames.length) ∧
      (namesAfter sampleExternals (typeNamesModule.take 20) 10 8).values[3]? = some 5 ∧
      collectNames sampleExternals typeNamesModule 20
          (namesAfter sampleExternals (typeNamesModule.take 20) 10 8)
        = .ok { namesAfter sampleExternals (typeNamesModule.take 20) 10 8 with
            resultnames := ["", "float", "int", "int(5)", "float4", "float4[5]", "", ""],
            typeinfo := [.eSPIRVTypeVoid, .eSPIRVTypeFloat, .eSPIRVTypeUInt32, .eSPIRVTypeVoid,
              .eSPIRVTypeFloat, .eSPIRVTypeFloat, .eSPIRVTypeVoid, .eSPIRVTypeVoid] } ∧
      (namesAfter sampleExternals typeNamesModule 10 8).resultnames
        = ["", "float", "int", "int(5)", "float4", "float4[5]", "float4[5]*",
           "float4, float4[5]*"] :=
  ⟨⟨rfl, by decide⟩, rfl,
    ((C22_type_names sampleExternals typeNamesModule 20
      (namesAfter sampleExternals (typeNamesModule.take 20) 10 8) 5 rfl (by decide)).2.1
      4 3 5 "float4" .eSPIRVTypeFloat rfl rfl rfl rfl rfl rfl (by decide)).trans rfl,
    rfl⟩

/-- Claim C22 fails as stated. In `emptyNameModule` the function type 3 has one parameter,
the type 2, to which a `Name` has given the empty name: the joined parameter text is empty
and the function type is named `void`, as if it had no parameter. -/
theorem C22_counterexample :
    sampleExternals.opOf (OpCode emptyNameModule 13) = .OpTypeFunction ∧
      operandIds emptyNameModule (13 + 3) (WordCount emptyNameModule 13 - 3) = [2] ∧
      (namesAfter sampleExternals (emptyNameModule.take 13) 8 6).resultnames[2]? = some "" ∧
      (namesAfter sampleExternals emptyNameModule 8 6).resultnames[3]? = some "void" ∧
      ∃ m, DisassembleSPIRV sampleExternals 8 0 emptyNameModule ""
        = .finished ("\nvoid \x7b4\x7d(void)  \x7b\n  Label5:\n  Return\n" ++
            "\x7d // end of \x7b4\x7d\n") m :=
  ⟨rfl, rfl, rfl, rfl, _, rfl⟩

/-- Claim C23. For every 32-bit value word `w`, the name-collection pass names a scalar
`Constant` `<typeName>(<literal>)`, where the literal follows the base type recorded for
the type ID: for a signed integer type the two's-complement signed decimal of `w`
(`0xFFFFFFFF` gives `-1`), for an unsigned integer type the unsigned decimal of `w`, for the
boolean type `true` if `w` is not zero and `false` otherwise. `TypeInt` records the signed
base type when its signedness operand is not zero and the unsigned one otherwise, and
`TypeBool` records the boolean one. -/
theorem C23_constant_literal (X : Externals) (spirv : List Nat) (it : Nat) (ns : NameState)
    (typeId id w : Nat) (typeName : String) (T : BaseType)
    (hop : X.opOf (OpCode spirv it) = .OpConstant)
    (h1 : spirv[it + 1]? = some typeId) (h2 : spirv[it + 2]? = some id)
    (h3 : spirv[it + 3]? = some w) (hw : w < 2 ^ 32)
    (hT : ns.typeinfo[typeId]? = some T) (hname : ns.resultnames[typeId]? = some typeName)
    (hid : id < ns.resultnames.length) (hv : id < ns.values.length) :
    collectNames X spirv it ns
        = .ok { ns with
            resultnames := ns.resultnames.set id
              (typeName ++ "(" ++ literalString X T w ++ ")"),
            values := ns.values.set id w } ∧
      (T = .eSPIRVTypeSInt32 →
        literalString X T w
          = if w < 2 ^ 31 then Nat.repr w else "-" ++ Nat.repr (2 ^ 32 - w)) ∧
      (T = .eSPIRVTypeUInt32 → literalString X T w = Nat.repr w) ∧
      (T = .eSPIRVTypeBool → literalString X T w = if w ≠ 0 then "true" else "false") ∧
      literalString X .eSPIRVTypeSInt32 0xFFFFFFFF = "-1" ∧
      literalString X .eSPIRVTypeBool 1 = "true" ∧
      (∀ it1 ns0 tid signedness, X.opOf (OpCode spirv it1) = .OpTypeInt →
        spirv[it1 + 1]? = some tid → spirv[it1 + 2]? = some 32 →
        spirv[it1 + 3]? = some signedness →
        tid < ns0.resultnames.length → tid < ns0.typeinfo.length →
        collectNames X spirv it1 ns0
          = .ok { ns0 with
              resultnames := ns0.resultnames.set tid "int",
              typeinfo := ns0.typeinfo.set tid
                (if signedness ≠ 0 then .eSPIRVTypeSInt32 else .eSPIRVTypeUInt32) }) ∧
      (∀ it1 ns0 tid, X.opOf (OpCode spirv it1) = .OpTypeBool →
        spirv[it1 + 1]? = some tid →
        tid < ns0.resultnames.length → tid < ns0.typeinfo.length →
        collectNames X spirv it1 ns0
          = .ok { ns0 with
              resultnames := ns0.resultnames.set tid "bool",
              typeinfo := ns0.typeinfo.set tid .eSPIRVTypeBool }) := by
  refine ⟨collectNames_constant X spirv it ns typeId id w typeName T hop h1 h2 h3 hT hname
    hid hv, ?_, ?_, ?_, (by decide : fmtD32 0xFFFFFFFF = "-1"), rfl, ?_, ?_⟩
  · intro hT; subst hT
    exact fmtD32_eq w hw
  · intro hT; subst hT
    exact fmtU32_eq w hw
  · intro hT; subst hT
    rfl
  · intro it1 ns0 tid signedness hc ht hb hs hr hi
    exact collectNames_typeInt X spirv it1 ns0 tid signedness hc ht hb hs hr hi
  · intro it1 ns0 tid hc ht hr hi
    exact collectNames_typeBool X spirv it1 ns0 tid hc ht hr hi

theorem C23_witness :
    (sampleExternals.opOf (OpCode scalarConstantModule 15) = .OpConstant ∧
      scalarConstantModule[15 + 3]? = some 0xFFFFFFFF ∧ 0xFFFFFFFF < 2 ^ 32 ∧
      (namesAfter sampleExternals (scalarConstantModule.take 15) 10 8).typeinfo[1]?
        = some .eSPIRVTypeSInt32 ∧
      (namesAfter sampleExternals (scalarConstantModule.take 15) 10 8).resultnames[1]?
        = some "int") ∧
      collectNames sampleExternals scalarConstantModule 15
          (namesAfter sampleExternals (scalarConstantModule.take 15) 10 8)
        = .ok { namesAfter sampleExternals (scalarConstantModule.take 15) 10 8 with
            resultnames := ["", "int", "int", "bool", "int(-1)", "", "", ""],
            values := [0, 0, 0, 0, 0xFFFFFFFF, 0, 0, 0] } ∧
      (namesAfter sampleExternals scalarConstantModule 10 8).resultnames
        = ["", "int", "int", "bool", "int(-1)", "int(4294967295)", "bool(true)", "void"] :=
  ⟨⟨rfl, rfl, by decide, rfl, rfl⟩,
    ((C23_constant_literal sampleExternals scalarConstantModule 15
      (namesAfter sampleExternals (scalarConstantModule.take 15) 10 8)
      1 4 0xFFFFFFFF "int" .eSPIRVTypeSInt32 rfl rfl rfl rfl (by decide) rfl rfl
      (by decide) (by decide)).1).trans rfl,
    rfl⟩

/-- Claim C24. The name-collection pass names a `Constant` of the 32-bit float type
`<typeName>(<literal>)`, where the literal is the text that `%f` gives for the value word
read as an IEEE-754 single; with `%f` as the spec describes it, a decimal with six
fractional digits, the bit pattern `0x3F800000` yields `1.000000`. `TypeFloat` records the
float base type. -/
theorem C24_float_literal (X : Externals) (spirv : List Nat) (it : Nat) (ns : NameState)
    (typeId id w : Nat) (typeName : String)
    (hfmt : ∀ v, X.FmtFloat v = fmtF32 v)
    (hop : X.opOf (OpCode spirv it) = .OpConstant)
    (h1 : spirv[it + 1]? = some typeId) (h2 : spirv[it + 2]? = some id)
    (h3 : spirv[it + 3]? = some w)
    (hT : ns.typeinfo[typeId]? = some .eSPIRVTypeFloat)
    (hname : ns.resultnames[typeId]? = some typeName)
    (hid : id < ns.resultnames.length) (hv : id < ns.values.length) :
    collectNames X spirv it ns
        = .ok { ns with
            resultnames := ns.resultnames.set id (typeName ++ "(" ++ fmtF32 w ++ ")"),
            values := ns.values.set id w } ∧
      fmtF32 0x3F800000 = "1.000000" ∧
      (∀ it1 ns0 tid, X.opOf (OpCode spirv it1) = .OpTypeFloat →
        spirv[it1 + 1]? = some tid → spirv[it1 + 2]? = some 32 →
        tid < ns0.resultnames.length → tid < ns0.typeinfo.length →
        collectNames X spirv it1 ns0
          = .ok { ns0 with
              resultnames := ns0.resultnames.set tid "float",
              typeinfo := ns0.typeinfo.set tid .eSPIRVTypeFloat }) := by
  refine ⟨?_, by decide, ?_⟩
  · rw [collectNames_constant X spirv it ns typeId id w typeName _ hop h1 h2 h3 hT hname
      hid hv]
    simp only [literalString, hfmt]
  · intro it1 ns0 tid hc ht hb hr hi
    exact collectNames_typeFloat X spirv it1 ns0 tid hc ht hb hr hi

theorem C24_witness :
    ((∀ v, floatExternals.FmtFloat v = fmtF32 v) ∧
      floatExternals.opOf (OpCode floatConstantModule 8) = .OpConstant ∧
      floatConstantModule[8 + 3]? = some 0x3F800000 ∧
      (namesAfter floatExternals (floatConstantModule.take 8) 10 4).typeinfo[1]?
        = some .eSPIRVTypeFloat) ∧
      collectNames floatExternals floatConstantModule 8
          (namesAfter floatExternals (floatConstantModule.take 8) 10 4)
        = .ok { namesAfter floatExternals (floatConstantModule.take 8) 10 4 with
            resultnames := ["", "float", "float(1.000000)", ""],
            values := [0, 0, 0x3F800000, 0] } ∧
      (namesAfter floatExternals floatConstantModule 10 4).resultnames
        = ["", "float", "float(1.000000)", "void"] :=
  ⟨⟨fun _ => rfl, rfl, rfl, rfl⟩,
    ((C24_float_literal floatExternals floatConstantModule 8
      (namesAfter floatExternals (floatConstantModule.take 8) 10 4)
      1 2 0x3F800000 "float" (fun _ => rfl) rfl rfl rfl rfl rfl rfl
      (by decide) (by decide)).1).trans rfl,
    rfl⟩

theorem collectNames_memberName (X : Externals) (spirv : List Nat) (it : Nat)
    (ns : NameState) (id memberIdx : Nat) (hc : X.opOf (OpCode spirv it) = .OpMemberName)
    (h1 : spirv[it + 1]? = some id) (h2 : spirv[it + 2]? = some memberIdx) :
    collectNames X spirv it ns
      = .ok { ns with
          membernames := (ns.membernames ++
            List.replicate (max ns.membernames.length (memberIdx + 1) - ns.membernames.length)
              none).set memberIdx (some (it + 3)) } := by
  have hk : pass3Case (X.opOf (OpCode spirv it)) = .OpMemberName := by rw [hc]; rfl
  unfold collectNames
  generalize pass3Case (X.opOf (OpCode spirv it)) = k at hk
  subst hk
  simp [word_of_getElem? h1, word_of_getElem? h2, bind, Except.bind, pure, Except.pure]

set_option maxRecDepth 100000 in
/-- Claim C25 fails in the code. In `twoStructModule` member 0 of struct 4 is named `a` and
member 0 of struct 5 is named `b`; the access chain goes into a variable whose type is a
pointer to struct 4, with the constant 0 as its first index, and it is rendered with the
suffix `.b`. The annotation pass has recorded the name `a` in struct 4, but the render pass
takes the name from the table `membernames`, which the name-collection pass indexes by the
member index alone: whatever struct a `MemberName` targets, it overwrites the entry of its
member index. -/
theorem C25_member_name_of_other_struct :
    (∃ m inst t, DisassembleSPIRV sampleExternals 16 0 twoStructModule ""
        = .finished ("\nvoid \x7b9\x7d(void)  \x7b\n" ++
            "  Label10:\n" ++
            "\n" ++
            "  Unrecognised struct* \x7b11\x7d\n" ++
            "  int* \x7b12\x7d = \x7b11\x7d.b\n" ++
            "  Return\n" ++
            "\x7d // end of \x7b9\x7d\n") m ∧
        m.operations[5]? = some inst ∧ inst.id = 4 ∧ inst.type = some t ∧
        t.type = .eStruct ∧ t.children.map Prod.snd = ["a"]) ∧
      ∀ (X : Externals) (spirv : List Nat) (it : Nat) (ns : NameState) (id memberIdx : Nat),
        X.opOf (OpCode spirv it) = .OpMemberName →
        spirv[it + 1]? = some id → spirv[it + 2]? = some memberIdx →
        collectNames X spirv it ns
          = .ok { ns with
              membernames := (ns.membernames ++
                List.replicate
                  (max ns.membernames.length (memberIdx + 1) - ns.membernames.length)
                  none).set memberIdx (some (it + 3)) } :=
  ⟨⟨_, _, _, rfl, rfl, rfl, rfl, rfl, rfl⟩,
    fun X spirv it ns id memberIdx hc h1 h2 =>
      collectNames_memberName X spirv it ns id memberIdx hc h1 h2⟩

set_option maxRecDepth 100000 in
/-- Claim C26 fails in the code. In `variableIndexModule` the first index of the access
chain is the result of a `Load`, not a constant, and the chain goes into an array; it is
rendered with the suffix `.a`, the name of member 0 of a struct that the chain does not
touch: the render pass reads the entry of the table `values` for the index, which is 0 for
an ID that no `Constant` defines, and finds member index 0 in the table of member names. In
`unnamedMemberModule` only member 1 of the struct is named and the first index is the
constant 0: the entry of member 0 in the table is a null pointer, and the render pass
formats it as a string, which gives the suffix `.(null)`. -/
theorem C26_variable_index_rendered_as_member :
    (∃ m inst, DisassembleSPIRV sampleExternals 17 0 variableIndexModule ""
        = .finished ("\nvoid \x7b9\x7d(void)  \x7b\n" ++
            "  Label10:\n" ++
            "\n" ++
            "  Unrecognised int[4]* \x7b11\x7d\n" ++
            "  Unrecognised int* \x7b12\x7d\n" ++
            "  int \x7b13\x7d = Load(\x7b12\x7d) \n" ++
            "  int* \x7b14\x7d = \x7b11\x7d.a\n" ++
            "  Return\n" ++
            "\x7d // end of \x7b9\x7d\n") m ∧
        variableIndexModule[56 + 4]? = some 13 ∧
        m.operations[13]? = some inst ∧ inst.id = 13 ∧
        sampleExternals.opOf inst.opcode = .OpLoad) ∧
      (∃ m, DisassembleSPIRV sampleExternals 14 0 unnamedMemberModule ""
        = .finished ("\nvoid \x7b9\x7d(void)  \x7b\n" ++
            "  Label10:\n" ++
            "\n" ++
            "  Unrecognised struct* \x7b11\x7d\n" ++
            "  int* \x7b12\x7d = \x7b11\x7d.(null)\n" ++
            "  Return\n" ++
            "\x7d // end of \x7b9\x7d\n") m ∧
        unnamedMemberModule[45 + 4]? = some 8 ∧
        (namesAfter sampleExternals unnamedMemberModule 14 13).values[8]? = some 0 ∧
        (namesAfter sampleExternals unnamedMemberModule 14 13).membernames[0]? = some none) :=
  ⟨⟨_, _, rfl, rfl, rfl, rfl, rfl⟩, _, rfl, rfl, rfl, rfl⟩

theorem extInstName_not_mem (X : Externals) (extset instruction : Nat) :
    ∀ (sets : List Nat) (name : String), extset ∉ sets →
      extInstName X extset instruction sets name = .ok name := by
  intro sets
  induction sets with
  | nil => intro name _; rfl
  | cons e rest ih =>
    intro name hmem
    have he : e ≠ extset := fun h => hmem (h ▸ List.mem_cons_self _ _)
    have hr : extset ∉ rest := fun h => hmem (List.mem_cons_of_mem _ h)
    simp only [extInstName, if_neg he]
    exact ih name hr

theorem extInstName_in_range (X : Externals) (extset instruction : Nat) (n : String)
    (hn : X.GLSL_STD_450_names[instruction]? = some n) :
    ∀ (sets : List Nat) (name : String), extset ∈ sets →
      extInstName X extset instruction sets name = .ok n := by
  intro sets
  induction sets with
  | nil => intro name hmem; cases hmem
  | cons e rest ih =>
    intro name hmem
    by_cases he : e = extset
    · simp only [extInstName, if_pos he, hn]
      by_cases hr : extset ∈ rest
      · exact ih n hr
      · exact extInstName_not_mem X extset instruction rest n hr
    · simp only [extInstName, if_neg he]
      rcases List.mem_cons.mp hmem with h | h
      · exact absurd h.symm he
      · exact ih name h

theorem extInstName_out_of_range (X : Externals) (extset instruction : Nat)
    (hn : X.GLSL_STD_450_names[instruction]? = none) :
    ∀ (sets : List Nat) (name : String), extset ∈ sets →
      extInstName X extset instruction sets name = .error (.NameOutOfRange instruction) := by
  intro sets
  induction sets with
  | nil => intro name hmem; cases hmem
  | cons e rest ih =>
    intro name hmem
    by_cases he : e = extset
    · simp only [extInstName, if_pos he, hn]
    · simp only [extInstName, if_neg he]
      rcases List.mem_cons.mp hmem with h | h
      · exact absurd h.symm he
      · exact ih name h

theorem renderInstruction_extInst (X : Externals) (spirv : List Nat) (idbound : Nat)
    (ns : NameState) (it : Nat) (r : RenderState) (retType result extset instruction : Nat)
    (found typeName name setName : String)
    (hc : X.opOf (OpCode spirv it) = .OpExtInst)
    (h1 : spirv[it + 1]? = some retType) (h2 : spirv[it + 2]? = some result)
    (h3 : spirv[it + 3]? = some extset) (h4 : spirv[it + 4]? = some instruction)
    (hfound : extInstName X extset instruction r.extensionSets "" = .ok found)
    (hwc : 5 ≤ WordCount spirv it) (hlen : it + WordCount spirv it ≤ spirv.length)
    (hall : ∀ p ∈ operandIds spirv (it + 5) (WordCount spirv it - 5), p < r.resultnames.length)
    (htype : r.resultnames[retType]? = some typeName)
    (hname : r.resultnames[result]? = some name)
    (hset : r.resultnames[extset]? = some setName) :
    renderInstruction X spirv idbound ns it r
      = .ok (r.emitLine (typeName ++ " " ++ name ++ " = " ++ setName ++ "::" ++
          (if found = "" then "Unknown" ++ fmtU32 instruction else found) ++ "(" ++
          commaJoin ((operandIds spirv (it + 5) (WordCount spirv it - 5)).map
            (fun p => r.resultnames[p]?.getD "")) ++ ")")) := by
  have hk : pass4Case (X.opOf (OpCode spirv it)) = .OpExtInst := by rw [hc]; rfl
  have hj := joinNames_eq r.resultnames spirv it (WordCount spirv it)
    (WordCount spirv it - 5) 5 (by omega) hlen hall
  unfold renderInstruction
  generalize pass4Case (X.opOf (OpCode spirv it)) = k at hk
  subst hk
  simp only [word_of_getElem? h1, word_of_getElem? h2, word_of_getElem? h3,
    word_of_getElem? h4, hfound, hj, getAt_eq _ _ _ htype, getAt_eq _ _ _ hname,
    getAt_eq _ _ _ hset, bind, Except.bind, pure, Except.pure]

theorem renderInstruction_extInst_fault (X : Externals) (spirv : List Nat) (idbound : Nat)
    (ns : NameState) (it : Nat) (r : RenderState) (retType result extset instruction : Nat)
    (e : Fault)
    (hc : X.opOf (OpCode spirv it) = .OpExtInst)
    (h1 : spirv[it + 1]? = some retType) (h2 : spirv[it + 2]? = some result)
    (h3 : spirv[it + 3]? = some extset) (h4 : spirv[it + 4]? = some instruction)
    (hfound : extInstName X extset instruction r.extensionSets "" = .error e) :
    renderInstruction X spirv idbound ns it r = .error e := by
  have hk : pass4Case (X.opOf (OpCode spirv it)) = .OpExtInst := by rw [hc]; rfl
  unfold renderInstruction
  generalize pass4Case (X.opOf (OpCode spirv it)) = k at hk
  subst hk
  simp only [word_of_getElem? h1, word_of_getElem? h2, word_of_getElem? h3,
    word_of_getElem? h4, hfound, bind, Except.bind, pure, Except.pure]

/-- Claim C27 fails in the code. An `ExtInst` is rendered as
`<type> <result> = <set>::<name>(<args>)` with the names of the arguments joined with
`", "`. When the set has no name table, `<name>` is `Unknown<idx>`; when the set is
`GLSL.std.450` and `idx` is within its table, `<name>` is entry `idx` (`Unknown<idx>` if
the entry is empty). When the set is `GLSL.std.450` and `idx` is at or beyond the end
of the table, the code does not fall back to `Unknown<idx>`: it indexes the table with
`idx` unchecked, a read past the end of the table. -/
theorem C27_ext_inst_name_unchecked (X : Externals) (spirv : List Nat) (idbound : Nat)
    (ns : NameState) (it : Nat) (r : RenderState) (retType result extset instruction : Nat)
    (hc : X.opOf (OpCode spirv it) = .OpExtInst)
    (h1 : spirv[it + 1]? = some retType) (h2 : spirv[it + 2]? = some result)
    (h3 : spirv[it + 3]? = some extset) (h4 : spirv[it + 4]? = some instruction) :
    (extset ∈ r.extensionSets → X.GLSL_STD_450_names.length ≤ instruction →
        renderInstruction X spirv idbound ns it r = .error (.NameOutOfRange instruction)) ∧
      (∀ typeName name setName, 5 ≤ WordCount spirv it →
        it + WordCount spirv it ≤ spirv.length →
        (∀ p ∈ operandIds spirv (it + 5) (WordCount spirv it - 5), p < r.resultnames.length) →
        r.resultnames[retType]? = some typeName → r.resultnames[result]? = some name →
        r.resultnames[extset]? = some setName →
        (extset ∉ r.extensionSets →
          renderInstruction X spirv idbound ns it r
            = .ok (r.emitLine (typeName ++ " " ++ name ++ " = " ++ setName ++ "::" ++
                ("Unknown" ++ fmtU32 instruction) ++ "(" ++
                commaJoin ((operandIds spirv (it + 5) (WordCount spirv it - 5)).map
                  (fun p => r.resultnames[p]?.getD "")) ++ ")"))) ∧
        (∀ n, extset ∈ r.extensionSets → X.GLSL_STD_450_names[instruction]? = some n →
          renderInstruction X spirv idbound ns it r
            = .ok (r.emitLine (typeName ++ " " ++ name ++ " = " ++ setName ++ "::" ++
                (if n = "" then "Unknown" ++ fmtU32 instruction else n) ++ "(" ++
                commaJoin ((operandIds spirv (it + 5) (WordCount spirv it - 5)).map
                  (fun p => r.resultnames[p]?.getD "")) ++ ")")))) := by
  refine ⟨fun hmem hidx => ?_, fun typeName name setName hwc hlen hall ht hn hs => ⟨?_, ?_⟩⟩
  · exact renderInstruction_extInst_fault X spirv idbound ns it r retType result extset
      instruction _ hc h1 h2 h3 h4
      (extInstName_out_of_range X extset instruction (List.getElem?_eq_none hidx) _ _ hmem)
  · intro hmem
    exact renderInstruction_extInst X spirv idbound ns it r retType result extset instruction
      "" typeName name setName hc h1 h2 h3 h4
      (extInstName_not_mem X extset instruction _ _ hmem) hwc hlen hall ht hn hs
  · intro n hmem hidx
    exact renderInstruction_extInst X spirv idbound ns it r retType result extset instruction
      n typeName name setName hc h1 h2 h3 h4
      (extInstName_in_range X extset instruction n hidx _ _ hmem) hwc hlen hall ht hn hs

set_option maxRecDepth 100000 in
theorem C27_witness :
    (glslExternals.opOf (OpCode extInstModule 38) = .OpExtInst ∧
      extInstModule[38 + 3]? = some 1 ∧ extInstModule[38 + 4]? = some 7 ∧
      glslExternals.GLSL_STD_450_names.length = 3) ∧
      renderInstruction glslExternals extInstModule 10 (NameState.new 10) 38
          { renderStart "" (NameState.new 10) with extensionSets := [1] }
        = .error (.NameOutOfRange 7) ∧
      DisassembleSPIRV glslExternals 11 0 extInstModule "" = .fault (.NameOutOfRange 7) ∧
      ∃ m, DisassembleSPIRV glslExternals 10 0 extInstInRangeModule ""
        = .finished ("ExtInstImport GLSL.std.450\n" ++
            "\nvoid \x7b6\x7d(void)  \x7b\n" ++
            "  Label7:\n" ++
            "  int \x7b8\x7d = GLSL.std.450::RoundEven(int(7), int(7))\n" ++
            "  Return\n" ++
            "\x7d // end of \x7b6\x7d\n") m :=
  ⟨⟨rfl, rfl, rfl, rfl⟩,
    (C27_ext_inst_name_unchecked glslExternals extInstModule 10 (NameState.new 10) 38
      { renderStart "" (NameState.new 10) with extensionSets := [1] } 4 9 1 7
      rfl rfl rfl rfl rfl).1 (by decide) (by decide),
    rfl, _, rfl⟩

theorem rawOperands_eq (spirv : List Nat) (idbound it wc : Nat) :
    ∀ n i, i + n = wc → it + wc ≤ spirv.length →
      rawOperands spirv idbound it wc n i
        = .ok (operandText idbound (operandIds spirv (it + i) n)) := by
  intro n
  induction n with
  | zero => intro i _ _; simp [rawOperands, operandIds, operandText]
  | succ n ih =>
    intro i hi hlen
    have hlt : it + i < spirv.length := by omega
    rw [operandIds_succ _ _ _ hlt]
    have hw : word spirv (it + i) = .ok spirv[it + i] :=
      word_of_getElem? (List.getElem?_eq_getElem hlt)
    have hrest := ih (i + 1) (by omega) hlen
    rw [← Nat.add_assoc] at hrest
    simp only [rawOperands, hw, hrest, bind, Except.bind, pure, Except.pure]
    congr 1
    cases n with
    | zero =>
      have : ¬ i + 1 < wc := by omega
      simp [this, operandIds, operandText, commaJoin]
    | succ n =>
      have : i + 1 < wc := by omega
      have hlt1 : it + i + 1 < spirv.length := by omega
      rw [operandIds_succ _ _ _ hlt1]
      simp only [this, if_true, operandText, List.map_cons, commaJoin, reduceCtorEq, if_false]
      apply String.ext
      simp only [String.data_append, List.append_assoc]
      rfl

theorem renderInstruction_default (X : Externals) (spirv : List Nat) (idbound : Nat)
    (ns : NameState) (it : Nat) (r : RenderState)
    (hk : pass4Case (X.opOf (OpCode spirv it)) = .default)
    (hlen : it + WordCount spirv it ≤ spirv.length) :
    renderInstruction X spirv idbound ns it r
      = .ok (r.emitLine ("!" ++ ToStrOp X (OpCode spirv it) ++
          operandText idbound (operandIds spirv (it + 1) (WordCount spirv it - 1)))) := by
  have hr : rawOperands spirv idbound it (WordCount spirv it) (WordCount spirv it - 1) 1
      = .ok (operandText idbound (operandIds spirv (it + 1) (WordCount spirv it - 1))) := by
    by_cases h0 : WordCount spirv it = 0
    · simp [h0, rawOperands, operandIds, operandText]
    · exact rawOperands_eq spirv idbound it (WordCount spirv it) (WordCount spirv it - 1) 1
        (by omega) hlen
  unfold renderInstruction
  generalize pass4Case (X.opOf (OpCode spirv it)) = k at hk
  subst hk
  simp only [hr, bind, Except.bind, pure, Except.pure]

theorem fmtHashX_eq (w : Nat) (h0 : 0 < w) (h : w < 2 ^ 32) :
    fmtHashX w = "0x" ++ String.mk (Nat.toDigits 16 w) := by
  unfold fmtHashX
  rw [Nat.mod_eq_of_lt h, if_neg (by omega)]

/-- Claim C28. An instruction whose opcode has no case in the render pass is emitted as one
line: `!` and the name of the opcode, followed by its operand words in order, each
preceded by a space and separated by commas; an operand above the ID bound is written in
hexadecimal (with the prefix `0x`), an operand at or below the ID bound in decimal. -/
theorem C28_unknown_opcode_fallback (X : Externals) (spirv : List Nat) (idbound : Nat)
    (ns : NameState) (it : Nat) (r : RenderState)
    (hk : pass4Case (X.opOf (OpCode spirv it)) = .default)
    (hlen : it + WordCount spirv it ≤ spirv.length) :
    renderInstruction X spirv idbound ns it r
        = .ok { r with
            disasm := r.disasm ++ spaces r.indent ++
              ("!" ++ ToStrOp X (OpCode spirv it) ++
                operandText idbound (operandIds spirv (it + 1) (WordCount spirv it - 1))) ++
              "\n" } ∧
      (∀ w, w < 2 ^ 32 → fmtU32 w = Nat.repr w) ∧
      (∀ w, 0 < w → w < 2 ^ 32 → fmtHashX w = "0x" ++ String.mk (Nat.toDigits 16 w)) :=
  ⟨renderInstruction_default X spirv idbound ns it r hk hlen, fmtU32_eq, fmtHashX_eq⟩

theorem C28_witness :
    (pass4Case (sampleExternals.opOf (OpCode unknownOpcodeModule 10)) = .default ∧
      10 + WordCount unknownOpcodeModule 10 ≤ unknownOpcodeModule.length) ∧
      renderInstruction sampleExternals unknownOpcodeModule 3 (NameState.new 3) 10
          (renderStart "" (NameState.new 3))
        = .ok { renderStart "" (NameState.new 3) with
            disasm := "!ExecutionMode 2, 3, 0xc8\n" } ∧
      ∃ m, DisassembleSPIRV sampleExternals 3 0 unknownOpcodeModule ""
        = .finished "!ConstantTrue 1, 2\n!ExecutionMode 2, 3, 0xc8\n" m :=
  ⟨⟨rfl, by decide⟩,
    ((C28_unknown_opcode_fallback sampleExternals unknownOpcodeModule 3 (NameState.new 3) 10
      (renderStart "" (NameState.new 3)) rfl (by decide)).1).trans rfl,
    _, rfl⟩

theorem unindent_ok {r r1 : RenderState} (h : r.unindent = .ok r1) :
    2 ≤ r.indent ∧ r1 = { r with indent := r.indent - 2 } := by
  unfold RenderState.unindent at h
  split at h
  · cases h; exact ⟨by assumption, rfl⟩
  · cases h

theorem pure_ok_elim {α : Type} {a b : α} (h : (pure a : Except Fault α) = .ok b) : a = b := by
  cases h
  rfl

theorem renderInstruction_branch (X : Externals) (spirv : List Nat) (idbound : Nat)
    (ns : NameState) (it : Nat) (r : RenderState) (target : Nat) (name : String)
    (hc : X.opOf (OpCode spirv it) = .OpBranch) (h1 : spirv[it + 1]? = some target)
    (hname : r.resultnames[target]? = some name) :
    renderInstruction X spirv idbound ns it r = .ok (r.emitLine ("goto " ++ name)) := by
  have hk : pass4Case (X.opOf (OpCode spirv it)) = .OpBranch := by rw [hc]; rfl
  unfold renderInstruction
  generalize pass4Case (X.opOf (OpCode spirv it)) = k at hk
  subst hk
  simp only [word_of_getElem? h1, getAt_eq _ _ _ hname, bind, Except.bind, pure, Except.pure]

theorem renderInstruction_branchConditional (X : Externals) (spirv : List Nat)
    (idbound : Nat) (ns : NameState) (it : Nat) (r : RenderState)
    (condition truelabel falselabel : Nat) (condName trueName falseName : String)
    (hc : X.opOf (OpCode spirv it) = .OpBranchConditional) (hwc : WordCount spirv it = 4)
    (h1 : spirv[it + 1]? = some condition) (h2 : spirv[it + 2]? = some truelabel)
    (h3 : spirv[it + 3]? = some falselabel)
    (hcond : r.resultnames[condition]? = some condName)
    (htrue : r.resultnames[truelabel]? = some trueName)
    (hfalse : r.resultnames[falselabel]? = some falseName) :
    renderInstruction X spirv idbound ns it r
      = .ok (r.emitLine ("if(" ++ condName ++ ") goto " ++ trueName ++ ", else goto " ++
          falseName)) := by
  have hk : pass4Case (X.opOf (OpCode spirv it)) = .OpBranchConditional := by rw [hc]; rfl
  unfold renderInstruction
  generalize pass4Case (X.opOf (OpCode spirv it)) = k at hk
  subst hk
  simp only [word_of_getElem? h1, word_of_getElem? h2, word_of_getElem? h3, hwc,
    getAt_eq _ _ _ hcond, getAt_eq _ _ _ htrue, getAt_eq _ _ _ hfalse, if_true, bind,
    Except.bind, pure, Except.pure]

/-- Claim C31. A `Branch` is rendered as `goto <label>` with the result name of its target,
and a `BranchConditional` with word count 4 as `if(<cond>) goto <t>, else goto <f>` with
the result names of the condition, the true target and the false target, in that order. -/
theorem C31_branches (X : Externals) (spirv : List Nat) (idbound : Nat) (ns : NameState)
    (it : Nat) (r : RenderState) :
    (∀ target name, X.opOf (OpCode spirv it) = .OpBranch → spirv[it + 1]? = some target →
        r.resultnames[target]? = some name →
        renderInstruction X spirv idbound ns it r
          = .ok { r with disasm := r.disasm ++ spaces r.indent ++ ("goto " ++ name) ++ "\n" }) ∧
      (∀ condition truelabel falselabel condName trueName falseName,
        X.opOf (OpCode spirv it) = .OpBranchConditional → WordCount spirv it = 4 →
        spirv[it + 1]? = some condition → spirv[it + 2]? = some truelabel →
        spirv[it + 3]? = some falselabel →
        r.resultnames[condition]? = some condName →
        r.resultnames[truelabel]? = some trueName →
        r.resultnames[falselabel]? = some falseName →
        renderInstruction X spirv idbound ns it r
          = .ok { r with
              disasm := r.disasm ++ spaces r.indent ++
                ("if(" ++ condName ++ ") goto " ++ trueName ++ ", else goto " ++ falseName) ++
                "\n" }) :=
  ⟨fun target name hc h1 hn => renderInstruction_branch X spirv idbound ns it r target name
      hc h1 hn,
    fun condition truelabel falselabel condName trueName falseName hc hwc h1 h2 h3 hcn ht hf =>
      renderInstruction_branchConditional X spirv idbound ns it r condition truelabel
        falselabel condName trueName falseName hc hwc h1 h2 h3 hcn ht hf⟩

theorem pass4_eq_scan (X : Externals) (spirv : List Nat) (idbound : Nat) (ns : NameState) :
    ∀ fuel it r,
      pass4 X spirv idbound ns fuel it r
        = scan (renderInstruction X spirv idbound ns) spirv fuel it r := by
  intro fuel
  induction fuel with
  | zero => intro it s; rfl
  | succ fuel ih =>
    intro it s
    unfold pass4 scan
    split
    · cases renderInstruction X spirv idbound ns it s with
      | error e => rfl
      | ok s1 => exact ih _ _
    · rfl

theorem C31_witness :
    (sampleExternals.opOf (OpCode plainBranchModule 32) = .OpBranchConditional ∧
      WordCount plainBranchModule 32 = 4 ∧
      sampleExternals.opOf (OpCode plainBranchModule 38) = .OpBranch) ∧
      renderInstruction sampleExternals plainBranchModule 11
          (namesAfter sampleExternals plainBranchModule 14 11) 32
          (renderStart "" (namesAfter sampleExternals plainBranchModule 14 11))
        = .ok { renderStart "" (namesAfter sampleExternals plainBranchModule 14 11) with
            disasm := "if(\x7b8\x7d) goto Label9, else goto Label10\n" } ∧
      renderInstruction sampleExternals plainBranchModule 11
          (namesAfter sampleExternals plainBranchModule 14 11) 38
          (renderStart "" (namesAfter sampleExternals plainBranchModule 14 11))
        = .ok { renderStart "" (namesAfter sampleExternals plainBranchModule 14 11) with
            disasm := "goto Label10\n" } :=
  ⟨⟨rfl, rfl, rfl⟩,
    ((C31_branches sampleExternals plainBranchModule 11
      (namesAfter sampleExternals plainBranchModule 14 11) 32
      (renderStart "" (namesAfter sampleExternals plainBranchModule 14 11))).2
      8 9 10 "\x7b8\x7d" "Label9" "Label10" rfl rfl rfl rfl rfl rfl rfl rfl).trans rfl,
    ((C31_branches sampleExternals plainBranchModule 11
      (namesAfter sampleExternals plainBranchModule 14 11) 38
      (renderStart "" (namesAfter sampleExternals plainBranchModule 14 11))).1
      10 "Label10" rfl rfl rfl).trans rfl⟩

theorem decodeInstruction_branchConditional (X : Externals) (spirv : List Nat) (it : Nat)
    (s s1 : DecodeState) (hop : X.opOf (OpCode spirv it) = .OpBranchConditional)
    (hwc : WordCount spirv it ≠ 6) (h : decodeInstruction X spirv it s = .ok s1) :
    ∃ inst flow, s1.module.operations.getLast? = some inst ∧ inst.flow = some flow ∧
      flow.literals = [] := by
  have hk : pass1Case (X.opOf (OpCode spirv it)) = .OpBranchConditional := by rw [hop]; rfl
  unfold decodeInstruction at h
  generalize pass1Case (X.opOf (OpCode spirv it)) = k at h hk
  subst hk
  dsimp only at h
  obtain ⟨condId, _, h⟩ := bind_ok_elim h
  obtain ⟨cond, _, h⟩ := bind_ok_elim h
  obtain ⟨t, _, h⟩ := bind_ok_elim h
  obtain ⟨f, _, h⟩ := bind_ok_elim h
  rw [if_neg hwc] at h
  obtain ⟨lits, hl, h⟩ := bind_ok_elim h
  obtain rfl := pure_ok_elim hl
  obtain ⟨s2, _, h⟩ := bind_ok_elim h
  cases h
  exact ⟨_, _, List.getLast?_concat _, rfl, rfl⟩

/-- Claim C32 fails in the code. The render pass takes the weighted form of a
`BranchConditional` for every word count other than 4: it reads the words 4 and 5 after the
header as the weights, whatever the word count is, and writes the line with the three
names and the two percentages `float(w) / float(wA + wB) * 100.0f` in the conversion
`%.2f`. The structural pass records the weights for word count 6 only: for any other word
count the decoded instruction has no weight literals. With word count 5 the word read as
the second weight is the header of the next instruction. -/
theorem C32_weighted_branch_format (X : Externals) (spirv : List Nat) (idbound : Nat)
    (ns : NameState) (it : Nat) (r : RenderState)
    (condition truelabel falselabel weightA weightB : Nat)
    (condName trueName falseName : String)
    (hc : X.opOf (OpCode spirv it) = .OpBranchConditional) (hwc : WordCount spirv it ≠ 4)
    (h1 : spirv[it + 1]? = some condition) (h2 : spirv[it + 2]? = some truelabel)
    (h3 : spirv[it + 3]? = some falselabel)
    (h4 : spirv[it + 4]? = some weightA) (h5 : spirv[it + 5]? = some weightB)
    (hcond : r.resultnames[condition]? = some condName)
    (htrue : r.resultnames[truelabel]? = some trueName)
    (hfalse : r.resultnames[falselabel]? = some falseName) :
    renderInstruction X spirv idbound ns it r
        = .ok { r with
            disasm := r.disasm ++ spaces r.indent ++
              ("if(" ++ condName ++ ") goto " ++
                fmtF32p2 (f32Mul (f32Div (f32OfU32 weightA)
                  (f32OfU32 ((weightA + weightB) % 2 ^ 32))) f32Hundred) ++ "% " ++
                trueName ++ ", else goto " ++
                fmtF32p2 (f32Mul (f32Div (f32OfU32 weightB)
                  (f32OfU32 ((weightA + weightB) % 2 ^ 32))) f32Hundred) ++ "% " ++
                falseName) ++ "\n" } ∧
      ∀ s s1, WordCount spirv it ≠ 6 → decodeInstruction X spirv it s = .ok s1 →
        ∃ inst flow, s1.module.operations.getLast? = some inst ∧ inst.flow = some flow ∧
          flow.literals = [] := by
  refine ⟨?_, fun s s1 h6 h => decodeInstruction_branchConditional X spirv it s s1 hc h6 h⟩
  have hk : pass4Case (X.opOf (OpCode spirv it)) = .OpBranchConditional := by rw [hc]; rfl
  unfold renderInstruction
  generalize pass4Case (X.opOf (OpCode spirv it)) = k at hk
  subst hk
  simp only [word_of_getElem? h1, word_of_getElem? h2, word_of_getElem? h3,
    word_of_getElem? h4, word_of_getElem? h5, hwc,
    getAt_eq _ _ _ hcond, getAt_eq _ _ _ htrue, getAt_eq _ _ _ hfalse, if_false, bind,
    Except.bind, pure, Except.pure]
  rfl

set_option maxRecDepth 100000 in
theorem C32_witness :
    (sampleExternals.opOf (OpCode oddBranchModule 32) = .OpBranchConditional ∧
      WordCount oddBranchModule 32 = 5 ∧
      oddBranchModule[32 + 4]? = some 1 ∧ oddBranchModule[32 + 5]? = some (headerWord 2 208) ∧
      sampleExternals.opOf (OpCode oddBranchModule (32 + 5)) = .OpLabel ∧
      (32 + 5) ∈ instructionOffsets oddBranchModule 14 5) ∧
      renderInstruction sampleExternals oddBranchModule 11
          (namesAfter sampleExternals oddBranchModule 14 11) 32
          (renderStart "" (namesAfter sampleExternals oddBranchModule 14 11))
        = .ok { renderStart "" (namesAfter sampleExternals oddBranchModule 14 11) with
            disasm := "if(\x7b8\x7d) goto 0.00% Label9, else goto 100.00% Label10\n" } ∧
      (∃ inst flow, (stateAfter sampleExternals oddBranchModule 14).module.operations[8]?
          = some inst ∧
        sampleExternals.opOf inst.opcode = .OpBranchConditional ∧
        inst.flow = some flow ∧ flow.literals = []) ∧
      (∃ m, DisassembleSPIRV sampleExternals 14 0 oddBranchModule ""
        = .finished ("\nvoid \x7b6\x7d(void)  \x7b\n  Label7:\n" ++
            "  bool \x7b8\x7d = int(7) < int(7)\n" ++
            "  if(\x7b8\x7d) goto 0.00% Label9, else goto 100.00% Label10\n" ++
            "  Label9:\n  Return\n  Label10:\n  Return\n\x7d // end of \x7b6\x7d\n") m) ∧
      ∃ m, DisassembleSPIRV sampleExternals 14 0 weightedBranchModule ""
        = .finished ("\nvoid \x7b6\x7d(void)  \x7b\n  Label7:\n" ++
            "  bool \x7b8\x7d = int(7) < int(7)\n" ++
            "  if(\x7b8\x7d) goto 25.00% Label9, else goto 75.00% Label10\n" ++
            "  Label9:\n  Return\n  Label10:\n  Return\n\x7d // end of \x7b6\x7d\n") m :=
  ⟨⟨rfl, rfl, rfl, rfl, rfl, by decide⟩,
    ((C32_weighted_branch_format sampleExternals oddBranchModule 11
      (namesAfter sampleExternals oddBranchModule 14 11) 32
      (renderStart "" (namesAfter sampleExternals oddBranchModule 14 11))
      8 9 10 1 (headerWord 2 208) "\x7b8\x7d" "Label9" "Label10" rfl (by decide) rfl rfl rfl
      rfl rfl rfl rfl rfl).1).trans rfl,
    ⟨_, _, rfl, rfl, rfl, rfl⟩, ⟨_, rfl⟩, ⟨_, rfl⟩⟩

theorem map_payloadPart_modifyInst (m : SPVModule) (b : Nat)
    (g : SPVInstruction → SPVInstruction) (hg : ∀ a, payloadPart (g a) = payloadPart a) :
    (m.modifyInst b g).operations.map payloadPart = m.operations.map payloadPart := by
  simp only [SPVModule.modifyInst]
  exact map_modify_same _ g hg _ _

theorem map_payloadPart_modifyFunc (m : SPVModule) (j : Nat) (f : SPVFunction → SPVFunction) :
    (m.modifyFunc j f).operations.map payloadPart = m.operations.map payloadPart :=
  map_payloadPart_modifyInst m j _ (fun a => by simp [payloadPart, payloads])

theorem map_payloadPart_modifyBlock (m : SPVModule) (j : Nat) (f : SPVBlock → SPVBlock) :
    (m.modifyBlock j f).operations.map payloadPart = m.operations.map payloadPart :=
  map_payloadPart_modifyInst m j _ (fun a => by simp [payloadPart, payloads])

/-- One step of the structural pass on the payloads: the new instruction takes the opcode at
`it` and the payload that the body for its opcode sets; the opcode and the payloads of every
earlier instruction stay. -/
theorem decodeInstruction_payloads (X : Externals) (spirv : List Nat) (it : Nat)
    (s s1 : DecodeState) (h : decodeInstruction X spirv it s = .ok s1) :
    s1.module.operations.map payloadPart
      = s.module.operations.map payloadPart ++
        [(OpCode spirv it, payloadsOf (pass1Case (X.opOf (OpCode spirv it))))] := by
  obtain ⟨m, cf, cb⟩ := s
  unfold decodeInstruction at h
  generalize pass1Case (X.opOf (OpCode spirv it)) = k at h
  cases k <;> cases cf <;> dsimp only at h <;>
    repeat' (first | (obtain ⟨_, hh, h⟩ := bind_ok_elim h) | split at h)
  all_goals cases h
  all_goals
    (try (obtain ⟨hlt, rfl⟩ := assignId_eq (by assumption)))
  all_goals
    (try (obtain ⟨b, rfl⟩ := appendToBlock_eq (by assumption)))
  all_goals
    (try (obtain ⟨b, rfl⟩ := closeBlock_eq (by assumption)))
  all_goals
    (try (obtain ⟨b, rfl⟩ := mergeBlock_eq (by assumption)))
  all_goals
    first
    | rfl
    | (simp only [DecodeState.emit, List.map_append, map_payloadPart_modifyFunc,
        map_payloadPart_modifyBlock]; rfl)

/-- The annotation pass leaves the opcode and the payload pointers of every instruction as
they are. -/
theorem annotateInstruction_payloads (X : Externals) (spirv : List Nat) (it : Nat)
    (m m1 : SPVModule) (h : annotateInstruction X spirv it m = .ok m1) :
    m1.operations.map payloadPart = m.operations.map payloadPart := by
  unfold annotateInstruction at h
  generalize pass2Case (X.opOf (OpCode spirv it)) = k at h
  cases k <;> first
    | (cases h; rfl)
    | (dsimp only at h
       repeat' (first | (obtain ⟨_, hh, h⟩ := bind_ok_elim h) | split at h)
       all_goals cases h
       all_goals refine map_payloadPart_modifyInst _ _ _ (fun a => ?_)
       all_goals simp [payloadPart, payloads])

theorem payloadsOf_count (k : Pass1Case) : (payloadsOf k).count true ≤ 1 := by
  cases k <;> decide

/-- Claim C33. In a decoded module every instruction has at most one of its nine payloads
set, and which one, if any, is a function of its opcode alone: it is the payload that the
body of the structural pass for that opcode creates. -/
theorem C33_one_payload (X : Externals) (fuel shadType : Nat) (spirv : List Nat)
    (m : SPVModule) (h : decode X fuel shadType spirv = .done m) :
    ∀ inst ∈ m.operations,
      payloads inst = payloadsOf (pass1Case (X.opOf inst.opcode)) ∧
      (payloads inst).count true ≤ 1 := by
  obtain ⟨mv, g, b, s1, h1, h2⟩ := decode_elim X fuel shadType spirv m h
  have hP1 : ∀ p ∈ s1.module.operations.map payloadPart,
      p.2 = payloadsOf (pass1Case (X.opOf p.1)) := by
    refine pass1_induct X spirv
      (fun s => ∀ p ∈ s.module.operations.map payloadPart,
        p.2 = payloadsOf (pass1Case (X.opOf p.1))) ?_ fuel 5 _ s1 h1 ?_
    · intro it s s2 hs hP p hp
      rw [decodeInstruction_payloads X spirv it s s2 hs] at hp
      rcases List.mem_append.mp hp with hp | hp
      · exact hP p hp
      · rw [List.mem_singleton.mp hp]
    · intro p hp
      simp [initialState, SPVModule.new] at hp
  have hP2 : ∀ p ∈ m.operations.map payloadPart,
      p.2 = payloadsOf (pass1Case (X.opOf p.1)) := by
    refine pass2_induct X spirv
      (fun m0 => ∀ p ∈ m0.operations.map payloadPart,
        p.2 = payloadsOf (pass1Case (X.opOf p.1))) ?_ fuel 5 _ m h2 hP1
    intro it m0 m1 hs hP p hp
    rw [annotateInstruction_payloads X spirv it m0 m1 hs] at hp
    exact hP p hp
  intro inst hinst
  have he := hP2 (payloadPart inst) (List.mem_map_of_mem _ hinst)
  have he' : payloads inst = payloadsOf (pass1Case (X.opOf inst.opcode)) := he
  exact ⟨he', by rw [he']; exact payloadsOf_count _⟩

theorem C33_witness :
    ∃ m, decode sampleExternals 15 0 memoryModule = .done m ∧
      m.operations.map (fun inst => (inst.opcode, (payloads inst).indexOf true))
        = [(8, 4), (21, 4), (10, 4), (20, 4), (40, 5), (208, 6), (38, 8), (38, 8), (46, 2),
           (46, 2), (47, 2), (47, 2), (65, 2), (213, 3), (42, 9)] ∧
      ∀ inst ∈ m.operations,
        payloads inst = payloadsOf (pass1Case (sampleExternals.opOf inst.opcode)) ∧
        (payloads inst).count true ≤ 1 :=
  ⟨_, rfl, rfl, C33_one_payload sampleExternals 15 0 memoryModule _ rfl⟩

/-- Claim C35 fails in the code. `ExtInst` shares the body of the arithmetic opcodes, whose
loop resolves every word from word 3 on as an ID: the set in word 3, the operands from
word 5 on, and also the instruction number in word 4. When no instruction has the
instruction number as its result ID the assertion on the lookup fails, and when the number
is at or above the ID bound the lookup reads outside `ids`, although the type, the set
and the operands are defined. -/
theorem C35_ext_inst_number_resolved (X : Externals) (spirv : List Nat) (it : Nat)
    (s : DecodeState) (typeId type setId set n : Nat)
    (hop : X.opOf (OpCode spirv it) = .OpExtInst) (hwc : 5 ≤ WordCount spirv it)
    (h1 : spirv[it + 1]? = some typeId) (hty : s.module.findType typeId = .ok type)
    (h3 : spirv[it + 3]? = some setId) (hset : s.module.findInst setId = .ok set)
    (h4 : spirv[it + 4]? = some n) :
    (s.module.ids[n]? = some none →
        decodeInstruction X spirv it s = .error (.UnresolvedReference n)) ∧
      (s.module.ids.length ≤ n →
        decodeInstruction X spirv it s = .error (.IdOutOfRange n)) := by
  have hk : pass1Case (X.opOf (OpCode spirv it)) = .OpIAdd := by rw [hop]; rfl
  have hn : WordCount spirv it - 3 = (WordCount spirv it - 5) + 1 + 1 := by omega
  have h4' : spirv[it + 3 + 1]? = some n := h4
  constructor
  · intro hid
    have hfn : s.module.findInst n = .error (.UnresolvedReference n) := by
      simp [SPVModule.findInst, SPVModule.idAt, hid, RDCASSERT, bind, Except.bind]
    unfold decodeInstruction
    generalize pass1Case (X.opOf (OpCode spirv it)) = k at hk
    subst hk
    simp only [word_of_getElem? h1, hty, hn, findInsts, word_of_getElem? h3, hset,
      word_of_getElem? h4', hfn, bind, Except.bind, pure, Except.pure]
  · intro hge
    have hfn : s.module.findInst n = .error (.IdOutOfRange n) := by
      simp [SPVModule.findInst, SPVModule.idAt, List.getElem?_eq_none hge, bind, Except.bind]
    unfold decodeInstruction
    generalize pass1Case (X.opOf (OpCode spirv it)) = k at hk
    subst hk
    simp only [word_of_getElem? h1, hty, hn, findInsts, word_of_getElem? h3, hset,
      word_of_getElem? h4', hfn, bind, Except.bind, pure, Except.pure]

theorem C35_witness :
    (sampleExternals.opOf (OpCode extInstZeroModule 31) = .OpExtInst ∧
      extInstZeroModule[31 + 4]? = some 0 ∧
      (stateAfter sampleExternals (extInstZeroModule.take 31) 8).module.findType 4 = .ok 3 ∧
      (stateAfter sampleExternals (extInstZeroModule.take 31) 8).module.findInst 1 = .ok 0 ∧
      (stateAfter sampleExternals (extInstZeroModule.take 31) 8).module.findInst 5 = .ok 4 ∧
      (stateAfter sampleExternals (extInstZeroModule.take 31) 8).module.ids[0]? = some none) ∧
      decodeInstruction sampleExternals extInstZeroModule 31
          (stateAfter sampleExternals (extInstZeroModule.take 31) 8)
        = .error (.UnresolvedReference 0) ∧
      decode sampleExternals 10 0 extInstZeroModule = .fault (.UnresolvedReference 0) ∧
      decode sampleExternals 10 0 extInstLargeModule = .fault (.IdOutOfRange 100) :=
  ⟨⟨rfl, rfl, rfl, rfl, rfl, rfl⟩,
    (C35_ext_inst_number_resolved sampleExternals extInstZeroModule 31
      (stateAfter sampleExternals (extInstZeroModule.take 31) 8) 4 3 1 0 0
      rfl (by decide) rfl rfl rfl rfl rfl).1 rfl,
    rfl, rfl⟩

theorem decodeInstruction_typeArray (X : Externals) (spirv : List Nat) (it : Nat)
    (s s1 : DecodeState) (hop : X.opOf (OpCode spirv it) = .OpTypeArray)
    (h : decodeInstruction X spirv it s = .ok s1) :
    ∃ op t, s1.module.operations.getLast? = some op ∧ op.type = some t ∧
      spirv[it + 3]? = some t.arraySize := by
  have hk : pass1Case (X.opOf (OpCode spirv it)) = .OpTypeArray := by rw [hop]; rfl
  unfold decodeInstruction at h
  generalize pass1Case (X.opOf (OpCode spirv it)) = k at h hk
  subst hk
  dsimp only at h
  obtain ⟨baseId, _, h⟩ := bind_ok_elim h
  obtain ⟨base, _, h⟩ := bind_ok_elim h
  obtain ⟨size, hsize, h⟩ := bind_ok_elim h
  obtain ⟨id, _, h⟩ := bind_ok_elim h
  obtain ⟨m1, _, h⟩ := bind_ok_elim h
  cases h
  exact ⟨_, _, List.getLast?_concat _, rfl, word_ok_getElem? hsize⟩

/-- Claim C36 fails in the code. In `typeNamesModule` the length operand of the `TypeArray`
is the ID 3, which names the constant with the value 5. The name-collection pass looks the
value up and names the type `float4[5]`, but the structural pass stores the operand word
itself in `arraySize`: the recorded length is 3, the ID of the constant, not 5. For every
`TypeArray` the recorded length is word 3 of the instruction. -/
theorem C36_array_size_is_operand_id :
    (∃ m inst t, decode sampleExternals 8 0 typeNamesModule = .done m ∧
        m.operations[4]? = some inst ∧ sampleExternals.opOf inst.opcode = .OpTypeArray ∧
        inst.id = 5 ∧ inst.type = some t ∧ typeNamesModule[20 + 3]? = some 3 ∧
        t.arraySize = 3 ∧
        (namesAfter sampleExternals typeNamesModule 8 8).values[3]? = some 5 ∧
        (namesAfter sampleExternals typeNamesModule 8 8).resultnames[5]?
          = some "float4[5]") ∧
      ∀ (X : Externals) (spirv : List Nat) (it : Nat) (s s1 : DecodeState),
        X.opOf (OpCode spirv it) = .OpTypeArray → decodeInstruction X spirv it s = .ok s1 →
        ∃ op t, s1.module.operations.getLast? = some op ∧ op.type = some t ∧
          spirv[it + 3]? = some t.arraySize :=
  ⟨⟨_, _, _, rfl, rfl, rfl, rfl, rfl, rfl, rfl, rfl, rfl⟩,
    fun X spirv it s s1 hop h => decodeInstruction_typeArray X spirv it s s1 hop h⟩

/-- The loop that joins literals yields the literals of the children joined with `", "`,
each the literal of the child's entry in `values`. -/
theorem joinLiterals_eq (X : Externals) (values : List Nat) (T : BaseType)
    (spirv : List Nat) (it wc : Nat) (hT : T ≠ .eSPIRVTypeVoid) :
    ∀ n i, i + n = wc → it + wc ≤ spirv.length →
      (∀ c ∈ operandIds spirv (it + i) n, c < values.length) →
      joinLiterals X values T spirv it wc n i
        = .ok (commaJoin ((operandIds spirv (it + i) n).map
            (fun c => literalString X T (values[c]?.getD 0)))) := by
  intro n
  induction n with
  | zero => intro i _ _ _; simp [joinLiterals, operandIds, commaJoin]
  | succ n ih =>
    intro i hi hlen hall
    have hlt : it + i < spirv.length := by omega
    rw [operandIds_succ _ _ _ hlt] at hall ⊢
    have hp : spirv[it + i] < values.length := hall _ (List.mem_cons_self _ _)
    have hw : word spirv (it + i) = .ok spirv[it + i] :=
      word_of_getElem? (List.getElem?_eq_getElem hlt)
    have hg : getAt values spirv[it + i] = .ok (values[spirv[it + i]]?.getD 0) := by
      apply getAt_eq
      rw [List.getElem?_eq_getElem hp]
      rfl
    have hrest := ih (i + 1) (by omega) hlen
      (fun p hp => hall p (List.mem_cons_of_mem _ (by rw [Nat.add_assoc]; exact hp)))
    rw [← Nat.add_assoc] at hrest
    simp only [joinLiterals, hw, hg, hrest, hT, if_false, bind, Except.bind, pure, Except.pure,
      List.map_cons]
    cases n with
    | zero =>
      have : ¬ i + 1 < wc := by omega
      simp [this, operandIds, commaJoin]
    | succ n =>
      have : i + 1 < wc := by omega
      have hlt1 : it + i + 1 < spirv.length := by omega
      rw [operandIds_succ _ _ _ hlt1]
      simp [this, commaJoin]

/-- Claim C37. The name-collection pass names a `ConstantComposite` whose type has a scalar
base type `<typeName>(<l1>, <l2>, ...)`: one literal for each child, in operand order,
joined with `", "`; the literal of a child is that of its entry in `values`, the value word
of the `Constant` that defines it, formatted for the base type recorded for the type ID
by the function that formats the literal of a scalar `Constant`. A vector or array
type has the base type of its element type. -/
theorem C37_composite_literals (X : Externals) (spirv : List Nat) (it : Nat)
    (ns : NameState) (typeId id : Nat) (typeName : String) (T : BaseType)
    (hop : X.opOf (OpCode spirv it) = .OpConstantComposite)
    (h1 : spirv[it + 1]? = some typeId) (h2 : spirv[it + 2]? = some id)
    (hwc : 3 ≤ WordCount spirv it) (hlen : it + WordCount spirv it ≤ spirv.length)
    (hT : ns.typeinfo[typeId]? = some T) (hscalar : T ≠ .eSPIRVTypeVoid)
    (hname : ns.resultnames[typeId]? = some typeName)
    (hall : ∀ c ∈ operandIds spirv (it + 3) (WordCount spirv it - 3), c < ns.values.length)
    (hid : id < ns.resultnames.length) :
    collectNames X spirv it ns
        = .ok { ns with
            resultnames := ns.resultnames.set id
              (typeName ++ "(" ++
                commaJoin ((operandIds spirv (it + 3) (WordCount spirv it - 3)).map
                  (fun c => literalString X T (ns.values[c]?.getD 0))) ++ ")") } ∧
      (∀ it1 ns0 typeId1 id1 w typeName1, X.opOf (OpCode spirv it1) = .OpConstant →
        spirv[it1 + 1]? = some typeId1 → spirv[it1 + 2]? = some id1 →
        spirv[it1 + 3]? = some w →
        ns0.typeinfo[typeId1]? = some T → ns0.resultnames[typeId1]? = some typeName1 →
        id1 < ns0.resultnames.length → id1 < ns0.values.length →
        collectNames X spirv it1 ns0
          = .ok { ns0 with
              resultnames := ns0.resultnames.set id1
                (typeName1 ++ "(" ++ literalString X T w ++ ")"),
              values := ns0.values.set id1 w }) ∧
      (∀ it1 ns0 ns1, collectNames X spirv it1 ns0 = .ok ns1 →
        (X.opOf (OpCode spirv it1) = .OpTypeVector ∨
          X.opOf (OpCode spirv it1) = .OpTypeArray) →
        ∃ tid baseId info, spirv[it1 + 1]? = some tid ∧ spirv[it1 + 2]? = some baseId ∧
          ns0.typeinfo[baseId]? = some info ∧ ns1.typeinfo = ns0.typeinfo.set tid info) := by
  refine ⟨?_, ?_, ?_⟩
  · have hk : pass3Case (X.opOf (OpCode spirv it)) = .OpConstantComposite := by
      rw [hop]; rfl
    have hj := joinLiterals_eq X ns.values T spirv it (WordCount spirv it) hscalar
      (WordCount spirv it - 3) 3 (by omega) hlen hall
    unfold collectNames
    generalize pass3Case (X.opOf (OpCode spirv it)) = k at hk
    subst hk
    simp only [word_of_getElem? h1, word_of_getElem? h2, getAt_eq _ _ _ hT, hj,
      getAt_eq _ _ _ hname, setAt_eq _ _ _ hid, bind, Except.bind, pure, Except.pure]
  · intro it1 ns0 typeId1 id1 w typeName1 hc ht hi hw hT1 hn1 hr hv
    exact collectNames_constant X spirv it1 ns0 typeId1 id1 w typeName1 T hc ht hi hw hT1 hn1
      hr hv
  · intro it1 ns0 ns1 h hop1
    have hk : pass3Case (X.opOf (OpCode spirv it1)) = .OpTypeVector ∨
        pass3Case (X.opOf (OpCode spirv it1)) = .OpTypeArray := by
      rcases hop1 with e | e
      · left; rw [e]; rfl
      · right; rw [e]; rfl
    unfold collectNames at h
    generalize pass3Case (X.opOf (OpCode spirv it1)) = k at h hk
    rcases hk with rfl | rfl
    · dsimp only at h
      obtain ⟨baseId, hb, h⟩ := bind_ok_elim h
      obtain ⟨base, _, h⟩ := bind_ok_elim h
      obtain ⟨size, _, h⟩ := bind_ok_elim h
      obtain ⟨tid, ht, h⟩ := bind_ok_elim h
      obtain ⟨names, _, h⟩ := bind_ok_elim h
      obtain ⟨info, hinfo, h⟩ := bind_ok_elim h
      obtain ⟨infos, hset, h⟩ := bind_ok_elim h
      cases h
      exact ⟨tid, baseId, info, word_ok_getElem? ht, word_ok_getElem? hb, getAt_ok hinfo,
        (setAt_ok hset).2⟩
    · dsimp only at h
      obtain ⟨baseId, hb, h⟩ := bind_ok_elim h
      obtain ⟨base, _, h⟩ := bind_ok_elim h
      obtain ⟨lengthId, _, h⟩ := bind_ok_elim h
      obtain ⟨length, _, h⟩ := bind_ok_elim h
      obtain ⟨tid, ht, h⟩ := bind_ok_elim h
      obtain ⟨names, _, h⟩ := bind_ok_elim h
      obtain ⟨info, hinfo, h⟩ := bind_ok_elim h
      obtain ⟨infos, hset, h⟩ := bind_ok_elim h
      cases h
      exact ⟨tid, baseId, info, word_ok_getElem? ht, word_ok_getElem? hb, getAt_ok hinfo,
        (setAt_ok hset).2⟩

theorem C37_witness :
    (sampleExternals.opOf (OpCode vectorConstantModule 21) = .OpConstantComposite ∧
      operandIds vectorConstantModule (21 + 3) (WordCount vectorConstantModule 21 - 3) = [2, 3] ∧
      (namesAfter sampleExternals (vectorConstantModule.take 21) 6 7).typeinfo[4]?
        = some .eSPIRVTypeSInt32 ∧
      (namesAfter sampleExternals (vectorConstantModule.take 21) 6 7).values
        = [0, 0, 1, 0xFFFFFFFF, 0, 0, 0]) ∧
      collectNames sampleExternals vectorConstantModule 21
          (namesAfter sampleExternals (vectorConstantModule.take 21) 6 7)
        = .ok { namesAfter sampleExternals (vectorConstantModule.take 21) 6 7 with
            resultnames := ["", "int", "int(1)", "int(-1)", "int2", "int2(1, -1)", ""] } :=
  ⟨⟨rfl, rfl, rfl, rfl⟩,
    ((C37_composite_literals sampleExternals vectorConstantModule 21
      (namesAfter sampleExternals (vectorConstantModule.take 21) 6 7) 4 5 "int2"
      .eSPIRVTypeSInt32 rfl rfl rfl (by decide) (by decide) rfl (by decide) rfl (by decide)
      (by decide)).1).trans rfl⟩

/-- The payloads of every instruction of a decoded module are those that the body of the
structural pass for its opcode creates. -/
theorem decode_payloads (X : Externals) (fuel shadType : Nat) (spirv : List Nat)
    (m : SPVModule) (h : decode X fuel shadType spirv = .done m) :
    ∀ inst ∈ m.operations, payloads inst = payloadsOf (pass1Case (X.opOf inst.opcode)) := by
  obtain ⟨mv, g, b, s1, h1, h2⟩ := decode_elim X fuel shadType spirv m h
  have hP1 : ∀ p ∈ s1.module.operations.map payloadPart,
      p.2 = payloadsOf (pass1Case (X.opOf p.1)) := by
    refine pass1_induct X spirv
      (fun s => ∀ p ∈ s.module.operations.map payloadPart,
        p.2 = payloadsOf (pass1Case (X.opOf p.1))) ?_ fuel 5 _ s1 h1 ?_
    · intro it s s2 hs hP p hp
      rw [decodeInstruction_payloads X spirv it s s2 hs] at hp
      rcases List.mem_append.mp hp with hp | hp
      · exact hP p hp
      · rw [List.mem_singleton.mp hp]
    · intro p hp
      simp [initialState, SPVModule.new] at hp
  have hP2 : ∀ p ∈ m.operations.map payloadPart,
      p.2 = payloadsOf (pass1Case (X.opOf p.1)) := by
    refine pass2_induct X spirv
      (fun m0 => ∀ p ∈ m0.operations.map payloadPart,
        p.2 = payloadsOf (pass1Case (X.opOf p.1))) ?_ fuel 5 _ m h2 hP1
    intro it m0 m1 hs hP p hp
    rw [annotateInstruction_payloads X spirv it m0 m1 hs] at hp
    exact hP p hp
  intro inst hinst
  exact hP2 (payloadPart inst) (List.mem_map_of_mem _ hinst)

/-- Claim C38, amended. Of the opcodes that the structural pass decodes into a payload,
exactly three reach no case of the render pass: `Kill`, `Unreachable` and `ReturnValue`.
An instruction with one of these opcodes has a flow payload in every decoded module, and
the render pass emits it through the fallback, as the line `!<OpcodeName>` followed by
its raw operands. Every other opcode with a payload has a case of its own in the render
pass (for the types and constants the case that emits nothing). -/
theorem C38_payload_opcodes_rendered (X : Externals) :
    (∀ o : Op, true ∈ payloadsOf (pass1Case o) →
      (pass4Case o = .default ↔ o = .OpKill ∨ o = .OpUnreachable ∨ o = .OpReturnValue)) ∧
    (∀ fuel shadType spirv m, decode X fuel shadType spirv = .done m →
      ∀ inst ∈ m.operations,
        (payloads inst).count true = 1 ↔ true ∈ payloadsOf (pass1Case (X.opOf inst.opcode))) ∧
    (∀ fuel shadType spirv m, decode X fuel shadType spirv = .done m →
      ∀ inst ∈ m.operations,
        X.opOf inst.opcode = .OpKill ∨ X.opOf inst.opcode = .OpUnreachable ∨
          X.opOf inst.opcode = .OpReturnValue →
        inst.flow.isSome = true) ∧
    (∀ spirv idbound ns it r,
      X.opOf (OpCode spirv it) = .OpKill ∨ X.opOf (OpCode spirv it) = .OpUnreachable ∨
        X.opOf (OpCode spirv it) = .OpReturnValue →
      it + WordCount spirv it ≤ spirv.length →
      renderInstruction X spirv idbound ns it r
        = .ok { r with
            disasm := r.disasm ++ spaces r.indent ++
              ("!" ++ ToStrOp X (OpCode spirv it) ++
                operandText idbound (operandIds spirv (it + 1) (WordCount spirv it - 1))) ++
              "\n" }) := by
  refine ⟨?_, ?_, ?_, ?_⟩
  · intro o
    cases o <;> decide
  · intro fuel shadType spirv m h inst hinst
    rw [decode_payloads X fuel shadType spirv m h inst hinst]
    generalize pass1Case (X.opOf inst.opcode) = k
    cases k <;> decide
  · intro fuel shadType spirv m h inst hinst hop
    have hp := decode_payloads X fuel shadType spirv m h inst hinst
    have hk : payloadsOf (pass1Case (X.opOf inst.opcode))
        = [false, false, false, true, false, false, false, false, false] := by
      rcases hop with e | e | e <;> rw [e] <;> rfl
    rw [hk] at hp
    simp only [payloads, List.cons.injEq] at hp
    exact hp.2.2.2.1
  · intro spirv idbound ns it r hop hlen
    have hk : pass4Case (X.opOf (OpCode spirv it)) = .default := by
      rcases hop with e | e | e <;> rw [e] <;> rfl
    exact renderInstruction_default X spirv idbound ns it r hk hlen

theorem C38_witness :
    (true ∈ payloadsOf (pass1Case .OpReturnValue) ∧ pass4Case .OpReturnValue = .default) ∧
      (true ∈ payloadsOf (pass1Case .OpLoad) ∧ pass4Case .OpLoad ≠ .default) ∧
      (sampleExternals.opOf (OpCode terminatorModule 23) = .OpReturnValue ∧
        renderInstruction sampleExternals terminatorModule 8 (NameState.new 8) 23
            (renderStart "" (NameState.new 8))
          = .ok { renderStart "" (NameState.new 8) with disasm := "!ReturnValue 7\n" }) :=
  ⟨⟨by decide, ((C38_payload_opcodes_rendered sampleExternals).1 .OpReturnValue
      (by decide)).mpr (Or.inr (Or.inr rfl))⟩,
    ⟨by decide, fun h => absurd
      (((C38_payload_opcodes_rendered sampleExternals).1 .OpLoad (by decide)).mp h)
      (by decide)⟩,
    rfl,
    ((C38_payload_opcodes_rendered sampleExternals).2.2.2 terminatorModule 8 (NameState.new 8)
      23 (renderStart "" (NameState.new 8)) (Or.inr (Or.inr rfl)) (by decide)).trans rfl⟩

/-- Claim C38 fails as stated. In `terminatorModule` the decoder gives `Kill`,
`Unreachable` and `ReturnValue` a flow payload, and the render pass emits all three
through the fallback: `!Kill`, `!Unreachable`, `!ReturnValue 7`. -/
theorem C38_counterexample :
    ∃ m, DisassembleSPIRV sampleExternals 11 0 terminatorModule ""
        = .finished ("\nvoid \x7b3\x7d(void)  \x7b\n  Label4:\n  !Kill\n  Label5:\n" ++
            "  !Unreachable\n  Label6:\n  !ReturnValue 7\n\x7d // end of \x7b3\x7d\n") m ∧
      m.operations.map (fun inst => (sampleExternals.opOf inst.opcode, inst.flow.isSome))
        = [(.OpTypeVoid, false), (.OpTypeFunction, false), (.OpFunction, false),
           (.OpLabel, false), (.OpKill, true), (.OpLabel, false), (.OpUnreachable, true),
           (.OpLabel, false), (.OpReturnValue, true), (.OpFunctionEnd, false)] ∧
      pass4Case .OpKill = .default ∧ pass4Case .OpUnreachable = .default ∧
      pass4Case .OpReturnValue = .default :=
  ⟨_, rfl, rfl, rfl, rfl, rfl⟩

theorem bracket_ne_empty (s : String) : "[" ++ s ++ "]" ≠ "" := by
  intro h
  have := congrArg String.length h
  simp only [String.length_append] at this
  have h1 : "[".length = 1 := rfl
  have h2 : "".length = 0 := rfl
  omega

/-- Claim C39. The display string of a function-control, selection-control, loop-control
or memory-access mask is the names of its set known bits, in the order of declaration,
joined with `", "` (empty when no known bit is set); `OptionalFlagString` of a mask is
empty if and only if the mask is zero, and otherwise the display string between `[` and
`]`. -/
theorem C39_mask_strings (X : Externals) (m : Nat) :
    ToStrFunctionControlMask X m = commaJoin (setBitNames m (functionControlBits X)) ∧
    ToStrSelectionControlMask X m = commaJoin (setBitNames m (selectionControlBits X)) ∧
    ToStrLoopControlMask X m = commaJoin (setBitNames m (loopControlBits X)) ∧
    ToStrMemoryAccessMask X m = commaJoin (setBitNames m (memoryAccessBits X)) ∧
    (∀ toStr : Nat → String,
      (OptionalFlagString toStr m = "" ↔ m = 0) ∧
      (m ≠ 0 → OptionalFlagString toStr m = "[" ++ toStr m ++ "]")) := by
  refine ⟨?_, ?_, ?_, ?_, ?_⟩
  · unfold ToStrFunctionControlMask setBitNames functionControlBits
    by_cases h1 : m &&& X.FunctionControlInlineMask = 0 <;>
      by_cases h2 : m &&& X.FunctionControlDontInlineMask = 0 <;>
      by_cases h3 : m &&& X.FunctionControlPureMask = 0 <;>
      by_cases h4 : m &&& X.FunctionControlConstMask = 0 <;>
      simp only [h1, h2, h3, h4, List.filter, ne_eq, not_true_eq_false, not_false_eq_true,
        decide_True, decide_False, if_true, if_false, List.map, commaJoin] <;>
      decide
  · unfold ToStrSelectionControlMask setBitNames selectionControlBits
    by_cases h1 : m &&& X.SelectionControlFlattenMask = 0 <;>
      by_cases h2 : m &&& X.SelectionControlDontFlattenMask = 0 <;>
      simp only [h1, h2, List.filter, ne_eq, not_true_eq_false, not_false_eq_true,
        decide_True, decide_False, if_true, if_false, List.map, commaJoin] <;>
      decide
  · unfold ToStrLoopControlMask setBitNames loopControlBits
    by_cases h1 : m &&& X.LoopControlUnrollMask = 0 <;>
      by_cases h2 : m &&& X.LoopControlDontUnrollMask = 0 <;>
      simp only [h1, h2, List.filter, ne_eq, not_true_eq_false, not_false_eq_true,
        decide_True, decide_False, if_true, if_false, List.map, commaJoin] <;>
      decide
  · unfold ToStrMemoryAccessMask setBitNames memoryAccessBits
    by_cases h1 : m &&& X.MemoryAccessVolatileMask = 0 <;>
      by_cases h2 : m &&& X.MemoryAccessAlignedMask = 0 <;>
      simp only [h1, h2, List.filter, ne_eq, not_true_eq_false, not_false_eq_true,
        decide_True, decide_False, if_true, if_false, List.map, commaJoin] <;>
      decide
  · intro toStr
    unfold OptionalFlagString
    by_cases h : m = 0
    · simp [h]
    · simp only [ne_eq, h, not_false_eq_true, if_true, iff_false, true_implies, and_true]
      exact bracket_ne_empty _

theorem C39_witness :
    ToStrFunctionControlMask sampleExternals 13 = "Inline, Pure, Const" ∧
      ToStrMemoryAccessMask sampleExternals 3 = "Volatile, Aligned" ∧
      ToStrLoopControlMask sampleExternals 16 = "" ∧
      OptionalFlagString (ToStrLoopControlMask sampleExternals) 16 = "[]" ∧
      OptionalFlagString (ToStrSelectionControlMask sampleExternals) 2 = "[DontFlatten]" :=
  ⟨(C39_mask_strings sampleExternals 13).1.trans rfl,
    (C39_mask_strings sampleExternals 3).2.2.2.1.trans rfl,
    (C39_mask_strings sampleExternals 16).2.2.1.trans rfl,
    (((C39_mask_strings sampleExternals 16).2.2.2.2
      (ToStrLoopControlMask sampleExternals)).2 (by decide)).trans rfl,
    (((C39_mask_strings sampleExternals 2).2.2.2.2
      (ToStrSelectionControlMask sampleExternals)).2 (by decide)).trans rfl⟩

theorem scanAt_append {σ : Type} (step : Nat → σ → Except Fault σ) (a b : List Nat) :
    ∀ s, scanAt step (a ++ b) s
      = match scanAt step a s with
        | .error e => .error e
        | .ok s1 => scanAt step b s1 := by
  induction a with
  | nil => intro s; rfl
  | cons it a ih =>
    intro s
    simp only [List.cons_append, scanAt]
    cases step it s with
    | error e => rfl
    | ok s1 => exact ih s1

theorem scanAt_snoc {σ : Type} (step : Nat → σ → Except Fault σ) (pre : List Nat) (it : Nat)
    (s s1 : σ) (h : scanAt step (pre ++ [it]) s = .ok s1) :
    ∃ s0, scanAt step pre s = .ok s0 ∧ step it s0 = .ok s1 := by
  rw [scanAt_append] at h
  cases hp : scanAt step pre s with
  | error e => rw [hp] at h; cases h
  | ok s0 =>
    rw [hp] at h
    refine ⟨s0, rfl, ?_⟩
    simp only [scanAt] at h
    cases hs : step it s0 with
    | error e => rw [hs] at h; cases h
    | ok s2 => rw [hs] at h; exact h

/-- A scan that stops on a fault has applied its body with success at a prefix of the
header offsets, and the body fails at the next offset. -/
theorem scan_fault {σ : Type} (step : Nat → σ → Except Fault σ) (spirv : List Nat) :
    ∀ fuel it s f, scan step spirv fuel it s = .fault f →
      ∃ pre it1 suf r, instructionOffsets spirv fuel it = pre ++ it1 :: suf ∧
        scanAt step pre s = .ok r ∧ step it1 r = .error f := by
  intro fuel
  induction fuel with
  | zero =>
    intro it s f h
    unfold scan at h
    split at h <;> cases h
  | succ fuel ih =>
    intro it s f h
    unfold scan at h
    split at h
    · rename_i hlt
      cases hs : step it s with
      | error e =>
        rw [hs] at h
        cases h
        exact ⟨[], it, instructionOffsets spirv fuel (it + WordCount spirv it), s,
          by simp [instructionOffsets, hlt], rfl, hs⟩
      | ok s1 =>
        rw [hs] at h
        obtain ⟨pre, it1, suf, r, ho, hp, hf⟩ := ih _ _ _ h
        refine ⟨it :: pre, it1, suf, r, ?_, ?_, hf⟩
        · simp [instructionOffsets, hlt, ho]
        · simp only [scanAt, hs]
          exact hp
    · cases h

theorem noUnderflow_pure {α : Type} (a : α) : NoUnderflow (pure a : Except Fault α) := by
  intro h; cases h

theorem noUnderflow_ok {α : Type} (a : α) : NoUnderflow (.ok a : Except Fault α) := by
  intro h; cases h

theorem noUnderflow_error {α : Type} (e : Fault) (he : e ≠ .IndentUnderflow) :
    NoUnderflow (.error e : Except Fault α) := by
  intro h; cases h; exact he rfl

theorem noUnderflow_bind {α β : Type} {x : Except Fault α} {f : α → Except Fault β}
    (hx : NoUnderflow x) (hf : ∀ a, x = .ok a → NoUnderflow (f a)) :
    NoUnderflow (x >>= f) := by
  intro h
  cases x with
  | error e =>
    simp only [Bind.bind, Except.bind] at h
    cases h
    exact hx rfl
  | ok a => exact hf a rfl h

theorem noUnderflow_word (spirv : List Nat) (i : Nat) : NoUnderflow (word spirv i) := by
  unfold word
  split
  · exact noUnderflow_ok _
  · exact noUnderflow_error _ (by intro h; cases h)

theorem noUnderflow_getAt {α : Type} (table : List α) (i : Nat) :
    NoUnderflow (getAt table i) := by
  unfold getAt
  split
  · exact noUnderflow_ok _
  · exact noUnderflow_error _ (by intro h; cases h)

theorem noUnderflow_setAt {α : Type} (table : List α) (i : Nat) (a : α) :
    NoUnderflow (setAt table i a) := by
  unfold setAt
  split
  · exact noUnderflow_ok _
  · exact noUnderflow_error _ (by intro h; cases h)

theorem noUnderflow_cString (spirv : List Nat) (off : Nat) :
    NoUnderflow (cString spirv off) := by
  unfold cString
  split
  · exact noUnderflow_ok _
  · exact noUnderflow_error _ (by intro h; cases h)

theorem noUnderflow_deref (p : Option Nat) : NoUnderflow (deref p) := by
  unfold deref
  split
  · exact noUnderflow_ok _
  · exact noUnderflow_error _ (by intro h; cases h)

theorem noUnderflow_RDCBREAK {α : Type} (opcode : Nat) :
    NoUnderflow (RDCBREAK opcode : Except Fault α) := by
  intro h; cases h

theorem noUnderflow_extInstName (X : Externals) (extset instruction : Nat) :
    ∀ sets name, NoUnderflow (extInstName X extset instruction sets name) := by
  intro sets
  induction sets with
  | nil => intro name; exact noUnderflow_ok _
  | cons e rest ih =>
    intro name
    unfold extInstName
    split
    · split
      · exact ih _
      · exact noUnderflow_error _ (by intro h; cases h)
    · exact ih _

theorem noUnderflow_joinNames (resultnames : List String) (spirv : List Nat) (it wc : Nat) :
    ∀ n i, NoUnderflow (joinNames resultnames spirv it wc n i) := by
  intro n
  induction n with
  | zero => intro i; exact noUnderflow_ok _
  | succ n ih =>
    intro i
    unfold joinNames
    refine noUnderflow_bind (noUnderflow_word _ _) (fun _ _ => ?_)
    refine noUnderflow_bind (noUnderflow_getAt _ _) (fun _ _ => ?_)
    refine noUnderflow_bind (ih _) (fun _ _ => ?_)
    exact noUnderflow_pure _

theorem noUnderflow_rawOperands (spirv : List Nat) (idbound it wc : Nat) :
    ∀ n i, NoUnderflow (rawOperands spirv idbound it wc n i) := by
  intro n
  induction n with
  | zero => intro i; exact noUnderflow_ok _
  | succ n ih =>
    intro i
    unfold rawOperands
    refine noUnderflow_bind (noUnderflow_word _ _) (fun _ _ => ?_)
    refine noUnderflow_bind (ih _) (fun _ _ => ?_)
    exact noUnderflow_pure _

theorem noUnderflow_memoryAccess (spirv : List Nat) (it wc opcode : Nat) :
    ∀ n i access, NoUnderflow (memoryAccess spirv it wc opcode n i access) := by
  intro n
  induction n with
  | zero => intro i access; exact noUnderflow_ok _
  | succ n ih =>
    intro i access
    unfold memoryAccess
    split
    · exact noUnderflow_bind (noUnderflow_word _ _) (fun _ _ => ih _ _)
    · exact noUnderflow_bind (noUnderflow_word _ _) (fun _ _ => noUnderflow_RDCBREAK _)

theorem noUnderflow_accessChainSuffix (ns : NameState) (resultnames : List String)
    (spirv : List Nat) (it : Nat) :
    ∀ n i, NoUnderflow (accessChainSuffix ns resultnames spirv it n i) := by
  intro n
  induction n with
  | zero => intro i; exact noUnderflow_ok _
  | succ n ih =>
    intro i
    unfold accessChainSuffix
    dsimp only
    repeat' first
      | (with_reducible refine noUnderflow_bind ?_ (fun _ _ => ?_))
      | (with_reducible exact noUnderflow_pure _)
      | (with_reducible exact noUnderflow_word _ _)
      | (with_reducible exact noUnderflow_getAt _ _)
      | (with_reducible exact noUnderflow_deref _)
      | (with_reducible exact noUnderflow_cString _ _)
      | (with_reducible exact ih _)
      | split

/-- One step of the render pass does not underflow the indentation when the indentation
is at least two spaces at a `FunctionEnd` and at a `Label` that is on top of `flowstack`. -/
theorem renderInstruction_noUnderflow (X : Externals) (spirv : List Nat) (idbound : Nat)
    (ns : NameState) (it : Nat) (r : RenderState)
    (hend : pass4Case (X.opOf (OpCode spirv it)) = .OpFunctionEnd → 2 ≤ r.indent)
    (hlab : pass4Case (X.opOf (OpCode spirv it)) = .OpLabel →
      ∀ L, spirv[it + 1]? = some L → r.flowstack.getLast? = some L → 2 ≤ r.indent) :
    NoUnderflow (renderInstruction X spirv idbound ns it r) := by
  unfold renderInstruction
  generalize pass4Case (X.opOf (OpCode spirv it)) = k at hend hlab
  cases k
  case OpFunctionEnd =>
    dsimp only
    refine noUnderflow_bind ?_ (fun _ _ => noUnderflow_pure _)
    unfold RenderState.unindent
    rw [if_pos (hend rfl)]
    exact noUnderflow_ok _
  case OpLabel =>
    dsimp only
    refine noUnderflow_bind (noUnderflow_word _ _) (fun id hid => ?_)
    refine noUnderflow_bind (noUnderflow_getAt _ _) (fun _ _ => ?_)
    split
    · rename_i hm
      refine noUnderflow_bind ?_ (fun _ _ => noUnderflow_pure _)
      unfold RenderState.unindent
      rw [if_pos (hlab rfl id (word_ok_getElem? hid) hm)]
      exact noUnderflow_ok _
    · exact noUnderflow_bind (noUnderflow_pure _) (fun _ _ => noUnderflow_pure _)
  all_goals
    dsimp only
    repeat' first
      | (with_reducible refine noUnderflow_bind ?_ (fun _ _ => ?_))
      | (with_reducible exact noUnderflow_pure _)
      | (with_reducible exact noUnderflow_word _ _)
      | (with_reducible exact noUnderflow_cString _ _)
      | (with_reducible exact noUnderflow_getAt _ _)
      | (with_reducible exact noUnderflow_setAt _ _ _)
      | (with_reducible exact noUnderflow_extInstName _ _ _ _ _)
      | (with_reducible exact noUnderflow_joinNames _ _ _ _ _ _)
      | (with_reducible exact noUnderflow_rawOperands _ _ _ _ _ _)
      | (with_reducible exact noUnderflow_accessChainSuffix _ _ _ _ _ _)
      | (with_reducible exact noUnderflow_memoryAccess _ _ _ _ _ _ _)
      | split

/-- The five cases of the render pass that change the indentation or `flowstack` are
reached by one opcode each. -/
theorem pass4Case_structural (o : Op) :
    (pass4Case o = .OpFunction ↔ o = .OpFunction) ∧
    (pass4Case o = .OpFunctionEnd ↔ o = .OpFunctionEnd) ∧
    (pass4Case o = .OpSelectionMerge ↔ o = .OpSelectionMerge) ∧
    (pass4Case o = .OpLoopMerge ↔ o = .OpLoopMerge) ∧
    (pass4Case o = .OpLabel ↔ o = .OpLabel) := by
  cases o <;> decide

/-- What one step of the render pass does to the indentation and to `flowstack`. -/
theorem renderInstruction_indent (X : Externals) (spirv : List Nat) (idbound : Nat)
    (ns : NameState) (it : Nat) (r r1 : RenderState)
    (h : renderInstruction X spirv idbound ns it r = .ok r1) :
    match pass4Case (X.opOf (OpCode spirv it)) with
    | .OpFunction => r1.indent = r.indent + 2 ∧ r1.flowstack = r.flowstack
    | .OpFunctionEnd => r1.indent + 2 = r.indent ∧ r1.flowstack = r.flowstack
    | .OpSelectionMerge => ∃ L, spirv[it + 1]? = some L ∧
        r1.flowstack = r.flowstack ++ [L] ∧ r1.indent = r.indent + 2
    | .OpLoopMerge => ∃ L, spirv[it + 1]? = some L ∧
        r1.flowstack = r.flowstack ++ [L] ∧ r1.indent = r.indent + 2
    | .OpLabel => ∃ L, spirv[it + 1]? = some L ∧ r1.flowstack = r.flowstack ∧
        ((r.flowstack.getLast? = some L ∧ r1.indent + 2 = r.indent) ∨
          (r.flowstack.getLast? ≠ some L ∧ r1.indent = r.indent))
    | _ => r1.indent = r.indent ∧ r1.flowstack = r.flowstack := by
  unfold renderInstruction at h
  generalize pass4Case (X.opOf (OpCode spirv it)) = k at h
  cases k
  case OpFunctionEnd =>
    dsimp only at h ⊢
    obtain ⟨w, hw, h⟩ := bind_ok_elim h
    obtain ⟨h2, rfl⟩ := unindent_ok hw
    cases h
    exact ⟨Nat.sub_add_cancel h2, rfl⟩
  case OpLabel =>
    dsimp only at h ⊢
    obtain ⟨L, hL, h⟩ := bind_ok_elim h
    obtain ⟨name, _, h⟩ := bind_ok_elim h
    refine ⟨L, word_ok_getElem? hL, ?_⟩
    split at h
    · rename_i hm
      obtain ⟨w, hw, h⟩ := bind_ok_elim h
      obtain ⟨h2, rfl⟩ := unindent_ok hw
      cases h
      exact ⟨rfl, Or.inl ⟨hm, Nat.sub_add_cancel h2⟩⟩
    · rename_i hm
      obtain ⟨w, hw, h⟩ := bind_ok_elim h
      obtain rfl := pure_ok_elim hw
      cases h
      exact ⟨rfl, Or.inr ⟨hm, rfl⟩⟩
  case OpSelectionMerge =>
    dsimp only at h ⊢
    obtain ⟨L, hL, h⟩ := bind_ok_elim h
    obtain ⟨_, _, h⟩ := bind_ok_elim h
    obtain ⟨_, _, h⟩ := bind_ok_elim h
    cases h
    exact ⟨L, word_ok_getElem? hL, rfl, rfl⟩
  case OpLoopMerge =>
    dsimp only at h ⊢
    obtain ⟨L, hL, h⟩ := bind_ok_elim h
    obtain ⟨_, _, h⟩ := bind_ok_elim h
    obtain ⟨_, _, h⟩ := bind_ok_elim h
    cases h
    exact ⟨L, word_ok_getElem? hL, rfl, rfl⟩
  case OpVariable =>
    obtain ⟨d, names, sets, ind, fn, fs, seen⟩ := r
    cases seen <;> dsimp only at h ⊢ <;>
      (try simp only [Bool.false_eq_true, if_false, if_true] at h) <;>
      (repeat' (first | (obtain ⟨_, hh, h⟩ := bind_ok_elim h) | split at h)) <;>
      (cases h; exact ⟨rfl, rfl⟩)
  all_goals
    dsimp only at h ⊢
    repeat' (first | (obtain ⟨_, hh, h⟩ := bind_ok_elim h) | split at h)
    all_goals (cases h; exact ⟨rfl, rfl⟩)

theorem functionCount_snoc (X : Externals) (spirv : List Nat) (pre : List Nat) (it : Nat) :
    functionCount X spirv (pre ++ [it])
      = functionCount X spirv pre +
        (if X.opOf (OpCode spirv it) = .OpFunction then 1 else 0) := by
  simp [functionCount, List.countP_append, List.countP_cons]

theorem functionEndCount_snoc (X : Externals) (spirv : List Nat) (pre : List Nat) (it : Nat) :
    functionEndCount X spirv (pre ++ [it])
      = functionEndCount X spirv pre +
        (if X.opOf (OpCode spirv it) = .OpFunctionEnd then 1 else 0) := by
  simp [functionEndCount, List.countP_append, List.countP_cons]

theorem mergeTargets_snoc (X : Externals) (spirv : List Nat) (pre : List Nat) (it : Nat) :
    mergeTargets X spirv (pre ++ [it])
      = mergeTargets X spirv pre ++
        (if X.opOf (OpCode spirv it) = .OpSelectionMerge ∨
            X.opOf (OpCode spirv it) = .OpLoopMerge
          then spirv[it + 1]? else none).toList := by
  unfold mergeTargets
  rw [List.filterMap_append]
  congr 1

theorem labelIds_snoc (X : Externals) (spirv : List Nat) (pre : List Nat) (it : Nat) :
    labelIds X spirv (pre ++ [it])
      = labelIds X spirv pre ++
        (if X.opOf (OpCode spirv it) = .OpLabel then spirv[it + 1]? else none).toList := by
  unfold labelIds
  rw [List.filterMap_append]
  congr 1

/-- One step of the render pass keeps the invariant of the indentation. -/
theorem indentInv_step (X : Externals) (spirv : List Nat) (idbound : Nat) (ns : NameState)
    (pre : List Nat) (it : Nat) (r r1 : RenderState) (hinv : IndentInv X spirv pre r)
    (h : renderInstruction X spirv idbound ns it r = .ok r1) :
    IndentInv X spirv (pre ++ [it]) r1 := by
  obtain ⟨seen, hsub, hmem, hflow, heq⟩ := hinv
  have hstep := renderInstruction_indent X spirv idbound ns it r r1 h
  obtain ⟨hF, hE, hS, hLo, hLa⟩ := pass4Case_structural (X.opOf (OpCode spirv it))
  unfold IndentInv
  rw [functionCount_snoc, functionEndCount_snoc, mergeTargets_snoc, labelIds_snoc]
  simp only [← hF, ← hE, ← hS, ← hLo, ← hLa]
  generalize pass4Case (X.opOf (OpCode spirv it)) = k at hstep ⊢
  cases k <;> dsimp only at hstep <;>
    simp only [reduceCtorEq, if_false, if_true, or_false, false_or, or_self, or_true, true_or,
      Option.toList, List.append_nil, Nat.add_zero]
  case OpFunction =>
    obtain ⟨hi, hf⟩ := hstep
    exact ⟨seen, hsub, by rw [hf]; exact hmem, by rw [hf]; exact hflow, by rw [hi, hf]; omega⟩
  case OpFunctionEnd =>
    obtain ⟨hi, hf⟩ := hstep
    exact ⟨seen, hsub, by rw [hf]; exact hmem, by rw [hf]; exact hflow, by rw [hf]; omega⟩
  case OpSelectionMerge =>
    obtain ⟨L, hL, hf, hi⟩ := hstep
    refine ⟨seen, hsub, ?_, ?_, ?_⟩
    · intro a ha
      rw [hf]
      exact List.mem_append_left _ (hmem a ha)
    · rw [hf, hflow, hL]
    · rw [hf, hi, List.length_append, List.length_singleton]
      omega
  case OpLoopMerge =>
    obtain ⟨L, hL, hf, hi⟩ := hstep
    refine ⟨seen, hsub, ?_, ?_, ?_⟩
    · intro a ha
      rw [hf]
      exact List.mem_append_left _ (hmem a ha)
    · rw [hf, hflow, hL]
    · rw [hf, hi, List.length_append, List.length_singleton]
      omega
  case OpLabel =>
    obtain ⟨L, hL, hf, hcase⟩ := hstep
    rw [hL]
    rcases hcase with ⟨hm, hi⟩ | ⟨_, hi⟩
    · refine ⟨seen ++ [L], List.Sublist.append hsub (List.Sublist.refl _), ?_, ?_, ?_⟩
      · intro a ha
        rw [hf]
        rcases List.mem_append.mp ha with ha | ha
        · exact hmem a ha
        · rw [List.mem_singleton.mp ha]
          exact List.mem_of_getLast?_eq_some hm
      · rw [hf]; exact hflow
      · rw [hf, List.length_append, List.length_singleton]
        omega
    · refine ⟨seen, ?_, ?_, ?_, ?_⟩
      · exact hsub.trans (List.sublist_append_left _ _)
      · rw [hf]; exact hmem
      · rw [hf]; exact hflow
      · rw [hf, hi]; exact heq
  all_goals
    obtain ⟨hi, hf⟩ := hstep
    exact ⟨seen, hsub, by rw [hf]; exact hmem, by rw [hf]; exact hflow, by rw [hi, hf]; exact heq⟩

/-- The state of the render pass after any prefix of the instructions satisfies the
invariant of the indentation. -/
theorem scanAt_indentInv (X : Externals) (spirv : List Nat) (idbound : Nat) (ns : NameState)
    (disasm : String) (pre : List Nat) :
    ∀ r, scanAt (renderInstruction X spirv idbound ns) pre (renderStart disasm ns) = .ok r →
      IndentInv X spirv pre r := by
  induction pre using List.reverseRecOn with
  | nil =>
    intro r h
    cases h
    exact ⟨[], List.Sublist.refl _, (by intro L hL; cases hL), rfl, rfl⟩
  | append_singleton pre it ih =>
    intro r h
    obtain ⟨r0, h0, hs⟩ := scanAt_snoc _ pre it _ r h
    exact indentInv_step X spirv idbound ns pre it r0 r (ih r0 h0) hs

/-- In a state that satisfies the invariant the indentation is a multiple of two and
holds two spaces for each `Function` not yet closed, and two more before a `Label` that
is on top of `flowstack`, when each merge label names one `Label` at most. -/
theorem indentInv_bound (X : Externals) (spirv : List Nat) (offs pre : List Nat)
    (r : RenderState) (hpre : pre <+: offs)
    (hlab : ∀ L ∈ mergeTargets X spirv offs, (labelIds X spirv offs).count L ≤ 1)
    (hinv : IndentInv X spirv pre r) :
    2 ∣ r.indent ∧
    2 * functionCount X spirv pre ≤ r.indent + 2 * functionEndCount X spirv pre ∧
    (∀ it L, (pre ++ [it]) <+: offs → X.opOf (OpCode spirv it) = .OpLabel →
      spirv[it + 1]? = some L → r.flowstack.getLast? = some L →
      2 * functionCount X spirv pre + 2 ≤ r.indent + 2 * functionEndCount X spirv pre) := by
  obtain ⟨seen, hsub, hmem, hflow, heq⟩ := hinv
  have hmt : ∀ L ∈ r.flowstack, L ∈ mergeTargets X spirv offs := by
    intro L hL
    rw [hflow] at hL
    exact (List.IsPrefix.filterMap _ hpre).subset hL
  have hcount : ∀ (l : List Nat), l.Sublist (labelIds X spirv offs) →
      (∀ L ∈ l, L ∈ r.flowstack) → l.length ≤ r.flowstack.length := by
    intro l hl hin
    have hnd : l.Nodup := by
      rw [List.nodup_iff_count_le_one]
      intro a
      by_cases ha : a ∈ l
      · exact (hl.count_le a).trans (hlab a (hmt a (hin a ha)))
      · rw [List.count_eq_zero_of_not_mem ha]
        exact Nat.zero_le _
    exact (List.subperm_of_subset hnd (fun a ha => hin a ha)).length_le
  have h1 := hcount seen (hsub.trans (List.IsPrefix.filterMap _ hpre).sublist) hmem
  refine ⟨by omega, by omega, ?_⟩
  intro it L hpre1 hop hL hm
  have hsub1 : (seen ++ [L]).Sublist (labelIds X spirv offs) := by
    have h2 : (seen ++ [L]).Sublist (labelIds X spirv (pre ++ [it])) := by
      rw [labelIds_snoc, if_pos hop, hL]
      exact List.Sublist.append hsub (List.Sublist.refl _)
    exact h2.trans (List.IsPrefix.filterMap _ hpre1).sublist
  have h2 := hcount (seen ++ [L]) hsub1 (by
    intro a ha
    rcases List.mem_append.mp ha with ha | ha
    · exact hmem a ha
    · rw [List.mem_singleton.mp ha]
      exact List.mem_of_getLast?_eq_some hm)
  rw [List.length_append, List.length_singleton] at h2
  omega

/-- Claim C40. Take a module in which no prefix of the instruction stream has more
`FunctionEnd` than `Function` instructions and in which the merge label of every
`SelectionMerge` and `LoopMerge` is the ID of one `Label` instruction at most. Then the
render pass never stops on an underflow of the indentation, and in every state that it
reaches, after any prefix of the instructions, the indentation is a multiple of two; when
the next instruction is a `FunctionEnd`, or a `Label` whose ID is on top of `flowstack`,
the two instructions that decrease the indentation, it is at least two. -/
theorem C40_indent_never_underflows (X : Externals) (spirv : List Nat) (fuel idbound : Nat)
    (ns : NameState) (disasm : String)
    (hfun : ∀ pre ∈ (instructionOffsets spirv fuel 5).inits,
      functionEndCount X spirv pre ≤ functionCount X spirv pre)
    (hlab : ∀ L ∈ mergeTargets X spirv (instructionOffsets spirv fuel 5),
      (labelIds X spirv (instructionOffsets spirv fuel 5)).count L ≤ 1) :
    pass4 X spirv idbound ns fuel 5 (renderStart disasm ns) ≠ .fault .IndentUnderflow ∧
    ∀ pre suf r, instructionOffsets spirv fuel 5 = pre ++ suf →
      scanAt (renderInstruction X spirv idbound ns) pre (renderStart disasm ns) = .ok r →
      2 ∣ r.indent ∧
      ∀ it rest, suf = it :: rest →
        (X.opOf (OpCode spirv it) = .OpFunctionEnd ∨
          (X.opOf (OpCode spirv it) = .OpLabel ∧
            ∃ L, spirv[it + 1]? = some L ∧ r.flowstack.getLast? = some L)) →
        2 ≤ r.indent := by
  have key : ∀ pre it rest r, instructionOffsets spirv fuel 5 = pre ++ it :: rest →
      scanAt (renderInstruction X spirv idbound ns) pre (renderStart disasm ns) = .ok r →
      (X.opOf (OpCode spirv it) = .OpFunctionEnd ∨
        (X.opOf (OpCode spirv it) = .OpLabel ∧
          ∃ L, spirv[it + 1]? = some L ∧ r.flowstack.getLast? = some L)) →
      2 ≤ r.indent := by
    intro pre it rest r hoffs hscan hnext
    have hpre : pre <+: instructionOffsets spirv fuel 5 := ⟨it :: rest, hoffs.symm⟩
    have hpre1 : (pre ++ [it]) <+: instructionOffsets spirv fuel 5 :=
      ⟨rest, by rw [hoffs, List.append_assoc]; rfl⟩
    obtain ⟨_, hge, hlabel⟩ := indentInv_bound X spirv _ pre r hpre hlab
      (scanAt_indentInv X spirv idbound ns disasm pre r hscan)
    rcases hnext with hend | ⟨hop, L, hL, hm⟩
    · have h1 := hfun _ ((List.mem_inits _ _).mpr hpre1)
      rw [functionCount_snoc, functionEndCount_snoc, if_pos hend,
        if_neg (by rw [hend]; decide)] at h1
      omega
    · have h1 := hfun _ ((List.mem_inits _ _).mpr hpre)
      have h2 := hlabel it L hpre1 hop hL hm
      omega
  refine ⟨?_, ?_⟩
  · intro hfault
    rw [pass4_eq_scan] at hfault
    obtain ⟨pre, it, rest, r, hoffs, hscan, hstep⟩ := scan_fault _ spirv fuel 5 _ _ hfault
    obtain ⟨_, hE, _, _, hLa⟩ := pass4Case_structural (X.opOf (OpCode spirv it))
    refine renderInstruction_noUnderflow X spirv idbound ns it r ?_ ?_ hstep
    · intro hk
      exact key pre it rest r hoffs hscan (Or.inl (hE.mp hk))
    · intro hk L hL hm
      exact key pre it rest r hoffs hscan (Or.inr ⟨hLa.mp hk, L, hL, hm⟩)
  · intro pre suf r hoffs hscan
    refine ⟨?_, ?_⟩
    · exact (indentInv_bound X spirv _ pre r ⟨suf, hoffs.symm⟩ hlab
        (scanAt_indentInv X spirv idbound ns disasm pre r hscan)).1
    · intro it rest hsuf hnext
      exact key pre it rest r (by rw [hoffs, hsuf]) hscan hnext

set_option maxRecDepth 100000 in
theorem C40_witness :
    ((∀ pre ∈ (instructionOffsets nestedMergeModule 30 5).inits,
        functionEndCount sampleExternals nestedMergeModule pre
          ≤ functionCount sampleExternals nestedMergeModule pre) ∧
      mergeTargets sampleExternals nestedMergeModule (instructionOffsets nestedMergeModule 30 5)
        = [10, 12] ∧
      labelIds sampleExternals nestedMergeModule (instructionOffsets nestedMergeModule 30 5)
        = [7, 9, 11, 12, 10]) ∧
      (instructionOffsets nestedMergeModule 30 5).inits.map (fun pre =>
          match scanAt (renderInstruction sampleExternals nestedMergeModule 13
              (namesAfter sampleExternals nestedMergeModule 30 13)) pre
              (renderStart "" (namesAfter sampleExternals nestedMergeModule 30 13)) with
          | .ok r => some r.indent
          | .error _ => none)
        = [some 0, some 0, some 0, some 0, some 0, some 0, some 2, some 2, some 2, some 4,
           some 4, some 4, some 6, some 6, some 6, some 6, some 4, some 4, some 4, some 4,
           some 2] ∧
      (pass4 sampleExternals nestedMergeModule 13
          (namesAfter sampleExternals nestedMergeModule 30 13) 30 5
          (renderStart "" (namesAfter sampleExternals nestedMergeModule 30 13))
        ≠ .fault .IndentUnderflow ∧
      ∀ pre suf r, instructionOffsets nestedMergeModule 30 5 = pre ++ suf →
        scanAt (renderInstruction sampleExternals nestedMergeModule 13
            (namesAfter sampleExternals nestedMergeModule 30 13)) pre
          (renderStart "" (namesAfter sampleExternals nestedMergeModule 30 13)) = .ok r →
        2 ∣ r.indent ∧
        ∀ it rest, suf = it :: rest →
          (sampleExternals.opOf (OpCode nestedMergeModule it) = .OpFunctionEnd ∨
            (sampleExternals.opOf (OpCode nestedMergeModule it) = .OpLabel ∧
              ∃ L, nestedMergeModule[it + 1]? = some L ∧ r.flowstack.getLast? = some L)) →
          2 ≤ r.indent) :=
  ⟨⟨by decide, rfl, rfl⟩, rfl,
    C40_indent_never_underflows sampleExternals nestedMergeModule 30 13
      (namesAfter sampleExternals nestedMergeModule 30 13) "" (by decide) (by decide)⟩

theorem C36_witness :
    sampleExternals.opOf (OpCode typeNamesModule 20) = .OpTypeArray ∧
      typeNamesModule[20 + 3]? = some 3 ∧
      ∃ s1 op t,
        decodeInstruction sampleExternals typeNamesModule 20
          (stateAfter sampleExternals (typeNamesModule.take 20) 8) = .ok s1 ∧
        s1.module.operations.getLast? = some op ∧ op.type = some t ∧ t.arraySize = 3 ∧
        ∃ op1 t1, s1.module.operations.getLast? = some op1 ∧ op1.type = some t1 ∧
          typeNamesModule[20 + 3]? = some t1.arraySize :=
  ⟨rfl, rfl, _, _, _, rfl, rfl, rfl, rfl,
    C36_array_size_is_operand_id.2 sampleExternals typeNamesModule 20
      (stateAfter sampleExternals (typeNamesModule.take 20) 8) _ rfl rfl⟩

end Renderdoc
